import Mathlib

/-!
# RepRapFirmware: motion planner, DDA stepping, heater PID and tools

A shallow embedding of `Heat.cpp`, `Tool.cpp`, `Move.h` and `Move.cpp`.

Conventions of the embedding.

* C `float` is modelled by an arbitrary linearly ordered field `K` with a floor
  function (`ℚ` when a definition is evaluated, `ℝ` for statements over the exact
  reals).  Division by zero therefore yields `0`, not an infinity; statements that
  depend on a divisor say that it is non-zero.
* The C library `sqrt` is a parameter (`Platform.sqrt`).
* C `long`/`int` are modelled by `Int`; step coordinates are assumed to stay inside
  the range of `long`, so no wrap-around is modelled.
* C arrays are functions from the index (`Nat`) to the element; a loop over the
  drives is a recursion over the drive index.
* Pointers into the look-ahead ring are indices modulo the ring length.
* Calls into the hardware layer that produce output (`SetHeater`, `Step`,
  `SetDirection`, `SetInterrupt`) are recorded, in order, in a trace of
  `PlatformCall`s.  Diagnostic host messages are not recorded.
* Queries of the environment (`GetTemperature`, `Stopped`, `HaveIncomingData`,
  `GetAxisIsHomed`, `ColdExtrude`) are explicit arguments.
-/

namespace RepRapFirmware

/-! ## Configuration.h -/

/-- ABS_ZERO of Configuration.h: -273.15 Celsius. -/
def ABS_ZERO {K : Type} [LinearOrderedField K] : K := -(27315 / 100)

/-- MAX_BAD_TEMPERATURE_COUNT of Configuration.h. -/
def MAX_BAD_TEMPERATURE_COUNT : Int := 6

/-- BAD_LOW_TEMPERATURE of Configuration.h. -/
def BAD_LOW_TEMPERATURE {K : Type} [LinearOrderedField K] : K := -10

/-- BAD_HIGH_TEMPERATURE of Configuration.h. -/
def BAD_HIGH_TEMPERATURE {K : Type} [LinearOrderedField K] : K := 300

/-- HOT_ENOUGH_TO_EXTRUDE of Configuration.h. -/
def HOT_ENOUGH_TO_EXTRUDE {K : Type} [LinearOrderedField K] : K := 170

/-- TRIANGLE_0 of Configuration.h: slightly less than 0 for point-in-triangle tests. -/
def TRIANGLE_0 {K : Type} [LinearOrderedField K] : K := -(1 / 1000)

/-- NUMBER_OF_PROBE_POINTS of Configuration.h. -/
def NUMBER_OF_PROBE_POINTS : Nat := 5

/-! ## Move.h constants -/

/-- LOOK_AHEAD of Move.h. -/
def LOOK_AHEAD : Int := 20

/-- MovementProfile of Move.h: ordinary trapezoidal movement. -/
def moving : Nat := 0

/-- MovementProfile of Move.h: triangular profile movement. -/
def noFlat : Nat := 1

/-- MovementProfile of Move.h: the initial and/or final velocities must change. -/
def change : Nat := 2

/-- MovementState of Move.h. -/
def unprocessed : Nat := 0

/-- MovementState of Move.h. -/
def vCosineSet : Nat := 1

/-- MovementState of Move.h. -/
def upPass : Nat := 2

/-- MovementState of Move.h. -/
def complete : Nat := 4

/-- MovementState of Move.h. -/
def released : Nat := 8

/-- PointCoordinateSet of Move.h. -/
def xSet : Nat := 1

/-- PointCoordinateSet of Move.h. -/
def ySet : Nat := 2

/-- PointCoordinateSet of Move.h. -/
def zSet : Nat := 4

/-- Axis indices (Platform.h, not among the sources; the usual X, Y, Z order). -/
def X_AXIS : Nat := 0

/-- Axis index of Y. -/
def Y_AXIS : Nat := 1

/-- Axis index of Z. -/
def Z_AXIS : Nat := 2

/-! ## The platform -/

/-- The result of `Platform::Stopped`. -/
inductive EndStopHit where
  | noStop
  | lowHit
  | highHit
deriving DecidableEq, Repr

/-- An output call into the hardware layer. -/
inductive PlatformCall (K : Type) where
  | setHeater (heater : Int) (power : K)
  | step (drive : Nat)
  | setDirection (drive : Nat) (forwards : Bool)
  | setInterrupt (seconds : K)
deriving DecidableEq

/-- The machine-dependent constants and tables the core reads from `Platform`
(declared in Platform.h, which is not among the sources, so they are parameters),
together with the C library square root. -/
structure Platform (K : Type) where
  /-- DRIVES. -/
  DRIVES : Nat
  /-- AXES. -/
  AXES : Nat
  /-- HEATERS. -/
  HEATERS : Nat
  driveStepsPerUnit : Nat → K
  instantDvs : Nat → K
  accelerations : Nat → K
  maxFeedrates : Nat → K
  homeFeedrates : Nat → K
  axisLengths : Nat → K
  slowestDrive : Nat
  zProbeStopHeight : K
  usePID : Int → Bool
  fullPidBand : Int → K
  pidKi : Int → K
  pidKd : Int → K
  pidKp : Int → K
  pidMin : Int → K
  pidMax : Int → K
  dMix : Int → K
  /-- STANDBY_INTERRUPT_RATE. -/
  standbyInterruptRate : K
  /-- The C library square root. -/
  sqrt : K → K

/-- C `roundf`: round to nearest, halfway cases away from zero. -/
def roundf {K : Type} [LinearOrderedField K] [FloorRing K] (x : K) : Int :=
  if 0 ≤ x then ⌊x + 1 / 2⌋ else ⌈x - 1 / 2⌉

/-- C conversion `(long)x` of a float: truncation towards zero. -/
def toLong {K : Type} [LinearOrderedField K] [FloorRing K] (x : K) : Int :=
  if 0 ≤ x then ⌊x⌋ else ⌈x⌉

/-! ## Heat.cpp: the PID of one heater -/

/-- The fields of class `PID`. -/
structure PID (K : Type) where
  heater : Int
  temperature : K
  activeTemperature : K
  standbyTemperature : K
  lastTemperature : K
  temp_iState : K
  temp_dState : K
  badTemperatureCount : Int
  temperatureFault : Bool
  active : Bool

namespace PID

variable {K : Type} [LinearOrderedField K]

/-- Source `PID::Init`; `reading` is what `platform->GetTemperature(heater)` returns. -/
def Init (reading : K) (s : PID K) : PID K × List (PlatformCall K) :=
  ({ s with
      temperature := reading
      activeTemperature := ABS_ZERO
      standbyTemperature := ABS_ZERO
      lastTemperature := reading
      temp_iState := 0
      temp_dState := 0
      badTemperatureCount := 0
      temperatureFault := false
      active := false },
   [PlatformCall.setHeater s.heater 0])

/-- The range check of `PID::Spin` (lines 147-164), after `temperature` has been read. -/
def checkTemperature (s : PID K) : PID K × List (PlatformCall K) :=
  if s.temperature < BAD_LOW_TEMPERATURE ∨ s.temperature > BAD_HIGH_TEMPERATURE then
    let s1 := { s with badTemperatureCount := s.badTemperatureCount + 1 }
    if s1.badTemperatureCount > MAX_BAD_TEMPERATURE_COUNT then
      ({ s1 with temperatureFault := true }, [PlatformCall.setHeater s.heater 0])
    else
      (s1, [])
  else
    ({ s with badTemperatureCount := 0 }, [])

/-- The local `error` of `PID::Spin` (line 166). -/
def error (s : PID K) : K :=
  (if s.active then s.activeTemperature else s.standbyTemperature) - s.temperature

/-- The new `temp_iState` of the PID branch of `PID::Spin` (lines 189-192). -/
def nextIState (p : Platform K) (s : PID K) : K :=
  let i0 := s.temp_iState + error s * p.pidKi s.heater
  if i0 < p.pidMin s.heater then p.pidMin s.heater
  else if i0 > p.pidMax s.heater then p.pidMax s.heater
  else i0

/-- The new `temp_dState` of the PID branch of `PID::Spin` (line 194). -/
def nextDState (p : Platform K) (s : PID K) : K :=
  p.pidKd s.heater * (s.temperature - s.lastTemperature) * (1 - p.dMix s.heater)
    + p.dMix s.heater * s.temp_dState

/-- The local `result` of the PID branch of `PID::Spin` after clamping and scaling
(lines 196-205). -/
def pidResult (p : Platform K) (s : PID K) : K :=
  let result0 := p.pidKp s.heater * error s + nextIState p s - nextDState p s
  (if result0 < 0 then 0 else if result0 > 255 then 255 else result0) / 255

/-- The regulation part of `PID::Spin` (lines 166-208). -/
def regulate (p : Platform K) (s : PID K) : PID K × List (PlatformCall K) :=
  if ¬ p.usePID s.heater then
    (s, [PlatformCall.setHeater s.heater (if error s > 0 then 1 else 0)])
  else if error s < -p.fullPidBand s.heater then
    ({ s with temp_iState := 0, lastTemperature := s.temperature },
      [PlatformCall.setHeater s.heater 0])
  else if error s > p.fullPidBand s.heater then
    ({ s with temp_iState := 0, lastTemperature := s.temperature },
      [PlatformCall.setHeater s.heater 1])
  else
    ({ s with
        temp_iState := nextIState p s
        temp_dState := nextDState p s
        lastTemperature := s.temperature },
      if ¬ s.temperatureFault then [PlatformCall.setHeater s.heater (pidResult p s)] else [])

/-- Source `PID::Spin`; `reading` is what `platform->GetTemperature(heater)` returns.
The result is the new state and the `SetHeater` calls made, in order. -/
def Spin (p : Platform K) (reading : K) (s : PID K) : PID K × List (PlatformCall K) :=
  if s.temperatureFault then
    (s, [PlatformCall.setHeater s.heater 0])
  else
    let r1 := checkTemperature { s with temperature := reading }
    let r2 := regulate p r1.1
    (r2.1, r1.2 ++ r2.2)

/-- The state after a sequence of `Spin` calls, one per reading. -/
def SpinMany (p : Platform K) : List K → PID K → PID K
  | [], s => s
  | r :: rs, s => SpinMany p rs (Spin p r s).1

end PID

/-- The power of the last `SetHeater` call in a trace, if there is one. -/
def lastHeaterPower {K : Type} : List (PlatformCall K) → Option K
  | [] => none
  | PlatformCall.setHeater _ w :: rest =>
      match lastHeaterPower rest with
      | some w1 => some w1
      | none => some w
  | _ :: rest => lastHeaterPower rest

/-! ## Tool.cpp -/

/-- The fields of class `Tool`; the `next` pointer is the tail of the tool list. -/
structure Tool (K : Type) where
  myNumber : Int
  active : Bool
  driveCount : Int
  heaterCount : Int
  heaterFault : Bool
  mixing : Bool
  drives : Nat → Int
  mix : Nat → K
  heaters : Nat → Int
  activeTemperatures : Nat → K
  standbyTemperatures : Nat → K

namespace Tool

variable {K : Type} [LinearOrderedField K]

/-- Source `Tool::SetTemperatureFault`: the loop returns at the first heater of the
tool that equals `dudHeater`, after setting the flag. -/
def SetTemperatureFault (dudHeater : Int) (t : Tool K) : Tool K :=
  if (List.range t.heaterCount.toNat).any (fun heater => decide (dudHeater = t.heaters heater))
  then { t with heaterFault := true }
  else t

/-- Source `Tool::ResetTemperatureFault`. -/
def ResetTemperatureFault (wasDudHeater : Int) (t : Tool K) : Tool K :=
  if (List.range t.heaterCount.toNat).any
      (fun heater => decide (wasDudHeater = t.heaters heater))
  then { t with heaterFault := false }
  else t

/-- Source `Tool::FlagTemperatureFault`, called on the head of the tool list. -/
def FlagTemperatureFault (heater : Int) (toolList : List (Tool K)) : List (Tool K) :=
  toolList.map (SetTemperatureFault heater)

/-- Source `Tool::ClearTemperatureFault`, called on the head of the tool list. -/
def ClearTemperatureFault (heater : Int) (toolList : List (Tool K)) : List (Tool K) :=
  toolList.map (ResetTemperatureFault heater)

/-- Source `Tool::AllHeatersAtHighTemperature`; `temperature h` is what
`reprap.GetHeat()->GetTemperature(h)` returns. -/
def AllHeatersAtHighTemperature (temperature : Int → K) (t : Tool K) : Bool :=
  (List.range t.heaterCount.toNat).all
    (fun heater => decide (¬ temperature (t.heaters heater) < HOT_ENOUGH_TO_EXTRUDE))

/-- Source `Tool::ToolCanDrive`; `coldExtrude` is what `reprap.ColdExtrude()` returns. -/
def ToolCanDrive (coldExtrude : Bool) (temperature : Int → K) (t : Tool K) : Bool :=
  if t.heaterFault then false
  else if coldExtrude || AllHeatersAtHighTemperature temperature t then true
  else false

end Tool

/-! ## Move.h: look-ahead entries, DDAs and the Move class -/

/-- LOOK_AHEAD_RING_LENGTH of Move.h. -/
def LOOK_AHEAD_RING_LENGTH : Nat := 30

/-- DDA_RING_LENGTH of Move.h. -/
def DDA_RING_LENGTH : Nat := 5

/-- The data fields of class `LookAhead`.  The `next` and `previous` pointers are
the neighbouring indices of the ring (see `Next` and `Previous`). -/
structure LookAhead (K : Type) where
  endPoint : Nat → Int
  checkEndStops : Bool
  cosine : K
  v : K
  requestedFeedrate : K
  minSpeed : K
  maxSpeed : K
  acceleration : K
  processed : Nat

/-- The data fields of class `DDA`; `myLookAheadEntry` is an index of the look-ahead ring. -/
structure DDA (K : Type) where
  myLookAheadEntry : Nat
  counter : Nat → Int
  delta : Nat → Int
  directions : Nat → Bool
  totalSteps : Int
  stepCount : Int
  checkEndStops : Bool
  timeStep : K
  velocity : K
  stopAStep : Int
  startDStep : Int
  distance : K
  acceleration : K
  instantDv : K
  active : Bool

/-- The data fields of class `Move`.  `ddaRing` and `lookAheadRing` hold the objects of
the two rings, addressed by index; `dda` is the index of the DDA being executed. -/
structure Move (K : Type) where
  dda : Option Nat
  ddaRing : Nat → DDA K
  ddaRingAddPointer : Nat
  ddaRingGetPointer : Nat
  ddaRingLocked : Bool
  lookAheadRing : Nat → LookAhead K
  lookAheadRingAddPointer : Nat
  lookAheadRingGetPointer : Nat
  lastMove : Nat
  lookAheadDDA : DDA K
  lookAheadRingCount : Int
  lastTime : K
  addNoMoreMoves : Bool
  active : Bool
  currentFeedrate : K
  liveCoordinates : Nat → K
  nextMove : Nat → K
  normalisedDirectionVector : Nat → K
  stepDistances : Nat → K
  nextMachineEndPoints : Nat → Int
  xBedProbePoints : Nat → K
  yBedProbePoints : Nat → K
  zBedProbePoints : Nat → K
  probePointSet : Nat → Nat
  aX : K
  aY : K
  aC : K
  tanXY : K
  tanYZ : K
  tanXZ : K
  identityBedTransform : Bool
  xRectangle : K
  yRectangle : K
  lastZHit : K
  zProbing : Bool
  longWait : K

/-- Ring successor: `LookAhead::Next`. -/
def Next (i : Nat) : Nat := (i + 1) % LOOK_AHEAD_RING_LENGTH

/-- Ring predecessor: `LookAhead::Previous`. -/
def Previous (i : Nat) : Nat := (i + (LOOK_AHEAD_RING_LENGTH - 1)) % LOOK_AHEAD_RING_LENGTH

/-- Array assignment `a[i] = x`. -/
def setAt {α : Type} (a : Nat → α) (i : Nat) (x : α) : Nat → α :=
  fun j => if j = i then x else a j

namespace LookAhead

variable {K : Type} [LinearOrderedField K] [FloorRing K]

/-- Source `LookAhead::MachineToEndPoint(drive, coord)` (static). -/
def MachineToEndPointOf (p : Platform K) (drive : Nat) (coord : Int) : K :=
  (coord : K) / p.driveStepsPerUnit drive

/-- Source `LookAhead::MachineToEndPoint(drive)`. -/
def MachineToEndPoint (p : Platform K) (e : LookAhead K) (drive : Nat) : K :=
  (e.endPoint drive : K) / p.driveStepsPerUnit drive

/-- Source `LookAhead::EndPointToMachine`. -/
def EndPointToMachine (p : Platform K) (drive : Nat) (coord : K) : Int :=
  roundf (coord * p.driveStepsPerUnit drive)

/-- Source `LookAhead::Init`; `haveIncomingData` is what
`reprap.GetGCodes()->HaveIncomingData()` returns. -/
def Init (ep : Nat → Int) (fRate minS maxS acc : K) (ce : Bool) (haveIncomingData : Bool)
    (e : LookAhead K) : LookAhead K :=
  let v0 := fRate
  let f0 := fRate
  let f1 := if v0 < minS then minS else f0
  let v1 := if v0 < minS then minS else v0
  let f2 := if v1 > maxS then maxS else f1
  let v2 := if v1 > maxS then maxS else v1
  { e with
    v := v2
    requestedFeedrate := f2
    minSpeed := minS
    maxSpeed := maxS
    acceleration := acc
    endPoint := ep
    checkEndStops := ce
    cosine := 2
    processed := if haveIncomingData then unprocessed else complete ||| vCosineSet ||| upPass }

/-- Source `LookAhead::SetV`. -/
def SetV (vv : K) (e : LookAhead K) : LookAhead K := { e with v := vv }

/-- Source `LookAhead::SetFeedRate`. -/
def SetFeedRate (f : K) (e : LookAhead K) : LookAhead K :=
  { e with requestedFeedrate := f, v := f }

/-- Source `LookAhead::SetProcessed`. -/
def SetProcessed (ms : Nat) (e : LookAhead K) : LookAhead K :=
  if ms = unprocessed then { e with processed := unprocessed }
  else { e with processed := e.processed ||| ms }

/-- Source `LookAhead::Release`. -/
def Release (e : LookAhead K) : LookAhead K := { e with processed := released }

/-- Source `LookAhead::SetDriveCoordinateAndZeroEndSpeed`. -/
def SetDriveCoordinateAndZeroEndSpeed (p : Platform K) (a : K) (drive : Nat)
    (e : LookAhead K) : LookAhead K :=
  { e with
    endPoint := setAt e.endPoint drive (EndPointToMachine p drive a)
    cosine := 2
    v := p.instantDvs p.slowestDrive }

end LookAhead

/-- The loop state of `DDA::Step`: the objects it mutates, the local `drivesMoving`
and the platform calls made so far. -/
structure StepState (K : Type) where
  move : Move K
  dda : DDA K
  drivesMoving : Nat
  calls : List (PlatformCall K)

namespace Move

variable {K : Type} [LinearOrderedField K] [FloorRing K]

/-- Assignment through a pointer into the look-ahead ring. -/
def setEntry (m : Move K) (i : Nat) (e : LookAhead K) : Move K :=
  { m with lookAheadRing := setAt m.lookAheadRing i e }

/-- Source `Move::ComputeCurrentCoordinate`. -/
def ComputeCurrentCoordinate (p : Platform K) (m : Move K) (drive la : Nat)
    (runningDDA : DDA K) : K :=
  let previous := LookAhead.MachineToEndPoint p (m.lookAheadRing (Previous la)) drive
  if runningDDA.totalSteps ≤ 0 then previous
  else previous + (LookAhead.MachineToEndPoint p (m.lookAheadRing la) drive - previous)
          * (runningDDA.stepCount : K) / (runningDDA.totalSteps : K)

/-- Source `Move::HitLowStop`; `axisIsHomed` is `gCodes->GetAxisIsHomed`. -/
def HitLowStop (p : Platform K) (axisIsHomed : Nat → Bool) (drive la : Nat)
    (hitDDA : DDA K) (m : Move K) : Move K :=
  if drive = Z_AXIS then
    if m.zProbing then
      if axisIsHomed drive then
        let z := ComputeCurrentCoordinate p m drive la hitDDA
        let m1 := setEntry m la
          (LookAhead.SetDriveCoordinateAndZeroEndSpeed p z drive (m.lookAheadRing la))
        { m1 with lastZHit := z - p.zProbeStopHeight }
      else
        let m1 := setEntry m la
          (LookAhead.SetDriveCoordinateAndZeroEndSpeed p p.zProbeStopHeight drive
            (m.lookAheadRing la))
        { m1 with lastZHit := 0 }
    else
      let m1 := { m with lastZHit := p.zProbeStopHeight }
      setEntry m1 la
        (LookAhead.SetDriveCoordinateAndZeroEndSpeed p p.zProbeStopHeight drive
          (m1.lookAheadRing la))
  else
    setEntry m la (LookAhead.SetDriveCoordinateAndZeroEndSpeed p 0 drive (m.lookAheadRing la))

/-- Source `Move::HitHighStop`. -/
def HitHighStop (p : Platform K) (drive la : Nat) (m : Move K) : Move K :=
  setEntry m la
    (LookAhead.SetDriveCoordinateAndZeroEndSpeed p (p.axisLengths drive) drive
      (m.lookAheadRing la))

end Move

namespace DDA

variable {K : Type} [LinearOrderedField K] [FloorRing K]

/-- Source `DDA::AccelerationCalculation`; `e` is `myLookAheadEntry`.  The result is the
DDA with `stopAStep`, `startDStep` set, the possibly changed `u` and `v`, and the
movement profile. -/
def AccelerationCalculation (p : Platform K) (e : LookAhead K) (u v : K) (result : Nat)
    (d : DDA K) : DDA K × K × K × Nat :=
  let feed := e.requestedFeedrate
  let d0 := 1 / 2 * (feed * feed - u * u) / d.acceleration
  let stopAStep0 := roundf (d0 * (d.totalSteps : K) / d.distance)
  let d1 := 1 / 2 * (v * v - feed * feed) / d.acceleration
  let startDStep0 := d.totalSteps + roundf (d1 * (d.totalSteps : K) / d.distance)
  if stopAStep0 ≥ startDStep0 then
    let dCross0 := 1 / 2 * (1 / 2 * (v * v - u * u) / d.acceleration + d.distance)
    if dCross0 < 0 ∨ dCross0 > d.distance then
      let temp := 2 * d.acceleration * d.distance
      if v > u then
        let v1 := p.sqrt (u * u + temp)
        let stopAStep1 := toLong (d.distance * (d.totalSteps : K) / d.distance)
        ({ d with stopAStep := stopAStep1, startDStep := stopAStep1 + 1 }, u, v1, change)
      else
        let u1 := p.sqrt (v * v + temp)
        let stopAStep1 := toLong (0 * (d.totalSteps : K) / d.distance)
        ({ d with stopAStep := stopAStep1, startDStep := stopAStep1 + 1 }, u1, v, change)
    else
      let stopAStep1 := toLong (dCross0 * (d.totalSteps : K) / d.distance)
      ({ d with stopAStep := stopAStep1, startDStep := stopAStep1 + 1 }, u, v, noFlat)
  else if d.totalSteps > 5 ∧ stopAStep0 ≤ 1 ∧ startDStep0 ≥ d.totalSteps - 1 then
    ({ d with stopAStep := 0, startDStep := d.totalSteps }, feed, feed, change)
  else
    ({ d with stopAStep := stopAStep0, startDStep := startDStep0 }, u, v, result)

/-- The body of the first loop of `DDA::Init` for one drive; the second component of
the state is the local `bigDirection`. -/
def InitDrive (p : Platform K) (targetPosition positionNow : Nat → Int) (drive : Nat)
    (s : DDA K × Nat) : DDA K × Nat :=
  let d := s.1
  let delta0 := if drive < p.AXES then targetPosition drive - positionNow drive
                else targetPosition drive
  let dd := LookAhead.MachineToEndPointOf p drive delta0
  let delta1 := if delta0 ≥ 0 then delta0 else -delta0
  let d1 := { d with
    delta := setAt d.delta drive delta1
    distance := d.distance + dd * dd
    directions := setAt d.directions drive (decide (delta0 ≥ 0)) }
  if delta1 > d1.totalSteps then ({ d1 with totalSteps := delta1 }, drive) else (d1, s.2)

/-- The first part of `DDA::Init` (lines 989-1029): the loop over the drives that
computes `delta`, `directions`, `totalSteps` and the sum of squares in `distance`.
The second component of the result is the local `bigDirection`. -/
def InitSteps (p : Platform K) (m : Move K) (lookAhead : Nat) (d : DDA K) : DDA K × Nat :=
  (List.range p.DRIVES).foldl
    (fun s drive => InitDrive p (m.lookAheadRing lookAhead).endPoint
      (m.lookAheadRing (Previous lookAhead)).endPoint drive s)
    ({ d with
        active := false
        myLookAheadEntry := lookAhead
        totalSteps := -1
        distance := 0
        checkEndStops := (m.lookAheadRing lookAhead).checkEndStops }, 0)

/-- The set-up part of `DDA::Init` (lines 1043-1058) for a movement that is not null:
the Bresenham counters, the distance, and the acceleration, `instantDv` and
step length (kept in `timeStep`) taken from the look-ahead entry `e`. -/
def InitSetUp (p : Platform K) (e : LookAhead K) (s : DDA K × Nat) : DDA K :=
  { s.1 with
    counter := fun drive =>
      if drive = 0 ∨ drive < p.DRIVES then Int.tdiv (-s.1.totalSteps) 2 else s.1.counter drive
    distance := p.sqrt s.1.distance
    acceleration := e.acceleration
    instantDv := e.minSpeed
    timeStep := 1 / p.driveStepsPerUnit s.2 }

/-- Source `DDA::Init` on the look-ahead entry with ring index `lookAhead`.  The result
is the Move (the entry is released on a null movement), the DDA, the values handed
back through the reference arguments `u` and `v`, and the movement profile. -/
def Init (p : Platform K) (m : Move K) (lookAhead : Nat) (_debug : Bool) (d : DDA K) :
    Move K × DDA K × K × K × Nat :=
  let e := m.lookAheadRing lookAhead
  let v := e.v
  let u := (m.lookAheadRing (Previous lookAhead)).v
  let s := InitSteps p m lookAhead d
  if s.1.totalSteps ≤ 0 then
    (Move.setEntry m lookAhead (LookAhead.Release e), s.1, u, v, moving)
  else
    let r := AccelerationCalculation p e u v moving (InitSetUp p e s)
    let velocity := if r.2.1 ≤ 0 then r.1.instantDv else r.2.1
    (m, { r.1 with
        velocity := velocity
        stepCount := 0
        timeStep := r.1.timeStep / velocity },
      r.2.1, r.2.2.1, r.2.2.2)

/-- Source `DDA::Start`. -/
def Start (p : Platform K) (d : DDA K) : DDA K × List (PlatformCall K) :=
  ({ d with active := true },
   (List.range p.DRIVES).map (fun drive => PlatformCall.setDirection drive (d.directions drive))
     ++ [PlatformCall.setInterrupt d.timeStep])

/-- The body of the drive loop of `DDA::Step` (lines 1117-1145) for one drive;
`stopped` is `platform->Stopped`. -/
def StepDrive (p : Platform K) (stopped : Nat → EndStopHit) (axisIsHomed : Nat → Bool)
    (drive : Nat) (s : StepState K) : StepState K :=
  let d := s.dda
  let c1 := d.counter drive + d.delta drive
  if c1 > 0 then
    let d1 := { d with counter := setAt d.counter drive (c1 - d.totalSteps) }
    let s1 := { s with
      dda := d1
      drivesMoving := s.drivesMoving ||| (1 <<< drive)
      calls := s.calls ++ [PlatformCall.step drive] }
    if d1.checkEndStops then
      let esh := stopped drive
      let s2 := if esh = EndStopHit.lowHit then
          { s1 with
            move := Move.HitLowStop p axisIsHomed drive d1.myLookAheadEntry d1 s1.move
            dda := { d1 with active := false } }
        else s1
      if esh = EndStopHit.highHit then
        { s2 with
          move := Move.HitHighStop p drive s2.dda.myLookAheadEntry s2.move
          dda := { s2.dda with active := false } }
      else s2
    else s1
  else
    { s with dda := { d with counter := setAt d.counter drive c1 } }

/-- The velocity update of `DDA::Step` (lines 1149-1170), run when the DDA is still
active after the drive loop. -/
def StepVelocity (s : StepState K) : StepState K :=
  let d := s.dda
  let timeStep := s.move.stepDistances s.drivesMoving / d.velocity
  let v1 := if d.stepCount < d.stopAStep then d.velocity + d.acceleration * timeStep
            else d.velocity
  let v2 := if d.stepCount ≥ d.startDStep then v1 - d.acceleration * timeStep else v1
  let v3 := if v2 < d.instantDv then d.instantDv else v2
  let stepCount := d.stepCount + 1
  { s with
    dda := { d with
      timeStep := timeStep
      velocity := v3
      stepCount := stepCount
      active := decide (stepCount < d.totalSteps) }
    calls := s.calls ++ [PlatformCall.setInterrupt timeStep] }

/-- The completion part of `DDA::Step` (lines 1172-1179), run when the DDA is no
longer active. -/
def StepFinish (p : Platform K) (s : StepState K) : StepState K :=
  let e := s.move.lookAheadRing s.dda.myLookAheadEntry
  let m1 := { s.move with
    liveCoordinates := fun drive =>
      if drive < p.DRIVES then LookAhead.MachineToEndPoint p e drive
      else if drive = p.DRIVES then e.requestedFeedrate
      else s.move.liveCoordinates drive }
  { s with
    move := Move.setEntry m1 s.dda.myLookAheadEntry (LookAhead.Release e)
    calls := s.calls ++ [PlatformCall.setInterrupt p.standbyInterruptRate] }

/-- Source `DDA::Step`. -/
def Step (p : Platform K) (stopped : Nat → EndStopHit) (axisIsHomed : Nat → Bool)
    (m : Move K) (d : DDA K) : StepState K :=
  let s0 : StepState K := { move := m, dda := d, drivesMoving := 0, calls := [] }
  if ¬ d.active then s0
  else if ¬ m.active then s0
  else
    let s1 := (List.range p.DRIVES).foldl
      (fun s drive => StepDrive p stopped axisIsHomed drive s) s0
    let s2 := if s1.dda.active then StepVelocity s1 else s1
    if ¬ s2.dda.active then StepFinish p s2 else s2

end DDA

/-- The number of `Next` steps that lead from ring index `a` to ring index `b`. -/
def ringDistance (a b : Nat) : Nat :=
  (b % LOOK_AHEAD_RING_LENGTH + LOOK_AHEAD_RING_LENGTH - a % LOOK_AHEAD_RING_LENGTH)
    % LOOK_AHEAD_RING_LENGTH

/-- The three ring cursors `n0`, `n1`, `n2` of `Move::DoLookAhead`, with the Move. -/
structure PlanState (K : Type) where
  move : Move K
  n0 : Nat
  n1 : Nat
  n2 : Nat

namespace Move

variable {K : Type} [LinearOrderedField K] [FloorRing K]

/-- Source `LookAhead::Cosine` on the entry with ring index `i`: the cosine is
evaluated lazily and stored in the entry. -/
def Cosine (p : Platform K) (m : Move K) (i : Nat) : Move K × K :=
  let e := m.lookAheadRing i
  if e.cosine < 3 / 2 then (m, e.cosine)
  else
    let acc := (List.range p.DRIVES).foldl
      (fun (acc : K × K × K) drive =>
        let m1 := LookAhead.MachineToEndPoint p e drive
        let m2 := LookAhead.MachineToEndPoint p (m.lookAheadRing (Next i)) drive - m1
        let m1b := m1 - LookAhead.MachineToEndPoint p (m.lookAheadRing (Previous i)) drive
        (acc.1 + m1b * m1b, acc.2.1 + m2 * m2, acc.2.2 + m1b * m2))
      (0, 0, 0)
    let a2 := acc.1
    let b2 := acc.2.1
    let c := if a2 ≤ 0 ∨ b2 ≤ 0 then 0 else acc.2.2 / (p.sqrt a2 * p.sqrt b2)
    (setEntry m i { e with cosine := c }, c)

/-- Source `Move::LookAheadRingEmpty`. -/
def LookAheadRingEmpty (m : Move K) : Bool := decide (m.lookAheadRingCount = 0)

/-- Source `Move::LookAheadRingFull`. -/
def LookAheadRingFull (m : Move K) : Bool :=
  if (m.lookAheadRing m.lookAheadRingAddPointer).processed &&& released = 0 then true
  else decide (Next (Next m.lookAheadRingAddPointer) = m.lookAheadRingGetPointer)

/-- The statements guarded by the two `Processed()` tests in both passes of
`Move::DoLookAhead` (lines 494-503 and 516-526): a dry run of `DDA::Init` on entry
`n1`, and the write-back of `u` and `v` when it returns `change`.  In the down pass
(`down = true`) the entry is then marked complete. -/
def planEntry (p : Platform K) (down : Bool) (n0 n1 : Nat) (m : Move K) : Move K :=
  if (m.lookAheadRing n1).processed &&& complete = 0 then
    if (m.lookAheadRing n1).processed &&& vCosineSet ≠ 0 then
      let r := DDA.Init p m n1 false m.lookAheadDDA
      let m1 := { r.1 with lookAheadDDA := r.2.1 }
      let m2 :=
        if r.2.2.2.2 &&& change ≠ 0 then
          let m3 := setEntry m1 n0 (LookAhead.SetV r.2.2.1 (m1.lookAheadRing n0))
          setEntry m3 n1 (LookAhead.SetV r.2.2.2.1 (m3.lookAheadRing n1))
        else m1
      if down then setEntry m2 n1 (LookAhead.SetProcessed complete (m2.lookAheadRing n1))
      else m2
    else m
  else m

/-- The loop `while(n2 != lookAheadRingAddPointer)` of the up pass (lines 490-508),
run for `k` iterations. -/
def upLoop (p : Platform K) : Nat → PlanState K → PlanState K
  | 0, s => s
  | k + 1, s =>
      upLoop p k
        { move := planEntry p false s.n0 s.n1 s.move, n0 := s.n1, n1 := s.n2, n2 := Next s.n2 }

/-- The loop `do ... while(n0 != lookAheadRingGetPointer)` of the down pass
(lines 512-531), run for `k + 1` iterations. -/
def downLoop (p : Platform K) : Nat → PlanState K → PlanState K
  | 0, s =>
      { move := planEntry p true s.n0 s.n1 s.move, n0 := Previous s.n0, n1 := s.n0, n2 := s.n1 }
  | k + 1, s =>
      downLoop p k
        { move := planEntry p true s.n0 s.n1 s.move, n0 := Previous s.n0, n1 := s.n0,
          n2 := s.n1 }

/-- The body of the junction loop (lines 545-555) on entry `n1` with successor `n2`. -/
def junctionEntry (p : Platform K) (n1 n2 : Nat) (m : Move K) : Move K :=
  if (m.lookAheadRing n1).processed = unprocessed then
    let c0 := (m.lookAheadRing n1).v
    let mn := min (m.lookAheadRing n1).minSpeed (m.lookAheadRing n2).minSpeed
    let r := Cosine p m n1
    let c1 := c0 * r.2
    let c2 := if c1 < mn then mn else c1
    let m1 := setEntry r.1 n1 (LookAhead.SetV c2 (r.1.lookAheadRing n1))
    setEntry m1 n1 (LookAhead.SetProcessed vCosineSet (m1.lookAheadRing n1))
  else m

/-- The loop `while(n2 != lookAheadRingAddPointer)` of the junction pass
(lines 543-559), run for `k` iterations. -/
def junctionLoop (p : Platform K) : Nat → PlanState K → PlanState K
  | 0, s => s
  | k + 1, s =>
      junctionLoop p k
        { move := junctionEntry p s.n1 s.n2 s.move, n0 := s.n1, n1 := s.n2, n2 := Next s.n2 }

/-- The up and down passes of `Move::DoLookAhead` (lines 487-532).  With the cursors
inside the ring, the `while` loop runs until `n2` reaches the add pointer, and the
`do ... while` loop until `n0` reaches the get pointer. -/
def reachabilityPasses (p : Platform K) (m : Move K) : Move K :=
  let n1 := m.lookAheadRingGetPointer
  let s0 : PlanState K := { move := m, n0 := Previous n1, n1 := n1, n2 := Next n1 }
  let s1 := upLoop p (ringDistance s0.n2 m.lookAheadRingAddPointer) s0
  let s2 := downLoop p (ringDistance m.lookAheadRingGetPointer (Previous s1.n0)) s1
  setEntry s2.move s2.n0 (LookAhead.SetProcessed complete (s2.move.lookAheadRing s2.n0))

/-- The junction pass of `Move::DoLookAhead` (lines 540-567). -/
def junctionPass (p : Platform K) (haveIncomingData : Bool) (m : Move K) : Move K :=
  let n1 := m.lookAheadRingGetPointer
  let s0 : PlanState K := { move := m, n0 := Previous n1, n1 := n1, n2 := Next n1 }
  let s1 := junctionLoop p (ringDistance s0.n2 m.lookAheadRingAddPointer) s0
  if m.addNoMoreMoves ∨ ¬ haveIncomingData then
    let m1 := setEntry s1.move s1.n1
      (LookAhead.SetV (p.instantDvs p.slowestDrive) (s1.move.lookAheadRing s1.n1))
    setEntry m1 s1.n1 (LookAhead.SetProcessed complete (m1.lookAheadRing s1.n1))
  else s1.move

/-- Source `Move::DoLookAhead`; `haveIncomingData` is what
`gCodes->HaveIncomingData()` returns during the call. -/
def DoLookAhead (p : Platform K) (haveIncomingData : Bool) (m : Move K) : Move K :=
  if LookAheadRingEmpty m then m
  else
    let m1 :=
      if m.addNoMoreMoves ∨ ¬ haveIncomingData ∨ m.lookAheadRingCount > LOOK_AHEAD then
        reachabilityPasses p m
      else m
    if m1.addNoMoreMoves ∨ ¬ haveIncomingData ∨ m1.lookAheadRingCount > 1 then
      junctionPass p haveIncomingData m1
    else m1

end Move

/-! ## Bed-plane and axis compensation -/

namespace Move

variable {K : Type} [LinearOrderedField K] [FloorRing K]

/-- Source `Move::AllProbeCoordinatesSet`. -/
def AllProbeCoordinatesSet (m : Move K) (index : Nat) : Bool :=
  decide (m.probePointSet index = (xSet ||| ySet ||| zSet))

/-- Source `Move::NumberOfProbePoints`: the index of the first probe point that is
not fully set, or NUMBER_OF_PROBE_POINTS. -/
def NumberOfProbePoints (m : Move K) : Nat :=
  ((List.range NUMBER_OF_PROBE_POINTS).find? (fun i => ! AllProbeCoordinatesSet m i)).getD
    NUMBER_OF_PROBE_POINTS

/-- Source `Move::SecondDegreeTransformZ`. -/
def SecondDegreeTransformZ (m : Move K) (x y : K) : K :=
  let x1 := (x - m.xBedProbePoints 0) * m.xRectangle
  let y1 := (y - m.yBedProbePoints 0) * m.yRectangle
  (1 - x1) * (1 - y1) * m.zBedProbePoints 0 + x1 * (1 - y1) * m.zBedProbePoints 3
    + (1 - x1) * y1 * m.zBedProbePoints 1 + x1 * y1 * m.zBedProbePoints 2

/-- Source `Move::BarycentricCoordinates`; the result is `(l1, l2, l3)`. -/
def BarycentricCoordinates (m : Move K) (p1 p2 p3 : Nat) (x y : K) : K × K × K :=
  let y23 := m.yBedProbePoints p2 - m.yBedProbePoints p3
  let x3 := x - m.xBedProbePoints p3
  let x32 := m.xBedProbePoints p3 - m.xBedProbePoints p2
  let y3 := y - m.yBedProbePoints p3
  let x13 := m.xBedProbePoints p1 - m.xBedProbePoints p3
  let y13 := m.yBedProbePoints p1 - m.yBedProbePoints p3
  let iDet := 1 / (y23 * x13 + x32 * y13)
  let l1 := (y23 * x3 + x32 * y3) * iDet
  let l2 := (-y13 * x3 + x13 * y3) * iDet
  (l1, l2, 1 - l1 - l2)

/-- The test of `Move::TriangleZ` for the triangle with corners `i`, `(i+1)%4`, 4. -/
def insideTriangle (m : Move K) (x y : K) (i : Nat) : Bool :=
  let l := BarycentricCoordinates m i ((i + 1) % 4) 4 x y
  decide (l.1 > TRIANGLE_0 ∧ l.2.1 > TRIANGLE_0 ∧ l.2.2 > TRIANGLE_0)

/-- Source `Move::TriangleZ`. -/
def TriangleZ (m : Move K) (x y : K) : K :=
  match (List.range 4).find? (insideTriangle m x y) with
  | some i =>
      let j := (i + 1) % 4
      let l := BarycentricCoordinates m i j 4 x y
      l.1 * m.zBedProbePoints i + l.2.1 * m.zBedProbePoints j + l.2.2 * m.zBedProbePoints 4
  | none => 0

/-- Source `Move::BedTransform`. -/
def BedTransform (m : Move K) (xyzPoint : Nat → K) : Nat → K :=
  if m.identityBedTransform then xyzPoint
  else
    match NumberOfProbePoints m with
    | 3 => setAt xyzPoint Z_AXIS
        (xyzPoint Z_AXIS + m.aX * xyzPoint X_AXIS + m.aY * xyzPoint Y_AXIS + m.aC)
    | 4 => setAt xyzPoint Z_AXIS
        (xyzPoint Z_AXIS + SecondDegreeTransformZ m (xyzPoint X_AXIS) (xyzPoint Y_AXIS))
    | 5 => setAt xyzPoint Z_AXIS
        (xyzPoint Z_AXIS + TriangleZ m (xyzPoint X_AXIS) (xyzPoint Y_AXIS))
    | _ => xyzPoint

/-- Source `Move::InverseBedTransform`. -/
def InverseBedTransform (m : Move K) (xyzPoint : Nat → K) : Nat → K :=
  if m.identityBedTransform then xyzPoint
  else
    match NumberOfProbePoints m with
    | 3 => setAt xyzPoint Z_AXIS
        (xyzPoint Z_AXIS - (m.aX * xyzPoint X_AXIS + m.aY * xyzPoint Y_AXIS + m.aC))
    | 4 => setAt xyzPoint Z_AXIS
        (xyzPoint Z_AXIS - SecondDegreeTransformZ m (xyzPoint X_AXIS) (xyzPoint Y_AXIS))
    | 5 => setAt xyzPoint Z_AXIS
        (xyzPoint Z_AXIS - TriangleZ m (xyzPoint X_AXIS) (xyzPoint Y_AXIS))
    | _ => xyzPoint

/-- Source `Move::AxisTransform`. -/
def AxisTransform (m : Move K) (xyzPoint : Nat → K) : Nat → K :=
  let p1 := setAt xyzPoint X_AXIS
    (xyzPoint X_AXIS + m.tanXY * xyzPoint Y_AXIS + m.tanXZ * xyzPoint Z_AXIS)
  setAt p1 Y_AXIS (p1 Y_AXIS + m.tanYZ * p1 Z_AXIS)

/-- Source `Move::InverseAxisTransform`. -/
def InverseAxisTransform (m : Move K) (xyzPoint : Nat → K) : Nat → K :=
  let p1 := setAt xyzPoint Y_AXIS (xyzPoint Y_AXIS - m.tanYZ * xyzPoint Z_AXIS)
  setAt p1 X_AXIS (p1 X_AXIS - (m.tanXY * p1 Y_AXIS + m.tanXZ * p1 Z_AXIS))

/-- Source `Move::Transform`. -/
def Transform (m : Move K) (xyzPoint : Nat → K) : Nat → K :=
  BedTransform m (AxisTransform m xyzPoint)

/-- Source `Move::InverseTransform`. -/
def InverseTransform (m : Move K) (xyzPoint : Nat → K) : Nat → K :=
  InverseAxisTransform m (InverseBedTransform m xyzPoint)

end Move

/-! ## Runs of the stepping interrupt -/

/-- What one call of `DDA::Step` finds around it: the Move object as it is at that
interrupt, and the answers of `platform->Stopped` and `gCodes->GetAxisIsHomed`. -/
structure StepEnv (K : Type) where
  move : Move K
  stopped : Nat → EndStopHit
  axisIsHomed : Nat → Bool

/-- Consecutive calls of `DDA::Step` on one DDA, one per environment; the result is
the DDA after the last call and all platform calls made, in order. -/
def DDA.StepMany {K : Type} [LinearOrderedField K] [FloorRing K] (p : Platform K) :
    List (StepEnv K) → DDA K → DDA K × List (PlatformCall K)
  | [], d => (d, [])
  | env :: envs, d =>
      let s := DDA.Step p env.stopped env.axisIsHomed env.move d
      let r := DDA.StepMany p envs s.dda
      (r.1, s.calls ++ r.2)

/-- The number of step pulses (`platform->Step(drive)` calls) in a trace. -/
def pulses {K : Type} (drive : Nat) : List (PlatformCall K) → Nat
  | [] => 0
  | PlatformCall.step d :: rest => (if d = drive then 1 else 0) + pulses drive rest
  | _ :: rest => pulses drive rest

/-- The value the Bresenham counter of `drive` has after one pass of the drive loop
of `DDA::Step`: incremented by `delta`, and reduced by `totalSteps` on overflow. -/
def nextCounter {K : Type} (d : DDA K) (drive : Nat) : Int :=
  if d.counter drive + d.delta drive > 0 then d.counter drive + d.delta drive - d.totalSteps
  else d.counter drive + d.delta drive

/-- The Bresenham invariant between two calls of `DDA::Step`: every drive has
`0 ≤ delta ≤ totalSteps` and `-totalSteps < counter ≤ 0`. -/
def DDA.Bresenham {K : Type} (p : Platform K) (d : DDA K) : Prop :=
  0 < d.totalSteps ∧
  ∀ j, j < p.DRIVES →
    0 ≤ d.delta j ∧ d.delta j ≤ d.totalSteps ∧ -d.totalSteps < d.counter j ∧ d.counter j ≤ 0

/-- Two look-ahead entries agree in every field other than `v`. -/
def LookAhead.EqExceptV {K : Type} (e0 e : LookAhead K) : Prop :=
  e = { e0 with v := e.v }

/-! ## Values used to evaluate the model -/

/-- Integer square root, by bisection on the binary digits; `f` bounds the recursion
depth (any `f` with `n ≤ f` is enough). -/
def isqrt : Nat → Nat → Nat
  | 0, _ => 0
  | f + 1, n =>
      if n = 0 then 0
      else if (2 * isqrt f (n / 4) + 1) * (2 * isqrt f (n / 4) + 1) ≤ n
      then 2 * isqrt f (n / 4) + 1
      else 2 * isqrt f (n / 4)

/-- A square root on the rationals: exact on the squares of rationals, rounded up to
the next multiple of `1 / den` elsewhere. -/
def qsqrt (y : ℚ) : ℚ :=
  if y ≤ 0 then 0
  else
    let n := y.num.toNat * y.den
    let s := isqrt n n
    ((if s * s = n then s else s + 1 : Nat) : ℚ) / (y.den : ℚ)

/-- A platform with three axes and one extruder, used to evaluate the model. -/
def examplePlatform : Platform ℚ where
  DRIVES := 4
  AXES := 3
  HEATERS := 2
  driveStepsPerUnit := fun _ => 100
  instantDvs := fun d => if d = 2 then 1 else 15
  accelerations := fun _ => 800
  maxFeedrates := fun d => if d = 2 then 3 else 200
  homeFeedrates := fun d => if d = 2 then 1 else 50
  axisLengths := fun _ => 200
  slowestDrive := 2
  zProbeStopHeight := 4 / 5
  usePID := fun h => decide (h ≠ 0)
  fullPidBand := fun _ => 5
  pidKi := fun _ => 1
  pidKd := fun _ => 1
  pidKp := fun _ => 10
  pidMin := fun _ => 0
  pidMax := fun _ => 180
  dMix := fun _ => 1 / 2
  standbyInterruptRate := 1 / 5000
  sqrt := qsqrt

/-- The bed heater (heater 0, bang-bang) with set point 60, after six consecutive
bad readings. -/
def examplePID : PID ℚ where
  heater := 0
  temperature := -50
  activeTemperature := 60
  standbyTemperature := 60
  lastTemperature := 20
  temp_iState := 0
  temp_dState := 0
  badTemperatureCount := 6
  temperatureFault := false
  active := true

/-- A tool with one extruder drive that uses heater 0. -/
def exampleTool : Tool ℚ where
  myNumber := 1
  active := true
  driveCount := 1
  heaterCount := 1
  heaterFault := false
  mixing := false
  drives := fun _ => 0
  mix := fun _ => 1
  heaters := fun _ => 0
  activeTemperatures := fun _ => 60
  standbyTemperatures := fun _ => 60

/-- A DDA object before its first use. -/
def exampleDDA : DDA ℚ where
  myLookAheadEntry := 0
  counter := fun _ => 0
  delta := fun _ => 0
  directions := fun _ => true
  totalSteps := 0
  stepCount := 0
  checkEndStops := false
  timeStep := 0
  velocity := 0
  stopAStep := 0
  startDStep := 0
  distance := 0
  acceleration := 0
  instantDv := 0
  active := false

/-- A look-ahead entry for a move along X to machine coordinate `x` (in steps), with
the envelope of the X axis of `examplePlatform`. -/
def exampleEntry (x : Int) (feed v : ℚ) (processed : Nat) : LookAhead ℚ where
  endPoint := fun d => if d = 0 then x else 0
  checkEndStops := false
  cosine := 2
  v := v
  requestedFeedrate := feed
  minSpeed := 15
  maxSpeed := 200
  acceleration := 800
  processed := processed

/-- A Move object with the given look-ahead ring and ring cursors; no bed
compensation, empty DDA ring. -/
def exampleMove (ring : Nat → LookAhead ℚ) (get add : Nat) (count : Int) : Move ℚ where
  dda := none
  ddaRing := fun _ => exampleDDA
  ddaRingAddPointer := 0
  ddaRingGetPointer := 0
  ddaRingLocked := false
  lookAheadRing := ring
  lookAheadRingAddPointer := add
  lookAheadRingGetPointer := get
  lastMove := Previous add
  lookAheadDDA := exampleDDA
  lookAheadRingCount := count
  lastTime := 0
  addNoMoreMoves := false
  active := true
  currentFeedrate := -1
  liveCoordinates := fun _ => 0
  nextMove := fun _ => 0
  normalisedDirectionVector := fun _ => 0
  stepDistances := fun _ => 1 / 100
  nextMachineEndPoints := fun _ => 0
  xBedProbePoints := fun _ => 0
  yBedProbePoints := fun _ => 0
  zBedProbePoints := fun _ => 0
  probePointSet := fun _ => 0
  aX := 0
  aY := 0
  aC := 0
  tanXY := 0
  tanYZ := 0
  tanXZ := 0
  identityBedTransform := true
  xRectangle := 1
  yRectangle := 1
  lastZHit := 0
  zProbing := false
  longWait := 0

/-- A ring in which slot 1 holds a move of 3 steps along X at feed rate 30; the other
slots hold the released previous move (at the origin, end speed 1). -/
def exampleRingA : Nat → LookAhead ℚ :=
  fun i => if i = 1 then exampleEntry 3 30 30 vCosineSet else exampleEntry 0 1 1 released

/-- The environment of an interrupt during which the Move is active and no endstop
is triggered. -/
def exampleEnv : StepEnv ℚ where
  move := exampleMove exampleRingA 1 2 1
  stopped := fun _ => EndStopHit.noStop
  axisIsHomed := fun _ => true

/-- A queue of three moves along X in slots 1, 2, 3: a slow move A (feed rate 30, not
yet processed), a move B of 100 steps (1 mm) at feed rate 100 that was added while no
further data was incoming (so complete from the start), and a move C.  Slot 0 holds
the released previous move. -/
def exampleRingB : Nat → LookAhead ℚ :=
  fun i =>
    if i = 1 then exampleEntry 100 30 30 unprocessed
    else if i = 2 then exampleEntry 200 100 100 (complete ||| vCosineSet ||| upPass)
    else if i = 3 then exampleEntry 300 100 100 unprocessed
    else exampleEntry 0 1 1 released

/-- A ring whose entries were all created by `LookAhead::Init` with
`minSpeed ≤ maxSpeed`: slot 1 holds the only queued move (feed rate 30, `minSpeed` 15,
`maxSpeed` 200, added while data was incoming); the other slots hold the released
origin entry that `Move::Init` creates with the envelope of the slowest drive. -/
def exampleRingC : Nat → LookAhead ℚ :=
  fun i =>
    if i = 1 then
      LookAhead.Init (fun d => if d = 0 then 100 else 0) 30 15 200 800 false true
        (exampleEntry 0 1 1 released)
    else
      LookAhead.Release
        (LookAhead.Init (fun _ => 0) 1 1 3 800 false false (exampleEntry 0 1 1 released))

/-- A queue of two moves along X in slots 1 and 2, the first with its junction speed
set; slot 0 holds the released previous move, which ended at speed 70. -/
def exampleRingD : Nat → LookAhead ℚ :=
  fun i =>
    if i = 0 then exampleEntry 0 70 70 released
    else if i = 1 then exampleEntry 100 30 30 vCosineSet
    else if i = 2 then exampleEntry 200 30 30 unprocessed
    else exampleEntry 0 1 1 released

/-! ## Heat.cpp: the set-temperature test over all heaters -/

/-- TEMPERATURE_CLOSE_ENOUGH of Configuration.h (Celsius). -/
def TEMPERATURE_CLOSE_ENOUGH {K : Type} [LinearOrderedField K] : K := 3

/-- TEMPERATURE_LOW_SO_DONT_CARE of Configuration.h (Celsius). -/
def TEMPERATURE_LOW_SO_DONT_CARE {K : Type} [LinearOrderedField K] : K := 40

/-- What the accessors used by `Heat::AllHeatersAtSetTemperatures` return for each
heater: `pids[heater]->Active()`, `GetTemperature(heater)`,
`GetActiveTemperature(heater)` and `GetStandbyTemperature(heater)`. -/
structure Heat (K : Type) where
  Active : Nat → Bool
  GetTemperature : Nat → K
  GetActiveTemperature : Nat → K
  GetStandbyTemperature : Nat → K

namespace Heat

variable {K : Type} [LinearOrderedField K] [FloorRing K]

/-- The value of `dt` at the test `dt > TEMPERATURE_CLOSE_ENOUGH` in the loop body of
`Heat::AllHeatersAtSetTemperatures` (lines 72-85). -/
def heaterDt (h : Heat K) (heater : Nat) : K :=
  let dt := h.GetTemperature heater
  if h.Active heater then
    if h.GetActiveTemperature heater < TEMPERATURE_LOW_SO_DONT_CARE then 0
    else |dt - h.GetActiveTemperature heater|
  else
    if h.GetStandbyTemperature heater < TEMPERATURE_LOW_SO_DONT_CARE then 0
    else |dt - h.GetStandbyTemperature heater|

/-- Source `Heat::AllHeatersAtSetTemperatures`: the loop returns false at the first
heater with `dt > TEMPERATURE_CLOSE_ENOUGH`. -/
def AllHeatersAtSetTemperatures (p : Platform K) (h : Heat K) : Bool :=
  (List.range p.HEATERS).all
    (fun heater => decide (¬ heaterDt h heater > TEMPERATURE_CLOSE_ENOUGH))

end Heat

/-! ## Move.cpp: the bed equation, the rings and `Spin` -/

/-- Ring successor of the DDA ring: `DDA::Next`. -/
def ddaNext (i : Nat) : Nat := (i + 1) % DDA_RING_LENGTH

namespace Move

variable {K : Type} [LinearOrderedField K] [FloorRing K]

/-- Case 3 of `Move::SetProbedBedEquation` (lines 789-808): the plane through the
first three probe points. -/
def planeEquation (m : Move K) : Move K :=
  let x10 := m.xBedProbePoints 1 - m.xBedProbePoints 0
  let y10 := m.yBedProbePoints 1 - m.yBedProbePoints 0
  let z10 := m.zBedProbePoints 1 - m.zBedProbePoints 0
  let x20 := m.xBedProbePoints 2 - m.xBedProbePoints 0
  let y20 := m.yBedProbePoints 2 - m.yBedProbePoints 0
  let z20 := m.zBedProbePoints 2 - m.zBedProbePoints 0
  let a := y10 * z20 - z10 * y20
  let b := z10 * x20 - x10 * z20
  let c := x10 * y20 - y10 * x20
  let d := -(m.xBedProbePoints 1 * a + m.yBedProbePoints 1 * b + m.zBedProbePoints 1 * c)
  { m with aX := -a / c, aY := -b / c, aC := -d / c, identityBedTransform := false }

/-- The loop body of case 5 of `Move::SetProbedBedEquation` for corner `i`. -/
def stretchCorner (i : Nat) (m : Move K) : Move K :=
  let x10 := m.xBedProbePoints i - m.xBedProbePoints 4
  let y10 := m.yBedProbePoints i - m.yBedProbePoints 4
  let z10 := m.zBedProbePoints i - m.zBedProbePoints 4
  { m with
    xBedProbePoints := setAt m.xBedProbePoints i (m.xBedProbePoints 4 + 2 * x10)
    yBedProbePoints := setAt m.yBedProbePoints i (m.yBedProbePoints 4 + 2 * y10)
    zBedProbePoints := setAt m.zBedProbePoints i (m.zBedProbePoints 4 + 2 * z10) }

/-- Source `Move::SetProbedBedEquation` (the reply string is not modelled). -/
def SetProbedBedEquation (m : Move K) : Move K :=
  match NumberOfProbePoints m with
  | 3 => planeEquation m
  | 4 =>
      { m with
        xRectangle := 1 / (m.xBedProbePoints 3 - m.xBedProbePoints 0)
        yRectangle := 1 / (m.yBedProbePoints 1 - m.yBedProbePoints 0)
        identityBedTransform := false }
  | 5 =>
      { (List.range 4).foldl (fun m1 i => stretchCorner i m1) m with
        identityBedTransform := false }
  | _ => m

/-- Source `Move::DDARingEmpty`. -/
def DDARingEmpty (m : Move K) : Bool := decide (m.ddaRingGetPointer = m.ddaRingAddPointer)

/-- Source `Move::NoLiveMovement`. -/
def NoLiveMovement (m : Move K) : Bool :=
  if m.dda ≠ none then false else DDARingEmpty m

/-- Source `Move::DDARingFull`. -/
def DDARingFull (m : Move K) : Bool :=
  decide (ddaNext (ddaNext m.ddaRingAddPointer) = m.ddaRingGetPointer)

/-- Source `Move::DDARingAdd` on the look-ahead entry with ring index `lookAhead`;
the second component is the returned flag. -/
def DDARingAdd (p : Platform K) (lookAhead : Nat) (m : Move K) : Move K × Bool :=
  if m.ddaRingLocked then (m, false)
  else if DDARingFull m then ({ m with ddaRingLocked := false }, false)
  else if (m.ddaRing m.ddaRingAddPointer).active then ({ m with ddaRingLocked := false }, false)
  else
    let r := DDA.Init p m lookAhead true (m.ddaRing m.ddaRingAddPointer)
    ({ r.1 with
        ddaRing := setAt r.1.ddaRing m.ddaRingAddPointer r.2.1
        ddaRingAddPointer := ddaNext m.ddaRingAddPointer
        ddaRingLocked := false }, true)

/-- Source `Move::DDARingGet`; the second component is the index of the returned DDA,
or `none` for NULL. -/
def DDARingGet (m : Move K) : Move K × Option Nat :=
  if m.ddaRingLocked then (m, none)
  else if DDARingEmpty m then ({ m with ddaRingLocked := false }, none)
  else
    ({ m with ddaRingGetPointer := ddaNext m.ddaRingGetPointer, ddaRingLocked := false },
      some m.ddaRingGetPointer)

/-- Source `Move::LookAheadRingAdd`; the second component is the returned flag. -/
def LookAheadRingAdd (ep : Nat → Int) (requestedFeedRate minSpeed maxSpeed acceleration : K)
    (ce : Bool) (haveIncomingData : Bool) (m : Move K) : Move K × Bool :=
  if LookAheadRingFull m then (m, false)
  else if (m.lookAheadRing m.lookAheadRingAddPointer).processed &&& released = 0 then
    (m, false)
  else
    let m1 := setEntry m m.lookAheadRingAddPointer
      (LookAhead.Init ep requestedFeedRate minSpeed maxSpeed acceleration ce haveIncomingData
        (m.lookAheadRing m.lookAheadRingAddPointer))
    ({ m1 with
        lastMove := m.lookAheadRingAddPointer
        lookAheadRingAddPointer := Next m.lookAheadRingAddPointer
        lookAheadRingCount := m.lookAheadRingCount + 1 }, true)

/-- Source `Move::LookAheadRingGet`; the second component is the ring index of the
returned entry, or `none` for NULL. -/
def LookAheadRingGet (m : Move K) : Move K × Option Nat :=
  if LookAheadRingEmpty m then (m, none)
  else if (m.lookAheadRing m.lookAheadRingGetPointer).processed &&& complete = 0 then
    (m, none)
  else
    ({ m with
        lookAheadRingGetPointer := Next m.lookAheadRingGetPointer
        lookAheadRingCount := m.lookAheadRingCount - 1 }, some m.lookAheadRingGetPointer)

/-- Source `Move::AllMovesAreFinished`; the second component is the returned flag. -/
def AllMovesAreFinished (m : Move K) : Move K × Bool :=
  let m1 := { m with addNoMoreMoves := true }
  (m1, LookAheadRingEmpty m1 && NoLiveMovement m1)

/-- Source `Move::ResumeMoving`. -/
def ResumeMoving (m : Move K) : Move K := { m with addNoMoreMoves := false }

/-- Source `Move::Magnitude`. -/
def Magnitude (p : Platform K) (v : Nat → K) (dimensions : Nat) : K :=
  p.sqrt ((List.range dimensions).foldl (fun magnitude d => magnitude + v d * v d) 0)

/-- Source `Move::Scale`. -/
def Scale (v : Nat → K) (scale : K) (dimensions : Nat) : Nat → K :=
  fun d => if d < dimensions then scale * v d else v d

/-- Source `Move::Absolute`. -/
def Absolute (v : Nat → K) (dimensions : Nat) : Nat → K :=
  fun d => if d < dimensions then |v d| else v d

/-- Source `Move::Normalise`; the result is the vector and the returned magnitude. -/
def Normalise (p : Platform K) (v : Nat → K) (dimensions : Nat) : (Nat → K) × K :=
  let magnitude := Magnitude p v dimensions
  if magnitude ≤ 0 then (v, -1)
  else (Scale v (1 / magnitude) dimensions, magnitude)

/-- Source `Move::VectorBoxIntersection`. -/
def VectorBoxIntersection (p : Platform K) (v box : Nat → K) (dimensions : Nat) : K :=
  let biggerThanBoxDiagonal := 2 * Magnitude p box dimensions
  (List.range dimensions).foldl
    (fun magnitude d =>
      if biggerThanBoxDiagonal * v d > box d then
        if box d / v d < magnitude then box d / v d else magnitude
      else magnitude)
    biggerThanBoxDiagonal

/-- Source `Move::SetStepHypotenuse`. -/
def SetStepHypotenuse (p : Platform K) (m : Move K) : Move K :=
  { m with
    stepDistances := fun i =>
      if i = 0 then 1 / p.driveStepsPerUnit p.AXES
      else if i < 1 <<< p.DRIVES then
        p.sqrt ((List.range p.DRIVES).foldl
          (fun d j =>
            if i &&& (1 <<< j) ≠ 0 then
              d + 1 / p.driveStepsPerUnit j * (1 / p.driveStepsPerUnit j)
            else d) 0)
      else m.stepDistances i }

/-- The loop of `Move::Init` that empties the look-ahead ring (lines 75-79): the entry
at the add pointer is released and the pointer advanced, `k` times. -/
def releaseLoop : Nat → Move K → Move K
  | 0, m => m
  | k + 1, m =>
      releaseLoop k
        { setEntry m m.lookAheadRingAddPointer
            (LookAhead.Release (m.lookAheadRing m.lookAheadRingAddPointer)) with
          lookAheadRingAddPointer := Next m.lookAheadRingAddPointer }

/-- The first part of `Move::Init` (lines 72-103): the rings are emptied and the origin
is put in the entry before the first one that will be used. -/
def initRings (p : Platform K) (haveIncomingData : Bool) (m : Move K) : Move K :=
  let m1 := { m with ddaRingGetPointer := m.ddaRingAddPointer, ddaRingLocked := false }
  let m2 := releaseLoop (LOOK_AHEAD_RING_LENGTH + 1) m1
  let m3 := { m2 with
    lookAheadRingGetPointer := m2.lookAheadRingAddPointer
    lookAheadRingCount := 0
    addNoMoreMoves := false
    lastMove := Previous m2.lookAheadRingAddPointer
    liveCoordinates := fun i => if i < p.DRIVES then 0 else m2.liveCoordinates i }
  let slow := p.slowestDrive
  let m4 := setEntry m3 m3.lastMove
    (LookAhead.Release
      (LookAhead.Init (fun _ => 0) (p.homeFeedrates slow) (p.instantDvs slow)
        (p.maxFeedrates slow) (p.accelerations slow) false haveIncomingData
        (m3.lookAheadRing m3.lastMove)))
  { m4 with liveCoordinates := setAt m4.liveCoordinates p.DRIVES (p.homeFeedrates slow) }

/-- Source `Move::Init`; `time` is what `platform->Time()` returns.  The second
component holds the `SetDirection` calls. -/
def Init (p : Platform K) (haveIncomingData : Bool) (time : K) (m : Move K) :
    Move K × List (PlatformCall K) :=
  let m1 := SetStepHypotenuse p (initRings p haveIncomingData m)
  ({ m1 with
      currentFeedrate := -1
      identityBedTransform := true
      tanXY := 0
      tanYZ := 0
      tanXZ := 0
      lastZHit := 0
      zProbing := false
      xBedProbePoints := fun point =>
        if point < NUMBER_OF_PROBE_POINTS then
          (3 / 10 + 6 / 10 * ((point % 2 : Nat) : K)) * p.axisLengths X_AXIS
        else m1.xBedProbePoints point
      yBedProbePoints := fun point =>
        if point < NUMBER_OF_PROBE_POINTS then
          (0 + 9 / 10 * ((point / 2 : Nat) : K)) * p.axisLengths Y_AXIS
        else m1.yBedProbePoints point
      zBedProbePoints := fun point =>
        if point < NUMBER_OF_PROBE_POINTS then 0 else m1.zBedProbePoints point
      probePointSet := fun point =>
        if point < NUMBER_OF_PROBE_POINTS then 0 else m1.probePointSet point
      xRectangle := 1 / (8 / 10 * p.axisLengths X_AXIS)
      yRectangle := 1 / (8 / 10 * p.axisLengths X_AXIS)
      lastTime := time
      longWait := time
      active := true },
    (List.range p.DRIVES).map (fun i => PlatformCall.setDirection i true))

/-- The first part of `Move::Spin` (lines 143-158): the look-ahead calculations, then
the transfer of a completed entry to the DDA ring if there is room. -/
def spinPlan (p : Platform K) (haveIncomingData : Bool) (m : Move K) : Move K :=
  let m1 := DoLookAhead p haveIncomingData m
  if ¬ DDARingFull m1 then
    let r := LookAheadRingGet m1
    match r.2 with
    | some n => (DDARingAdd p n r.1).1
    | none => r.1
  else m1

/-- The body of the drive loop of `Move::Spin` (lines 179-192); the second component
of the state is the local `noMove`. -/
def spinDrive (p : Platform K) (drive : Nat) (s : Move K × Bool) : Move K × Bool :=
  let m := s.1
  let ep := LookAhead.EndPointToMachine p drive (m.nextMove drive)
  let m1 := { m with nextMachineEndPoints := setAt m.nextMachineEndPoints drive ep }
  if drive < p.AXES then
    ({ m1 with
        normalisedDirectionVector := setAt m1.normalisedDirectionVector drive
          (m1.nextMove drive
            - LookAhead.MachineToEndPoint p (m1.lookAheadRing m1.lastMove) drive) },
      if ep - (m1.lookAheadRing m1.lastMove).endPoint drive ≠ 0 then false else s.2)
  else
    ({ m1 with
        normalisedDirectionVector := setAt m1.normalisedDirectionVector drive
          (m1.nextMove drive) },
      if ep ≠ 0 then false else s.2)

/-- The start of the ingest part of `Move::Spin` (lines 171-192) for the move `mv` that
`gCodes->ReadMove` has put in `nextMove`: the transform, the record of the feed
rate, and the loop over the drives.  The second component is the local `noMove`. -/
def spinRead (p : Platform K) (mv : Nat → K) (m : Move K) : Move K × Bool :=
  let m1 := { m with nextMove := Transform m mv }
  let m2 := { m1 with currentFeedrate := m1.nextMove p.DRIVES }
  (List.range p.DRIVES).foldl (fun s drive => spinDrive p drive s) (m2, true)

/-- The rest of the ingest part of `Move::Spin` (lines 203-226) for a real move: the
direction vector is normalised and the move is added to the look-ahead ring. -/
def spinAdd (p : Platform K) (ce : Bool) (haveIncomingData : Bool) (m : Move K) : Move K :=
  let m1 := { m with
    normalisedDirectionVector := Absolute m.normalisedDirectionVector p.DRIVES }
  let r := Normalise p m1.normalisedDirectionVector p.DRIVES
  let m2 := { m1 with normalisedDirectionVector := r.1 }
  if r.2 ≤ 0 then m2
  else
    let m3 := { m2 with currentFeedrate := -1 }
    let minSpeed := VectorBoxIntersection p m3.normalisedDirectionVector p.instantDvs p.DRIVES
    let acceleration :=
      VectorBoxIntersection p m3.normalisedDirectionVector p.accelerations p.DRIVES
    let maxSpeed := VectorBoxIntersection p m3.normalisedDirectionVector p.maxFeedrates p.DRIVES
    (LookAheadRingAdd m3.nextMachineEndPoints (m3.nextMove p.DRIVES) minSpeed maxSpeed
      acceleration ce haveIncomingData m3).1

/-- Source `Move::Spin`.  `haveIncomingData` is what `gCodes->HaveIncomingData()`
returns during the call; `readMove` is what `gCodes->ReadMove` would deliver: `none`
when it returns false, otherwise the move and the end-stop flag.  The second
component of the result tells whether `gCodes->ReadMove` was called. -/
def Spin (p : Platform K) (haveIncomingData : Bool) (readMove : Option ((Nat → K) × Bool))
    (m : Move K) : Move K × Bool :=
  if ¬ m.active then (m, false)
  else
    let m1 := spinPlan p haveIncomingData m
    if m1.addNoMoreMoves ∨ LookAheadRingFull m1 then (m1, false)
    else
      match readMove with
      | none => (m1, true)
      | some mv =>
          let s := spinRead p mv.1 m1
          if s.2 then (s.1, true)
          else (spinAdd p mv.2 haveIncomingData s.1, true)

/-- Source `Move::Interrupt`; `stopped` and `axisIsHomed` are what `platform->Stopped`
and `gCodes->GetAxisIsHomed` return during the call.  The second component holds the
platform calls. -/
def Interrupt (p : Platform K) (stopped : Nat → EndStopHit) (axisIsHomed : Nat → Bool)
    (m : Move K) : Move K × List (PlatformCall K) :=
  match m.dda with
  | none =>
      let r := DDARingGet m
      match r.2 with
      | some i =>
          let s := DDA.Start p (r.1.ddaRing i)
          ({ r.1 with dda := some i, ddaRing := setAt r.1.ddaRing i s.1 }, s.2)
      | none => ({ r.1 with dda := none }, [])
  | some i =>
      if (m.ddaRing i).active then
        let s := DDA.Step p stopped axisIsHomed m (m.ddaRing i)
        ({ s.move with ddaRing := setAt s.move.ddaRing i s.dda }, s.calls)
      else ({ m with dda := none }, [])

end Move

/-! ## Runs of the look-ahead ring -/

/-- The second Move has the ring cursors, the count, `lastMove` and the flags
`addNoMoreMoves` and `active` of the first. -/
def Move.SameQueue {K : Type} (m m1 : Move K) : Prop :=
  m1.lookAheadRingAddPointer = m.lookAheadRingAddPointer ∧
  m1.lookAheadRingGetPointer = m.lookAheadRingGetPointer ∧
  m1.lookAheadRingCount = m.lookAheadRingCount ∧
  m1.lastMove = m.lastMove ∧
  m1.addNoMoreMoves = m.addNoMoreMoves ∧
  m1.active = m.active

/-- The second look-ahead entry agrees with the first in every field other than `v`,
`processed` and the cached `cosine`: it is the same move. -/
def LookAhead.SameMove {K : Type} (e0 e : LookAhead K) : Prop :=
  e = { e0 with v := e.v, processed := e.processed, cosine := e.cosine }

/-- Every entry of the look-ahead ring of the second Move is the same move as in the
first. -/
def Move.SameMoves {K : Type} (m m1 : Move K) : Prop :=
  ∀ i, LookAhead.SameMove (m.lookAheadRing i) (m1.lookAheadRing i)

/-- The endpoint coordinates of the queued entries, from the get cursor up to the add
cursor. -/
def Move.queue {K : Type} (m : Move K) : List (Nat → Int) :=
  (List.range (ringDistance m.lookAheadRingGetPointer m.lookAheadRingAddPointer)).map
    (fun k => (m.lookAheadRing (Next^[k] m.lookAheadRingGetPointer)).endPoint)

/-- The queue invariant of the look-ahead ring: both cursors are slots of the ring,
the count is the number of slots from the get cursor up to the add cursor, and that
number is at most `LOOK_AHEAD_RING_LENGTH - 2`. -/
def Move.QueueInv {K : Type} (m : Move K) : Prop :=
  m.lookAheadRingGetPointer < LOOK_AHEAD_RING_LENGTH ∧
  m.lookAheadRingAddPointer < LOOK_AHEAD_RING_LENGTH ∧
  m.lookAheadRingCount = (ringDistance m.lookAheadRingGetPointer m.lookAheadRingAddPointer : Int) ∧
  ringDistance m.lookAheadRingGetPointer m.lookAheadRingAddPointer ≤ LOOK_AHEAD_RING_LENGTH - 2

/-- A call on the look-ahead ring: `LookAheadRingAdd` with its arguments,
`DoLookAhead`, or `LookAheadRingGet`.  `haveIncomingData` is what
`gCodes->HaveIncomingData()` returns during the call. -/
inductive RingOp (K : Type) where
  | add (ep : Nat → Int) (requestedFeedRate minSpeed maxSpeed acceleration : K) (ce : Bool)
      (haveIncomingData : Bool)
  | doLookAhead (haveIncomingData : Bool)
  | get

/-- A Move with the record of its ring traffic: the endpoint arguments of the
`LookAheadRingAdd` calls that returned true, and the endpoint coordinates of the
entries returned by `LookAheadRingGet`, both in order. -/
structure RingTrace (K : Type) where
  move : Move K
  added : List (Nat → Int)
  got : List (Nat → Int)

namespace Move

variable {K : Type} [LinearOrderedField K] [FloorRing K]

/-- One call on the look-ahead ring, recorded. -/
def runOp (p : Platform K) (t : RingTrace K) : RingOp K → RingTrace K
  | RingOp.add ep f minS maxS acc ce hid =>
      let r := LookAheadRingAdd ep f minS maxS acc ce hid t.move
      { move := r.1, added := if r.2 then t.added ++ [ep] else t.added, got := t.got }
  | RingOp.doLookAhead hid => { t with move := DoLookAhead p hid t.move }
  | RingOp.get =>
      let r := LookAheadRingGet t.move
      match r.2 with
      | some i => { move := r.1, added := t.added, got := t.got ++ [(r.1.lookAheadRing i).endPoint] }
      | none => { t with move := r.1 }

/-- A sequence of calls on the look-ahead ring, recorded. -/
def runOps (p : Platform K) (ops : List (RingOp K)) (t : RingTrace K) : RingTrace K :=
  ops.foldl (runOp p) t

end Move

/-- A call of `Move::Spin` or of `Move::Interrupt`, with what the environment
answers during the call. -/
inductive Tick (K : Type) where
  | spin (haveIncomingData : Bool) (readMove : Option ((Nat → K) × Bool))
  | interrupt (stopped : Nat → EndStopHit) (axisIsHomed : Nat → Bool)

namespace Move

variable {K : Type} [LinearOrderedField K] [FloorRing K]

/-- One call of `Move::Spin` or `Move::Interrupt`; the second component tells whether
`gCodes->ReadMove` was called. -/
def runTick (p : Platform K) (m : Move K) : Tick K → Move K × Bool
  | Tick.spin hid readMove => Spin p hid readMove m
  | Tick.interrupt stopped axisIsHomed => ((Interrupt p stopped axisIsHomed m).1, false)

/-- A sequence of calls of `Move::Spin` and `Move::Interrupt`; the second component
tells whether `gCodes->ReadMove` was called in any of them. -/
def runTicks (p : Platform K) : List (Tick K) → Move K → Move K × Bool
  | [], m => (m, false)
  | t :: ts, m =>
      let r := runTick p m t
      let rest := runTicks p ts r.1
      (rest.1, r.2 || rest.2)

/-- The states of the Move object that can be reached from `Move::Init` by calls of
the functions that work on the rings. -/
inductive Reachable (p : Platform K) : Move K → Prop where
  | init (haveIncomingData : Bool) (time : K) (m : Move K) :
      Reachable p (Init p haveIncomingData time m).1
  | add (ep : Nat → Int) (f minS maxS acc : K) (ce hid : Bool) (m : Move K) :
      Reachable p m → Reachable p (LookAheadRingAdd ep f minS maxS acc ce hid m).1
  | get (m : Move K) : Reachable p m → Reachable p (LookAheadRingGet m).1
  | doLookAhead (hid : Bool) (m : Move K) : Reachable p m → Reachable p (DoLookAhead p hid m)
  | spin (hid : Bool) (readMove : Option ((Nat → K) × Bool)) (m : Move K) :
      Reachable p m → Reachable p (Spin p hid readMove m).1
  | interrupt (stopped : Nat → EndStopHit) (axisIsHomed : Nat → Bool) (m : Move K) :
      Reachable p m → Reachable p (Interrupt p stopped axisIsHomed m).1
  | allMovesAreFinished (m : Move K) : Reachable p m → Reachable p (AllMovesAreFinished m).1
  | resumeMoving (m : Move K) : Reachable p m → Reachable p (ResumeMoving m)

end Move

/-! ## Further values used to evaluate the model -/

/-- A Move whose first three probe points are set to (0, 0, 0), (100, 0, 0.5) and
(0, 100, -0.2); the other two are not set.  No axis compensation. -/
def exampleProbedMove : Move ℚ :=
  { exampleMove exampleRingA 1 2 1 with
    xBedProbePoints := fun i => if i = 1 then 100 else 0
    yBedProbePoints := fun i => if i = 2 then 100 else 0
    zBedProbePoints := fun i => if i = 1 then 1 / 2 else if i = 2 then -(1 / 5) else 0
    probePointSet := fun i => if i < 3 then xSet ||| ySet ||| zSet else 0 }

/-- The user point (50, 50, 5). -/
def examplePoint : Nat → ℚ :=
  fun i => if i = 0 then 50 else if i = 1 then 50 else if i = 2 then 5 else 0

/-- The ring `exampleRingA` with the move in slot 1 checking the endstops. -/
def exampleRingE : Nat → LookAhead ℚ :=
  fun i =>
    if i = 1 then { exampleEntry 3 30 30 vCosineSet with checkEndStops := true }
    else exampleEntry 0 1 1 released

/-- The DDA of the move in slot 1 of `exampleRingE`, set up by `DDA::Init` and started
by `DDA::Start`. -/
def exampleStartedDDA : DDA ℚ :=
  (DDA.Start examplePlatform
    (DDA.Init examplePlatform (exampleMove exampleRingE 1 2 1) 1 false exampleDDA).2.1).1

/-- A square root on the rationals that is exact on the squares of rationals and
rounded down to a multiple of `1 / den` elsewhere. -/
def qsqrtDown (y : ℚ) : ℚ :=
  if y ≤ 0 then 0
  else ((isqrt (y.num.toNat * y.den) (y.num.toNat * y.den) : Nat) : ℚ) / (y.den : ℚ)

/-- The example platform with the square root that rounds down. -/
def examplePlatformDown : Platform ℚ := { examplePlatform with sqrt := qsqrtDown }

/-- A queue of one move of 10 steps along X in slot 1, at feed rate 30 with junction
speed 29.9; slot 0 holds the released previous move, which ended at speed 29.9. -/
def exampleRingF : Nat → LookAhead ℚ :=
  fun i =>
    if i = 0 then exampleEntry 0 30 (299 / 10) released
    else if i = 1 then exampleEntry 10 30 (299 / 10) vCosineSet
    else exampleEntry 0 1 1 released

/-- Two moves along X are added (to steps 100 and 200), the planner runs with no more
data incoming, and three entries are asked for. -/
def exampleOps : List (RingOp ℚ) :=
  [RingOp.add (fun d => if d = 0 then 100 else 0) 30 15 200 800 false true,
   RingOp.add (fun d => if d = 0 then 200 else 0) 30 15 200 800 false false,
   RingOp.doLookAhead false, RingOp.get, RingOp.get, RingOp.get]

/-- The run of `exampleOps` from the state left by `Move::Init`. -/
def exampleTrace : RingTrace ℚ :=
  Move.runOps examplePlatform exampleOps
    { move := (Move.Init examplePlatform false 0 (exampleMove exampleRingA 1 2 1)).1,
      added := [], got := [] }

/-- The ring `exampleRingA` with the move in slot 1 planned completely. -/
def exampleRingG : Nat → LookAhead ℚ :=
  fun i =>
    if i = 1 then exampleEntry 3 30 30 (complete ||| vCosineSet ||| upPass)
    else exampleEntry 0 1 1 released

/-- A move read from the G-code source: to X = 0.03 (step 3) at feed rate 50, the
position of the move in slot 1 of `exampleRingG`. -/
def exampleNextMove : Nat → ℚ :=
  fun i => if i = 0 then 3 / 100 else if i = 4 then 50 else 0

/-- The run of 29 requests to add a move from the state left by `Move::Init`, with no
entry taken out. -/
def exampleFullTrace : RingTrace ℚ :=
  Move.runOps examplePlatform
    (List.replicate 29 (RingOp.add (fun d => if d = 0 then 100 else 0) 30 15 200 800 false true))
    { move := (Move.Init examplePlatform false 0 (exampleMove exampleRingA 1 2 1)).1,
      added := [], got := [] }

/-- Two heaters: heater 0 is active with set temperature 60 and reads 58; heater 1 is
on standby with standby temperature 20 and reads 150. -/
def exampleHeat : Heat ℚ where
  Active := fun h => decide (h = 0)
  GetTemperature := fun h => if h = 0 then 58 else 150
  GetActiveTemperature := fun _ => 60
  GetStandbyTemperature := fun _ => 20

/-! ## Tool.cpp: the tool list and tool selection -/

/-- A call of `Tool` into the `Heat` class: `SetActiveTemperature`,
`SetStandbyTemperature`, `Activate` or `Standby`, with its arguments. -/
inductive HeatCall (K : Type) where
  | setActiveTemperature (heater : Int) (temperature : K)
  | setStandbyTemperature (heater : Int) (temperature : K)
  | activate (heater : Int)
  | standby (heater : Int)

namespace Tool

variable {K : Type} [LinearOrderedField K]

/-- Source `Tool::AddTool`, called on the head of the tool list: the loop returns at
the first tool with the number of `tool`; otherwise `tool` is linked after the last
one. -/
def AddTool (tool : Tool K) (toolList : List (Tool K)) : List (Tool K) :=
  if toolList.any (fun t => decide (t.myNumber = tool.myNumber)) then toolList
  else toolList ++ [tool]

/-- The calls of the loop of `Tool::Standby` (lines 236-240). -/
def standbyCalls (t : Tool K) : List (HeatCall K) :=
  (List.range t.heaterCount.toNat).flatMap
    (fun heater =>
      [HeatCall.setStandbyTemperature (t.heaters heater) (t.standbyTemperatures heater),
       HeatCall.standby (t.heaters heater)])

/-- The calls of the loop of `Tool::Activate` (lines 222-227). -/
def activateCalls (t : Tool K) : List (HeatCall K) :=
  (List.range t.heaterCount.toNat).flatMap
    (fun heater =>
      [HeatCall.setActiveTemperature (t.heaters heater) (t.activeTemperatures heater),
       HeatCall.setStandbyTemperature (t.heaters heater) (t.standbyTemperatures heater),
       HeatCall.activate (t.heaters heater)])

/-- Source `Tool::Standby`; the second component holds the calls into `Heat`. -/
def Standby (t : Tool K) : Tool K × List (HeatCall K) :=
  if ¬ t.active then (t, [])
  else ({ t with active := false }, standbyCalls t)

/-- Source `Tool::Activate` on the tool at address `this`.  `tools` holds the Tool
objects by address, `currentlyActive` is the pointer argument (`none` for NULL).
The result is the objects after the call and the calls into `Heat`, in order. -/
def Activate (this : Nat) (currentlyActive : Option Nat) (tools : Nat → Tool K) :
    (Nat → Tool K) × List (HeatCall K) :=
  if (tools this).active then (tools, [])
  else
    let r : (Nat → Tool K) × List (HeatCall K) :=
      match currentlyActive with
      | some c =>
          if c ≠ this then (setAt tools c (Standby (tools c)).1, (Standby (tools c)).2)
          else (tools, [])
      | none => (tools, [])
    (setAt r.1 this { r.1 this with active := true }, r.2 ++ activateCalls (r.1 this))

end Tool

/-! ## Example tools -/

/-- Three tools by address: tool 0 (heater 1, set temperatures 200 / 150) is active,
tool 1 (heaters 1 and 2) and all others are not. -/
def exampleTools : Nat → Tool ℚ :=
  fun i =>
    if i = 0 then
      { exampleTool with
        myNumber := 0, active := true, heaterCount := 1, heaters := fun _ => 1
        activeTemperatures := fun _ => 200, standbyTemperatures := fun _ => 150 }
    else
      { exampleTool with
        myNumber := i, active := false, heaterCount := 2
        heaters := fun h => if h = 0 then 1 else 2
        activeTemperatures := fun _ => 210, standbyTemperatures := fun _ => 160 }

/-- A DDA set up for a move of 100 steps over 1 unit with acceleration 800. -/
def exampleProfileDDA : DDA ℚ :=
  { exampleDDA with totalSteps := 100, distance := 1, acceleration := 800 }

/-- A tool list of two tools, numbers 0 and 1. -/
def exampleToolList : List (Tool ℚ) := [exampleTools 0, exampleTools 1]

/-- A queue of two moves along X in slots 1 and 2, neither processed yet: 1000 steps
(10 units) at feed rate 30, then 3 more steps (0.03 units) at feed rate 30.  Slot 0
holds the released origin, whose exit speed is 1. -/
def exampleRingTail : Nat → LookAhead ℚ :=
  fun i =>
    if i = 1 then exampleEntry 1000 30 30 unprocessed
    else if i = 2 then exampleEntry 1003 30 30 unprocessed
    else exampleEntry 0 1 1 released

/-- A box of 3 by 4 units (its diagonal is 5). -/
def exampleBox : Nat → ℚ := fun d => if d = 0 then 3 else 4

/-- The unit vector along the diagonal of `exampleBox`. -/
def exampleDirection : Nat → ℚ := fun d => if d = 0 then 3 / 5 else 4 / 5

/-! ## Vocabulary for the junction cosine -/

/-- The dot product of the first `n` components of two vectors. -/
def vectorDot {K : Type} [LinearOrderedField K] (n : Nat) (a b : Nat → K) : K :=
  ((List.range n).map (fun d => a d * b d)).sum

/-- The displacement of the move into look-ahead entry `i`, in units, per drive:
the end point of the entry minus the end point of the previous entry. -/
def Move.incoming {K : Type} [LinearOrderedField K] [FloorRing K] (p : Platform K)
    (m : Move K) (i : Nat) : Nat → K :=
  fun d => LookAhead.MachineToEndPoint p (m.lookAheadRing i) d
    - LookAhead.MachineToEndPoint p (m.lookAheadRing (Previous i)) d

/-- The displacement of the move out of look-ahead entry `i`, in units, per drive:
the end point of the next entry minus the end point of the entry. -/
def Move.outgoing {K : Type} [LinearOrderedField K] [FloorRing K] (p : Platform K)
    (m : Move K) (i : Nat) : Nat → K :=
  fun d => LookAhead.MachineToEndPoint p (m.lookAheadRing (Next i)) d
    - LookAhead.MachineToEndPoint p (m.lookAheadRing i) d

/-! ## Move.h: recording the probe points -/

namespace Move

variable {K : Type} [LinearOrderedField K] [FloorRing K]

/-- Source `Move::SetXBedProbePoint` (the message is not modelled). -/
def SetXBedProbePoint (index : Int) (x : K) (m : Move K) : Move K :=
  if index < 0 ∨ index ≥ NUMBER_OF_PROBE_POINTS then m
  else
    { m with
      xBedProbePoints := setAt m.xBedProbePoints index.toNat x
      probePointSet := setAt m.probePointSet index.toNat (m.probePointSet index.toNat ||| xSet) }

/-- Source `Move::SetYBedProbePoint` (the message is not modelled). -/
def SetYBedProbePoint (index : Int) (y : K) (m : Move K) : Move K :=
  if index < 0 ∨ index ≥ NUMBER_OF_PROBE_POINTS then m
  else
    { m with
      yBedProbePoints := setAt m.yBedProbePoints index.toNat y
      probePointSet := setAt m.probePointSet index.toNat (m.probePointSet index.toNat ||| ySet) }

/-- Source `Move::SetZBedProbePoint` (the message is not modelled). -/
def SetZBedProbePoint (index : Int) (z : K) (m : Move K) : Move K :=
  if index < 0 ∨ index ≥ NUMBER_OF_PROBE_POINTS then m
  else
    { m with
      zBedProbePoints := setAt m.zBedProbePoints index.toNat z
      probePointSet := setAt m.probePointSet index.toNat (m.probePointSet index.toNat ||| zSet) }

/-- Source `Move::SetIdentityTransform`. -/
def SetIdentityTransform (m : Move K) : Move K := { m with identityBedTransform := true }

/-- Source `Move::SetAxisCompensation` (the message is not modelled). -/
def SetAxisCompensation (axis : Int) (tangent : K) (m : Move K) : Move K :=
  if axis = X_AXIS then { m with tanXY := tangent }
  else if axis = Y_AXIS then { m with tanYZ := tangent }
  else if axis = Z_AXIS then { m with tanXZ := tangent }
  else m

/-- The states of the Move object that can be reached from `Move::Init` by calls of
its functions: `Spin`, `Interrupt`, `AllMovesAreFinished`, `ResumeMoving`, the three
probe point setters, `SetProbedBedEquation`, `SetIdentityTransform` and
`SetAxisCompensation`. -/
inductive BedReachable (p : Platform K) : Move K → Prop where
  | init (haveIncomingData : Bool) (time : K) (m : Move K) :
      BedReachable p (Init p haveIncomingData time m).1
  | spin (hid : Bool) (readMove : Option ((Nat → K) × Bool)) (m : Move K) :
      BedReachable p m → BedReachable p (Spin p hid readMove m).1
  | interrupt (stopped : Nat → EndStopHit) (axisIsHomed : Nat → Bool) (m : Move K) :
      BedReachable p m → BedReachable p (Interrupt p stopped axisIsHomed m).1
  | allMovesAreFinished (m : Move K) :
      BedReachable p m → BedReachable p (AllMovesAreFinished m).1
  | resumeMoving (m : Move K) : BedReachable p m → BedReachable p (ResumeMoving m)
  | setX (index : Int) (x : K) (m : Move K) :
      BedReachable p m → BedReachable p (SetXBedProbePoint index x m)
  | setY (index : Int) (y : K) (m : Move K) :
      BedReachable p m → BedReachable p (SetYBedProbePoint index y m)
  | setZ (index : Int) (z : K) (m : Move K) :
      BedReachable p m → BedReachable p (SetZBedProbePoint index z m)
  | setProbed (m : Move K) : BedReachable p m → BedReachable p (SetProbedBedEquation m)
  | setIdentity (m : Move K) : BedReachable p m → BedReachable p (SetIdentityTransform m)
  | setAxis (axis : Int) (tangent : K) (m : Move K) :
      BedReachable p m → BedReachable p (SetAxisCompensation axis tangent m)

end Move

/-- The second Move has the probe point flags and the `identityBedTransform` flag of
the first. -/
def Move.SameBed {K : Type} (m m1 : Move K) : Prop :=
  m1.probePointSet = m.probePointSet ∧ m1.identityBedTransform = m.identityBedTransform

/-! ## Further example values -/

/-- The hot-end heater (heater 1, PID mode in `examplePlatform`) with set point 200,
last reading 197, no fault. -/
def exampleHotEndPID : PID ℚ where
  heater := 1
  temperature := 197
  activeTemperature := 200
  standbyTemperature := 150
  lastTemperature := 197
  temp_iState := 10
  temp_dState := 2
  badTemperatureCount := 0
  temperatureFault := false
  active := true

/-- A Move with five probe points set: the corners (20, 20, 0.1), (20, 80, 0.2),
(80, 80, 0.3), (80, 20, 0.4) and the centre (50, 50, 0.25). -/
def exampleFivePointMove : Move ℚ :=
  { exampleMove exampleRingA 1 2 1 with
    xBedProbePoints := fun i =>
      if i = 0 then 20 else if i = 1 then 20 else if i = 2 then 80 else if i = 3 then 80
      else 50
    yBedProbePoints := fun i =>
      if i = 0 then 20 else if i = 1 then 80 else if i = 2 then 80 else if i = 3 then 20
      else 50
    zBedProbePoints := fun i =>
      if i = 0 then 1 / 10 else if i = 1 then 2 / 10 else if i = 2 then 3 / 10
      else if i = 3 then 4 / 10 else 1 / 4
    probePointSet := fun _ => xSet ||| ySet ||| zSet }

/-- The Move after `Move::Init` and the recording of X and Z of probe point 0: no
probe point is fully set. -/
def exampleProbingMove : Move ℚ :=
  Move.SetZBedProbePoint 0 (1 / 10)
    (Move.SetXBedProbePoint 0 20
      (Move.Init examplePlatform false 0 (exampleMove exampleRingA 1 2 1)).1)

/-! ## Vocabulary for the entries the planner leaves alone -/

/-- Entry `j` of the look-ahead ring is queued: it is one of the entries from the get
cursor up to, but not including, the add cursor. -/
def Move.queued {K : Type} (m : Move K) (j : Nat) : Bool :=
  decide (ringDistance m.lookAheadRingGetPointer j
    < ringDistance m.lookAheadRingGetPointer m.lookAheadRingAddPointer)

/-- The planner has nothing left to do on a look-ahead entry: the entry is marked
complete, or it is released. -/
def LookAhead.Done {K : Type} (e : LookAhead K) : Prop :=
  e.processed &&& complete ≠ 0 ∨ e.processed = released

/-- Every look-ahead entry that is complete or released in the first Move is complete
or released in the second. -/
def Move.KeepsDone {K : Type} (m m1 : Move K) : Prop :=
  ∀ j, LookAhead.Done (m.lookAheadRing j) → LookAhead.Done (m1.lookAheadRing j)

/-- Every entry of the look-ahead ring that is not queued is complete or released. -/
def Move.DoneOutside {K : Type} (m : Move K) : Prop :=
  ∀ j, j < LOOK_AHEAD_RING_LENGTH → Move.queued m j = false →
    LookAhead.Done (m.lookAheadRing j)

/-! ## Further values used to evaluate the model -/

/-- A square root on the rationals rounded to the nearest multiple of `2 ^ (-23)`, ties
to the even multiple.  For `1 ≤ y < 4` the root lies in `[1, 2)`, where the single
precision numbers are the multiples of `2 ^ (-23)`: there this is the value that
`(float)sqrt(y)` has. -/
def qsqrtNearest (y : ℚ) : ℚ :=
  if y ≤ 0 then 0
  else
    let n := y.num.toNat * 2 ^ 46
    let s := isqrt (n / y.den) (n / y.den)
    ((if (2 * s + 1) ^ 2 * y.den < 4 * n ∨ ((2 * s + 1) ^ 2 * y.den = 4 * n ∧ s % 2 = 1)
      then s + 1 else s : Nat) : ℚ) / 2 ^ 23

/-- The example platform with the square root rounded as in single precision. -/
def examplePlatformNearest : Platform ℚ := { examplePlatform with sqrt := qsqrtNearest }

/-- A queue of two moves in slots 1 and 2, neither processed yet, that continue each
other along the diagonal of the XY plane: from the origin to (1, 1) and on to (2, 2)
units (100 steps per unit), both at feed rate 30.  Slot 0 holds the released
origin. -/
def exampleRingDiagonal : Nat → LookAhead ℚ :=
  fun i =>
    if i = 1 then
      { exampleEntry 100 30 30 unprocessed with endPoint := fun d => if d < 2 then 100 else 0 }
    else if i = 2 then
      { exampleEntry 200 30 30 unprocessed with endPoint := fun d => if d < 2 then 200 else 0 }
    else exampleEntry 0 1 1 released

/-- A queue of two moves in slots 1 and 2, neither processed yet, in line with each
other across the XY plane: from the origin to (3, 4) units, a move of length 5, and
on to (9, 12) units, a move of length 10 (100 steps per unit), both at feed rate 30.
Slot 0 holds the released origin. -/
def exampleRingSlope : Nat → LookAhead ℚ :=
  fun i =>
    if i = 1 then
      { exampleEntry 300 30 30 unprocessed with
        endPoint := fun d => if d = 0 then 300 else if d = 1 then 400 else 0 }
    else if i = 2 then
      { exampleEntry 900 30 30 unprocessed with
        endPoint := fun d => if d = 0 then 900 else if d = 1 then 1200 else 0 }
    else exampleEntry 0 1 1 released

/-- The Move after `Move::Init` and three accepted `Move::LookAheadRingAdd` calls made
while data was incoming: three moves of 1 unit each along X (to 100, 200 and 300
steps) at feed rates 40, 40.2 and 30, each with minimum speed 15, maximum speed 200
and acceleration 800.  `Move::Init` leaves the cursors on slot 3 and the released
origin, with end speed 1, in slot 2; the moves are in slots 3, 4 and 5. -/
def exampleSnapMove : Move ℚ :=
  (Move.LookAheadRingAdd (fun d => if d = 0 then 300 else 0) 30 15 200 800 false true
    (Move.LookAheadRingAdd (fun d => if d = 0 then 200 else 0) (201 / 5) 15 200 800 false true
      (Move.LookAheadRingAdd (fun d => if d = 0 then 100 else 0) 40 15 200 800 false true
        (Move.Init examplePlatform true 0 (exampleMove exampleRingA 1 2 1)).1).1).1).1

/-! # Theorems -/

set_option linter.unusedSectionVars false

/-! ## The rational square root used for evaluation -/

theorem isqrt_spec (f n : Nat) (h : n ≤ f) :
    isqrt f n * isqrt f n ≤ n ∧ n < (isqrt f n + 1) * (isqrt f n + 1) := by
  induction f generalizing n with
  | zero =>
    have : n = 0 := by omega
    subst this; simp [isqrt]
  | succ f ih =>
    unfold isqrt
    by_cases hn : n = 0
    · subst hn; simp
    · rw [if_neg hn]
      have h4 : n / 4 ≤ f := by omega
      obtain ⟨h1, h2⟩ := ih (n / 4) h4
      generalize isqrt f (n / 4) = r at h1 h2 ⊢
      have hn4 : 4 * (n / 4) ≤ n := Nat.mul_div_le n 4
      have hn4b : n < 4 * (n / 4) + 4 := by omega
      by_cases hc : (2 * r + 1) * (2 * r + 1) ≤ n
      · rw [if_pos hc]
        refine ⟨hc, ?_⟩
        nlinarith
      · rw [if_neg hc]
        refine ⟨by nlinarith, by omega⟩

/-- The rational square root `qsqrt` is an upper bound of every non-negative rational
whose square is at most its argument. -/
theorem qsqrt_lower (x y : ℚ) (hxy : x * x ≤ y) : x ≤ qsqrt y := by
  unfold qsqrt
  by_cases hy : y ≤ 0
  · rw [if_pos hy]
    have : x * x ≤ 0 := le_trans hxy hy
    nlinarith
  · rw [if_neg hy]
    push_neg at hy
    dsimp only
    have hden : (0 : ℚ) < (y.den : ℚ) := by exact_mod_cast y.den_pos
    have hnum : 0 < y.num := Rat.num_pos.mpr hy
    obtain ⟨h1, h2⟩ := isqrt_spec (y.num.toNat * y.den) (y.num.toNat * y.den) le_rfl
    generalize hs : isqrt (y.num.toNat * y.den) (y.num.toNat * y.den) = s at h1 h2 ⊢
    rw [le_div_iff₀ hden]
    -- the rounded-up root c satisfies c * c ≥ num * den
    have hc : (y.num.toNat * y.den : ℕ) ≤ (if s * s = y.num.toNat * y.den then s else s + 1)
        * (if s * s = y.num.toNat * y.den then s else s + 1) := by
      split_ifs with he
      · exact le_of_eq he.symm
      · exact le_of_lt h2
    generalize (if s * s = y.num.toNat * y.den then s else s + 1) = c at hc ⊢
    have hyd : y * (y.den : ℚ) = (y.num : ℚ) := Rat.mul_den_eq_num y
    have hnn : ((y.num.toNat : ℕ) : ℚ) = (y.num : ℚ) := by
      have : ((y.num.toNat : ℕ) : ℤ) = y.num := Int.toNat_of_nonneg (le_of_lt hnum)
      exact_mod_cast this
    have hcq : (y.num : ℚ) * (y.den : ℚ) ≤ (c : ℚ) * (c : ℚ) := by
      have : ((y.num.toNat * y.den : ℕ) : ℚ) ≤ ((c * c : ℕ) : ℚ) := by exact_mod_cast hc
      push_cast at this
      rw [hnn] at this
      exact this
    by_contra hcon
    push_neg at hcon
    have hc0 : (0 : ℚ) ≤ (c : ℚ) := by positivity
    have : (c : ℚ) * (c : ℚ) < (x * y.den) * (x * y.den) := by nlinarith
    have h3 : (x * y.den) * (x * y.den) ≤ y * y.den * y.den := by
      have : (x * y.den) * (x * y.den) = (x * x) * (y.den * y.den) := by ring
      rw [this]
      have : y * y.den * y.den = y * (y.den * y.den) := by ring
      rw [this]
      exact mul_le_mul_of_nonneg_right hxy (by positivity)
    rw [hyd] at h3
    linarith

/-! ## The heater PID and the tools -/

section PIDFacts

variable {K : Type} [LinearOrderedField K]

theorem PID.regulate_fault (p : Platform K) (s : PID K) :
    (PID.regulate p s).1.temperatureFault = s.temperatureFault := by
  unfold PID.regulate
  split_ifs <;> rfl

theorem PID.regulate_count (p : Platform K) (s : PID K) :
    (PID.regulate p s).1.badTemperatureCount = s.badTemperatureCount := by
  unfold PID.regulate
  split_ifs <;> rfl

theorem PID.Spin_of_fault (p : Platform K) (r : K) (s : PID K) (h : s.temperatureFault = true) :
    PID.Spin p r s = (s, [PlatformCall.setHeater s.heater 0]) := by
  unfold PID.Spin
  simp [h]

theorem PID.Spin_bad (p : Platform K) (r : K) (s : PID K) (h : s.temperatureFault = false)
    (hr : r < BAD_LOW_TEMPERATURE ∨ r > BAD_HIGH_TEMPERATURE) :
    (PID.Spin p r s).1.badTemperatureCount = s.badTemperatureCount + 1 ∧
    ((PID.Spin p r s).1.temperatureFault = true ↔ 7 ≤ s.badTemperatureCount + 1) := by
  unfold PID.Spin
  simp only [h, Bool.false_eq_true, if_false, PID.regulate_fault, PID.regulate_count]
  unfold PID.checkTemperature
  simp only [hr, if_true, MAX_BAD_TEMPERATURE_COUNT]
  split_ifs with hc
  · simp; omega
  · simp [h]; omega

theorem PID.Spin_good (p : Platform K) (r : K) (s : PID K) (h : s.temperatureFault = false)
    (hr : ¬ (r < BAD_LOW_TEMPERATURE ∨ r > BAD_HIGH_TEMPERATURE)) :
    (PID.Spin p r s).1.badTemperatureCount = 0 ∧
    (PID.Spin p r s).1.temperatureFault = false := by
  unfold PID.Spin
  simp only [h, Bool.false_eq_true, if_false, PID.regulate_fault, PID.regulate_count]
  unfold PID.checkTemperature
  simp only [hr, if_false]
  simp [h]

theorem PID.SpinMany_of_fault (p : Platform K) (rs : List K) (s : PID K)
    (h : s.temperatureFault = true) : (PID.SpinMany p rs s).temperatureFault = true := by
  induction rs generalizing s with
  | nil => simpa [PID.SpinMany] using h
  | cons r rs ih =>
    simp only [PID.SpinMany]
    apply ih
    rw [PID.Spin_of_fault p r s h]; exact h

theorem PID.SpinMany_bad (p : Platform K) (rs : List K) (s : PID K)
    (h : s.temperatureFault = false) (hc : s.badTemperatureCount ≤ 6)
    (hbad : ∀ r ∈ rs, r < BAD_LOW_TEMPERATURE ∨ r > BAD_HIGH_TEMPERATURE) :
    ((PID.SpinMany p rs s).temperatureFault = true ↔ 7 ≤ s.badTemperatureCount + rs.length) := by
  induction rs generalizing s with
  | nil =>
    simp only [PID.SpinMany, h, List.length_nil]
    constructor
    · intro h'; cases h'
    · intro h'; simp at h'; omega
  | cons r rs ih =>
    have hr := hbad r (List.mem_cons_self _ _)
    obtain ⟨h1, h2⟩ := PID.Spin_bad p r s h hr
    simp only [PID.SpinMany, List.length_cons]
    by_cases hf : (PID.Spin p r s).1.temperatureFault = true
    · have := PID.SpinMany_of_fault p rs _ hf
      have h7 := h2.mp hf
      constructor
      · intro _; push_cast; omega
      · intro _; exact this
    · have hf' : (PID.Spin p r s).1.temperatureFault = false := by
        cases hx : (PID.Spin p r s).1.temperatureFault <;> simp_all
      have h7 : ¬ 7 ≤ s.badTemperatureCount + 1 := fun hh => hf (h2.mpr hh)
      have := ih (PID.Spin p r s).1 hf' (by omega) (fun r' hr' => hbad r' (List.mem_cons_of_mem _ hr'))
      rw [this, h1]; push_cast; constructor <;> intro <;> omega

/-- C8. Starting from a PID just after `PID::Init`, after any number of consecutive
`PID::Spin` calls whose readings are all below BAD_LOW_TEMPERATURE or above
BAD_HIGH_TEMPERATURE, `temperatureFault` is set if and only if there were at least 7
calls; an in-range reading before the fault latches resets `badTemperatureCount` to 0;
and once `temperatureFault` is set every later `Spin` leaves it set. -/
theorem C8_fault_latches_on_seventh_bad_reading (p : Platform K) (s0 : PID K) (r0 : K) :
    (∀ rs : List K, (∀ r ∈ rs, r < BAD_LOW_TEMPERATURE ∨ r > BAD_HIGH_TEMPERATURE) →
      ((PID.SpinMany p rs (PID.Init r0 s0).1).temperatureFault = true ↔ 7 ≤ rs.length)) ∧
    (∀ (s : PID K) (r : K), s.temperatureFault = false →
      ¬ (r < BAD_LOW_TEMPERATURE ∨ r > BAD_HIGH_TEMPERATURE) →
      (PID.Spin p r s).1.badTemperatureCount = 0) ∧
    (∀ (s : PID K) (r : K), s.temperatureFault = true →
      (PID.Spin p r s).1.temperatureFault = true) := by
  refine ⟨?_, ?_, ?_⟩
  · intro rs hbad
    have := PID.SpinMany_bad p rs (PID.Init r0 s0).1 rfl (by simp [PID.Init]) hbad
    rw [this]; simp [PID.Init]
  · intro s r h hr
    exact (PID.Spin_good p r s h hr).1
  · intro s r h
    rw [PID.Spin_of_fault p r s h]; exact h
end PIDFacts

/-- The witness of C8. -/
theorem C8_witness :
    ((PID.SpinMany examplePlatform [-50, -50, -50, -50, -50, -50, -50]
        (PID.Init 20 examplePID).1).temperatureFault = true ↔ 7 ≤ 7) ∧
    (PID.Spin examplePlatform 20 examplePID).1.badTemperatureCount = 0 ∧
    (PID.Spin examplePlatform 20
      (PID.Spin examplePlatform (-50) examplePID).1).1.temperatureFault = true :=
  ⟨(C8_fault_latches_on_seventh_bad_reading examplePlatform examplePID 20).1
      [-50, -50, -50, -50, -50, -50, -50] (by decide!),
   (C8_fault_latches_on_seventh_bad_reading examplePlatform examplePID 20).2.1
      examplePID 20 (by decide!) (by decide!),
   (C8_fault_latches_on_seventh_bad_reading examplePlatform examplePID 20).2.2
      (PID.Spin examplePlatform (-50) examplePID).1 20 (by decide!)⟩

/-- C2 (the code at the failing input).  The bed heater is bang-bang, its set point is
60 and the sensor has read -50 six times.  The seventh `PID::Spin` latches
`temperatureFault`, and the last value it passes to `SetHeater` is 1, not 0: after
latching, the call falls through to the bang-bang regulation.  The same happens for
a PID heater (heater 1) whose error exceeds the full PID band. -/
theorem C2_latching_spin_leaves_heater_on :
    (PID.Spin examplePlatform (-50) examplePID).1.temperatureFault = true ∧
    (PID.Spin examplePlatform (-50) examplePID).2
      = [PlatformCall.setHeater 0 0, PlatformCall.setHeater 0 1] ∧
    lastHeaterPower (PID.Spin examplePlatform (-50) examplePID).2 = some 1 ∧
    (PID.Spin examplePlatform (-50) { examplePID with heater := 1 }).1.temperatureFault = true ∧
    lastHeaterPower (PID.Spin examplePlatform (-50) { examplePID with heater := 1 }).2
      = some 1 := by
  decide!

/-- C9 (the code at the failing input).  The `PID::Spin` that latches the fault of
heater 0 makes two `SetHeater` calls and nothing else; the tool that uses heater 0 is
not touched, its `heaterFault` is still false and `ToolCanDrive` still answers true.
Only a call of `Tool::FlagTemperatureFault`, which `PID::Spin` does not make, sets
the flag. -/
theorem C9_latching_spin_leaves_tools_unflagged :
    (PID.Spin examplePlatform (-50) examplePID).1.temperatureFault = true ∧
    (PID.Spin examplePlatform (-50) examplePID).2
      = [PlatformCall.setHeater 0 0, PlatformCall.setHeater 0 1] ∧
    exampleTool.heaterFault = false ∧
    Tool.ToolCanDrive true (fun _ => 200) exampleTool = true ∧
    (Tool.FlagTemperatureFault 0 [exampleTool]).map (Tool.ToolCanDrive true (fun _ => 200))
      = [false] := by
  decide!

/-! ## The DDA: Bresenham stepping and the velocity profile -/

section DDAFacts

variable {K : Type} [LinearOrderedField K] [FloorRing K]

omit [LinearOrderedField K] [FloorRing K] in
theorem pulses_append (drive : Nat) (xs ys : List (PlatformCall K)) :
    pulses drive (xs ++ ys) = pulses drive xs + pulses drive ys := by
  induction xs with
  | nil => simp [pulses]
  | cons x xs ih =>
    cases x <;> simp [pulses, ih, Nat.add_assoc]

/-- One pass of the loop body changes only `counter` and `active` of the DDA. -/
theorem DDA.StepDrive_dda (p : Platform K) (o : Nat → EndStopHit) (h : Nat → Bool)
    (drive : Nat) (s : StepState K) :
    ∃ a : Bool, (DDA.StepDrive p o h drive s).dda =
      { s.dda with counter := setAt s.dda.counter drive (nextCounter s.dda drive), active := a } := by
  unfold DDA.StepDrive nextCounter
  dsimp only
  by_cases hc : s.dda.counter drive + s.dda.delta drive > 0
  · simp only [hc, if_true]
    by_cases he : s.dda.checkEndStops = true
    · simp only [he, if_true]
      by_cases h1 : o drive = EndStopHit.lowHit
      · have h2 : ¬ o drive = EndStopHit.highHit := by rw [h1]; decide
        simp only [h1, h2, if_true, if_false]
        exact ⟨false, rfl⟩
      · by_cases h2 : o drive = EndStopHit.highHit
        · simp only [h1, h2, if_true, if_false]
          exact ⟨false, rfl⟩
        · simp only [h1, h2, if_false]
          exact ⟨s.dda.active, rfl⟩
    · simp only [he, if_false]
      exact ⟨s.dda.active, rfl⟩
  · simp only [hc, if_false]
    exact ⟨s.dda.active, rfl⟩

/-- Without an endstop hit, one pass of the loop body leaves the Move and `active`
alone and emits a pulse exactly when the counter overflows. -/
theorem DDA.StepDrive_noStop (p : Platform K) (o : Nat → EndStopHit) (h : Nat → Bool)
    (drive : Nat) (s : StepState K) (ho : o drive = EndStopHit.noStop) :
    (DDA.StepDrive p o h drive s).move = s.move ∧
    (DDA.StepDrive p o h drive s).dda.active = s.dda.active ∧
    (DDA.StepDrive p o h drive s).calls =
      s.calls ++ (if s.dda.counter drive + s.dda.delta drive > 0
        then [PlatformCall.step drive] else []) := by
  unfold DDA.StepDrive
  dsimp only
  by_cases hc : s.dda.counter drive + s.dda.delta drive > 0
  · simp only [hc, if_true, ho]
    by_cases he : s.dda.checkEndStops = true
    · simp [he]
    · simp [he]
  · simp [hc]

/-- The drive loop of `DDA::Step` over the first `n` drives. -/
theorem DDA.stepLoop_dda (p : Platform K) (o : Nat → EndStopHit) (h : Nat → Bool)
    (n : Nat) (s : StepState K) :
    ∃ a : Bool, ((List.range n).foldl (fun s drive => DDA.StepDrive p o h drive s) s).dda =
      { s.dda with
        counter := fun j => if j < n then nextCounter s.dda j else s.dda.counter j
        active := a } := by
  induction n with
  | zero => exact ⟨s.dda.active, by simp⟩
  | succ n ih =>
    obtain ⟨a, ha⟩ := ih
    rw [List.range_succ, List.foldl_append]
    simp only [List.foldl_cons, List.foldl_nil]
    obtain ⟨a1, ha1⟩ := DDA.StepDrive_dda p o h n
      ((List.range n).foldl (fun s drive => DDA.StepDrive p o h drive s) s)
    refine ⟨a1, ?_⟩
    rw [ha1, ha]
    simp only [DDA.mk.injEq, and_true, true_and]
    funext j
    unfold setAt nextCounter
    simp only [lt_self_iff_false, if_false]
    by_cases hj : j = n
    · subst hj; simp
    · have : j < n + 1 ↔ j < n := by omega
      simp [hj, this]

theorem DDA.stepLoop_noStop (p : Platform K) (o : Nat → EndStopHit) (h : Nat → Bool)
    (ho : ∀ drive, o drive = EndStopHit.noStop) (n : Nat) (s : StepState K) (j : Nat) :
    ((List.range n).foldl (fun s drive => DDA.StepDrive p o h drive s) s).move = s.move ∧
    ((List.range n).foldl (fun s drive => DDA.StepDrive p o h drive s) s).dda.active
      = s.dda.active ∧
    pulses j ((List.range n).foldl (fun s drive => DDA.StepDrive p o h drive s) s).calls
      = pulses j s.calls +
        (if j < n ∧ s.dda.counter j + s.dda.delta j > 0 then 1 else 0) := by
  induction n with
  | zero => simp
  | succ n ih =>
    obtain ⟨ih1, ih2, ih3⟩ := ih
    obtain ⟨a, ha⟩ := DDA.stepLoop_dda p o h n s
    rw [List.range_succ, List.foldl_append]
    simp only [List.foldl_cons, List.foldl_nil]
    obtain ⟨h1, h2, h3⟩ := DDA.StepDrive_noStop p o h n
      ((List.range n).foldl (fun s drive => DDA.StepDrive p o h drive s) s) (ho n)
    refine ⟨h1.trans ih1, h2.trans ih2, ?_⟩
    rw [h3, pulses_append, ih3, ha]
    simp only [lt_self_iff_false, if_false]
    by_cases hj : j = n
    · subst hj
      by_cases hc : s.dda.counter j + s.dda.delta j > 0
      · simp [hc, pulses]
      · simp [hc, pulses]
    · have : j < n + 1 ↔ j < n := by omega
      simp only [this]
      by_cases hc : s.dda.counter n + s.dda.delta n > 0
      · simp [hc, pulses, Ne.symm hj]
      · simp [hc, pulses]

/-- The DDA after a call of `DDA::Step` that runs the drive loop (DDA and Move
active): the counters of all drives have been advanced, whatever the endstops say. -/
theorem DDA.Step_counter (p : Platform K) (o : Nat → EndStopHit) (h : Nat → Bool)
    (m : Move K) (d : DDA K) (hd : d.active = true) (hm : m.active = true) :
    (DDA.Step p o h m d).dda.counter
        = (fun j => if j < p.DRIVES then nextCounter d j else d.counter j) ∧
    (DDA.Step p o h m d).dda.delta = d.delta ∧
    (DDA.Step p o h m d).dda.totalSteps = d.totalSteps ∧
    (DDA.Step p o h m d).dda.instantDv = d.instantDv := by
  unfold DDA.Step
  simp only [hd, hm, not_true_eq_false, if_false]
  obtain ⟨a, ha⟩ := DDA.stepLoop_dda p o h p.DRIVES
    { move := m, dda := d, drivesMoving := 0, calls := [] }
  generalize (List.range p.DRIVES).foldl (fun s drive => DDA.StepDrive p o h drive s)
    { move := m, dda := d, drivesMoving := 0, calls := [] } = s1 at ha ⊢
  by_cases h1 : s1.dda.active = true
  · simp only [h1, if_true]
    by_cases h2 : (DDA.StepVelocity s1).dda.active = true
    · simp only [h2, not_true_eq_false, if_false]
      simp [DDA.StepVelocity, ha]
    · simp only [h2, not_false_eq_true, if_true]
      simp [DDA.StepFinish, DDA.StepVelocity, ha]
  · simp only [h1, if_false, not_false_eq_true, if_true, Bool.false_eq_true]
    simp [DDA.StepFinish, ha]

/-- A call of `DDA::Step` on an inactive DDA or with an inactive Move does nothing. -/
theorem DDA.Step_idle (p : Platform K) (o : Nat → EndStopHit) (h : Nat → Bool)
    (m : Move K) (d : DDA K) (hd : d.active = false ∨ m.active = false) :
    DDA.Step p o h m d = { move := m, dda := d, drivesMoving := 0, calls := [] } := by
  unfold DDA.Step
  rcases hd with hd | hd
  · simp [hd]
  · simp [hd]

/-- A call of `DDA::Step` with DDA and Move active and no endstop hit: the step count
advances, the DDA stays active while steps remain, and each drive emits one pulse
exactly when its counter overflows. -/
theorem DDA.Step_noStop (p : Platform K) (o : Nat → EndStopHit) (h : Nat → Bool)
    (ho : ∀ drive, o drive = EndStopHit.noStop)
    (m : Move K) (d : DDA K) (hd : d.active = true) (hm : m.active = true) (j : Nat) :
    (DDA.Step p o h m d).dda.stepCount = d.stepCount + 1 ∧
    ((DDA.Step p o h m d).dda.active = true ↔ d.stepCount + 1 < d.totalSteps) ∧
    d.instantDv ≤ (DDA.Step p o h m d).dda.velocity ∧
    pulses j (DDA.Step p o h m d).calls
      = (if j < p.DRIVES ∧ d.counter j + d.delta j > 0 then 1 else 0) := by
  unfold DDA.Step
  simp only [hd, hm, not_true_eq_false, if_false]
  obtain ⟨a, ha⟩ := DDA.stepLoop_dda p o h p.DRIVES
    { move := m, dda := d, drivesMoving := 0, calls := [] }
  obtain ⟨-, h2, h3⟩ := DDA.stepLoop_noStop p o h ho p.DRIVES
    { move := m, dda := d, drivesMoving := 0, calls := [] } j
  generalize (List.range p.DRIVES).foldl (fun s drive => DDA.StepDrive p o h drive s)
    { move := m, dda := d, drivesMoving := 0, calls := [] } = s1 at ha h2 h3 ⊢
  simp only [hd] at h2
  simp only [h2, if_true]
  have hv : d.instantDv ≤ (DDA.StepVelocity s1).dda.velocity := by
    simp only [DDA.StepVelocity, ha]
    split_ifs <;> first | exact le_refl _ | (apply le_of_not_lt; assumption)
  have hp : pulses j (DDA.StepVelocity s1).calls
      = (if j < p.DRIVES ∧ d.counter j + d.delta j > 0 then 1 else 0) := by
    simp only [DDA.StepVelocity, pulses_append, h3]
    simp [pulses]
  by_cases h4 : (DDA.StepVelocity s1).dda.active = true
  · simp only [h4, not_true_eq_false, if_false]
    refine ⟨by simp [DDA.StepVelocity, ha], ?_, hv, hp⟩
    simp [DDA.StepVelocity, ha] at h4
    simp [h4]
  · simp only [h4, not_false_eq_true, if_true]
    refine ⟨by simp [DDA.StepFinish, DDA.StepVelocity, ha], ?_, ?_, ?_⟩
    · simp [DDA.StepFinish, DDA.StepVelocity, ha] at h4 ⊢
    · simpa [DDA.StepFinish] using hv
    · show pulses j ((DDA.StepVelocity s1).calls ++ _) = _
      rw [pulses_append, hp]
      simp [pulses]

/-- The drive loop of `DDA::Init` changes only `delta`, `distance`, `directions` and
`totalSteps`; after `n` drives every `delta` below `n` lies between 0 and
`totalSteps`, and `bigDirection` is a drive that attains `totalSteps`. -/
theorem DDA.initLoop_spec (p : Platform K) (t q : Nat → Int) (d0 : DDA K)
    (h0 : d0.totalSteps = -1) (n : Nat) :
    let s := (List.range n).foldl (fun s drive => DDA.InitDrive p t q drive s) (d0, 0)
    (∃ (dl : Nat → Int) (ds : K) (dr : Nat → Bool) (ts : Int),
      s.1 = { d0 with delta := dl, distance := ds, directions := dr, totalSteps := ts }) ∧
    (∀ j, j < n → 0 ≤ s.1.delta j ∧ s.1.delta j ≤ s.1.totalSteps) ∧
    (n = 0 → s.1.totalSteps = -1) ∧
    (0 < n → s.2 < n ∧ s.1.delta s.2 = s.1.totalSteps) := by
  induction n with
  | zero =>
    simp only [List.range_zero, List.foldl_nil]
    refine ⟨⟨d0.delta, d0.distance, d0.directions, d0.totalSteps, rfl⟩, ?_, ?_, ?_⟩
    · intro j hj; omega
    · intro _; exact h0
    · intro h; omega
  | succ n ih =>
    simp only [List.range_succ, List.foldl_append, List.foldl_cons, List.foldl_nil]
    generalize (List.range n).foldl (fun s drive => DDA.InitDrive p t q drive s) (d0, 0) = s at ih
    obtain ⟨⟨dl, ds, dr, ts, hs⟩, hdel, hts, hbig⟩ := ih
    unfold DDA.InitDrive
    dsimp only
    generalize hδ : (if n < p.AXES then t n - q n else t n) = δ0
    generalize ha : (if δ0 ≥ 0 then δ0 else -δ0) = δ1
    have hδ1 : 0 ≤ δ1 := by
      rw [← ha]; split_ifs with hx
      · exact hx
      · omega
    by_cases hc : δ1 > s.1.totalSteps
    · simp only [hc, if_true]
      refine ⟨⟨_, _, _, _, by rw [hs]⟩, ?_, by intro hn; omega, ?_⟩
      · intro j hj
        by_cases hjn : j = n
        · subst hjn; simp [setAt, hδ1]
        · have hj' : j < n := by omega
          obtain ⟨h1, h2⟩ := hdel j hj'
          simp only [setAt, hjn, if_false]
          exact ⟨h1, by omega⟩
      · intro _
        exact ⟨by omega, by simp [setAt]⟩
    · simp only [hc, if_false]
      refine ⟨⟨_, _, _, _, by rw [hs]⟩, ?_, by intro hn; omega, ?_⟩
      · intro j hj
        by_cases hjn : j = n
        · subst hjn; simp only [setAt, if_true]; exact ⟨hδ1, by omega⟩
        · have hj' : j < n := by omega
          obtain ⟨h1, h2⟩ := hdel j hj'
          simp only [setAt, hjn, if_false]
          exact ⟨h1, h2⟩
      · intro _
        have hn : 0 < n := by
          rcases Nat.eq_zero_or_pos n with h | h
          · have := hts h
            omega
          · exact h
        obtain ⟨hb1, hb2⟩ := hbig hn
        refine ⟨by omega, ?_⟩
        have : s.2 ≠ n := by omega
        simpa [setAt, this] using hb2

/-- The loop of `DDA::Init`, as `DDA.InitSteps`. -/
theorem DDA.InitSteps_spec (p : Platform K) (m : Move K) (la : Nat) (d : DDA K) :
    let s := DDA.InitSteps p m la d
    (∃ (dl : Nat → Int) (ds : K) (dr : Nat → Bool) (ts : Int),
      s.1 = { d with
        active := false
        myLookAheadEntry := la
        checkEndStops := (m.lookAheadRing la).checkEndStops
        delta := dl, distance := ds, directions := dr, totalSteps := ts }) ∧
    (∀ j, j < p.DRIVES → 0 ≤ s.1.delta j ∧ s.1.delta j ≤ s.1.totalSteps) ∧
    (p.DRIVES = 0 → s.1.totalSteps = -1) ∧
    (0 < p.DRIVES → s.2 < p.DRIVES ∧ s.1.delta s.2 = s.1.totalSteps) := by
  unfold DDA.InitSteps
  exact DDA.initLoop_spec p _ _ _ rfl p.DRIVES

/-- Source `DDA::AccelerationCalculation` changes only `stopAStep` and `startDStep`. -/
theorem DDA.AccelerationCalculation_dda (p : Platform K) (e : LookAhead K) (u v : K)
    (r : Nat) (d : DDA K) :
    ∃ a b : Int, (DDA.AccelerationCalculation p e u v r d).1
      = { d with stopAStep := a, startDStep := b } := by
  unfold DDA.AccelerationCalculation
  dsimp only
  split_ifs <;> exact ⟨_, _, rfl⟩

/-- What `DDA::Init` leaves behind when the movement is not null. -/
theorem DDA.Init_spec (p : Platform K) (m : Move K) (la : Nat) (dbg : Bool) (d : DDA K)
    (hT : 0 < (DDA.Init p m la dbg d).2.1.totalSteps) :
    (DDA.Init p m la dbg d).1 = m ∧
    (∀ j, j < p.DRIVES →
      0 ≤ (DDA.Init p m la dbg d).2.1.delta j ∧
      (DDA.Init p m la dbg d).2.1.delta j ≤ (DDA.Init p m la dbg d).2.1.totalSteps ∧
      (DDA.Init p m la dbg d).2.1.counter j
        = Int.tdiv (-(DDA.Init p m la dbg d).2.1.totalSteps) 2) ∧
    (DDA.Init p m la dbg d).2.1.stepCount = 0 ∧
    (DDA.Init p m la dbg d).2.1.active = false ∧
    (DDA.Init p m la dbg d).2.1.instantDv = (m.lookAheadRing la).minSpeed ∧
    (DDA.Init p m la dbg d).2.1.velocity
      = (if (DDA.Init p m la dbg d).2.2.1 ≤ 0 then (m.lookAheadRing la).minSpeed
         else (DDA.Init p m la dbg d).2.2.1) ∧
    (∃ master, master < p.DRIVES ∧
      (DDA.Init p m la dbg d).2.1.delta master = (DDA.Init p m la dbg d).2.1.totalSteps ∧
      (DDA.Init p m la dbg d).2.1.timeStep
        = 1 / (p.driveStepsPerUnit master * (DDA.Init p m la dbg d).2.1.velocity)) := by
  have hloop := DDA.InitSteps_spec p m la d
  revert hT
  unfold DDA.Init
  dsimp only at hloop ⊢
  generalize DDA.InitSteps p m la d = s at hloop ⊢
  obtain ⟨⟨dl, ds, dr, ts, hs⟩, hdel, hts, hbig⟩ := hloop
  by_cases hnull : s.1.totalSteps ≤ 0
  · simp only [hnull, if_true]
    intro hT; omega
  · simp only [hnull, if_false]
    intro _
    have hn : 0 < p.DRIVES := by
      rcases Nat.eq_zero_or_pos p.DRIVES with h | h
      · have := hts h; omega
      · exact h
    obtain ⟨hb1, hb2⟩ := hbig hn
    obtain ⟨a, b, hab⟩ := DDA.AccelerationCalculation_dda p (m.lookAheadRing la)
      (m.lookAheadRing (Previous la)).v (m.lookAheadRing la).v moving
      (DDA.InitSetUp p (m.lookAheadRing la) s)
    generalize DDA.AccelerationCalculation p (m.lookAheadRing la)
      (m.lookAheadRing (Previous la)).v (m.lookAheadRing la).v moving
      (DDA.InitSetUp p (m.lookAheadRing la) s) = r at hab ⊢
    simp only [hab, DDA.InitSetUp]
    refine ⟨?_, ?_, ?_, ?_, ?_, ?_, ?_⟩
    · trivial
    · intro j hj
      obtain ⟨h1, h2⟩ := hdel j hj
      exact ⟨h1, h2, by simp [hj]⟩
    · trivial
    · rw [hs]
    · trivial
    · trivial
    · exact ⟨s.2, hb1, hb2, by rw [div_div]⟩

theorem nextCounter_bounds (d : DDA K) (j : Nat)
    (h : 0 ≤ d.delta j ∧ d.delta j ≤ d.totalSteps ∧ -d.totalSteps < d.counter j ∧ d.counter j ≤ 0) :
    -d.totalSteps < nextCounter d j ∧ nextCounter d j ≤ 0 := by
  unfold nextCounter
  split_ifs with hc <;> omega

theorem DDA.StepMany_append (p : Platform K) (xs ys : List (StepEnv K)) (d : DDA K) :
    DDA.StepMany p (xs ++ ys) d
      = ((DDA.StepMany p ys (DDA.StepMany p xs d).1).1,
         (DDA.StepMany p xs d).2 ++ (DDA.StepMany p ys (DDA.StepMany p xs d).1).2) := by
  induction xs generalizing d with
  | nil => simp [DDA.StepMany]
  | cons x xs ih => simp [DDA.StepMany, ih, List.append_assoc]

/-- Any call of `DDA::Step` keeps the Bresenham invariant, `delta`, `totalSteps`
and `instantDv`. -/
theorem DDA.Step_Bresenham (p : Platform K) (env : StepEnv K) (d : DDA K)
    (hB : DDA.Bresenham p d) :
    DDA.Bresenham p (DDA.Step p env.stopped env.axisIsHomed env.move d).dda ∧
    (DDA.Step p env.stopped env.axisIsHomed env.move d).dda.delta = d.delta ∧
    (DDA.Step p env.stopped env.axisIsHomed env.move d).dda.totalSteps = d.totalSteps ∧
    (DDA.Step p env.stopped env.axisIsHomed env.move d).dda.instantDv = d.instantDv := by
  by_cases hd : d.active = true
  · by_cases hm : env.move.active = true
    · obtain ⟨h1, h2, h3, h4⟩ := DDA.Step_counter p env.stopped env.axisIsHomed env.move d hd hm
      refine ⟨⟨by rw [h3]; exact hB.1, ?_⟩, h2, h3, h4⟩
      intro j hj
      rw [h1, h2, h3]
      simp only [hj, if_true]
      obtain ⟨a, b, c, e⟩ := hB.2 j hj
      obtain ⟨f, g⟩ := nextCounter_bounds d j ⟨a, b, c, e⟩
      exact ⟨a, b, f, g⟩
    · have hm' : env.move.active = false := by
        cases hx : env.move.active <;> simp_all
      rw [DDA.Step_idle p _ _ _ _ (Or.inr hm')]
      exact ⟨hB, rfl, rfl, rfl⟩
  · have hd' : d.active = false := by
      cases hx : d.active <;> simp_all
    rw [DDA.Step_idle p _ _ _ _ (Or.inl hd')]
    exact ⟨hB, rfl, rfl, rfl⟩

theorem DDA.StepMany_Bresenham (p : Platform K) (envs : List (StepEnv K)) (d : DDA K)
    (hB : DDA.Bresenham p d) :
    DDA.Bresenham p (DDA.StepMany p envs d).1 ∧
    (DDA.StepMany p envs d).1.delta = d.delta ∧
    (DDA.StepMany p envs d).1.totalSteps = d.totalSteps ∧
    (DDA.StepMany p envs d).1.instantDv = d.instantDv := by
  induction envs generalizing d with
  | nil => exact ⟨hB, rfl, rfl, rfl⟩
  | cons env envs ih =>
    obtain ⟨h1, h2, h3, h4⟩ := DDA.Step_Bresenham p env d hB
    obtain ⟨i1, i2, i3, i4⟩ := ih _ h1
    simp only [DDA.StepMany]
    exact ⟨i1, i2.trans h2, i3.trans h3, i4.trans h4⟩

/-- An inactive DDA ignores every `DDA::Step`. -/
theorem DDA.StepMany_idle (p : Platform K) (envs : List (StepEnv K)) (d : DDA K)
    (hd : d.active = false) : DDA.StepMany p envs d = (d, []) := by
  induction envs with
  | nil => rfl
  | cons env envs ih =>
    simp only [DDA.StepMany]
    rw [DDA.Step_idle p _ _ _ _ (Or.inl hd)]
    simp [ih]

/-- A run of `n` undisturbed calls of `DDA::Step` that fit into the segment. -/
theorem DDA.StepMany_noStop (p : Platform K) (envs : List (StepEnv K)) (d : DDA K)
    (hact : ∀ env ∈ envs, env.move.active = true)
    (hno : ∀ env ∈ envs, ∀ drive, env.stopped drive = EndStopHit.noStop)
    (hB : DDA.Bresenham p d)
    (ha : d.active = true ↔ d.stepCount < d.totalSteps)
    (hn : d.stepCount + envs.length ≤ d.totalSteps) :
    (DDA.StepMany p envs d).1.stepCount = d.stepCount + envs.length ∧
    ((DDA.StepMany p envs d).1.active = true ↔ d.stepCount + envs.length < d.totalSteps) ∧
    ∀ j, j < p.DRIVES →
      (DDA.StepMany p envs d).1.counter j + d.totalSteps * (pulses j (DDA.StepMany p envs d).2)
        = d.counter j + envs.length * d.delta j := by
  induction envs generalizing d with
  | nil =>
    simp only [DDA.StepMany, List.length_nil, Nat.cast_zero, add_zero, pulses]
    exact ⟨trivial, ha, fun j _ => by simp⟩
  | cons env envs ih =>
    simp only [List.length_cons, Nat.cast_add, Nat.cast_one] at hn ⊢
    have hd : d.active = true := ha.mpr (by omega)
    have hm := hact env (List.mem_cons_self _ _)
    have ho := hno env (List.mem_cons_self _ _)
    obtain ⟨c1, c2, c3, -⟩ := DDA.Step_counter p env.stopped env.axisIsHomed env.move d hd hm
    obtain ⟨hB', -⟩ := DDA.Step_Bresenham p env d hB
    have hs := fun j => DDA.Step_noStop p env.stopped env.axisIsHomed ho env.move d hd hm j
    obtain ⟨s1, s2, -, -⟩ := hs 0
    have ih' := ih (DDA.Step p env.stopped env.axisIsHomed env.move d).dda
      (fun e he => hact e (List.mem_cons_of_mem _ he))
      (fun e he => hno e (List.mem_cons_of_mem _ he)) hB'
      (by rw [s1, c3]; exact s2) (by rw [s1, c3]; omega)
    obtain ⟨i1, i2, i3⟩ := ih'
    simp only [DDA.StepMany]
    refine ⟨by rw [i1, s1]; ring, by rw [i2, s1, c3]; constructor <;> intro <;> omega, ?_⟩
    intro j hj
    have := i3 j hj
    rw [c1, c2, c3] at this
    simp only [hj, if_true] at this
    rw [pulses_append, (hs j).2.2.2]
    unfold nextCounter at this
    simp only [hj, true_and]
    split_ifs at this ⊢ with hc
    · push_cast; linarith
    · push_cast; linarith

theorem tdiv_neg_two_bounds (t : Int) (ht : 0 < t) :
    -t < Int.tdiv (-t) 2 ∧ Int.tdiv (-t) 2 ≤ 0 := by
  rw [Int.neg_tdiv, Int.tdiv_eq_ediv (le_of_lt ht) (by norm_num)]
  omega

/-- `DDA::Init` on a movement that is not null establishes the Bresenham invariant,
and `DDA::Start` keeps it. -/
theorem DDA.Init_Bresenham (p : Platform K) (m : Move K) (la : Nat) (dbg : Bool) (d : DDA K)
    (hT : 0 < (DDA.Init p m la dbg d).2.1.totalSteps) (start : Bool) :
    DDA.Bresenham p
      (if start then (DDA.Start p (DDA.Init p m la dbg d).2.1).1
       else (DDA.Init p m la dbg d).2.1) := by
  obtain ⟨-, h2, -⟩ := DDA.Init_spec p m la dbg d hT
  have hb := tdiv_neg_two_bounds _ hT
  cases start
  · refine ⟨hT, fun j hj => ?_⟩
    obtain ⟨a, b, c⟩ := h2 j hj
    simp only [Bool.false_eq_true, if_false]
    rw [c]
    exact ⟨a, b, hb.1, hb.2⟩
  · refine ⟨hT, fun j hj => ?_⟩
    obtain ⟨a, b, c⟩ := h2 j hj
    simp only [if_true, DDA.Start]
    rw [c]
    exact ⟨a, b, hb.1, hb.2⟩

/-- Any call of `DDA::Step` either leaves step count and velocity alone or takes a
step and leaves the velocity at or above `instantDv`. -/
theorem DDA.Step_velocity (p : Platform K) (env : StepEnv K) (d : DDA K) :
    ((DDA.Step p env.stopped env.axisIsHomed env.move d).dda.stepCount = d.stepCount ∧
      (DDA.Step p env.stopped env.axisIsHomed env.move d).dda.velocity = d.velocity ∧
      (DDA.Step p env.stopped env.axisIsHomed env.move d).dda.instantDv = d.instantDv) ∨
    ((DDA.Step p env.stopped env.axisIsHomed env.move d).dda.stepCount = d.stepCount + 1 ∧
      d.instantDv ≤ (DDA.Step p env.stopped env.axisIsHomed env.move d).dda.velocity ∧
      (DDA.Step p env.stopped env.axisIsHomed env.move d).dda.instantDv = d.instantDv) := by
  by_cases hd : d.active = true ∧ env.move.active = true
  · obtain ⟨hd, hm⟩ := hd
    unfold DDA.Step
    simp only [hd, hm, not_true_eq_false, if_false]
    obtain ⟨a, ha⟩ := DDA.stepLoop_dda p env.stopped env.axisIsHomed p.DRIVES
      { move := env.move, dda := d, drivesMoving := 0, calls := [] }
    generalize (List.range p.DRIVES).foldl
      (fun s drive => DDA.StepDrive p env.stopped env.axisIsHomed drive s)
      { move := env.move, dda := d, drivesMoving := 0, calls := [] } = s1 at ha ⊢
    have hv : d.instantDv ≤ (DDA.StepVelocity s1).dda.velocity := by
      simp only [DDA.StepVelocity, ha]
      split_ifs <;> first | exact le_refl _ | (apply le_of_not_lt; assumption)
    by_cases h1 : s1.dda.active = true
    · right
      simp only [h1, if_true]
      by_cases h2 : (DDA.StepVelocity s1).dda.active = true
      · simp only [h2, not_true_eq_false, if_false]
        exact ⟨by simp [DDA.StepVelocity, ha], hv, by simp [DDA.StepVelocity, ha]⟩
      · simp only [h2, not_false_eq_true, if_true]
        exact ⟨by simp [DDA.StepFinish, DDA.StepVelocity, ha], by simpa [DDA.StepFinish] using hv,
          by simp [DDA.StepFinish, DDA.StepVelocity, ha]⟩
    · left
      simp only [h1, if_false, not_false_eq_true, if_true, Bool.false_eq_true]
      exact ⟨by simp [DDA.StepFinish, ha], by simp [DDA.StepFinish, ha],
        by simp [DDA.StepFinish, ha]⟩
  · left
    have : d.active = false ∨ env.move.active = false := by
      by_cases h1 : d.active = true
      · right
        cases hx : env.move.active
        · rfl
        · exact absurd ⟨h1, hx⟩ hd
      · left
        cases hx : d.active
        · rfl
        · exact absurd hx h1
    rw [DDA.Step_idle p _ _ _ _ this]
    exact ⟨rfl, rfl, rfl⟩

theorem DDA.StepMany_velocity (p : Platform K) (envs : List (StepEnv K)) (d : DDA K)
    (h0 : 0 ≤ d.stepCount) (hv : 0 < d.stepCount → d.instantDv ≤ d.velocity) :
    0 ≤ (DDA.StepMany p envs d).1.stepCount ∧
    (DDA.StepMany p envs d).1.instantDv = d.instantDv ∧
    (0 < (DDA.StepMany p envs d).1.stepCount →
      d.instantDv ≤ (DDA.StepMany p envs d).1.velocity) := by
  induction envs generalizing d with
  | nil => exact ⟨h0, rfl, hv⟩
  | cons env envs ih =>
    simp only [DDA.StepMany]
    rcases DDA.Step_velocity p env d with ⟨a, b, c⟩ | ⟨a, b, c⟩
    · obtain ⟨i1, i2, i3⟩ := ih (DDA.Step p env.stopped env.axisIsHomed env.move d).dda
        (by rw [a]; exact h0) (by rw [a, b, c]; exact hv)
      exact ⟨i1, i2.trans c, by rw [c] at i3; exact i3⟩
    · obtain ⟨i1, i2, i3⟩ := ih (DDA.Step p env.stopped env.axisIsHomed env.move d).dda
        (by rw [a]; omega) (by rw [c]; intro _; exact b)
      exact ⟨i1, i2.trans c, by rw [c] at i3; exact i3⟩

/-- C1. A DDA set up by `DDA::Init` with `totalSteps > 0`, started, and driven by
`DDA::Step` with the Move active and no endstop triggered, is active exactly as long as
fewer than `totalSteps` calls have been made, and once `totalSteps` calls have been made
the number of step pulses emitted on each drive equals `delta` of that drive. -/
theorem C1_segment_emits_delta_pulses (p : Platform K) (m : Move K) (la : Nat) (dbg : Bool)
    (d : DDA K) (envs : List (StepEnv K))
    (hT : 0 < (DDA.Init p m la dbg d).2.1.totalSteps)
    (hact : ∀ env ∈ envs, env.move.active = true)
    (hno : ∀ env ∈ envs, ∀ drive, env.stopped drive = EndStopHit.noStop) :
    ((DDA.StepMany p envs (DDA.Start p (DDA.Init p m la dbg d).2.1).1).1.active = true
      ↔ (envs.length : Int) < (DDA.Init p m la dbg d).2.1.totalSteps) ∧
    ((DDA.Init p m la dbg d).2.1.totalSteps ≤ envs.length →
      ∀ j, j < p.DRIVES →
        (pulses j (DDA.StepMany p envs (DDA.Start p (DDA.Init p m la dbg d).2.1).1).2 : Int)
          = (DDA.Init p m la dbg d).2.1.delta j) := by
  have hB := DDA.Init_Bresenham p m la dbg d hT true
  simp only [if_true] at hB
  obtain ⟨-, -, hsc, -⟩ := DDA.Init_spec p m la dbg d hT
  generalize hd0 : (DDA.Init p m la dbg d).2.1 = d0 at *
  have hd1 : (DDA.Start p d0).1 = { d0 with active := true } := rfl
  generalize hd1' : (DDA.Start p d0).1 = d1 at *
  have e1 : d1.totalSteps = d0.totalSteps := by rw [hd1]
  have e2 : d1.stepCount = 0 := by rw [hd1]; exact hsc
  have e3 : d1.delta = d0.delta := by rw [hd1]
  have e4 : d1.active = true := by rw [hd1]
  rw [← e1, ← e3]
  have hT : 0 < d1.totalSteps := by rw [e1]; exact hT
  have ha : d1.active = true ↔ d1.stepCount < d1.totalSteps := by
    rw [e4, e2]; exact ⟨fun _ => hT, fun _ => rfl⟩
  by_cases hn : (envs.length : Int) ≤ d1.totalSteps
  · obtain ⟨r1, r2, r3⟩ := DDA.StepMany_noStop p envs d1 hact hno hB ha (by rw [e2]; omega)
    rw [e2, zero_add] at r2
    refine ⟨r2, fun hge j hj => ?_⟩
    have hlen : (envs.length : Int) = d1.totalSteps := le_antisymm hn hge
    have hb := (DDA.StepMany_Bresenham p envs d1 hB).1.2 j hj
    rw [(DDA.StepMany_Bresenham p envs d1 hB).2.2.1] at hb
    have hb1 := hB.2 j hj
    have := r3 j hj
    rw [hlen] at this
    have key : d1.totalSteps * ((pulses j (DDA.StepMany p envs d1).2 : Int) - d1.delta j)
        = d1.counter j - (DDA.StepMany p envs d1).1.counter j := by linarith
    have hlt : d1.totalSteps * ((pulses j (DDA.StepMany p envs d1).2 : Int) - d1.delta j)
        < d1.totalSteps * 1 := by rw [key]; omega
    have hgt : d1.totalSteps * (-1)
        < d1.totalSteps * ((pulses j (DDA.StepMany p envs d1).2 : Int) - d1.delta j) := by
      rw [key]; omega
    have h1 := lt_of_mul_lt_mul_left hlt (le_of_lt hT)
    have h2 := lt_of_mul_lt_mul_left hgt (le_of_lt hT)
    omega
  · have hn' : d1.totalSteps < envs.length := by omega
    have hsplit : envs = envs.take d1.totalSteps.toNat ++ envs.drop d1.totalSteps.toNat :=
      (List.take_append_drop _ _).symm
    have hlen : ((envs.take d1.totalSteps.toNat).length : Int) = d1.totalSteps := by
      rw [List.length_take]; omega
    obtain ⟨r1, r2, r3⟩ := DDA.StepMany_noStop p (envs.take d1.totalSteps.toNat) d1
      (fun e he => hact e (List.mem_of_mem_take he))
      (fun e he => hno e (List.mem_of_mem_take he)) hB ha (by rw [e2]; omega)
    rw [e2, zero_add, hlen] at r2
    have hidle : (DDA.StepMany p (envs.take d1.totalSteps.toNat) d1).1.active = false := by
      cases hx : (DDA.StepMany p (envs.take d1.totalSteps.toNat) d1).1.active
      · rfl
      · exact absurd (r2.mp hx) (lt_irrefl _)
    have hrun : DDA.StepMany p envs d1
        = ((DDA.StepMany p (envs.take d1.totalSteps.toNat) d1).1,
           (DDA.StepMany p (envs.take d1.totalSteps.toNat) d1).2) := by
      conv_lhs => rw [hsplit]
      rw [DDA.StepMany_append, DDA.StepMany_idle p _ _ hidle]
      simp
    rw [hrun]
    refine ⟨⟨fun h => absurd h (by rw [hidle]; simp), fun h => absurd h (by omega)⟩,
      fun _ j hj => ?_⟩
    have hb := (DDA.StepMany_Bresenham p (envs.take d1.totalSteps.toNat) d1 hB).1.2 j hj
    rw [(DDA.StepMany_Bresenham p (envs.take d1.totalSteps.toNat) d1 hB).2.2.1] at hb
    have hb1 := hB.2 j hj
    have := r3 j hj
    rw [hlen] at this
    have key : d1.totalSteps *
        ((pulses j (DDA.StepMany p (envs.take d1.totalSteps.toNat) d1).2 : Int) - d1.delta j)
        = d1.counter j - (DDA.StepMany p (envs.take d1.totalSteps.toNat) d1).1.counter j := by
      linarith
    have hlt : d1.totalSteps *
        ((pulses j (DDA.StepMany p (envs.take d1.totalSteps.toNat) d1).2 : Int) - d1.delta j)
        < d1.totalSteps * 1 := by rw [key]; omega
    have hgt : d1.totalSteps * (-1) < d1.totalSteps *
        ((pulses j (DDA.StepMany p (envs.take d1.totalSteps.toNat) d1).2 : Int) - d1.delta j) := by
      rw [key]; omega
    have h1 := lt_of_mul_lt_mul_left hlt (le_of_lt hT)
    have h2 := lt_of_mul_lt_mul_left hgt (le_of_lt hT)
    show (pulses j (DDA.StepMany p (envs.take d1.totalSteps.toNat) d1).2 : Int) = _
    omega

/-- C7. For a DDA initialised by `DDA::Init` with `totalSteps > 0` (started or not) and
then put through any sequence of `DDA::Step` calls, in any environment: between the
calls every Bresenham counter satisfies `-totalSteps < counter ≤ 0`, hence
`|counter| ≤ totalSteps`, and the value after the increment inside the next call,
`counter + delta`, also satisfies `|counter + delta| ≤ totalSteps`. -/
theorem C7_counters_stay_bounded (p : Platform K) (m : Move K) (la : Nat) (dbg : Bool)
    (d : DDA K) (start : Bool) (envs : List (StepEnv K)) (j : Nat)
    (hT : 0 < (DDA.Init p m la dbg d).2.1.totalSteps) (hj : j < p.DRIVES) :
    (DDA.StepMany p envs
        (if start then (DDA.Start p (DDA.Init p m la dbg d).2.1).1
         else (DDA.Init p m la dbg d).2.1)).1.totalSteps
      = (DDA.Init p m la dbg d).2.1.totalSteps ∧
    -(DDA.Init p m la dbg d).2.1.totalSteps
      < (DDA.StepMany p envs
        (if start then (DDA.Start p (DDA.Init p m la dbg d).2.1).1
         else (DDA.Init p m la dbg d).2.1)).1.counter j ∧
    (DDA.StepMany p envs
        (if start then (DDA.Start p (DDA.Init p m la dbg d).2.1).1
         else (DDA.Init p m la dbg d).2.1)).1.counter j ≤ 0 ∧
    |(DDA.StepMany p envs
        (if start then (DDA.Start p (DDA.Init p m la dbg d).2.1).1
         else (DDA.Init p m la dbg d).2.1)).1.counter j|
      ≤ (DDA.Init p m la dbg d).2.1.totalSteps ∧
    |(DDA.StepMany p envs
        (if start then (DDA.Start p (DDA.Init p m la dbg d).2.1).1
         else (DDA.Init p m la dbg d).2.1)).1.counter j
      + (DDA.StepMany p envs
        (if start then (DDA.Start p (DDA.Init p m la dbg d).2.1).1
         else (DDA.Init p m la dbg d).2.1)).1.delta j|
      ≤ (DDA.Init p m la dbg d).2.1.totalSteps := by
  have hB := DDA.Init_Bresenham p m la dbg d hT start
  have e1 : (if start then (DDA.Start p (DDA.Init p m la dbg d).2.1).1
      else (DDA.Init p m la dbg d).2.1).totalSteps = (DDA.Init p m la dbg d).2.1.totalSteps := by
    cases start <;> rfl
  generalize (if start then (DDA.Start p (DDA.Init p m la dbg d).2.1).1
      else (DDA.Init p m la dbg d).2.1) = d1 at hB e1 ⊢
  obtain ⟨⟨-, hb⟩, -, h3, -⟩ := DDA.StepMany_Bresenham p envs d1 hB
  obtain ⟨a, b, c, e⟩ := hb j hj
  rw [h3, e1] at b c
  rw [h3, e1]
  refine ⟨rfl, c, e, ?_, ?_⟩
  · rw [abs_le]; constructor <;> omega
  · rw [abs_le]; constructor <;> omega

/-- C10 (amended). `DDA::Init` on a movement that is not null sets the initial velocity
to `u` when `u > 0` and to `instantDv` (the entry's `MinSpeed`) otherwise, where `u` is
the entry velocity it hands back, and `timeStep` to
`1 / (DriveStepsPerUnit(master) * velocity)` for a drive `master` with
`delta = totalSteps`; and as soon as a `DDA::Step` has advanced the step count, in
any environment, `velocity ≥ instantDv`. -/
theorem C10_velocity_floor_from_first_step (p : Platform K) (m : Move K) (la : Nat)
    (dbg : Bool) (d : DDA K) (start : Bool) (envs : List (StepEnv K))
    (hT : 0 < (DDA.Init p m la dbg d).2.1.totalSteps) :
    (DDA.Init p m la dbg d).2.1.instantDv = (m.lookAheadRing la).minSpeed ∧
    (DDA.Init p m la dbg d).2.1.velocity
      = (if (DDA.Init p m la dbg d).2.2.1 ≤ 0 then (DDA.Init p m la dbg d).2.1.instantDv
         else (DDA.Init p m la dbg d).2.2.1) ∧
    (∃ master, master < p.DRIVES ∧
      (DDA.Init p m la dbg d).2.1.delta master = (DDA.Init p m la dbg d).2.1.totalSteps ∧
      (DDA.Init p m la dbg d).2.1.timeStep
        = 1 / (p.driveStepsPerUnit master * (DDA.Init p m la dbg d).2.1.velocity)) ∧
    (0 < (DDA.StepMany p envs
        (if start then (DDA.Start p (DDA.Init p m la dbg d).2.1).1
         else (DDA.Init p m la dbg d).2.1)).1.stepCount →
      (DDA.Init p m la dbg d).2.1.instantDv
        ≤ (DDA.StepMany p envs
        (if start then (DDA.Start p (DDA.Init p m la dbg d).2.1).1
         else (DDA.Init p m la dbg d).2.1)).1.velocity) := by
  obtain ⟨-, -, hsc, -, hdv, hv, hm⟩ := DDA.Init_spec p m la dbg d hT
  refine ⟨hdv, by rw [hdv]; exact hv, hm, ?_⟩
  have e1 : (if start then (DDA.Start p (DDA.Init p m la dbg d).2.1).1
      else (DDA.Init p m la dbg d).2.1).stepCount = 0 := by
    cases start <;> exact hsc
  have e2 : (if start then (DDA.Start p (DDA.Init p m la dbg d).2.1).1
      else (DDA.Init p m la dbg d).2.1).instantDv = (DDA.Init p m la dbg d).2.1.instantDv := by
    cases start <;> rfl
  generalize (if start then (DDA.Start p (DDA.Init p m la dbg d).2.1).1
      else (DDA.Init p m la dbg d).2.1) = d1 at e1 e2 ⊢
  obtain ⟨-, -, i3⟩ := DDA.StepMany_velocity p envs d1 (by rw [e1])
    (by rw [e1]; intro h; exact absurd h (lt_irrefl _))
  rw [e2] at i3
  exact i3

end DDAFacts

/-- In `exampleEnv` no endstop is triggered. -/
theorem exampleEnv_noStop (envs : List (StepEnv ℚ)) (h : ∀ env ∈ envs, env = exampleEnv) :
    ∀ env ∈ envs, ∀ drive, env.stopped drive = EndStopHit.noStop := by
  intro env he drive
  rw [h env he]
  rfl

/-- The witness of C1: three undisturbed steps of a three-step move along X. -/
theorem C1_witness :
    (0 < (DDA.Init examplePlatform (exampleMove exampleRingA 1 2 1) 1 false
        exampleDDA).2.1.totalSteps) ∧
    ((DDA.StepMany examplePlatform [exampleEnv, exampleEnv, exampleEnv]
        (DDA.Start examplePlatform (DDA.Init examplePlatform (exampleMove exampleRingA 1 2 1) 1
          false exampleDDA).2.1).1).1.active = true
      ↔ (([exampleEnv, exampleEnv, exampleEnv].length : Int)
          < (DDA.Init examplePlatform (exampleMove exampleRingA 1 2 1) 1 false
              exampleDDA).2.1.totalSteps)) ∧
    (pulses 0 (DDA.StepMany examplePlatform [exampleEnv, exampleEnv, exampleEnv]
        (DDA.Start examplePlatform (DDA.Init examplePlatform (exampleMove exampleRingA 1 2 1) 1
          false exampleDDA).2.1).1).2 : Int)
      = (DDA.Init examplePlatform (exampleMove exampleRingA 1 2 1) 1 false
          exampleDDA).2.1.delta 0 :=
  ⟨by decide!,
   (C1_segment_emits_delta_pulses examplePlatform (exampleMove exampleRingA 1 2 1) 1 false
      exampleDDA [exampleEnv, exampleEnv, exampleEnv] (by decide!) (by decide!)
      (exampleEnv_noStop _ (by simp))).1,
   (C1_segment_emits_delta_pulses examplePlatform (exampleMove exampleRingA 1 2 1) 1 false
      exampleDDA [exampleEnv, exampleEnv, exampleEnv] (by decide!) (by decide!)
      (exampleEnv_noStop _ (by simp))).2
      (by decide!) 0 (by decide!)⟩

/-- The witness of C7. -/
theorem C7_witness :
    |(DDA.StepMany examplePlatform [exampleEnv, exampleEnv]
        (if true then (DDA.Start examplePlatform (DDA.Init examplePlatform
            (exampleMove exampleRingA 1 2 1) 1 false exampleDDA).2.1).1
         else (DDA.Init examplePlatform (exampleMove exampleRingA 1 2 1) 1 false
            exampleDDA).2.1)).1.counter 0|
      ≤ (DDA.Init examplePlatform (exampleMove exampleRingA 1 2 1) 1 false
          exampleDDA).2.1.totalSteps :=
  (C7_counters_stay_bounded examplePlatform (exampleMove exampleRingA 1 2 1) 1 false
    exampleDDA true [exampleEnv, exampleEnv] 0 (by decide!) (by decide!)).2.2.2.1

/-- The witness of C10 (amended). -/
theorem C10_witness :
    (0 < (DDA.StepMany examplePlatform [exampleEnv]
        (if true then (DDA.Start examplePlatform (DDA.Init examplePlatform
            (exampleMove exampleRingA 1 2 1) 1 false exampleDDA).2.1).1
         else (DDA.Init examplePlatform (exampleMove exampleRingA 1 2 1) 1 false
            exampleDDA).2.1)).1.stepCount) ∧
    (DDA.Init examplePlatform (exampleMove exampleRingA 1 2 1) 1 false exampleDDA).2.1.instantDv
      ≤ (DDA.StepMany examplePlatform [exampleEnv]
        (if true then (DDA.Start examplePlatform (DDA.Init examplePlatform
            (exampleMove exampleRingA 1 2 1) 1 false exampleDDA).2.1).1
         else (DDA.Init examplePlatform (exampleMove exampleRingA 1 2 1) 1 false
            exampleDDA).2.1)).1.velocity :=
  ⟨by decide!,
   (C10_velocity_floor_from_first_step examplePlatform (exampleMove exampleRingA 1 2 1) 1 false
    exampleDDA true [exampleEnv] (by decide!)).2.2.2 (by decide!)⟩

/-- C10, counterexample.  The previous move ends at speed 1 and the entry has
`MinSpeed` 15: `DDA::Init` hands back `u = 1`, sets the initial velocity to 1, below
`instantDv = 15`, and not to `max(u, instantDv)`. -/
theorem C10_counterexample :
    0 < (DDA.Init examplePlatform (exampleMove exampleRingA 1 2 1) 1 false
        exampleDDA).2.1.totalSteps ∧
    (DDA.Init examplePlatform (exampleMove exampleRingA 1 2 1) 1 false exampleDDA).2.2.1 = 1 ∧
    (DDA.Init examplePlatform (exampleMove exampleRingA 1 2 1) 1 false exampleDDA).2.1.instantDv
      = 15 ∧
    (DDA.Init examplePlatform (exampleMove exampleRingA 1 2 1) 1 false exampleDDA).2.1.velocity
      = 1 ∧
    ¬ ((DDA.Init examplePlatform (exampleMove exampleRingA 1 2 1) 1 false
          exampleDDA).2.1.instantDv
        ≤ (DDA.Init examplePlatform (exampleMove exampleRingA 1 2 1) 1 false
          exampleDDA).2.1.velocity) := by
  decide!

/-! ## Axis and bed compensation -/

section TransformFacts

variable {K : Type} [LinearOrderedField K] [FloorRing K]

/-- Writing `z + c` to the Z slot and then `z' - c` with the same `c` restores the point. -/
theorem setAt_Z_add_sub (q : Nat → K) (c : Nat → K → K → K) :
    setAt (setAt q Z_AXIS (q Z_AXIS + c 0 (q X_AXIS) (q Y_AXIS))) Z_AXIS
      (setAt q Z_AXIS (q Z_AXIS + c 0 (q X_AXIS) (q Y_AXIS)) Z_AXIS
        - c 0 (setAt q Z_AXIS (q Z_AXIS + c 0 (q X_AXIS) (q Y_AXIS)) X_AXIS)
              (setAt q Z_AXIS (q Z_AXIS + c 0 (q X_AXIS) (q Y_AXIS)) Y_AXIS)) = q := by
  funext j
  by_cases hj : j = Z_AXIS
  · subst hj
    simp [setAt, X_AXIS, Y_AXIS, Z_AXIS]
  · simp [setAt, hj]

/-- The bed compensation is undone exactly by its inverse, in every mode. -/
theorem Move.InverseBedTransform_BedTransform (m : Move K) (q : Nat → K) :
    Move.InverseBedTransform m (Move.BedTransform m q) = q := by
  unfold Move.InverseBedTransform Move.BedTransform
  by_cases hi : m.identityBedTransform = true
  · simp [hi]
  · simp only [hi, if_false, Bool.false_eq_true]
    generalize Move.NumberOfProbePoints m = n
    rcases n with _ | _ | _ | _ | _ | _ | n
    · rfl
    · rfl
    · rfl
    · have := setAt_Z_add_sub q (fun _ x y => m.aX * x + m.aY * y + m.aC)
      simp only [add_assoc] at this ⊢
      exact this
    · exact setAt_Z_add_sub q (fun _ x y => Move.SecondDegreeTransformZ m x y)
    · exact setAt_Z_add_sub q (fun _ x y => Move.TriangleZ m x y)
    · rfl

/-- The axis compensation is undone exactly by its inverse. -/
theorem Move.InverseAxisTransform_AxisTransform (m : Move K) (q : Nat → K) :
    Move.InverseAxisTransform m (Move.AxisTransform m q) = q := by
  funext j
  unfold Move.InverseAxisTransform Move.AxisTransform
  simp only [setAt, X_AXIS, Y_AXIS, Z_AXIS]
  by_cases h0 : j = 0
  · subst h0; simp
  · by_cases h1 : j = 1
    · subst h1; simp
    · simp [h0, h1]

/-- C4. Over exact arithmetic (any ordered field), for every point, every axis
tangents and every state of the bed compensation (identity, 3-point plane, 4-point
bilinear, 5-point triangles, or an incomplete set of probe points),
`Move::InverseTransform` undoes `Move::Transform`. -/
theorem C4_inverse_transform_undoes_transform (m : Move K) (xyzPoint : Nat → K) :
    Move.InverseTransform m (Move.Transform m xyzPoint) = xyzPoint := by
  unfold Move.InverseTransform Move.Transform
  rw [Move.InverseBedTransform_BedTransform, Move.InverseAxisTransform_AxisTransform]

end TransformFacts

/-! ## The look-ahead planner -/

section PlannerFacts
variable {K : Type} [LinearOrderedField K] [FloorRing K]

theorem roundf_lower (x : K) : x - 1 / 2 ≤ (roundf x : K) := by
  unfold roundf
  split_ifs with h
  · have := Int.lt_floor_add_one (x + 1 / 2)
    linarith
  · exact Int.le_ceil _

theorem roundf_upper (x : K) : (roundf x : K) ≤ x + 1 / 2 := by
  unfold roundf
  split_ifs with h
  · exact Int.floor_le _
  · have := Int.ceil_lt_add_one (x - 1 / 2)
    linarith

omit [LinearOrderedField K] [FloorRing K] in
theorem change_and_change : ¬ ((change &&& change) = 0) := by decide

/-- After `DDA::AccelerationCalculation` the exit speed it hands back can be reached
from the entry speed it hands back within the distance of the move. -/
theorem DDA.AccelerationCalculation_reachable (p : Platform K) (e : LookAhead K) (u v : K)
    (d : DDA K)
    (hs : ∀ x y : K, 0 ≤ x → x * x ≤ y → x ≤ p.sqrt y)
    (hT : 0 < d.totalSteps) (ha : 0 < d.acceleration) (hd : 0 < d.distance)
    (hv0 : 0 ≤ v) (hvf : v ≤ e.requestedFeedrate) :
    (DDA.AccelerationCalculation p e u v moving d).2.2.1
      ≤ p.sqrt ((DDA.AccelerationCalculation p e u v moving d).2.1
          * (DDA.AccelerationCalculation p e u v moving d).2.1
          + 2 * d.acceleration * d.distance) ∧
    ((DDA.AccelerationCalculation p e u v moving d).2.2.2 &&& change = 0 →
      (DDA.AccelerationCalculation p e u v moving d).2.1 = u ∧
      (DDA.AccelerationCalculation p e u v moving d).2.2.1 = v) := by
  have hTK : (0 : K) < (d.totalSteps : K) := by exact_mod_cast hT
  have h2ad : 0 ≤ 2 * d.acceleration * d.distance := by positivity
  have hf0 : 0 ≤ e.requestedFeedrate := le_trans hv0 hvf
  unfold DDA.AccelerationCalculation
  dsimp only
  by_cases hcol : roundf (1 / 2 * (e.requestedFeedrate * e.requestedFeedrate - u * u)
        / d.acceleration * (d.totalSteps : K) / d.distance)
      ≥ d.totalSteps + roundf (1 / 2 * (v * v - e.requestedFeedrate * e.requestedFeedrate)
        / d.acceleration * (d.totalSteps : K) / d.distance)
  · rw [if_pos hcol]
    by_cases hinf : 1 / 2 * (1 / 2 * (v * v - u * u) / d.acceleration + d.distance) < 0
        ∨ 1 / 2 * (1 / 2 * (v * v - u * u) / d.acceleration + d.distance) > d.distance
    · rw [if_pos hinf]
      by_cases hvu : v > u
      · rw [if_pos hvu]
        refine ⟨le_refl _, fun h => ?_⟩
        exact absurd h change_and_change
      · rw [if_neg hvu]
        refine ⟨?_, fun h => absurd h change_and_change⟩
        dsimp only
        have h1 : v ≤ p.sqrt (v * v + 2 * d.acceleration * d.distance) :=
          hs v _ hv0 (by linarith)
        apply hs v _ hv0
        have : v * v ≤ p.sqrt (v * v + 2 * d.acceleration * d.distance)
            * p.sqrt (v * v + 2 * d.acceleration * d.distance) :=
          mul_le_mul h1 h1 hv0 (le_trans hv0 h1)
        linarith
    · rw [if_neg hinf]
      push_neg at hinf
      refine ⟨?_, fun _ => ⟨rfl, rfl⟩⟩
      dsimp only
      apply hs v _ hv0
      have h1 : 1 / 2 * (v * v - u * u) / d.acceleration ≤ d.distance := by linarith [hinf.2]
      rw [div_le_iff₀ ha] at h1
      linarith
  · rw [if_neg hcol]
    by_cases hsnap : d.totalSteps > 5
        ∧ roundf (1 / 2 * (e.requestedFeedrate * e.requestedFeedrate - u * u)
            / d.acceleration * (d.totalSteps : K) / d.distance) ≤ 1
        ∧ d.totalSteps + roundf (1 / 2 * (v * v - e.requestedFeedrate * e.requestedFeedrate)
            / d.acceleration * (d.totalSteps : K) / d.distance) ≥ d.totalSteps - 1
    · rw [if_pos hsnap]
      refine ⟨?_, fun h => absurd h change_and_change⟩
      dsimp only
      apply hs _ _ hf0
      linarith
    · rw [if_neg hsnap]
      refine ⟨?_, fun _ => ⟨rfl, rfl⟩⟩
      dsimp only
      apply hs v _ hv0
      push_neg at hcol
      -- roundf x + 1 ≤ T + roundf y, hence x - y ≤ T
      generalize hx : 1 / 2 * (e.requestedFeedrate * e.requestedFeedrate - u * u)
        / d.acceleration * (d.totalSteps : K) / d.distance = x at hcol
      generalize hy : 1 / 2 * (v * v - e.requestedFeedrate * e.requestedFeedrate)
        / d.acceleration * (d.totalSteps : K) / d.distance = y at hcol
      have hcolK : (roundf x : K) + 1 ≤ (d.totalSteps : K) + (roundf y : K) := by
        have : roundf x + 1 ≤ d.totalSteps + roundf y := by omega
        exact_mod_cast this
      have hxy : x - y ≤ (d.totalSteps : K) := by
        have := roundf_lower x
        have := roundf_upper y
        linarith
      have hyle : y ≤ 0 := by
        rw [← hy]
        have : v * v ≤ e.requestedFeedrate * e.requestedFeedrate :=
          mul_le_mul hvf hvf hv0 hf0
        apply div_nonpos_of_nonpos_of_nonneg _ (le_of_lt hd)
        apply mul_nonpos_of_nonpos_of_nonneg _ (le_of_lt hTK)
        apply div_nonpos_of_nonpos_of_nonneg _ (le_of_lt ha)
        linarith
      have hsum : x + y ≤ (d.totalSteps : K) := by linarith
      have hexp : x + y = (v * v - u * u) / (2 * d.acceleration) * (d.totalSteps : K)
          / d.distance := by
        rw [← hx, ← hy]; field_simp; ring
      rw [hexp, div_le_iff₀ hd, mul_comm (d.totalSteps : K)] at hsum
      have h3 : (v * v - u * u) / (2 * d.acceleration) ≤ d.distance :=
        le_of_mul_le_mul_right hsum hTK
      rw [div_le_iff₀ (by positivity)] at h3
      linarith

/-- The same for `DDA::Init` on a movement that is not null. -/
theorem DDA.Init_reachable (p : Platform K) (m : Move K) (la : Nat) (dbg : Bool) (d : DDA K)
    (hs : ∀ x y : K, 0 ≤ x → x * x ≤ y → x ≤ p.sqrt y)
    (hT : 0 < (DDA.Init p m la dbg d).2.1.totalSteps)
    (ha : 0 < (m.lookAheadRing la).acceleration)
    (hd : 0 < (DDA.Init p m la dbg d).2.1.distance)
    (hv0 : 0 ≤ (m.lookAheadRing la).v)
    (hvf : (m.lookAheadRing la).v ≤ (m.lookAheadRing la).requestedFeedrate) :
    (DDA.Init p m la dbg d).1 = m ∧
    (DDA.Init p m la dbg d).2.2.2.1
      ≤ p.sqrt ((DDA.Init p m la dbg d).2.2.1 * (DDA.Init p m la dbg d).2.2.1
          + 2 * (m.lookAheadRing la).acceleration * (DDA.Init p m la dbg d).2.1.distance) ∧
    ((DDA.Init p m la dbg d).2.2.2.2 &&& change = 0 →
      (DDA.Init p m la dbg d).2.2.1 = (m.lookAheadRing (Previous la)).v ∧
      (DDA.Init p m la dbg d).2.2.2.1 = (m.lookAheadRing la).v) := by
  revert hT hd
  unfold DDA.Init
  dsimp only
  generalize DDA.InitSteps p m la d = s
  by_cases hnull : s.1.totalSteps ≤ 0
  · rw [if_pos hnull]
    intro hT
    exact absurd hT (not_lt.mpr hnull)
  · rw [if_neg hnull]
    obtain ⟨a, b, hab⟩ := DDA.AccelerationCalculation_dda p (m.lookAheadRing la)
      (m.lookAheadRing (Previous la)).v (m.lookAheadRing la).v moving
      (DDA.InitSetUp p (m.lookAheadRing la) s)
    intro hT hd
    have hd' : 0 < (DDA.InitSetUp p (m.lookAheadRing la) s).distance := by
      simpa [hab] using hd
    have hT' : 0 < (DDA.InitSetUp p (m.lookAheadRing la) s).totalSteps := by
      simpa [hab] using hT
    have ha' : 0 < (DDA.InitSetUp p (m.lookAheadRing la) s).acceleration := ha
    obtain ⟨h1, h2⟩ := DDA.AccelerationCalculation_reachable p (m.lookAheadRing la)
      (m.lookAheadRing (Previous la)).v (m.lookAheadRing la).v
      (DDA.InitSetUp p (m.lookAheadRing la) s) hs hT' ha' hd' hv0 hvf
    refine ⟨rfl, ?_, h2⟩
    have e1 : (DDA.InitSetUp p (m.lookAheadRing la) s).acceleration
        = (m.lookAheadRing la).acceleration := rfl
    rw [e1] at h1
    simpa [hab] using h1

/-- The ring predecessor of a slot is a different slot. -/
theorem Previous_ne (i : Nat) : Previous i ≠ i := by
  unfold Previous LOOK_AHEAD_RING_LENGTH
  omega

omit [LinearOrderedField K] [FloorRing K] in
theorem or_complete_and_complete (x : Nat) : (x ||| complete) &&& complete ≠ 0 := by
  intro h
  have := congrArg (fun n => n.testBit 2) h
  have h4 : Nat.testBit 4 2 = true := by decide
  simp [complete, h4] at this

omit [FloorRing K] in
theorem Move.setEntry_ring (m : Move K) (i j : Nat) (e : LookAhead K) :
    (Move.setEntry m i e).lookAheadRing j = if j = i then e else m.lookAheadRing j := rfl

end PlannerFacts

/-! ### Ring cursors and the frame of the planner -/

theorem Next_lt (i : Nat) : Next i < LOOK_AHEAD_RING_LENGTH := by
  unfold Next LOOK_AHEAD_RING_LENGTH; omega

theorem Previous_lt (i : Nat) : Previous i < LOOK_AHEAD_RING_LENGTH := by
  unfold Previous LOOK_AHEAD_RING_LENGTH; omega

theorem Previous_Next (i : Nat) (h : i < LOOK_AHEAD_RING_LENGTH) : Previous (Next i) = i := by
  unfold Previous Next LOOK_AHEAD_RING_LENGTH at *; omega

/-- The loop `while(n2 != lookAheadRingAddPointer)` started with `n2 = a` leaves after
exactly `ringDistance a b` iterations: then `n2` is the add cursor `b` for the first
time. -/
theorem ringDistance_exact :
    ∀ a, a < LOOK_AHEAD_RING_LENGTH → ∀ b, b < LOOK_AHEAD_RING_LENGTH →
      Next^[ringDistance a b] a = b ∧ ∀ k, k < ringDistance a b → Next^[k] a ≠ b := by
  decide!

/-- The loop `do ... while(n0 != lookAheadRingGetPointer)` whose first iteration moves
`n0` to `y` leaves after exactly `ringDistance g y + 1` iterations: then `n0` is the
get cursor `g` for the first time. -/
theorem ringDistance_exact_back :
    ∀ g, g < LOOK_AHEAD_RING_LENGTH → ∀ y, y < LOOK_AHEAD_RING_LENGTH →
      Previous^[ringDistance g y] y = g ∧ ∀ k, k < ringDistance g y → Previous^[k] y ≠ g := by
  decide!

/-- Walking forward from the get cursor until the successor reaches the add cursor
ends on the slot before the add cursor. -/
theorem iterate_Next_ringDistance :
    ∀ g, g < LOOK_AHEAD_RING_LENGTH → ∀ a, a < LOOK_AHEAD_RING_LENGTH →
      Next^[ringDistance (Next g) a] g = Previous a := by
  decide!

/-- Walking backward from a slot for the ring distance from `g` ends on `g`. -/
theorem iterate_Previous_ringDistance :
    ∀ g, g < LOOK_AHEAD_RING_LENGTH → ∀ y, y < LOOK_AHEAD_RING_LENGTH →
      Previous^[ringDistance g y] y = g := by
  decide!

section FrameFacts
variable {K : Type} [LinearOrderedField K] [FloorRing K]

/-- The cursors of the junction loop. -/
theorem Move.junctionLoop_cursor (p : Platform K) (k : Nat) (s : PlanState K)
    (h2 : s.n2 = Next s.n1) :
    (Move.junctionLoop p k s).n1 = Next^[k] s.n1 := by
  induction k generalizing s with
  | zero => rfl
  | succ k ih =>
    rw [Move.junctionLoop, ih _ rfl, Function.iterate_succ_apply, h2]

/-- The cursors of the up loop. -/
theorem Move.upLoop_cursor (p : Platform K) (k : Nat) (s : PlanState K)
    (h2 : s.n2 = Next s.n1) (h0 : s.n0 = Previous s.n1) (h1 : s.n1 < LOOK_AHEAD_RING_LENGTH) :
    (Move.upLoop p k s).n0 = Previous (Move.upLoop p k s).n1 := by
  induction k generalizing s with
  | zero => exact h0
  | succ k ih =>
    rw [Move.upLoop]
    apply ih
    · rfl
    · show s.n1 = Previous s.n2
      rw [h2, Previous_Next _ h1]
    · show s.n2 < _
      rw [h2]; exact Next_lt _

/-- The cursor `n0` after the down loop. -/
theorem Move.downLoop_cursor (p : Platform K) (k : Nat) (s : PlanState K) :
    (Move.downLoop p k s).n0 = Previous^[k + 1] s.n0 := by
  induction k generalizing s with
  | zero => rfl
  | succ k ih =>
    rw [Move.downLoop, ih, Function.iterate_succ_apply (n := k + 1)]

omit [LinearOrderedField K] [FloorRing K] in
theorem LookAhead.EqExceptV_refl (e : LookAhead K) : LookAhead.EqExceptV e e := by
  cases e; rfl

omit [LinearOrderedField K] [FloorRing K] in
theorem LookAhead.EqExceptV_SetV (e0 e : LookAhead K) (x : K) (h : LookAhead.EqExceptV e0 e) :
    LookAhead.EqExceptV e0 (LookAhead.SetV x e) := by
  unfold LookAhead.EqExceptV at *
  rw [h]
  rfl

omit [LinearOrderedField K] [FloorRing K] in
theorem LookAhead.EqExceptV_processed (e0 e : LookAhead K) (h : LookAhead.EqExceptV e0 e) :
    e.processed = e0.processed := by
  unfold LookAhead.EqExceptV at h
  rw [h]

omit [LinearOrderedField K] [FloorRing K] in
theorem released_not_planned : ¬ (released &&& vCosineSet ≠ 0) := by decide

omit [LinearOrderedField K] [FloorRing K] in
theorem released_ne_unprocessed : released ≠ unprocessed := by decide

/-- The Move that `DDA::Init` hands back differs from the one it got at most in the
entry it was called on. -/
theorem DDA.Init_ring (p : Platform K) (m : Move K) (la : Nat) (dbg : Bool) (d : DDA K)
    (i : Nat) (hi : i ≠ la) :
    (DDA.Init p m la dbg d).1.lookAheadRing i = m.lookAheadRing i := by
  unfold DDA.Init
  dsimp only
  by_cases hnull : (DDA.InitSteps p m la d).1.totalSteps ≤ 0
  · rw [if_pos hnull]
    simp [Move.setEntry_ring, hi]
  · rw [if_neg hnull]

/-- A planning step keeps a released entry released and changes at most its `v`. -/
theorem Move.planEntry_frame (p : Platform K) (down : Bool) (n0 n1 : Nat) (m : Move K)
    (i : Nat) (e0 : LookAhead K) (hr : e0.processed = released)
    (h : LookAhead.EqExceptV e0 (m.lookAheadRing i)) :
    LookAhead.EqExceptV e0 ((Move.planEntry p down n0 n1 m).lookAheadRing i) := by
  unfold Move.planEntry
  by_cases hc : (m.lookAheadRing n1).processed &&& complete = 0
  · rw [if_pos hc]
    by_cases hvc : (m.lookAheadRing n1).processed &&& vCosineSet ≠ 0
    · rw [if_pos hvc]
      have hi : i ≠ n1 := by
        intro hin
        subst hin
        rw [LookAhead.EqExceptV_processed _ _ h, hr] at hvc
        exact released_not_planned hvc
      have hring := DDA.Init_ring p m n1 false m.lookAheadDDA i hi
      dsimp only
      generalize DDA.Init p m n1 false m.lookAheadDDA = r at hring ⊢
      have hbase : LookAhead.EqExceptV e0 (r.1.lookAheadRing i) := by rw [hring]; exact h
      have key : LookAhead.EqExceptV e0
          ((if r.2.2.2.2 &&& change ≠ 0 then
              Move.setEntry
                (Move.setEntry { r.1 with lookAheadDDA := r.2.1 } n0
                  (LookAhead.SetV r.2.2.1 (r.1.lookAheadRing n0)))
                n1 (LookAhead.SetV r.2.2.2.1
                  ((Move.setEntry { r.1 with lookAheadDDA := r.2.1 } n0
                    (LookAhead.SetV r.2.2.1 (r.1.lookAheadRing n0))).lookAheadRing n1))
            else { r.1 with lookAheadDDA := r.2.1 }).lookAheadRing i) := by
        split_ifs with hch
        · simp only [Move.setEntry_ring, hi, if_false]
          by_cases hi0 : i = n0
          · subst hi0
            simp only [if_true]
            exact LookAhead.EqExceptV_SetV _ _ _ hbase
          · simp only [hi0, if_false]
            exact hbase
        · exact hbase
      cases down
      · simp only [Bool.false_eq_true, if_false]
        exact key
      · simp only [if_true, Move.setEntry_ring, hi, if_false]
        exact key
    · rw [if_neg hvc]; exact h
  · rw [if_neg hc]; exact h

/-- Evaluating the cosine of an entry changes at most that entry. -/
theorem Move.Cosine_ring (p : Platform K) (m : Move K) (n i : Nat) (hi : i ≠ n) :
    (Move.Cosine p m n).1.lookAheadRing i = m.lookAheadRing i := by
  unfold Move.Cosine
  by_cases hc : (m.lookAheadRing n).cosine < 3 / 2
  · rw [if_pos hc]
  · rw [if_neg hc]
    dsimp only
    rw [Move.setEntry_ring, if_neg hi]

/-- A junction step leaves a released entry alone. -/
theorem Move.junctionEntry_frame (p : Platform K) (n1 n2 : Nat) (m : Move K)
    (i : Nat) (e0 : LookAhead K) (hr : e0.processed = released)
    (h : LookAhead.EqExceptV e0 (m.lookAheadRing i)) :
    LookAhead.EqExceptV e0 ((Move.junctionEntry p n1 n2 m).lookAheadRing i) := by
  unfold Move.junctionEntry
  by_cases hu : (m.lookAheadRing n1).processed = unprocessed
  · rw [if_pos hu]
    have hi : i ≠ n1 := by
      intro hin
      subst hin
      rw [LookAhead.EqExceptV_processed _ _ h, hr] at hu
      exact released_ne_unprocessed hu
    simp only [Move.setEntry_ring, hi, if_false]
    rw [Move.Cosine_ring p m n1 i hi]
    exact h
  · rw [if_neg hu]; exact h

theorem Move.upLoop_frame (p : Platform K) (k : Nat) (s : PlanState K)
    (i : Nat) (e0 : LookAhead K) (hr : e0.processed = released)
    (h : LookAhead.EqExceptV e0 (s.move.lookAheadRing i)) :
    LookAhead.EqExceptV e0 ((Move.upLoop p k s).move.lookAheadRing i) := by
  induction k generalizing s with
  | zero => exact h
  | succ k ih =>
    rw [Move.upLoop]
    exact ih _ (Move.planEntry_frame p false s.n0 s.n1 s.move i e0 hr h)

theorem Move.downLoop_frame (p : Platform K) (k : Nat) (s : PlanState K)
    (i : Nat) (e0 : LookAhead K) (hr : e0.processed = released)
    (h : LookAhead.EqExceptV e0 (s.move.lookAheadRing i)) :
    LookAhead.EqExceptV e0 ((Move.downLoop p k s).move.lookAheadRing i) := by
  induction k generalizing s with
  | zero => exact Move.planEntry_frame p true s.n0 s.n1 s.move i e0 hr h
  | succ k ih =>
    rw [Move.downLoop]
    exact ih _ (Move.planEntry_frame p true s.n0 s.n1 s.move i e0 hr h)

theorem Move.junctionLoop_frame (p : Platform K) (k : Nat) (s : PlanState K)
    (i : Nat) (e0 : LookAhead K) (hr : e0.processed = released)
    (h : LookAhead.EqExceptV e0 (s.move.lookAheadRing i)) :
    LookAhead.EqExceptV e0 ((Move.junctionLoop p k s).move.lookAheadRing i) := by
  induction k generalizing s with
  | zero => exact h
  | succ k ih =>
    rw [Move.junctionLoop]
    exact ih _ (Move.junctionEntry_frame p s.n1 s.n2 s.move i e0 hr h)

/-- The loops of `Move::DoLookAhead` never move the ring cursors of the Move. -/
theorem Move.planEntry_fields (p : Platform K) (down : Bool) (n0 n1 : Nat) (m : Move K) :
    (Move.planEntry p down n0 n1 m).lookAheadRingAddPointer = m.lookAheadRingAddPointer ∧
    (Move.planEntry p down n0 n1 m).lookAheadRingGetPointer = m.lookAheadRingGetPointer ∧
    (Move.planEntry p down n0 n1 m).addNoMoreMoves = m.addNoMoreMoves ∧
    (Move.planEntry p down n0 n1 m).lookAheadRingCount = m.lookAheadRingCount := by
  unfold Move.planEntry
  by_cases hc : (m.lookAheadRing n1).processed &&& complete = 0
  · rw [if_pos hc]
    by_cases hvc : (m.lookAheadRing n1).processed &&& vCosineSet ≠ 0
    · rw [if_pos hvc]
      have hm : (DDA.Init p m n1 false m.lookAheadDDA).1 = m ∨
          (DDA.Init p m n1 false m.lookAheadDDA).1
            = Move.setEntry m n1 (LookAhead.Release (m.lookAheadRing n1)) := by
        unfold DDA.Init
        dsimp only
        by_cases hnull : (DDA.InitSteps p m n1 m.lookAheadDDA).1.totalSteps ≤ 0
        · rw [if_pos hnull]; exact Or.inr rfl
        · rw [if_neg hnull]; exact Or.inl rfl
      dsimp only
      generalize DDA.Init p m n1 false m.lookAheadDDA = r at hm ⊢
      rcases hm with hm | hm <;> rw [hm] <;> cases down <;> split_ifs <;>
        exact ⟨rfl, rfl, rfl, rfl⟩
    · rw [if_neg hvc]; exact ⟨rfl, rfl, rfl, rfl⟩
  · rw [if_neg hc]; exact ⟨rfl, rfl, rfl, rfl⟩

theorem Move.upLoop_fields (p : Platform K) (k : Nat) (s : PlanState K) :
    (Move.upLoop p k s).move.lookAheadRingAddPointer = s.move.lookAheadRingAddPointer ∧
    (Move.upLoop p k s).move.lookAheadRingGetPointer = s.move.lookAheadRingGetPointer ∧
    (Move.upLoop p k s).move.addNoMoreMoves = s.move.addNoMoreMoves ∧
    (Move.upLoop p k s).move.lookAheadRingCount = s.move.lookAheadRingCount := by
  induction k generalizing s with
  | zero => exact ⟨rfl, rfl, rfl, rfl⟩
  | succ k ih =>
    rw [Move.upLoop]
    obtain ⟨a, b, c, d⟩ := ih
      { move := Move.planEntry p false s.n0 s.n1 s.move, n0 := s.n1, n1 := s.n2, n2 := Next s.n2 }
    obtain ⟨a1, b1, c1, d1⟩ := Move.planEntry_fields p false s.n0 s.n1 s.move
    exact ⟨a.trans a1, b.trans b1, c.trans c1, d.trans d1⟩

theorem Move.downLoop_fields (p : Platform K) (k : Nat) (s : PlanState K) :
    (Move.downLoop p k s).move.lookAheadRingAddPointer = s.move.lookAheadRingAddPointer ∧
    (Move.downLoop p k s).move.lookAheadRingGetPointer = s.move.lookAheadRingGetPointer ∧
    (Move.downLoop p k s).move.addNoMoreMoves = s.move.addNoMoreMoves ∧
    (Move.downLoop p k s).move.lookAheadRingCount = s.move.lookAheadRingCount := by
  induction k generalizing s with
  | zero => exact Move.planEntry_fields p true s.n0 s.n1 s.move
  | succ k ih =>
    rw [Move.downLoop]
    obtain ⟨a, b, c, d⟩ := ih
      { move := Move.planEntry p true s.n0 s.n1 s.move, n0 := Previous s.n0, n1 := s.n0,
        n2 := s.n1 }
    obtain ⟨a1, b1, c1, d1⟩ := Move.planEntry_fields p true s.n0 s.n1 s.move
    exact ⟨a.trans a1, b.trans b1, c.trans c1, d.trans d1⟩

/-- The up and down passes keep a released entry other than the one at the get
cursor released and change at most its `v`; they keep the cursors. -/
theorem Move.reachabilityPasses_frame (p : Platform K) (m : Move K)
    (hg : m.lookAheadRingGetPointer < LOOK_AHEAD_RING_LENGTH)
    (i : Nat) (e0 : LookAhead K) (hr : e0.processed = released)
    (hi : i ≠ m.lookAheadRingGetPointer)
    (h : LookAhead.EqExceptV e0 (m.lookAheadRing i)) :
    LookAhead.EqExceptV e0 ((Move.reachabilityPasses p m).lookAheadRing i) ∧
    (Move.reachabilityPasses p m).lookAheadRingAddPointer = m.lookAheadRingAddPointer ∧
    (Move.reachabilityPasses p m).lookAheadRingGetPointer = m.lookAheadRingGetPointer ∧
    (Move.reachabilityPasses p m).addNoMoreMoves = m.addNoMoreMoves ∧
    (Move.reachabilityPasses p m).lookAheadRingCount = m.lookAheadRingCount := by
  unfold Move.reachabilityPasses
  dsimp only
  generalize hk : ringDistance (Next m.lookAheadRingGetPointer) m.lookAheadRingAddPointer = k
  have hup := Move.upLoop_frame p k
    { move := m, n0 := Previous m.lookAheadRingGetPointer, n1 := m.lookAheadRingGetPointer,
      n2 := Next m.lookAheadRingGetPointer } i e0 hr h
  have hupf := Move.upLoop_fields p k
    { move := m, n0 := Previous m.lookAheadRingGetPointer, n1 := m.lookAheadRingGetPointer,
      n2 := Next m.lookAheadRingGetPointer }
  generalize Move.upLoop p k
    { move := m, n0 := Previous m.lookAheadRingGetPointer, n1 := m.lookAheadRingGetPointer,
      n2 := Next m.lookAheadRingGetPointer } = s1 at hup hupf ⊢
  have hcur := Move.downLoop_cursor p (ringDistance m.lookAheadRingGetPointer (Previous s1.n0)) s1
  rw [Function.iterate_succ_apply,
    iterate_Previous_ringDistance _ hg _ (Previous_lt _)] at hcur
  have hdown := Move.downLoop_frame p
    (ringDistance m.lookAheadRingGetPointer (Previous s1.n0)) s1 i e0 hr hup
  have hdownf := Move.downLoop_fields p
    (ringDistance m.lookAheadRingGetPointer (Previous s1.n0)) s1
  generalize Move.downLoop p (ringDistance m.lookAheadRingGetPointer (Previous s1.n0)) s1
    = s2 at hcur hdown hdownf ⊢
  obtain ⟨a, b, c, d⟩ := hdownf
  obtain ⟨a1, b1, c1, d1⟩ := hupf
  refine ⟨?_, a.trans a1, b.trans b1, c.trans c1, d.trans d1⟩
  rw [Move.setEntry_ring, hcur, if_neg hi]
  exact hdown

/-- The junction pass keeps a released entry other than the last one of the queue
released and changes at most its `v`. -/
theorem Move.junctionPass_frame (p : Platform K) (hid : Bool) (m : Move K)
    (hg : m.lookAheadRingGetPointer < LOOK_AHEAD_RING_LENGTH)
    (ha : m.lookAheadRingAddPointer < LOOK_AHEAD_RING_LENGTH)
    (i : Nat) (e0 : LookAhead K) (hr : e0.processed = released)
    (hi : i ≠ Previous m.lookAheadRingAddPointer)
    (h : LookAhead.EqExceptV e0 (m.lookAheadRing i)) :
    LookAhead.EqExceptV e0 ((Move.junctionPass p hid m).lookAheadRing i) := by
  unfold Move.junctionPass
  dsimp only
  have hcur := Move.junctionLoop_cursor p
    (ringDistance (Next m.lookAheadRingGetPointer) m.lookAheadRingAddPointer)
    { move := m, n0 := Previous m.lookAheadRingGetPointer, n1 := m.lookAheadRingGetPointer,
      n2 := Next m.lookAheadRingGetPointer } rfl
  rw [iterate_Next_ringDistance _ hg _ ha] at hcur
  have hfr := Move.junctionLoop_frame p
    (ringDistance (Next m.lookAheadRingGetPointer) m.lookAheadRingAddPointer)
    { move := m, n0 := Previous m.lookAheadRingGetPointer, n1 := m.lookAheadRingGetPointer,
      n2 := Next m.lookAheadRingGetPointer } i e0 hr h
  generalize Move.junctionLoop p
    (ringDistance (Next m.lookAheadRingGetPointer) m.lookAheadRingAddPointer)
    { move := m, n0 := Previous m.lookAheadRingGetPointer, n1 := m.lookAheadRingGetPointer,
      n2 := Next m.lookAheadRingGetPointer } = s1 at hcur hfr ⊢
  by_cases hstop : m.addNoMoreMoves = true ∨ ¬ hid = true
  · rw [if_pos hstop]
    rw [Move.setEntry_ring, hcur, if_neg hi, Move.setEntry_ring, if_neg hi]
    exact hfr
  · rw [if_neg hstop]
    exact hfr

/-- When the junction pass forces the last move to a stop, the entry before the add
cursor gets the instantDv of the slowest drive as its `v` and is marked complete. -/
theorem Move.junctionPass_last (p : Platform K) (hid : Bool) (m : Move K)
    (hg : m.lookAheadRingGetPointer < LOOK_AHEAD_RING_LENGTH)
    (ha : m.lookAheadRingAddPointer < LOOK_AHEAD_RING_LENGTH)
    (hstop : m.addNoMoreMoves = true ∨ ¬ hid = true) :
    ((Move.junctionPass p hid m).lookAheadRing (Previous m.lookAheadRingAddPointer)).v
      = p.instantDvs p.slowestDrive ∧
    ((Move.junctionPass p hid m).lookAheadRing
      (Previous m.lookAheadRingAddPointer)).processed &&& complete ≠ 0 := by
  unfold Move.junctionPass
  dsimp only
  have hcur := Move.junctionLoop_cursor p
    (ringDistance (Next m.lookAheadRingGetPointer) m.lookAheadRingAddPointer)
    { move := m, n0 := Previous m.lookAheadRingGetPointer, n1 := m.lookAheadRingGetPointer,
      n2 := Next m.lookAheadRingGetPointer } rfl
  rw [iterate_Next_ringDistance _ hg _ ha] at hcur
  generalize Move.junctionLoop p
    (ringDistance (Next m.lookAheadRingGetPointer) m.lookAheadRingAddPointer)
    { move := m, n0 := Previous m.lookAheadRingGetPointer, n1 := m.lookAheadRingGetPointer,
      n2 := Next m.lookAheadRingGetPointer } = s1 at hcur ⊢
  rw [if_pos hstop, hcur]
  simp only [Move.setEntry_ring, if_true, LookAhead.SetProcessed, LookAhead.SetV]
  rw [if_neg (by decide)]
  exact ⟨rfl, or_complete_and_complete _⟩

/-- `Move::DoLookAhead` changes no field other than `v` of an entry that is released on
entry to the call and is neither at the get cursor nor just before the add cursor. -/
theorem Move.DoLookAhead_frame (p : Platform K) (hid : Bool) (m : Move K) (i : Nat)
    (hg : m.lookAheadRingGetPointer < LOOK_AHEAD_RING_LENGTH)
    (ha : m.lookAheadRingAddPointer < LOOK_AHEAD_RING_LENGTH)
    (hr : (m.lookAheadRing i).processed = released)
    (hig : i ≠ m.lookAheadRingGetPointer)
    (hia : i ≠ Previous m.lookAheadRingAddPointer) :
    LookAhead.EqExceptV (m.lookAheadRing i) ((Move.DoLookAhead p hid m).lookAheadRing i) := by
  unfold Move.DoLookAhead
  by_cases he : Move.LookAheadRingEmpty m = true
  · rw [if_pos he]; exact LookAhead.EqExceptV_refl _
  · rw [if_neg he]
    dsimp only
    have h1 : LookAhead.EqExceptV (m.lookAheadRing i)
        ((if m.addNoMoreMoves = true ∨ ¬ hid = true ∨ m.lookAheadRingCount > LOOK_AHEAD
          then Move.reachabilityPasses p m else m).lookAheadRing i) ∧
        (if m.addNoMoreMoves = true ∨ ¬ hid = true ∨ m.lookAheadRingCount > LOOK_AHEAD
          then Move.reachabilityPasses p m else m).lookAheadRingAddPointer
          = m.lookAheadRingAddPointer ∧
        (if m.addNoMoreMoves = true ∨ ¬ hid = true ∨ m.lookAheadRingCount > LOOK_AHEAD
          then Move.reachabilityPasses p m else m).lookAheadRingGetPointer
          = m.lookAheadRingGetPointer := by
      split_ifs
      · obtain ⟨a, b, c, -⟩ := Move.reachabilityPasses_frame p m hg i (m.lookAheadRing i) hr hig
          (LookAhead.EqExceptV_refl _)
        exact ⟨a, b, c⟩
      · exact ⟨LookAhead.EqExceptV_refl _, rfl, rfl⟩
    generalize (if m.addNoMoreMoves = true ∨ ¬ hid = true ∨ m.lookAheadRingCount > LOOK_AHEAD
          then Move.reachabilityPasses p m else m) = m1 at h1 ⊢
    obtain ⟨h1a, h1b, h1c⟩ := h1
    split_ifs
    · exact Move.junctionPass_frame p hid m1 (by rw [h1c]; exact hg) (by rw [h1b]; exact ha)
        i (m.lookAheadRing i) hr (by rw [h1b]; exact hia) h1a
    · exact h1a

omit [FloorRing K] in
/-- The entry `LookAhead::Init` creates has its `v` and its feed rate clamped. -/
theorem LookAhead.Init_bounds (ep : Nat → Int) (fRate minS maxS acc : K) (ce hid : Bool)
    (e0 : LookAhead K) (hmm : minS ≤ maxS) :
    (LookAhead.Init ep fRate minS maxS acc ce hid e0).minSpeed = minS ∧
    (LookAhead.Init ep fRate minS maxS acc ce hid e0).maxSpeed = maxS ∧
    minS ≤ (LookAhead.Init ep fRate minS maxS acc ce hid e0).v ∧
    (LookAhead.Init ep fRate minS maxS acc ce hid e0).v ≤ maxS ∧
    (LookAhead.Init ep fRate minS maxS acc ce hid e0).requestedFeedrate
      = (LookAhead.Init ep fRate minS maxS acc ce hid e0).v := by
  unfold LookAhead.Init
  dsimp only
  refine ⟨rfl, rfl, ?_, ?_, ?_⟩
  · split_ifs <;> linarith
  · split_ifs <;> linarith
  · split_ifs <;> rfl

/-- C5 (amended). An entry created by `LookAhead::Init` with `minSpeed ≤ maxSpeed`
satisfies `MinSpeed() ≤ V() ≤ MaxSpeed()` on return from `Init`.  `Move::DoLookAhead`
does not keep `V()` above `MinSpeed()`: called on a non-empty ring with
`addNoMoreMoves` set or no incoming data, it leaves the last entry of the queue
complete with `V() = InstantDv(SlowestDrive())`, whatever its `MinSpeed()`. -/
theorem C5_init_clamps_and_forced_stop (p : Platform K) (hid : Bool) (m : Move K)
    (ep : Nat → Int) (fRate minS maxS acc : K) (ce hid0 : Bool) (e0 : LookAhead K)
    (hmm : minS ≤ maxS)
    (hne : m.lookAheadRingCount ≠ 0)
    (hg : m.lookAheadRingGetPointer < LOOK_AHEAD_RING_LENGTH)
    (ha : m.lookAheadRingAddPointer < LOOK_AHEAD_RING_LENGTH)
    (hstop : m.addNoMoreMoves = true ∨ hid = false) :
    ((LookAhead.Init ep fRate minS maxS acc ce hid0 e0).minSpeed
        ≤ (LookAhead.Init ep fRate minS maxS acc ce hid0 e0).v ∧
      (LookAhead.Init ep fRate minS maxS acc ce hid0 e0).v
        ≤ (LookAhead.Init ep fRate minS maxS acc ce hid0 e0).maxSpeed) ∧
    ((Move.DoLookAhead p hid m).lookAheadRing (Previous m.lookAheadRingAddPointer)).v
      = p.instantDvs p.slowestDrive ∧
    ((Move.DoLookAhead p hid m).lookAheadRing
      (Previous m.lookAheadRingAddPointer)).processed &&& complete ≠ 0 := by
  obtain ⟨i1, i2, i3, i4, -⟩ := LookAhead.Init_bounds ep fRate minS maxS acc ce hid0 e0 hmm
  refine ⟨⟨by rw [i1]; exact i3, by rw [i2]; exact i4⟩, ?_⟩
  have hstop' : m.addNoMoreMoves = true ∨ ¬ hid = true := by
    rcases hstop with h | h
    · exact Or.inl h
    · exact Or.inr (by rw [h]; decide)
  unfold Move.DoLookAhead
  have he : ¬ Move.LookAheadRingEmpty m = true := by
    unfold Move.LookAheadRingEmpty
    simpa using hne
  rw [if_neg he]
  dsimp only
  have hcond : m.addNoMoreMoves = true ∨ ¬ hid = true ∨ m.lookAheadRingCount > LOOK_AHEAD := by
    rcases hstop' with h | h
    · exact Or.inl h
    · exact Or.inr (Or.inl h)
  rw [if_pos hcond]
  -- the passes keep the cursors and the flag
  have hf : (Move.reachabilityPasses p m).lookAheadRingAddPointer = m.lookAheadRingAddPointer ∧
      (Move.reachabilityPasses p m).lookAheadRingGetPointer = m.lookAheadRingGetPointer ∧
      (Move.reachabilityPasses p m).addNoMoreMoves = m.addNoMoreMoves := by
    unfold Move.reachabilityPasses
    dsimp only
    obtain ⟨a1, b1, c1, -⟩ := Move.upLoop_fields p
      (ringDistance (Next m.lookAheadRingGetPointer) m.lookAheadRingAddPointer)
      { move := m, n0 := Previous m.lookAheadRingGetPointer, n1 := m.lookAheadRingGetPointer,
        n2 := Next m.lookAheadRingGetPointer }
    generalize Move.upLoop p
      (ringDistance (Next m.lookAheadRingGetPointer) m.lookAheadRingAddPointer)
      { move := m, n0 := Previous m.lookAheadRingGetPointer, n1 := m.lookAheadRingGetPointer,
        n2 := Next m.lookAheadRingGetPointer } = s1 at a1 b1 c1 ⊢
    obtain ⟨a, b, c, -⟩ := Move.downLoop_fields p
      (ringDistance m.lookAheadRingGetPointer (Previous s1.n0)) s1
    exact ⟨a.trans a1, b.trans b1, c.trans c1⟩
  generalize Move.reachabilityPasses p m = m1 at hf ⊢
  obtain ⟨f1, f2, f3⟩ := hf
  have hcond2 : m1.addNoMoreMoves = true ∨ ¬ hid = true ∨ m1.lookAheadRingCount > 1 := by
    rcases hstop' with h | h
    · exact Or.inl (by rw [f3]; exact h)
    · exact Or.inr (Or.inl h)
  rw [if_pos hcond2]
  have := Move.junctionPass_last p hid m1 (by rw [f2]; exact hg) (by rw [f1]; exact ha)
    (by rw [f3]; exact hstop')
  rw [f1] at this
  exact this

end FrameFacts

/-- The witness of C5 (amended). -/
theorem C5_witness :
    ((Move.DoLookAhead examplePlatform false (exampleMove exampleRingC 1 2 1)).lookAheadRing
      (Previous (exampleMove exampleRingC 1 2 1).lookAheadRingAddPointer)).v
      = examplePlatform.instantDvs examplePlatform.slowestDrive :=
  (C5_init_clamps_and_forced_stop examplePlatform false (exampleMove exampleRingC 1 2 1)
    (fun d => if d = 0 then 100 else 0) 30 15 200 800 false true (exampleEntry 0 1 1 released)
    (by decide!) (by decide!) (by decide!) (by decide!) (Or.inr rfl)).2.1

/-- C5, counterexample.  Every entry of `exampleRingC` was created by
`LookAhead::Init` with `minSpeed ≤ maxSpeed`; the only queued move (slot 1) has
`minSpeed = 15` and `maxSpeed = 200`.  `Move::DoLookAhead` without incoming data marks
it complete and sets its `V()` to 1, the instantDv of the slowest drive (Z), below
its `MinSpeed()` of 15. -/
theorem C5_counterexample :
    (exampleRingC = fun i =>
      if i = 1 then
        LookAhead.Init (fun d => if d = 0 then 100 else 0) 30 15 200 800 false true
          (exampleEntry 0 1 1 released)
      else
        LookAhead.Release
          (LookAhead.Init (fun _ => 0) 1 1 3 800 false false (exampleEntry 0 1 1 released))) ∧
    ((Move.DoLookAhead examplePlatform false (exampleMove exampleRingC 1 2 1)).lookAheadRing
        1).processed &&& complete ≠ 0 ∧
    ((Move.DoLookAhead examplePlatform false (exampleMove exampleRingC 1 2 1)).lookAheadRing
        1).minSpeed = 15 ∧
    ((Move.DoLookAhead examplePlatform false (exampleMove exampleRingC 1 2 1)).lookAheadRing
        1).v = 1 ∧
    ¬ (((Move.DoLookAhead examplePlatform false (exampleMove exampleRingC 1 2 1)).lookAheadRing
          1).minSpeed
        ≤ ((Move.DoLookAhead examplePlatform false (exampleMove exampleRingC 1 2 1)).lookAheadRing
          1).v) :=
  ⟨rfl, by decide!⟩

/-- C6, counterexample.  In `exampleRingD` the entry just before the get cursor
(slot 0) is released and has `v = 70`.  The up pass runs `DDA::Init` on the first
queued move (feed rate 30), which returns `change` with `u = v = 30`, and
`n0->SetV(u)` overwrites the `v` of the released entry with 30. -/
theorem C6_counterexample :
    ((exampleMove exampleRingD 1 3 2).lookAheadRing
        (Previous (exampleMove exampleRingD 1 3 2).lookAheadRingGetPointer)).processed
      = released ∧
    ((exampleMove exampleRingD 1 3 2).lookAheadRing
        (Previous (exampleMove exampleRingD 1 3 2).lookAheadRingGetPointer)).v = 70 ∧
    ((Move.DoLookAhead examplePlatform false (exampleMove exampleRingD 1 3 2)).lookAheadRing
        (Previous (exampleMove exampleRingD 1 3 2).lookAheadRingGetPointer)).v = 30 := by
  decide!

/-! ## The set-temperature test and the bed equation -/

section HeatBedFacts
variable {K : Type} [LinearOrderedField K] [FloorRing K]

theorem Heat.heaterDt_le (h : Heat K) (heater : Nat) :
    ¬ Heat.heaterDt h heater > TEMPERATURE_CLOSE_ENOUGH ↔
      ((if h.Active heater then h.GetActiveTemperature heater
          else h.GetStandbyTemperature heater) ≥ TEMPERATURE_LOW_SO_DONT_CARE →
        |h.GetTemperature heater
            - (if h.Active heater then h.GetActiveTemperature heater
                else h.GetStandbyTemperature heater)| ≤ TEMPERATURE_CLOSE_ENOUGH) := by
  have h3 : (0 : K) ≤ TEMPERATURE_CLOSE_ENOUGH := by
    unfold TEMPERATURE_CLOSE_ENOUGH; norm_num
  unfold Heat.heaterDt
  by_cases ha : h.Active heater = true
  · simp only [ha, if_true]
    by_cases hl : h.GetActiveTemperature heater < TEMPERATURE_LOW_SO_DONT_CARE
    · rw [if_pos hl]
      constructor
      · intro _ hge
        exact absurd hl (not_lt.mpr hge)
      · intro _
        exact not_lt.mpr h3
    · rw [if_neg hl]
      constructor
      · intro hn _
        exact not_lt.mp hn
      · intro hn
        exact not_lt.mpr (hn (not_lt.mp hl))
  · simp only [ha, Bool.false_eq_true, if_false]
    by_cases hl : h.GetStandbyTemperature heater < TEMPERATURE_LOW_SO_DONT_CARE
    · rw [if_pos hl]
      constructor
      · intro _ hge
        exact absurd hl (not_lt.mpr hge)
      · intro _
        exact not_lt.mpr h3
    · rw [if_neg hl]
      constructor
      · intro hn _
        exact not_lt.mp hn
      · intro hn
        exact not_lt.mpr (hn (not_lt.mp hl))

/-- C13. `Heat::AllHeatersAtSetTemperatures` returns true if and only if every heater
whose setpoint (the active temperature when its PID is active, the standby temperature
otherwise) is at least TEMPERATURE_LOW_SO_DONT_CARE has a temperature within
TEMPERATURE_CLOSE_ENOUGH of that setpoint. -/
theorem C13_all_heaters_at_set_temperatures (p : Platform K) (h : Heat K) :
    Heat.AllHeatersAtSetTemperatures p h = true ↔
      ∀ heater, heater < p.HEATERS →
        (if h.Active heater then h.GetActiveTemperature heater
          else h.GetStandbyTemperature heater) ≥ TEMPERATURE_LOW_SO_DONT_CARE →
        |h.GetTemperature heater
            - (if h.Active heater then h.GetActiveTemperature heater
                else h.GetStandbyTemperature heater)| ≤ TEMPERATURE_CLOSE_ENOUGH := by
  unfold Heat.AllHeatersAtSetTemperatures
  rw [List.all_eq_true]
  constructor
  · intro hall heater hlt
    have := hall heater (List.mem_range.mpr hlt)
    rw [decide_eq_true_iff] at this
    exact (Heat.heaterDt_le h heater).mp this
  · intro hall heater hmem
    rw [decide_eq_true_iff]
    exact (Heat.heaterDt_le h heater).mpr (hall heater (List.mem_range.mp hmem))

/-- On the example heaters the test succeeds: heater 0 is 2 degrees from its set
temperature and the standby temperature of heater 1 is too low to matter. -/
theorem C13_witness :
    Heat.AllHeatersAtSetTemperatures examplePlatform exampleHeat = true ∧
      |exampleHeat.GetTemperature 0
          - (if exampleHeat.Active 0 then exampleHeat.GetActiveTemperature 0
              else exampleHeat.GetStandbyTemperature 0)|
        ≤ (TEMPERATURE_CLOSE_ENOUGH : ℚ) := by
  have h1 : Heat.AllHeatersAtSetTemperatures examplePlatform exampleHeat = true := by decide!
  have h2 : (if exampleHeat.Active 0 then exampleHeat.GetActiveTemperature 0
      else exampleHeat.GetStandbyTemperature 0) ≥ (TEMPERATURE_LOW_SO_DONT_CARE : ℚ) := by
    decide!
  have h0 : 0 < examplePlatform.HEATERS := by decide
  exact ⟨h1,
    (C13_all_heaters_at_set_temperatures examplePlatform exampleHeat).mp h1 0 h0 h2⟩

theorem Move.SetProbedBedEquation_three (m : Move K)
    (h3 : Move.NumberOfProbePoints m = 3) :
    Move.SetProbedBedEquation m = Move.planeEquation m := by
  unfold Move.SetProbedBedEquation
  rw [h3]

theorem Move.BedTransform_planeEquation (m : Move K)
    (h3 : Move.NumberOfProbePoints m = 3) (xyzPoint : Nat → K) :
    Move.BedTransform (Move.planeEquation m) xyzPoint =
      setAt xyzPoint Z_AXIS
        (xyzPoint Z_AXIS + (Move.planeEquation m).aX * xyzPoint X_AXIS
          + (Move.planeEquation m).aY * xyzPoint Y_AXIS + (Move.planeEquation m).aC) := by
  have hn : Move.NumberOfProbePoints (Move.planeEquation m) = 3 := h3
  have hi : (Move.planeEquation m).identityBedTransform = false := rfl
  unfold Move.BedTransform
  rw [hi, hn]
  simp

theorem Move.planeEquation_fit (m : Move K)
    (hc : (m.xBedProbePoints 1 - m.xBedProbePoints 0)
            * (m.yBedProbePoints 2 - m.yBedProbePoints 0)
          - (m.yBedProbePoints 1 - m.yBedProbePoints 0)
            * (m.xBedProbePoints 2 - m.xBedProbePoints 0) ≠ 0)
    (i : Nat) (hi : i < 3) :
    (Move.planeEquation m).aX * m.xBedProbePoints i
      + (Move.planeEquation m).aY * m.yBedProbePoints i + (Move.planeEquation m).aC
      = m.zBedProbePoints i := by
  have h0 : i = 0 ∨ i = 1 ∨ i = 2 := by omega
  unfold Move.planeEquation
  dsimp only
  rcases h0 with h | h | h <;> subst h <;>
  · generalize m.xBedProbePoints 0 = x0 at hc ⊢
    generalize m.xBedProbePoints 1 = x1 at hc ⊢
    generalize m.xBedProbePoints 2 = x2 at hc ⊢
    generalize m.yBedProbePoints 0 = y0 at hc ⊢
    generalize m.yBedProbePoints 1 = y1 at hc ⊢
    generalize m.yBedProbePoints 2 = y2 at hc ⊢
    generalize m.zBedProbePoints 0 = z0
    generalize m.zBedProbePoints 1 = z1
    generalize m.zBedProbePoints 2 = z2
    field_simp
    ring

theorem Move.planeEquation_example (m : Move K)
    (hx0 : m.xBedProbePoints 0 = 0) (hy0 : m.yBedProbePoints 0 = 0)
    (hz0 : m.zBedProbePoints 0 = 0)
    (hx1 : m.xBedProbePoints 1 = 100) (hy1 : m.yBedProbePoints 1 = 0)
    (hz1 : m.zBedProbePoints 1 = 1 / 2)
    (hx2 : m.xBedProbePoints 2 = 0) (hy2 : m.yBedProbePoints 2 = 100)
    (hz2 : m.zBedProbePoints 2 = -(1 / 5)) :
    (Move.planeEquation m).aX = 5 / 1000 ∧ (Move.planeEquation m).aY = -(2 / 1000) ∧
      (Move.planeEquation m).aC = 0 := by
  unfold Move.planeEquation
  dsimp only
  rw [hx0, hy0, hz0, hx1, hy1, hz1, hx2, hy2, hz2]
  refine ⟨?_, ?_, ?_⟩ <;> norm_num

theorem Move.AxisTransform_zero (m : Move K) (hxy : m.tanXY = 0) (hyz : m.tanYZ = 0)
    (hxz : m.tanXZ = 0) (xyzPoint : Nat → K) :
    Move.AxisTransform m xyzPoint = xyzPoint := by
  unfold Move.AxisTransform
  dsimp only
  rw [hxy, hyz, hxz]
  funext i
  unfold setAt
  by_cases h1 : i = Y_AXIS
  · subst h1
    simp [X_AXIS, Y_AXIS]
  · rw [if_neg h1]
    by_cases h0 : i = X_AXIS
    · subst h0
      simp
    · rw [if_neg h0]

/-- C12. When exactly the first three probe points are fully set and their XY
positions are not collinear, `Move::SetProbedBedEquation` computes `aX`, `aY`, `aC`
with `aX*x_i + aY*y_i + aC = z_i` for each probe `i = 0, 1, 2` (over any ordered
field), and `Move::BedTransform` then maps z to `z + aX*x + aY*y + aC` and leaves
every other coordinate unchanged.  For the probes (0,0,0), (100,0,0.5), (0,100,-0.2)
this gives `aX = 0.005`, `aY = -0.002`, `aC = 0`, and with zero axis tangents
`Move::Transform` of a point (50,50,5) has z = 5.15. -/
theorem C12_plane_through_three_probes (m : Move K)
    (h3 : Move.NumberOfProbePoints m = 3)
    (hc : (m.xBedProbePoints 1 - m.xBedProbePoints 0)
            * (m.yBedProbePoints 2 - m.yBedProbePoints 0)
          - (m.yBedProbePoints 1 - m.yBedProbePoints 0)
            * (m.xBedProbePoints 2 - m.xBedProbePoints 0) ≠ 0) :
    (∀ i, i < 3 →
      (Move.SetProbedBedEquation m).aX * (Move.SetProbedBedEquation m).xBedProbePoints i
        + (Move.SetProbedBedEquation m).aY * (Move.SetProbedBedEquation m).yBedProbePoints i
        + (Move.SetProbedBedEquation m).aC
        = (Move.SetProbedBedEquation m).zBedProbePoints i) ∧
    (∀ i, (Move.SetProbedBedEquation m).xBedProbePoints i = m.xBedProbePoints i ∧
      (Move.SetProbedBedEquation m).yBedProbePoints i = m.yBedProbePoints i ∧
      (Move.SetProbedBedEquation m).zBedProbePoints i = m.zBedProbePoints i) ∧
    (∀ xyzPoint : Nat → K,
      Move.BedTransform (Move.SetProbedBedEquation m) xyzPoint Z_AXIS =
        xyzPoint Z_AXIS + (Move.SetProbedBedEquation m).aX * xyzPoint X_AXIS
          + (Move.SetProbedBedEquation m).aY * xyzPoint Y_AXIS
          + (Move.SetProbedBedEquation m).aC ∧
      ∀ j, j ≠ Z_AXIS →
        Move.BedTransform (Move.SetProbedBedEquation m) xyzPoint j = xyzPoint j) ∧
    (m.xBedProbePoints 0 = 0 ∧ m.yBedProbePoints 0 = 0 ∧ m.zBedProbePoints 0 = 0 ∧
      m.xBedProbePoints 1 = 100 ∧ m.yBedProbePoints 1 = 0 ∧ m.zBedProbePoints 1 = 1 / 2 ∧
      m.xBedProbePoints 2 = 0 ∧ m.yBedProbePoints 2 = 100 ∧
      m.zBedProbePoints 2 = -(1 / 5) →
      (Move.SetProbedBedEquation m).aX = 5 / 1000 ∧
      (Move.SetProbedBedEquation m).aY = -(2 / 1000) ∧
      (Move.SetProbedBedEquation m).aC = 0 ∧
      (m.tanXY = 0 ∧ m.tanYZ = 0 ∧ m.tanXZ = 0 →
        ∀ xyzPoint : Nat → K, xyzPoint X_AXIS = 50 → xyzPoint Y_AXIS = 50 →
          xyzPoint Z_AXIS = 5 →
          Move.Transform (Move.SetProbedBedEquation m) xyzPoint Z_AXIS = 515 / 100)) := by
  rw [Move.SetProbedBedEquation_three m h3]
  have hbed : ∀ xyzPoint : Nat → K,
      Move.BedTransform (Move.planeEquation m) xyzPoint Z_AXIS =
        xyzPoint Z_AXIS + (Move.planeEquation m).aX * xyzPoint X_AXIS
          + (Move.planeEquation m).aY * xyzPoint Y_AXIS + (Move.planeEquation m).aC := by
    intro xyzPoint
    rw [Move.BedTransform_planeEquation m h3]
    simp [setAt]
  refine ⟨fun i hi => Move.planeEquation_fit m hc i hi, fun i => ⟨rfl, rfl, rfl⟩,
    fun xyzPoint => ⟨hbed xyzPoint, ?_⟩, ?_⟩
  · intro j hj
    rw [Move.BedTransform_planeEquation m h3]
    simp [setAt, hj]
  · rintro ⟨hx0, hy0, hz0, hx1, hy1, hz1, hx2, hy2, hz2⟩
    obtain ⟨ha, hb, hcc⟩ :=
      Move.planeEquation_example m hx0 hy0 hz0 hx1 hy1 hz1 hx2 hy2 hz2
    refine ⟨ha, hb, hcc, ?_⟩
    rintro ⟨hxy, hyz, hxz⟩ xyzPoint h50x h50y h5
    unfold Move.Transform
    rw [Move.AxisTransform_zero (Move.planeEquation m) hxy hyz hxz, hbed, ha, hb, hcc,
      h50x, h50y, h5]
    norm_num

/-- The probes (0,0,0), (100,0,0.5), (0,100,-0.2) of `exampleProbedMove` are exactly
three, not collinear, and give the plane `z = 0.005 x - 0.002 y`; the point
(50, 50, 5) is transformed to z = 5.15. -/
theorem C12_witness :
    Move.NumberOfProbePoints exampleProbedMove = 3 ∧
    (Move.SetProbedBedEquation exampleProbedMove).aX = 5 / 1000 ∧
    (Move.SetProbedBedEquation exampleProbedMove).aY = -(2 / 1000) ∧
    (Move.SetProbedBedEquation exampleProbedMove).aC = 0 ∧
    Move.Transform (Move.SetProbedBedEquation exampleProbedMove) examplePoint Z_AXIS
      = 515 / 100 := by
  have h3 : Move.NumberOfProbePoints exampleProbedMove = 3 := by decide
  have hc : (exampleProbedMove.xBedProbePoints 1 - exampleProbedMove.xBedProbePoints 0)
            * (exampleProbedMove.yBedProbePoints 2 - exampleProbedMove.yBedProbePoints 0)
          - (exampleProbedMove.yBedProbePoints 1 - exampleProbedMove.yBedProbePoints 0)
            * (exampleProbedMove.xBedProbePoints 2 - exampleProbedMove.xBedProbePoints 0)
          ≠ 0 := by decide!
  have hp : exampleProbedMove.xBedProbePoints 0 = 0 ∧
      exampleProbedMove.yBedProbePoints 0 = 0 ∧ exampleProbedMove.zBedProbePoints 0 = 0 ∧
      exampleProbedMove.xBedProbePoints 1 = 100 ∧ exampleProbedMove.yBedProbePoints 1 = 0 ∧
      exampleProbedMove.zBedProbePoints 1 = 1 / 2 ∧
      exampleProbedMove.xBedProbePoints 2 = 0 ∧ exampleProbedMove.yBedProbePoints 2 = 100 ∧
      exampleProbedMove.zBedProbePoints 2 = -(1 / 5) := by decide!
  have ht : exampleProbedMove.tanXY = 0 ∧ exampleProbedMove.tanYZ = 0 ∧
      exampleProbedMove.tanXZ = 0 := by decide!
  obtain ⟨ha, hb, hcc, htr⟩ :=
    (C12_plane_through_three_probes exampleProbedMove h3 hc).2.2.2 hp
  exact ⟨h3, ha, hb, hcc, htr ht examplePoint (by decide!) (by decide!) (by decide!)⟩

end HeatBedFacts

/-! ## Endstop hits -/

section EndstopFacts
variable {K : Type} [LinearOrderedField K] [FloorRing K]

theorem roundf_zero : roundf (0 : K) = 0 := by
  unfold roundf
  rw [if_pos (le_refl _), zero_add, Int.floor_eq_zero_iff]
  constructor <;> norm_num

/-- Every branch of `Move::HitLowStop` is one call of
`SetDriveCoordinateAndZeroEndSpeed` on the entry and one value of `lastZHit`. -/
theorem Move.HitLowStop_eq (p : Platform K) (h : Nat → Bool) (drive la : Nat)
    (hitDDA : DDA K) (m : Move K) :
    ∃ a z : K,
      Move.HitLowStop p h drive la hitDDA m =
        { Move.setEntry m la
            (LookAhead.SetDriveCoordinateAndZeroEndSpeed p a drive (m.lookAheadRing la)) with
          lastZHit := z } ∧
      (drive ≠ Z_AXIS → a = 0) ∧
      (drive = Z_AXIS → m.zProbing = false →
        a = p.zProbeStopHeight ∧ z = p.zProbeStopHeight) ∧
      (drive = Z_AXIS → m.zProbing = true → h drive = true →
        a = Move.ComputeCurrentCoordinate p m drive la hitDDA) ∧
      (drive = Z_AXIS → m.zProbing = true → h drive = false → a = p.zProbeStopHeight) := by
  unfold Move.HitLowStop
  by_cases hz : drive = Z_AXIS
  · rw [if_pos hz]
    by_cases hp : m.zProbing = true
    · rw [if_pos hp]
      by_cases hh : h drive = true
      · rw [if_pos hh]
        exact ⟨_, _, rfl, fun c => absurd hz c, fun _ c => (by simp [hp] at c),
          fun _ _ _ => rfl, fun _ _ c => (by simp [hh] at c)⟩
      · rw [if_neg hh]
        exact ⟨_, _, rfl, fun c => absurd hz c, fun _ c => (by simp [hp] at c),
          fun _ _ c => absurd c hh, fun _ _ _ => rfl⟩
    · rw [if_neg hp]
      exact ⟨_, _, rfl, fun c => absurd hz c, fun _ _ => ⟨rfl, rfl⟩,
        fun _ c => absurd c hp, fun _ c => absurd c hp⟩
  · rw [if_neg hz]
    exact ⟨0, m.lastZHit, rfl, fun _ => rfl, fun c => absurd c hz, fun c => absurd c hz,
      fun c => absurd c hz⟩

/-- What `Move::HitLowStop` leaves alone. -/
theorem Move.HitLowStop_frame (p : Platform K) (h : Nat → Bool) (drive la : Nat)
    (hitDDA : DDA K) (m : Move K) :
    (∀ i, i ≠ la →
      (Move.HitLowStop p h drive la hitDDA m).lookAheadRing i = m.lookAheadRing i) ∧
    (∀ j, j ≠ drive →
      ((Move.HitLowStop p h drive la hitDDA m).lookAheadRing la).endPoint j
        = (m.lookAheadRing la).endPoint j) ∧
    ((Move.HitLowStop p h drive la hitDDA m).lookAheadRing la).processed
      = (m.lookAheadRing la).processed ∧
    ((Move.HitLowStop p h drive la hitDDA m).lookAheadRing la).requestedFeedrate
      = (m.lookAheadRing la).requestedFeedrate ∧
    ((Move.HitLowStop p h drive la hitDDA m).lookAheadRing la).v
      = p.instantDvs p.slowestDrive ∧
    (Move.HitLowStop p h drive la hitDDA m).zProbing = m.zProbing ∧
    (Move.HitLowStop p h drive la hitDDA m).liveCoordinates = m.liveCoordinates := by
  obtain ⟨a, z, he, -⟩ := Move.HitLowStop_eq p h drive la hitDDA m
  rw [he]
  refine ⟨fun i hi => ?_, fun j hj => ?_, ?_, ?_, ?_, rfl, rfl⟩
  · simp [Move.setEntry, setAt, hi]
  · simp [Move.setEntry, setAt, LookAhead.SetDriveCoordinateAndZeroEndSpeed, hj]
  · simp [Move.setEntry, setAt, LookAhead.SetDriveCoordinateAndZeroEndSpeed]
  · simp [Move.setEntry, setAt, LookAhead.SetDriveCoordinateAndZeroEndSpeed]
  · simp [Move.setEntry, setAt, LookAhead.SetDriveCoordinateAndZeroEndSpeed]

/-- What `Move::HitHighStop` leaves alone. -/
theorem Move.HitHighStop_frame (p : Platform K) (drive la : Nat) (m : Move K) :
    (∀ i, i ≠ la → (Move.HitHighStop p drive la m).lookAheadRing i = m.lookAheadRing i) ∧
    (∀ j, j ≠ drive →
      ((Move.HitHighStop p drive la m).lookAheadRing la).endPoint j
        = (m.lookAheadRing la).endPoint j) ∧
    ((Move.HitHighStop p drive la m).lookAheadRing la).processed
      = (m.lookAheadRing la).processed ∧
    ((Move.HitHighStop p drive la m).lookAheadRing la).requestedFeedrate
      = (m.lookAheadRing la).requestedFeedrate ∧
    ((Move.HitHighStop p drive la m).lookAheadRing la).v = p.instantDvs p.slowestDrive ∧
    (Move.HitHighStop p drive la m).zProbing = m.zProbing ∧
    (Move.HitHighStop p drive la m).liveCoordinates = m.liveCoordinates := by
  unfold Move.HitHighStop
  refine ⟨fun i hi => ?_, fun j hj => ?_, ?_, ?_, ?_, rfl, rfl⟩
  · simp [Move.setEntry, setAt, hi]
  · simp [Move.setEntry, setAt, LookAhead.SetDriveCoordinateAndZeroEndSpeed, hj]
  · simp [Move.setEntry, setAt, LookAhead.SetDriveCoordinateAndZeroEndSpeed]
  · simp [Move.setEntry, setAt, LookAhead.SetDriveCoordinateAndZeroEndSpeed]
  · simp [Move.setEntry, setAt, LookAhead.SetDriveCoordinateAndZeroEndSpeed]

/-- C14. `Move::HitLowStop` on a drive other than Z sets that drive's endpoint in the
look-ahead entry to machine coordinate 0; on Z with `zProbing` false it sets the
endpoint to `EndPointToMachine(Z, ZProbeStopHeight())` and `lastZHit` to
`ZProbeStopHeight()`; `Move::HitHighStop` sets the drive's endpoint to
`EndPointToMachine(drive, AxisLength(drive))`; in every case (probing or not) the
endpoints of all other drives, and all other entries, are unchanged. -/
theorem C14_endstop_snaps_endpoint (p : Platform K) (axisIsHomed : Nat → Bool)
    (drive la : Nat) (hitDDA : DDA K) (m : Move K) :
    (drive ≠ Z_AXIS →
      ((Move.HitLowStop p axisIsHomed drive la hitDDA m).lookAheadRing la).endPoint drive
        = 0) ∧
    (m.zProbing = false →
      ((Move.HitLowStop p axisIsHomed Z_AXIS la hitDDA m).lookAheadRing la).endPoint Z_AXIS
        = LookAhead.EndPointToMachine p Z_AXIS p.zProbeStopHeight ∧
      (Move.HitLowStop p axisIsHomed Z_AXIS la hitDDA m).lastZHit = p.zProbeStopHeight) ∧
    ((Move.HitHighStop p drive la m).lookAheadRing la).endPoint drive
      = LookAhead.EndPointToMachine p drive (p.axisLengths drive) ∧
    (∀ j, j ≠ drive →
      ((Move.HitLowStop p axisIsHomed drive la hitDDA m).lookAheadRing la).endPoint j
        = (m.lookAheadRing la).endPoint j ∧
      ((Move.HitHighStop p drive la m).lookAheadRing la).endPoint j
        = (m.lookAheadRing la).endPoint j) ∧
    (∀ i, i ≠ la →
      (Move.HitLowStop p axisIsHomed drive la hitDDA m).lookAheadRing i = m.lookAheadRing i ∧
      (Move.HitHighStop p drive la m).lookAheadRing i = m.lookAheadRing i) := by
  refine ⟨fun hz => ?_, fun hp => ?_, ?_, fun j hj => ?_, fun i hi => ?_⟩
  · obtain ⟨a, z, he, h0, -⟩ := Move.HitLowStop_eq p axisIsHomed drive la hitDDA m
    rw [he, h0 hz]
    simp [Move.setEntry, setAt, LookAhead.SetDriveCoordinateAndZeroEndSpeed,
      LookAhead.EndPointToMachine, roundf_zero]
  · obtain ⟨a, z, he, -, h1, -⟩ := Move.HitLowStop_eq p axisIsHomed Z_AXIS la hitDDA m
    obtain ⟨ha, hz⟩ := h1 rfl hp
    rw [he, ha, hz]
    simp [Move.setEntry, setAt, LookAhead.SetDriveCoordinateAndZeroEndSpeed]
  · simp [Move.HitHighStop, Move.setEntry, setAt, LookAhead.SetDriveCoordinateAndZeroEndSpeed]
  · exact ⟨(Move.HitLowStop_frame p axisIsHomed drive la hitDDA m).2.1 j hj,
      (Move.HitHighStop_frame p drive la m).2.1 j hj⟩
  · exact ⟨(Move.HitLowStop_frame p axisIsHomed drive la hitDDA m).1 i hi,
      (Move.HitHighStop_frame p drive la m).1 i hi⟩

/-- On the example platform (100 steps per unit, probe height 0.8, axis length 200) a
low hit on X snaps the X endpoint to step 0, a low hit on Z outside probing snaps the
Z endpoint to step 80 (0.8 units), and a high hit on X snaps it to step 20000. -/
theorem C14_witness :
    ((Move.HitLowStop examplePlatform (fun _ => true) X_AXIS 1 exampleDDA
        (exampleMove exampleRingE 1 2 1)).lookAheadRing 1).endPoint X_AXIS = 0 ∧
    ((Move.HitLowStop examplePlatform (fun _ => true) Z_AXIS 1 exampleDDA
        (exampleMove exampleRingE 1 2 1)).lookAheadRing 1).endPoint Z_AXIS = 80 ∧
    ((Move.HitHighStop examplePlatform X_AXIS 1
        (exampleMove exampleRingE 1 2 1)).lookAheadRing 1).endPoint X_AXIS = 20000 := by
  have hx := (C14_endstop_snaps_endpoint examplePlatform (fun _ => true) X_AXIS 1 exampleDDA
    (exampleMove exampleRingE 1 2 1)).1 (by decide)
  have hz := ((C14_endstop_snaps_endpoint examplePlatform (fun _ => true) Z_AXIS 1 exampleDDA
    (exampleMove exampleRingE 1 2 1)).2.1 rfl).1
  have hh := (C14_endstop_snaps_endpoint examplePlatform (fun _ => true) X_AXIS 1 exampleDDA
    (exampleMove exampleRingE 1 2 1)).2.2.1
  have e1 : LookAhead.EndPointToMachine examplePlatform Z_AXIS examplePlatform.zProbeStopHeight
      = 80 := by decide!
  have e2 : LookAhead.EndPointToMachine examplePlatform X_AXIS
      (examplePlatform.axisLengths X_AXIS) = 20000 := by decide!
  exact ⟨hx, hz.trans e1, hh.trans e2⟩

/-- C15 (as amended). After `Move::HitLowStop` or `Move::HitHighStop` has handled an
endstop hit on any drive, in probing or non-probing mode, the exit velocity `V()` of
the affected look-ahead entry is `InstantDv(SlowestDrive())`, the speed from which the
slowest drive can stop at once; it is 0 only on a platform where that value is 0. -/
theorem C15_endstop_sets_exit_velocity_to_instantDv (p : Platform K)
    (axisIsHomed : Nat → Bool) (drive la : Nat) (hitDDA : DDA K) (m : Move K) :
    ((Move.HitLowStop p axisIsHomed drive la hitDDA m).lookAheadRing la).v
      = p.instantDvs p.slowestDrive ∧
    ((Move.HitHighStop p drive la m).lookAheadRing la).v = p.instantDvs p.slowestDrive :=
  ⟨(Move.HitLowStop_frame p axisIsHomed drive la hitDDA m).2.2.2.2.1,
    (Move.HitHighStop_frame p drive la m).2.2.2.2.1⟩

/-- On the example platform the exit velocity after a high hit on X is the `instantDv`
of the Z drive, 1 unit per second. -/
theorem C15_witness :
    ((Move.HitHighStop examplePlatform X_AXIS 1
        (exampleMove exampleRingE 1 2 1)).lookAheadRing 1).v = 1 :=
  (C15_endstop_sets_exit_velocity_to_instantDv examplePlatform (fun _ => true) X_AXIS 1
    exampleDDA (exampleMove exampleRingE 1 2 1)).2.trans (by decide!)

/-- C15 as stated fails: after a low hit on X, and after a high hit on X, on the
example platform the exit velocity of the entry is not 0. -/
theorem C15_counterexample :
    ((Move.HitLowStop examplePlatform (fun _ => true) X_AXIS 1 exampleDDA
        (exampleMove exampleRingE 1 2 1)).lookAheadRing 1).v ≠ 0 ∧
    ((Move.HitHighStop examplePlatform X_AXIS 1
        (exampleMove exampleRingE 1 2 1)).lookAheadRing 1).v ≠ 0 := by
  decide!

/-- The endpoint that `Move::HitLowStop` gives the hit drive depends only on the
probing mode, on the step counts of the DDA, and on the coordinates of that drive in
the entry and in its predecessor. -/
theorem Move.HitLowStop_endPoint_congr (p : Platform K) (h : Nat → Bool) (drive la : Nat)
    (d d1 : DDA K) (m m1 : Move K)
    (hz : m1.zProbing = m.zProbing)
    (ht : d1.totalSteps = d.totalSteps) (hs : d1.stepCount = d.stepCount)
    (he : (m1.lookAheadRing la).endPoint drive = (m.lookAheadRing la).endPoint drive)
    (hp : (m1.lookAheadRing (Previous la)).endPoint drive
      = (m.lookAheadRing (Previous la)).endPoint drive) :
    ((Move.HitLowStop p h drive la d1 m1).lookAheadRing la).endPoint drive
      = ((Move.HitLowStop p h drive la d m).lookAheadRing la).endPoint drive := by
  have hcc : Move.ComputeCurrentCoordinate p m1 drive la d1
      = Move.ComputeCurrentCoordinate p m drive la d := by
    unfold Move.ComputeCurrentCoordinate LookAhead.MachineToEndPoint
    rw [ht, hs, he, hp]
  obtain ⟨a1, z1, e1, n1, p1, q1, r1⟩ := Move.HitLowStop_eq p h drive la d1 m1
  obtain ⟨a, z, e, n, p0, q, r⟩ := Move.HitLowStop_eq p h drive la d m
  have ha : a1 = a := by
    by_cases hd : drive = Z_AXIS
    · cases hzp : m.zProbing
      · rw [(p1 hd (hz.trans hzp)).1, (p0 hd hzp).1]
      · cases hh : h drive
        · rw [r1 hd (hz.trans hzp) hh, r hd hzp hh]
        · rw [q1 hd (hz.trans hzp) hh, q hd hzp hh, hcc]
    · rw [n1 hd, n hd]
  rw [e1, e, ha]
  simp [Move.setEntry, setAt, LookAhead.SetDriveCoordinateAndZeroEndSpeed]

/-- The Move after one pass of the loop body of `DDA::Step`: unchanged, or changed by
`Move::HitLowStop`, `Move::HitHighStop` or both. -/
theorem DDA.StepDrive_move (p : Platform K) (o : Nat → EndStopHit) (h : Nat → Bool)
    (drive : Nat) (s : StepState K) :
    ((DDA.StepDrive p o h drive s).move = s.move ∧
      ¬ (s.dda.checkEndStops = true ∧ s.dda.counter drive + s.dda.delta drive > 0 ∧
          (o drive = EndStopHit.lowHit ∨ o drive = EndStopHit.highHit))) ∨
    (s.dda.checkEndStops = true ∧ s.dda.counter drive + s.dda.delta drive > 0 ∧
      o drive = EndStopHit.lowHit ∧
      (DDA.StepDrive p o h drive s).dda.active = false ∧
      (DDA.StepDrive p o h drive s).move
        = Move.HitLowStop p h drive s.dda.myLookAheadEntry
            { s.dda with
              counter := setAt s.dda.counter drive
                (s.dda.counter drive + s.dda.delta drive - s.dda.totalSteps) } s.move) ∨
    (s.dda.checkEndStops = true ∧ s.dda.counter drive + s.dda.delta drive > 0 ∧
      o drive = EndStopHit.highHit ∧
      (DDA.StepDrive p o h drive s).dda.active = false ∧
      (DDA.StepDrive p o h drive s).move
        = Move.HitHighStop p drive s.dda.myLookAheadEntry s.move) := by
  unfold DDA.StepDrive
  dsimp only
  by_cases hc : s.dda.counter drive + s.dda.delta drive > 0
  · rw [if_pos hc]
    by_cases he : s.dda.checkEndStops = true
    · rw [if_pos he]
      by_cases h1 : o drive = EndStopHit.lowHit
      · have h2 : ¬ o drive = EndStopHit.highHit := by rw [h1]; decide
        rw [if_pos h1, if_neg h2]
        exact Or.inr (Or.inl ⟨he, hc, h1, rfl, rfl⟩)
      · rw [if_neg h1]
        by_cases h2 : o drive = EndStopHit.highHit
        · rw [if_pos h2]
          exact Or.inr (Or.inr ⟨he, hc, h2, rfl, rfl⟩)
        · rw [if_neg h2]
          refine Or.inl ⟨rfl, ?_⟩
          rintro ⟨-, -, h3 | h3⟩
          · exact h1 h3
          · exact h2 h3
    · rw [if_neg he]
      exact Or.inl ⟨rfl, fun c => he c.1⟩
  · rw [if_neg hc]
    exact Or.inl ⟨rfl, fun c => hc c.2.1⟩

/-- One pass of the loop body never makes an inactive DDA active. -/
theorem DDA.StepDrive_inactive (p : Platform K) (o : Nat → EndStopHit) (h : Nat → Bool)
    (drive : Nat) (s : StepState K) (hs : s.dda.active = false) :
    (DDA.StepDrive p o h drive s).dda.active = false := by
  unfold DDA.StepDrive
  dsimp only
  by_cases hc : s.dda.counter drive + s.dda.delta drive > 0
  · rw [if_pos hc]
    by_cases he : s.dda.checkEndStops = true
    · rw [if_pos he]
      by_cases h1 : o drive = EndStopHit.lowHit
      · have h2 : ¬ o drive = EndStopHit.highHit := by rw [h1]; decide
        rw [if_pos h1, if_neg h2]
      · rw [if_neg h1]
        by_cases h2 : o drive = EndStopHit.highHit
        · rw [if_pos h2]
        · rw [if_neg h2]
          exact hs
    · rw [if_neg he]
      exact hs
  · rw [if_neg hc]
    exact hs

/-- What one pass of the loop body leaves alone in the Move; `la` is the entry of the
DDA. -/
theorem DDA.StepDrive_frame (p : Platform K) (o : Nat → EndStopHit) (h : Nat → Bool)
    (drive : Nat) (s : StepState K) :
    (∀ i, i ≠ s.dda.myLookAheadEntry →
      (DDA.StepDrive p o h drive s).move.lookAheadRing i = s.move.lookAheadRing i) ∧
    (∀ j, j ≠ drive →
      ((DDA.StepDrive p o h drive s).move.lookAheadRing s.dda.myLookAheadEntry).endPoint j
        = (s.move.lookAheadRing s.dda.myLookAheadEntry).endPoint j) ∧
    ((DDA.StepDrive p o h drive s).move.lookAheadRing s.dda.myLookAheadEntry).processed
      = (s.move.lookAheadRing s.dda.myLookAheadEntry).processed ∧
    ((DDA.StepDrive p o h drive s).move.lookAheadRing
        s.dda.myLookAheadEntry).requestedFeedrate
      = (s.move.lookAheadRing s.dda.myLookAheadEntry).requestedFeedrate ∧
    (DDA.StepDrive p o h drive s).move.zProbing = s.move.zProbing := by
  rcases DDA.StepDrive_move p o h drive s with ⟨e, -⟩ | ⟨-, -, -, -, e⟩ | ⟨-, -, -, -, e⟩
  · rw [e]
    exact ⟨fun _ _ => rfl, fun _ _ => rfl, rfl, rfl, rfl⟩
  · rw [e]
    obtain ⟨a, b, c, d, -, f, -⟩ := Move.HitLowStop_frame p h drive s.dda.myLookAheadEntry
      { s.dda with
        counter := setAt s.dda.counter drive
          (s.dda.counter drive + s.dda.delta drive - s.dda.totalSteps) } s.move
    exact ⟨a, b, c, d, f⟩
  · rw [e]
    obtain ⟨a, b, c, d, -, f, -⟩ := Move.HitHighStop_frame p drive s.dda.myLookAheadEntry s.move
    exact ⟨a, b, c, d, f⟩

/-- The drive loop of `DDA::Step` over the first `n` drives, with endstop hits: only
the entry of the DDA changes, in it only the endpoints of drives below `n` (and `v`,
`cosine`), and a drive below `n` that stepped onto a triggered endstop has left the
DDA inactive and its endpoint snapped as by `Move::HitLowStop` or `Move::HitHighStop`
on the state before the loop. -/
theorem DDA.stepLoop_hit (p : Platform K) (o : Nat → EndStopHit) (h : Nat → Bool)
    (n : Nat) (s : StepState K) :
    (∀ i, i ≠ s.dda.myLookAheadEntry →
      ((List.range n).foldl (fun s drive => DDA.StepDrive p o h drive s) s).move.lookAheadRing i
        = s.move.lookAheadRing i) ∧
    (∀ j, n ≤ j →
      (((List.range n).foldl (fun s drive => DDA.StepDrive p o h drive s) s).move.lookAheadRing
          s.dda.myLookAheadEntry).endPoint j
        = (s.move.lookAheadRing s.dda.myLookAheadEntry).endPoint j) ∧
    (((List.range n).foldl (fun s drive => DDA.StepDrive p o h drive s) s).move.lookAheadRing
        s.dda.myLookAheadEntry).processed
      = (s.move.lookAheadRing s.dda.myLookAheadEntry).processed ∧
    (((List.range n).foldl (fun s drive => DDA.StepDrive p o h drive s) s).move.lookAheadRing
        s.dda.myLookAheadEntry).requestedFeedrate
      = (s.move.lookAheadRing s.dda.myLookAheadEntry).requestedFeedrate ∧
    ((List.range n).foldl (fun s drive => DDA.StepDrive p o h drive s) s).move.zProbing
      = s.move.zProbing ∧
    (∀ k, k < n → s.dda.checkEndStops = true → s.dda.counter k + s.dda.delta k > 0 →
      (o k = EndStopHit.lowHit →
        ((List.range n).foldl (fun s drive => DDA.StepDrive p o h drive s) s).dda.active
            = false ∧
        (((List.range n).foldl (fun s drive => DDA.StepDrive p o h drive s) s).move.lookAheadRing
            s.dda.myLookAheadEntry).endPoint k
          = ((Move.HitLowStop p h k s.dda.myLookAheadEntry s.dda s.move).lookAheadRing
              s.dda.myLookAheadEntry).endPoint k) ∧
      (o k = EndStopHit.highHit →
        ((List.range n).foldl (fun s drive => DDA.StepDrive p o h drive s) s).dda.active
            = false ∧
        (((List.range n).foldl (fun s drive => DDA.StepDrive p o h drive s) s).move.lookAheadRing
            s.dda.myLookAheadEntry).endPoint k
          = ((Move.HitHighStop p k s.dda.myLookAheadEntry s.move).lookAheadRing
              s.dda.myLookAheadEntry).endPoint k)) := by
  induction n with
  | zero =>
    rw [List.range_zero, List.foldl_nil]
    exact ⟨fun _ _ => rfl, fun _ _ => rfl, rfl, rfl, rfl, fun k hk => absurd hk (by omega)⟩
  | succ n ih =>
    obtain ⟨i2, i3, i4, i4b, i4c, i5⟩ := ih
    obtain ⟨a, ha⟩ := DDA.stepLoop_dda p o h n s
    rw [List.range_succ, List.foldl_append]
    simp only [List.foldl_cons, List.foldl_nil]
    generalize (List.range n).foldl (fun s drive => DDA.StepDrive p o h drive s) s = t
      at i2 i3 i4 i4b i4c i5 ha ⊢
    have hla : t.dda.myLookAheadEntry = s.dda.myLookAheadEntry := by rw [ha]
    have hce : t.dda.checkEndStops = s.dda.checkEndStops := by rw [ha]
    have hts : t.dda.totalSteps = s.dda.totalSteps := by rw [ha]
    have hsc : t.dda.stepCount = s.dda.stepCount := by rw [ha]
    have hdl : t.dda.delta = s.dda.delta := by rw [ha]
    have hcn : t.dda.counter n = s.dda.counter n := by rw [ha]; simp
    obtain ⟨f1, f2, f3, f4, f5⟩ := DDA.StepDrive_frame p o h n t
    rw [hla] at f1 f2 f3 f4
    refine ⟨fun i hi => (f1 i hi).trans (i2 i hi),
      fun j hj => (f2 j (by omega)).trans (i3 j (by omega)),
      f3.trans i4, f4.trans i4b, f5.trans i4c, ?_⟩
    intro k hk hc hpos
    by_cases hkn : k = n
    · subst hkn
      have hmv := DDA.StepDrive_move p o h k t
      rw [hce, hcn, hdl, hla] at hmv
      constructor
      · intro hlow
        rcases hmv with ⟨-, c⟩ | ⟨-, -, -, c1, c2⟩ | ⟨-, -, c, -⟩
        · exact absurd ⟨hc, hpos, Or.inl hlow⟩ c
        · refine ⟨c1, ?_⟩
          rw [c2]
          exact Move.HitLowStop_endPoint_congr p h k s.dda.myLookAheadEntry s.dda _ s.move t.move
            i4c hts hsc (i3 k (le_refl _))
            (by rw [i2 _ (Previous_ne _)])
        · rw [hlow] at c
          cases c
      · intro hhigh
        rcases hmv with ⟨-, c⟩ | ⟨-, -, c, -⟩ | ⟨-, -, -, c1, c2⟩
        · exact absurd ⟨hc, hpos, Or.inr hhigh⟩ c
        · rw [hhigh] at c
          cases c
        · refine ⟨c1, ?_⟩
          rw [c2]
          simp [Move.HitHighStop, Move.setEntry, setAt,
            LookAhead.SetDriveCoordinateAndZeroEndSpeed]
    · have hk2 : k < n := by omega
      obtain ⟨l1, l2⟩ := i5 k hk2 hc hpos
      constructor
      · intro hlow
        obtain ⟨b1, b2⟩ := l1 hlow
        exact ⟨DDA.StepDrive_inactive p o h n t b1, (f2 k hkn).trans b2⟩
      · intro hhigh
        obtain ⟨b1, b2⟩ := l2 hhigh
        exact ⟨DDA.StepDrive_inactive p o h n t b1, (f2 k hkn).trans b2⟩

/-- C16. If, during a `DDA::Step` call on a running DDA (active, Move active, steps
left) with `checkEndStops` set, the endstop of a drive that has just stepped reports
`lowHit` or `highHit`, then when that call returns the DDA is inactive with
`stepCount < totalSteps` (the count was not advanced), its look-ahead entry is
released, the live coordinates of all drives are those of the entry's endpoints,
the endpoint of the hit drive being the one snapped by `Move::HitLowStop` or
`Move::HitHighStop`; and every later run of `DDA::Step` calls on that DDA, in any
environment, makes no platform call at all (so no step pulse) and leaves the DDA,
counters and `stepCount` included, unchanged. -/
theorem C16_endstop_hit_terminates_dda (p : Platform K) (stopped : Nat → EndStopHit)
    (axisIsHomed : Nat → Bool) (m : Move K) (d : DDA K) (k : Nat)
    (hd : d.active = true) (hm : m.active = true) (hce : d.checkEndStops = true)
    (hsc : d.stepCount < d.totalSteps)
    (hk : k < p.DRIVES) (hstep : d.counter k + d.delta k > 0)
    (hhit : stopped k = EndStopHit.lowHit ∨ stopped k = EndStopHit.highHit) :
    (DDA.Step p stopped axisIsHomed m d).dda.active = false ∧
    (DDA.Step p stopped axisIsHomed m d).dda.stepCount = d.stepCount ∧
    (DDA.Step p stopped axisIsHomed m d).dda.stepCount
      < (DDA.Step p stopped axisIsHomed m d).dda.totalSteps ∧
    ((DDA.Step p stopped axisIsHomed m d).move.lookAheadRing d.myLookAheadEntry).processed
      = released ∧
    (∀ j, j < p.DRIVES →
      (DDA.Step p stopped axisIsHomed m d).move.liveCoordinates j
        = LookAhead.MachineToEndPoint p
            ((DDA.Step p stopped axisIsHomed m d).move.lookAheadRing d.myLookAheadEntry) j) ∧
    ((DDA.Step p stopped axisIsHomed m d).move.lookAheadRing d.myLookAheadEntry).endPoint k
      = (if stopped k = EndStopHit.lowHit then
          ((Move.HitLowStop p axisIsHomed k d.myLookAheadEntry d m).lookAheadRing
            d.myLookAheadEntry).endPoint k
        else
          ((Move.HitHighStop p k d.myLookAheadEntry m).lookAheadRing
            d.myLookAheadEntry).endPoint k) ∧
    (∀ envs : List (StepEnv K),
      DDA.StepMany p envs (DDA.Step p stopped axisIsHomed m d).dda
        = ((DDA.Step p stopped axisIsHomed m d).dda, [])) := by
  obtain ⟨a, ha⟩ := DDA.stepLoop_dda p stopped axisIsHomed p.DRIVES
    { move := m, dda := d, drivesMoving := 0, calls := [] }
  obtain ⟨-, -, -, -, -, i5⟩ := DDA.stepLoop_hit p stopped axisIsHomed p.DRIVES
    { move := m, dda := d, drivesMoving := 0, calls := [] }
  obtain ⟨l1, l2⟩ := i5 k hk hce hstep
  have hstepEq : DDA.Step p stopped axisIsHomed m d
      = DDA.StepFinish p ((List.range p.DRIVES).foldl
          (fun s drive => DDA.StepDrive p stopped axisIsHomed drive s)
          { move := m, dda := d, drivesMoving := 0, calls := [] }) := by
    have hin : ((List.range p.DRIVES).foldl
          (fun s drive => DDA.StepDrive p stopped axisIsHomed drive s)
          { move := m, dda := d, drivesMoving := 0, calls := [] }).dda.active = false := by
      rcases hhit with hl | hh
      · exact (l1 hl).1
      · exact (l2 hh).1
    unfold DDA.Step
    simp only [hd, hm, not_true_eq_false, if_false]
    generalize (List.range p.DRIVES).foldl
      (fun s drive => DDA.StepDrive p stopped axisIsHomed drive s)
      { move := m, dda := d, drivesMoving := 0, calls := [] } = s1 at hin ⊢
    simp [hin]
  rw [hstepEq]
  generalize (List.range p.DRIVES).foldl
    (fun s drive => DDA.StepDrive p stopped axisIsHomed drive s)
    { move := m, dda := d, drivesMoving := 0, calls := [] } = s1 at ha l1 l2 ⊢
  have hact : s1.dda.active = false := by
    rcases hhit with hl | hh
    · exact (l1 hl).1
    · exact (l2 hh).1
  have hla : s1.dda.myLookAheadEntry = d.myLookAheadEntry := by rw [ha]
  have hfd : (DDA.StepFinish p s1).dda = s1.dda := rfl
  have hring : (DDA.StepFinish p s1).move.lookAheadRing d.myLookAheadEntry
      = LookAhead.Release (s1.move.lookAheadRing d.myLookAheadEntry) := by
    simp [DDA.StepFinish, Move.setEntry, setAt, hla]
  refine ⟨by rw [hfd]; exact hact, by rw [hfd, ha], by rw [hfd, ha]; exact hsc,
    by rw [hring]; rfl, ?_, ?_, ?_⟩
  · intro j hj
    rw [hring]
    simp [DDA.StepFinish, Move.setEntry, hj, hla, LookAhead.MachineToEndPoint,
      LookAhead.Release]
  · rw [hring]
    show (s1.move.lookAheadRing d.myLookAheadEntry).endPoint k = _
    rcases hhit with hl | hh
    · rw [if_pos hl]
      exact (l1 hl).2
    · have hnl : ¬ stopped k = EndStopHit.lowHit := by rw [hh]; decide
      rw [if_neg hnl]
      exact (l2 hh).2
  · intro envs
    exact DDA.StepMany_idle p envs _ (by rw [hfd]; exact hact)

/-- The started DDA of the 3-step example move, with the X endstop reporting a low hit
at the first step: the DDA ends inactive at step count 0 of 3, the entry is released
and the live X coordinate is the snapped endpoint 0. -/
theorem C16_witness :
    exampleStartedDDA.active = true ∧ exampleStartedDDA.checkEndStops = true ∧
    (DDA.Step examplePlatform (fun _ => EndStopHit.lowHit) (fun _ => true)
      (exampleMove exampleRingE 1 2 1) exampleStartedDDA).dda.active = false ∧
    (DDA.Step examplePlatform (fun _ => EndStopHit.lowHit) (fun _ => true)
      (exampleMove exampleRingE 1 2 1) exampleStartedDDA).dda.stepCount
      < (DDA.Step examplePlatform (fun _ => EndStopHit.lowHit) (fun _ => true)
          (exampleMove exampleRingE 1 2 1) exampleStartedDDA).dda.totalSteps ∧
    ((DDA.Step examplePlatform (fun _ => EndStopHit.lowHit) (fun _ => true)
      (exampleMove exampleRingE 1 2 1) exampleStartedDDA).move.lookAheadRing
        exampleStartedDDA.myLookAheadEntry).processed = released ∧
    (DDA.Step examplePlatform (fun _ => EndStopHit.lowHit) (fun _ => true)
      (exampleMove exampleRingE 1 2 1) exampleStartedDDA).move.liveCoordinates 0 = 0 := by
  have hd : exampleStartedDDA.active = true := by decide!
  have hm : (exampleMove exampleRingE 1 2 1).active = true := by decide!
  have hce : exampleStartedDDA.checkEndStops = true := by decide!
  have hsc : exampleStartedDDA.stepCount < exampleStartedDDA.totalSteps := by decide!
  have hk : 0 < examplePlatform.DRIVES := by decide
  have hstep : exampleStartedDDA.counter 0 + exampleStartedDDA.delta 0 > 0 := by decide!
  have h := C16_endstop_hit_terminates_dda examplePlatform (fun _ => EndStopHit.lowHit)
    (fun _ => true) (exampleMove exampleRingE 1 2 1) exampleStartedDDA 0 hd hm hce hsc hk hstep
    (Or.inl rfl)
  exact ⟨hd, hce, h.1, h.2.2.1, h.2.2.2.1, by decide!⟩

end EndstopFacts

/-! ## The velocities handed back by `DDA::Init` -/

/-- The rational square root `qsqrtDown` is a lower bound of every non-negative
rational whose square is at least its argument. -/
theorem qsqrtDown_upper (x y : ℚ) (hx : 0 ≤ x) (hxy : y ≤ x * x) : qsqrtDown y ≤ x := by
  unfold qsqrtDown
  by_cases hy : y ≤ 0
  · rw [if_pos hy]
    exact hx
  · rw [if_neg hy]
    push_neg at hy
    have hden : (0 : ℚ) < (y.den : ℚ) := by exact_mod_cast y.den_pos
    have hnum : 0 < y.num := Rat.num_pos.mpr hy
    obtain ⟨h1, -⟩ := isqrt_spec (y.num.toNat * y.den) (y.num.toNat * y.den) le_rfl
    generalize isqrt (y.num.toNat * y.den) (y.num.toNat * y.den) = s at h1 ⊢
    rw [div_le_iff₀ hden]
    have hyd : y * (y.den : ℚ) = (y.num : ℚ) := Rat.mul_den_eq_num y
    have hnn : ((y.num.toNat : ℕ) : ℚ) = (y.num : ℚ) := by
      have : ((y.num.toNat : ℕ) : ℤ) = y.num := Int.toNat_of_nonneg (le_of_lt hnum)
      exact_mod_cast this
    have hsq : (s : ℚ) * (s : ℚ) ≤ (y.num : ℚ) * (y.den : ℚ) := by
      have : ((s * s : ℕ) : ℚ) ≤ ((y.num.toNat * y.den : ℕ) : ℚ) := by exact_mod_cast h1
      push_cast at this
      rw [hnn] at this
      exact this
    by_contra hcon
    push_neg at hcon
    have hxd : 0 ≤ x * (y.den : ℚ) := mul_nonneg hx (le_of_lt hden)
    have h2 : (x * y.den) * (x * y.den) < (s : ℚ) * (s : ℚ) :=
      mul_lt_mul'' hcon hcon hxd hxd
    have h3 : y * y.den * y.den ≤ (x * y.den) * (x * y.den) := by
      have e1 : (x * y.den) * (x * y.den) = (x * x) * (y.den * y.den) := by ring
      have e2 : y * y.den * y.den = y * (y.den * y.den) := by ring
      rw [e1, e2]
      exact mul_le_mul_of_nonneg_right hxy (by positivity)
    rw [hyd] at h3
    linarith

section AccelFacts
variable {K : Type} [LinearOrderedField K] [FloorRing K]

/-- When `DDA::AccelerationCalculation` answers `change`, either it has reduced one of
`u`, `v` (the other is unchanged), or it has snapped a movement of more than 5 steps
to a flat profile and set both to the requested feed rate. -/
theorem DDA.AccelerationCalculation_change (p : Platform K) (e : LookAhead K) (u v : K)
    (d : DDA K)
    (hs : ∀ x y : K, 0 ≤ x → y ≤ x * x → p.sqrt y ≤ x)
    (ha : 0 < d.acceleration) (hd : 0 ≤ d.distance) (hu0 : 0 ≤ u) (hv0 : 0 ≤ v)
    (hch : (DDA.AccelerationCalculation p e u v moving d).2.2.2 = change) :
    ((DDA.AccelerationCalculation p e u v moving d).2.1 ≤ u ∧
      (DDA.AccelerationCalculation p e u v moving d).2.2.1 ≤ v) ∨
    ((DDA.AccelerationCalculation p e u v moving d).2.1 = e.requestedFeedrate ∧
      (DDA.AccelerationCalculation p e u v moving d).2.2.1 = e.requestedFeedrate ∧
      (DDA.AccelerationCalculation p e u v moving d).1.stopAStep = 0 ∧
      (DDA.AccelerationCalculation p e u v moving d).1.startDStep = d.totalSteps ∧
      5 < d.totalSteps) := by
  revert hch
  unfold DDA.AccelerationCalculation
  dsimp only
  by_cases hcol : roundf (1 / 2 * (e.requestedFeedrate * e.requestedFeedrate - u * u)
        / d.acceleration * (d.totalSteps : K) / d.distance)
      ≥ d.totalSteps + roundf (1 / 2 * (v * v - e.requestedFeedrate * e.requestedFeedrate)
        / d.acceleration * (d.totalSteps : K) / d.distance)
  · rw [if_pos hcol]
    by_cases hinf : 1 / 2 * (1 / 2 * (v * v - u * u) / d.acceleration + d.distance) < 0
        ∨ 1 / 2 * (1 / 2 * (v * v - u * u) / d.acceleration + d.distance) > d.distance
    · rw [if_pos hinf]
      by_cases hvu : v > u
      · rw [if_pos hvu]
        intro _
        refine Or.inl ⟨le_refl _, ?_⟩
        dsimp only
        apply hs v _ hv0
        have hpos : 0 < 1 / 2 * (v * v - u * u) / d.acceleration := by
          apply div_pos _ ha
          nlinarith
        rcases hinf with h | h
        · linarith
        · have h1 : d.distance < 1 / 2 * (v * v - u * u) / d.acceleration := by linarith
          rw [lt_div_iff₀ ha] at h1
          linarith
      · rw [if_neg hvu]
        intro _
        refine Or.inl ⟨?_, le_refl _⟩
        dsimp only
        apply hs u _ hu0
        push_neg at hvu
        have hnp : 1 / 2 * (v * v - u * u) / d.acceleration ≤ 0 := by
          apply div_nonpos_of_nonpos_of_nonneg _ (le_of_lt ha)
          nlinarith
        rcases hinf with h | h
        · have h1 : 1 / 2 * (v * v - u * u) / d.acceleration < -d.distance := by linarith
          rw [div_lt_iff₀ ha] at h1
          linarith
        · linarith
    · rw [if_neg hinf]
      intro hch
      have hne : noFlat ≠ change := by decide
      exact absurd hch hne
  · rw [if_neg hcol]
    by_cases hsnap : d.totalSteps > 5
        ∧ roundf (1 / 2 * (e.requestedFeedrate * e.requestedFeedrate - u * u)
            / d.acceleration * (d.totalSteps : K) / d.distance) ≤ 1
        ∧ d.totalSteps + roundf (1 / 2 * (v * v - e.requestedFeedrate * e.requestedFeedrate)
            / d.acceleration * (d.totalSteps : K) / d.distance) ≥ d.totalSteps - 1
    · rw [if_pos hsnap]
      intro _
      exact Or.inr ⟨rfl, rfl, rfl, rfl, hsnap.1⟩
    · rw [if_neg hsnap]
      intro hch
      have hne : moving ≠ change := by decide
      exact absurd hch hne

/-- C11 (as amended). Whenever `DDA::Init` returns `change` (square root not rounded
up, positive acceleration, non-negative speeds), either the `u` and `v` it hands back
are each no greater than the velocities it started from (`u` at most the previous
entry's `V()`, `v` at most this entry's `V()`), or the movement has more than 5 steps
and was snapped to a flat profile (`stopAStep = 0`, `startDStep = totalSteps`), in
which case `u` and `v` are both the requested feed rate of the entry, whatever the
velocities were. -/
theorem C11_change_reduces_unless_snapped (p : Platform K) (m : Move K) (la : Nat)
    (dbg : Bool) (d : DDA K)
    (hs : ∀ x y : K, 0 ≤ x → y ≤ x * x → p.sqrt y ≤ x)
    (ha : 0 < (m.lookAheadRing la).acceleration)
    (hd : 0 ≤ (DDA.Init p m la dbg d).2.1.distance)
    (hu0 : 0 ≤ (m.lookAheadRing (Previous la)).v)
    (hv0 : 0 ≤ (m.lookAheadRing la).v)
    (hch : (DDA.Init p m la dbg d).2.2.2.2 = change) :
    ((DDA.Init p m la dbg d).2.2.1 ≤ (m.lookAheadRing (Previous la)).v ∧
      (DDA.Init p m la dbg d).2.2.2.1 ≤ (m.lookAheadRing la).v) ∨
    ((DDA.Init p m la dbg d).2.2.1 = (m.lookAheadRing la).requestedFeedrate ∧
      (DDA.Init p m la dbg d).2.2.2.1 = (m.lookAheadRing la).requestedFeedrate ∧
      (DDA.Init p m la dbg d).2.1.stopAStep = 0 ∧
      (DDA.Init p m la dbg d).2.1.startDStep = (DDA.Init p m la dbg d).2.1.totalSteps ∧
      5 < (DDA.Init p m la dbg d).2.1.totalSteps) := by
  revert hd hch
  unfold DDA.Init
  dsimp only
  generalize DDA.InitSteps p m la d = s
  by_cases hnull : s.1.totalSteps ≤ 0
  · rw [if_pos hnull]
    intro _ hch
    have hne : moving ≠ change := by decide
    exact absurd hch hne
  · rw [if_neg hnull]
    obtain ⟨a, b, hab⟩ := DDA.AccelerationCalculation_dda p (m.lookAheadRing la)
      (m.lookAheadRing (Previous la)).v (m.lookAheadRing la).v moving
      (DDA.InitSetUp p (m.lookAheadRing la) s)
    intro hd hch
    have hd' : 0 ≤ (DDA.InitSetUp p (m.lookAheadRing la) s).distance := by
      simpa [hab] using hd
    have ha' : 0 < (DDA.InitSetUp p (m.lookAheadRing la) s).acceleration := ha
    rcases DDA.AccelerationCalculation_change p (m.lookAheadRing la)
      (m.lookAheadRing (Previous la)).v (m.lookAheadRing la).v
      (DDA.InitSetUp p (m.lookAheadRing la) s) hs ha' hd' hu0 hv0 hch with h | h
    · exact Or.inl h
    · obtain ⟨h1, h2, h3, h4, h5⟩ := h
      refine Or.inr ⟨h1, h2, h3, ?_, ?_⟩
      · show (DDA.AccelerationCalculation p (m.lookAheadRing la)
          (m.lookAheadRing (Previous la)).v (m.lookAheadRing la).v moving
          (DDA.InitSetUp p (m.lookAheadRing la) s)).1.startDStep
          = (DDA.AccelerationCalculation p (m.lookAheadRing la)
          (m.lookAheadRing (Previous la)).v (m.lookAheadRing la).v moving
          (DDA.InitSetUp p (m.lookAheadRing la) s)).1.totalSteps
        rw [h4, hab]
      · show 5 < (DDA.AccelerationCalculation p (m.lookAheadRing la)
          (m.lookAheadRing (Previous la)).v (m.lookAheadRing la).v moving
          (DDA.InitSetUp p (m.lookAheadRing la) s)).1.totalSteps
        rw [hab]
        exact h5

end AccelFacts

/-- The move in slot 2 of `exampleRingB` (1 unit at feed rate 100, entered at speed 30)
cannot reach its end speed 100 in time: `DDA::Init` returns `change` and hands back
`u = 30` and `v = 50 ≤ 100`. -/
theorem C11_witness :
    (DDA.Init examplePlatformDown (exampleMove exampleRingB 1 4 3) 2 false exampleDDA).2.2.2.2
      = change ∧
    (DDA.Init examplePlatformDown (exampleMove exampleRingB 1 4 3) 2 false exampleDDA).2.2.2.1
      = 50 ∧
    (((DDA.Init examplePlatformDown (exampleMove exampleRingB 1 4 3) 2 false exampleDDA).2.2.1
        ≤ ((exampleMove exampleRingB 1 4 3).lookAheadRing (Previous 2)).v ∧
      (DDA.Init examplePlatformDown (exampleMove exampleRingB 1 4 3) 2 false exampleDDA).2.2.2.1
        ≤ ((exampleMove exampleRingB 1 4 3).lookAheadRing 2).v) ∨
    ((DDA.Init examplePlatformDown (exampleMove exampleRingB 1 4 3) 2 false exampleDDA).2.2.1
        = ((exampleMove exampleRingB 1 4 3).lookAheadRing 2).requestedFeedrate ∧
      (DDA.Init examplePlatformDown (exampleMove exampleRingB 1 4 3) 2 false exampleDDA).2.2.2.1
        = ((exampleMove exampleRingB 1 4 3).lookAheadRing 2).requestedFeedrate ∧
      (DDA.Init examplePlatformDown (exampleMove exampleRingB 1 4 3) 2 false
        exampleDDA).2.1.stopAStep = 0 ∧
      (DDA.Init examplePlatformDown (exampleMove exampleRingB 1 4 3) 2 false
        exampleDDA).2.1.startDStep
        = (DDA.Init examplePlatformDown (exampleMove exampleRingB 1 4 3) 2 false
            exampleDDA).2.1.totalSteps ∧
      5 < (DDA.Init examplePlatformDown (exampleMove exampleRingB 1 4 3) 2 false
            exampleDDA).2.1.totalSteps)) := by
  have hch : (DDA.Init examplePlatformDown (exampleMove exampleRingB 1 4 3) 2 false
      exampleDDA).2.2.2.2 = change := by decide!
  have hu : (DDA.Init examplePlatformDown (exampleMove exampleRingB 1 4 3) 2 false
      exampleDDA).2.2.2.1 = 50 := by decide!
  have ha : 0 < ((exampleMove exampleRingB 1 4 3).lookAheadRing 2).acceleration := by decide!
  have hd : 0 ≤ (DDA.Init examplePlatformDown (exampleMove exampleRingB 1 4 3) 2 false
      exampleDDA).2.1.distance := by decide!
  have hu0 : 0 ≤ ((exampleMove exampleRingB 1 4 3).lookAheadRing (Previous 2)).v := by decide!
  have hv0 : 0 ≤ ((exampleMove exampleRingB 1 4 3).lookAheadRing 2).v := by decide!
  exact ⟨hch, hu,
    C11_change_reduces_unless_snapped examplePlatformDown (exampleMove exampleRingB 1 4 3) 2
      false exampleDDA (fun x y hx hxy => qsqrtDown_upper x y hx hxy) ha hd hu0 hv0 hch⟩

/-- C11 as stated fails: for the move in slot 1 of `exampleRingF` (10 steps at feed
rate 30, entered and left at speed 29.9) `DDA::Init` returns `change` and hands back
`u = v = 30`, above both velocities it started from; the planner's write-back then
raises the planned velocity of both entries. -/
theorem C11_counterexample :
    (DDA.Init examplePlatform (exampleMove exampleRingF 1 2 1) 1 false exampleDDA).2.2.2.2
      = change ∧
    ((exampleMove exampleRingF 1 2 1).lookAheadRing (Previous 1)).v
      < (DDA.Init examplePlatform (exampleMove exampleRingF 1 2 1) 1 false exampleDDA).2.2.1 ∧
    ((exampleMove exampleRingF 1 2 1).lookAheadRing 1).v
      < (DDA.Init examplePlatform (exampleMove exampleRingF 1 2 1) 1 false exampleDDA).2.2.2.1 ∧
    ((exampleMove exampleRingF 1 2 1).lookAheadRing 0).v
      < ((Move.planEntry examplePlatform false 0 1
          (exampleMove exampleRingF 1 2 1)).lookAheadRing 0).v ∧
    ((exampleMove exampleRingF 1 2 1).lookAheadRing 1).v
      < ((Move.planEntry examplePlatform false 0 1
          (exampleMove exampleRingF 1 2 1)).lookAheadRing 1).v := by
  decide!

/-! ## The look-ahead ring as a queue -/

section QueueFacts
variable {K : Type} [LinearOrderedField K] [FloorRing K]

omit [LinearOrderedField K] [FloorRing K] in
theorem Move.SameQueue_refl (m : Move K) : Move.SameQueue m m :=
  ⟨rfl, rfl, rfl, rfl, rfl, rfl⟩

omit [LinearOrderedField K] [FloorRing K] in
theorem Move.SameQueue_trans (m m1 m2 : Move K) (h1 : Move.SameQueue m m1)
    (h2 : Move.SameQueue m1 m2) : Move.SameQueue m m2 := by
  obtain ⟨a1, b1, c1, d1, e1, f1⟩ := h1
  obtain ⟨a2, b2, c2, d2, e2, f2⟩ := h2
  exact ⟨a2.trans a1, b2.trans b1, c2.trans c1, d2.trans d1, e2.trans e1, f2.trans f1⟩

omit [LinearOrderedField K] [FloorRing K] in
theorem LookAhead.SameMove_refl (e : LookAhead K) : LookAhead.SameMove e e := rfl

omit [LinearOrderedField K] [FloorRing K] in
theorem LookAhead.SameMove_trans (e0 e1 e2 : LookAhead K) (h1 : LookAhead.SameMove e0 e1)
    (h2 : LookAhead.SameMove e1 e2) : LookAhead.SameMove e0 e2 := by
  unfold LookAhead.SameMove at *
  rw [h2, h1]

omit [LinearOrderedField K] [FloorRing K] in
theorem LookAhead.SameMove_endPoint (e0 e : LookAhead K) (h : LookAhead.SameMove e0 e) :
    e.endPoint = e0.endPoint := by
  unfold LookAhead.SameMove at h
  rw [h]

omit [LinearOrderedField K] [FloorRing K] in
theorem Move.SameMoves_refl (m : Move K) : Move.SameMoves m m := fun _ => rfl

omit [LinearOrderedField K] [FloorRing K] in
theorem Move.SameMoves_trans (m m1 m2 : Move K) (h1 : Move.SameMoves m m1)
    (h2 : Move.SameMoves m1 m2) : Move.SameMoves m m2 :=
  fun i => LookAhead.SameMove_trans _ _ _ (h1 i) (h2 i)

/-- Writing an entry that is the same move keeps the queue. -/
theorem Move.setEntry_same (m0 m : Move K) (i : Nat) (e : LookAhead K)
    (h : Move.SameQueue m0 m ∧ Move.SameMoves m0 m)
    (he : LookAhead.SameMove (m.lookAheadRing i) e) :
    Move.SameQueue m0 (Move.setEntry m i e) ∧ Move.SameMoves m0 (Move.setEntry m i e) := by
  refine ⟨h.1, fun j => ?_⟩
  rw [Move.setEntry_ring]
  by_cases hj : j = i
  · rw [if_pos hj, hj]
    exact LookAhead.SameMove_trans _ _ _ (h.2 i) he
  · rw [if_neg hj]
    exact h.2 j

theorem LookAhead.SetProcessed_same (ms : Nat) (e : LookAhead K) :
    LookAhead.SameMove e (LookAhead.SetProcessed ms e) := by
  unfold LookAhead.SetProcessed
  by_cases h : ms = unprocessed
  · rw [if_pos h]
    rfl
  · rw [if_neg h]
    rfl

/-- The Move after `DDA::Init`: unchanged, or with the entry released. -/
theorem DDA.Init_move (p : Platform K) (m : Move K) (la : Nat) (dbg : Bool) (d : DDA K) :
    (DDA.Init p m la dbg d).1 = m ∨
    (DDA.Init p m la dbg d).1 = Move.setEntry m la (LookAhead.Release (m.lookAheadRing la)) := by
  unfold DDA.Init
  dsimp only
  by_cases hnull : (DDA.InitSteps p m la d).1.totalSteps ≤ 0
  · rw [if_pos hnull]
    exact Or.inr rfl
  · rw [if_neg hnull]
    exact Or.inl rfl

theorem DDA.Init_same (p : Platform K) (m : Move K) (la : Nat) (dbg : Bool) (d : DDA K) :
    Move.SameQueue m (DDA.Init p m la dbg d).1 ∧
    Move.SameMoves m (DDA.Init p m la dbg d).1 := by
  rcases DDA.Init_move p m la dbg d with h | h
  · rw [h]
    exact ⟨Move.SameQueue_refl m, Move.SameMoves_refl m⟩
  · rw [h]
    exact Move.setEntry_same m m la _ ⟨Move.SameQueue_refl m, Move.SameMoves_refl m⟩ rfl

/-- A planning step of `Move::DoLookAhead` keeps the queue. -/
theorem Move.planEntry_same (p : Platform K) (down : Bool) (n0 n1 : Nat) (m : Move K) :
    Move.SameQueue m (Move.planEntry p down n0 n1 m) ∧
    Move.SameMoves m (Move.planEntry p down n0 n1 m) := by
  unfold Move.planEntry
  by_cases hc : (m.lookAheadRing n1).processed &&& complete = 0
  · rw [if_pos hc]
    by_cases hvc : (m.lookAheadRing n1).processed &&& vCosineSet ≠ 0
    · rw [if_pos hvc]
      dsimp only
      have h0 := DDA.Init_same p m n1 false m.lookAheadDDA
      generalize DDA.Init p m n1 false m.lookAheadDDA = r at h0 ⊢
      have h1 : Move.SameQueue m { r.1 with lookAheadDDA := r.2.1 } ∧
          Move.SameMoves m { r.1 with lookAheadDDA := r.2.1 } := h0
      by_cases hch : r.2.2.2.2 &&& change ≠ 0
      · simp only [if_pos hch]
        cases down
        · simp only [Bool.false_eq_true, if_false]
          exact Move.setEntry_same m _ n1 _ (Move.setEntry_same m _ n0 _ h1 rfl) rfl
        · simp only [if_true]
          exact Move.setEntry_same m _ n1 _
            (Move.setEntry_same m _ n1 _ (Move.setEntry_same m _ n0 _ h1 rfl) rfl)
            (LookAhead.SetProcessed_same _ _)
      · simp only [if_neg hch]
        cases down
        · simp only [Bool.false_eq_true, if_false]
          exact h1
        · simp only [if_true]
          exact Move.setEntry_same m _ n1 _ h1 (LookAhead.SetProcessed_same _ _)
    · rw [if_neg hvc]
      exact ⟨Move.SameQueue_refl m, Move.SameMoves_refl m⟩
  · rw [if_neg hc]
    exact ⟨Move.SameQueue_refl m, Move.SameMoves_refl m⟩

theorem Move.Cosine_same (p : Platform K) (m : Move K) (i : Nat) :
    Move.SameQueue m (Move.Cosine p m i).1 ∧ Move.SameMoves m (Move.Cosine p m i).1 := by
  unfold Move.Cosine
  by_cases hc : (m.lookAheadRing i).cosine < 3 / 2
  · rw [if_pos hc]
    exact ⟨Move.SameQueue_refl m, Move.SameMoves_refl m⟩
  · rw [if_neg hc]
    exact Move.setEntry_same m m i _ ⟨Move.SameQueue_refl m, Move.SameMoves_refl m⟩ rfl

/-- A junction step of `Move::DoLookAhead` keeps the queue. -/
theorem Move.junctionEntry_same (p : Platform K) (n1 n2 : Nat) (m : Move K) :
    Move.SameQueue m (Move.junctionEntry p n1 n2 m) ∧
    Move.SameMoves m (Move.junctionEntry p n1 n2 m) := by
  unfold Move.junctionEntry
  by_cases hu : (m.lookAheadRing n1).processed = unprocessed
  · rw [if_pos hu]
    dsimp only
    have h0 := Move.Cosine_same p m n1
    generalize Move.Cosine p m n1 = r at h0 ⊢
    exact Move.setEntry_same m _ n1 _ (Move.setEntry_same m r.1 n1 _ h0 rfl)
      (LookAhead.SetProcessed_same _ _)
  · rw [if_neg hu]
    exact ⟨Move.SameQueue_refl m, Move.SameMoves_refl m⟩

theorem Move.upLoop_same (p : Platform K) (k : Nat) (s : PlanState K) :
    Move.SameQueue s.move (Move.upLoop p k s).move ∧
    Move.SameMoves s.move (Move.upLoop p k s).move := by
  induction k generalizing s with
  | zero => exact ⟨Move.SameQueue_refl _, Move.SameMoves_refl _⟩
  | succ k ih =>
    rw [Move.upLoop]
    obtain ⟨a, b⟩ := ih
      { move := Move.planEntry p false s.n0 s.n1 s.move, n0 := s.n1, n1 := s.n2, n2 := Next s.n2 }
    obtain ⟨a1, b1⟩ := Move.planEntry_same p false s.n0 s.n1 s.move
    exact ⟨Move.SameQueue_trans _ _ _ a1 a, Move.SameMoves_trans _ _ _ b1 b⟩

theorem Move.downLoop_same (p : Platform K) (k : Nat) (s : PlanState K) :
    Move.SameQueue s.move (Move.downLoop p k s).move ∧
    Move.SameMoves s.move (Move.downLoop p k s).move := by
  induction k generalizing s with
  | zero => exact Move.planEntry_same p true s.n0 s.n1 s.move
  | succ k ih =>
    rw [Move.downLoop]
    obtain ⟨a, b⟩ := ih
      { move := Move.planEntry p true s.n0 s.n1 s.move, n0 := Previous s.n0, n1 := s.n0,
        n2 := s.n1 }
    obtain ⟨a1, b1⟩ := Move.planEntry_same p true s.n0 s.n1 s.move
    exact ⟨Move.SameQueue_trans _ _ _ a1 a, Move.SameMoves_trans _ _ _ b1 b⟩

theorem Move.junctionLoop_same (p : Platform K) (k : Nat) (s : PlanState K) :
    Move.SameQueue s.move (Move.junctionLoop p k s).move ∧
    Move.SameMoves s.move (Move.junctionLoop p k s).move := by
  induction k generalizing s with
  | zero => exact ⟨Move.SameQueue_refl _, Move.SameMoves_refl _⟩
  | succ k ih =>
    rw [Move.junctionLoop]
    obtain ⟨a, b⟩ := ih
      { move := Move.junctionEntry p s.n1 s.n2 s.move, n0 := s.n1, n1 := s.n2, n2 := Next s.n2 }
    obtain ⟨a1, b1⟩ := Move.junctionEntry_same p s.n1 s.n2 s.move
    exact ⟨Move.SameQueue_trans _ _ _ a1 a, Move.SameMoves_trans _ _ _ b1 b⟩

theorem Move.reachabilityPasses_same (p : Platform K) (m : Move K) :
    Move.SameQueue m (Move.reachabilityPasses p m) ∧
    Move.SameMoves m (Move.reachabilityPasses p m) := by
  unfold Move.reachabilityPasses
  dsimp only
  generalize ringDistance (Next m.lookAheadRingGetPointer) m.lookAheadRingAddPointer = k
  have h1 := Move.upLoop_same p k
    { move := m, n0 := Previous m.lookAheadRingGetPointer, n1 := m.lookAheadRingGetPointer,
      n2 := Next m.lookAheadRingGetPointer }
  generalize Move.upLoop p k
    { move := m, n0 := Previous m.lookAheadRingGetPointer, n1 := m.lookAheadRingGetPointer,
      n2 := Next m.lookAheadRingGetPointer } = s1 at h1 ⊢
  generalize ringDistance m.lookAheadRingGetPointer (Previous s1.n0) = k2
  have h2 := Move.downLoop_same p k2 s1
  generalize Move.downLoop p k2 s1 = s2 at h2 ⊢
  exact Move.setEntry_same m s2.move s2.n0 _
    ⟨Move.SameQueue_trans _ _ _ h1.1 h2.1, Move.SameMoves_trans _ _ _ h1.2 h2.2⟩
    (LookAhead.SetProcessed_same _ _)

theorem Move.junctionPass_same (p : Platform K) (hid : Bool) (m : Move K) :
    Move.SameQueue m (Move.junctionPass p hid m) ∧
    Move.SameMoves m (Move.junctionPass p hid m) := by
  unfold Move.junctionPass
  dsimp only
  generalize ringDistance (Next m.lookAheadRingGetPointer) m.lookAheadRingAddPointer = k
  have h1 := Move.junctionLoop_same p k
    { move := m, n0 := Previous m.lookAheadRingGetPointer, n1 := m.lookAheadRingGetPointer,
      n2 := Next m.lookAheadRingGetPointer }
  generalize Move.junctionLoop p k
    { move := m, n0 := Previous m.lookAheadRingGetPointer, n1 := m.lookAheadRingGetPointer,
      n2 := Next m.lookAheadRingGetPointer } = s1 at h1 ⊢
  by_cases hstop : m.addNoMoreMoves = true ∨ ¬ hid = true
  · rw [if_pos hstop]
    exact Move.setEntry_same m _ s1.n1 _ (Move.setEntry_same m s1.move s1.n1 _ h1 rfl)
      (LookAhead.SetProcessed_same _ _)
  · rw [if_neg hstop]
    exact h1

/-- `Move::DoLookAhead` changes neither the ring cursors, the count, `lastMove`, the
flags, nor the endpoint coordinates of any entry. -/
theorem Move.DoLookAhead_same (p : Platform K) (hid : Bool) (m : Move K) :
    Move.SameQueue m (Move.DoLookAhead p hid m) ∧
    Move.SameMoves m (Move.DoLookAhead p hid m) := by
  unfold Move.DoLookAhead
  by_cases he : Move.LookAheadRingEmpty m = true
  · rw [if_pos he]
    exact ⟨Move.SameQueue_refl m, Move.SameMoves_refl m⟩
  · rw [if_neg he]
    dsimp only
    have h1 : Move.SameQueue m
          (if m.addNoMoreMoves = true ∨ ¬ hid = true ∨ m.lookAheadRingCount > LOOK_AHEAD then
            Move.reachabilityPasses p m else m) ∧
        Move.SameMoves m
          (if m.addNoMoreMoves = true ∨ ¬ hid = true ∨ m.lookAheadRingCount > LOOK_AHEAD then
            Move.reachabilityPasses p m else m) := by
      by_cases hc : m.addNoMoreMoves = true ∨ ¬ hid = true ∨ m.lookAheadRingCount > LOOK_AHEAD
      · rw [if_pos hc]
        exact Move.reachabilityPasses_same p m
      · rw [if_neg hc]
        exact ⟨Move.SameQueue_refl m, Move.SameMoves_refl m⟩
    generalize (if m.addNoMoreMoves = true ∨ ¬ hid = true ∨ m.lookAheadRingCount > LOOK_AHEAD
      then Move.reachabilityPasses p m else m) = m1 at h1 ⊢
    by_cases hc : m1.addNoMoreMoves = true ∨ ¬ hid = true ∨ m1.lookAheadRingCount > 1
    · rw [if_pos hc]
      obtain ⟨a, b⟩ := Move.junctionPass_same p hid m1
      exact ⟨Move.SameQueue_trans _ _ _ h1.1 a, Move.SameMoves_trans _ _ _ h1.2 b⟩
    · rw [if_neg hc]
      exact h1

end QueueFacts

/-! ### Ring arithmetic -/

theorem ringDistance_self (g : Nat) : ringDistance g g = 0 := by
  unfold ringDistance LOOK_AHEAD_RING_LENGTH
  omega

theorem ringDistance_Next_right (g a : Nat) (ha : a < LOOK_AHEAD_RING_LENGTH)
    (h : ringDistance g a ≤ LOOK_AHEAD_RING_LENGTH - 2) :
    ringDistance g (Next a) = ringDistance g a + 1 := by
  unfold ringDistance Next LOOK_AHEAD_RING_LENGTH at *
  omega

theorem ringDistance_full (g a : Nat) (hg : g < LOOK_AHEAD_RING_LENGTH) :
    Next (Next a) = g ↔ ringDistance g a = LOOK_AHEAD_RING_LENGTH - 2 := by
  unfold ringDistance Next LOOK_AHEAD_RING_LENGTH at *
  omega

theorem ringDistance_Next_left (g a : Nat) (hg : g < LOOK_AHEAD_RING_LENGTH)
    (h : ringDistance g a ≠ 0) :
    ringDistance g a = ringDistance (Next g) a + 1 := by
  unfold ringDistance Next LOOK_AHEAD_RING_LENGTH at *
  omega

section QueueInvFacts
variable {K : Type} [LinearOrderedField K] [FloorRing K]

omit [LinearOrderedField K] [FloorRing K] in
theorem Move.QueueInv_of_same (m m1 : Move K) (h : Move.SameQueue m m1)
    (hi : Move.QueueInv m) : Move.QueueInv m1 := by
  obtain ⟨a, b, c, -⟩ := h
  unfold Move.QueueInv at *
  rw [a, b, c]
  exact hi

omit [LinearOrderedField K] [FloorRing K] in
theorem Move.queue_of_same (m m1 : Move K) (h : Move.SameQueue m m1)
    (he : Move.SameMoves m m1) : Move.queue m1 = Move.queue m := by
  obtain ⟨a, b, -⟩ := h
  unfold Move.queue
  rw [a, b]
  exact List.map_congr_left (fun k _ => LookAhead.SameMove_endPoint _ _ (he _))

/-- What `Move::LookAheadRingAdd` does. -/
theorem Move.LookAheadRingAdd_spec (ep : Nat → Int) (f minS maxS acc : K) (ce hid : Bool)
    (m : Move K) :
    ((Move.LookAheadRingAdd ep f minS maxS acc ce hid m).2 = true ↔
      ((m.lookAheadRing m.lookAheadRingAddPointer).processed &&& released ≠ 0 ∧
        Next (Next m.lookAheadRingAddPointer) ≠ m.lookAheadRingGetPointer)) ∧
    ((Move.LookAheadRingAdd ep f minS maxS acc ce hid m).2 = false →
      (Move.LookAheadRingAdd ep f minS maxS acc ce hid m).1 = m) ∧
    ((Move.LookAheadRingAdd ep f minS maxS acc ce hid m).2 = true →
      (Move.LookAheadRingAdd ep f minS maxS acc ce hid m).1 =
        { Move.setEntry m m.lookAheadRingAddPointer
            (LookAhead.Init ep f minS maxS acc ce hid
              (m.lookAheadRing m.lookAheadRingAddPointer)) with
          lastMove := m.lookAheadRingAddPointer
          lookAheadRingAddPointer := Next m.lookAheadRingAddPointer
          lookAheadRingCount := m.lookAheadRingCount + 1 }) := by
  unfold Move.LookAheadRingAdd Move.LookAheadRingFull
  by_cases hr : (m.lookAheadRing m.lookAheadRingAddPointer).processed &&& released = 0
  · simp [hr]
  · by_cases hn : Next (Next m.lookAheadRingAddPointer) = m.lookAheadRingGetPointer
    · simp [hr, hn]
    · simp [hr, hn]

/-- What `Move::LookAheadRingGet` does. -/
theorem Move.LookAheadRingGet_spec (m : Move K) :
    ((Move.LookAheadRingGet m).2 = none ∧ (Move.LookAheadRingGet m).1 = m) ∨
    (m.lookAheadRingCount ≠ 0 ∧
      (Move.LookAheadRingGet m).2 = some m.lookAheadRingGetPointer ∧
      (Move.LookAheadRingGet m).1 =
        { m with
          lookAheadRingGetPointer := Next m.lookAheadRingGetPointer
          lookAheadRingCount := m.lookAheadRingCount - 1 }) := by
  unfold Move.LookAheadRingGet Move.LookAheadRingEmpty
  by_cases he : m.lookAheadRingCount = 0
  · simp [he]
  · by_cases hc : (m.lookAheadRing m.lookAheadRingGetPointer).processed &&& complete = 0
    · simp [he, hc]
    · simp [he, hc]

end QueueInvFacts

section QueueRunFacts
variable {K : Type} [LinearOrderedField K] [FloorRing K]

/-- `Move::LookAheadRingAdd` keeps the queue invariant; an accepted move is appended
to the queue with the endpoint coordinates given. -/
theorem Move.LookAheadRingAdd_queue (ep : Nat → Int) (f minS maxS acc : K) (ce hid : Bool)
    (m : Move K) (hi : Move.QueueInv m) :
    Move.QueueInv (Move.LookAheadRingAdd ep f minS maxS acc ce hid m).1 ∧
    Move.queue (Move.LookAheadRingAdd ep f minS maxS acc ce hid m).1
      = (if (Move.LookAheadRingAdd ep f minS maxS acc ce hid m).2 then Move.queue m ++ [ep]
          else Move.queue m) := by
  obtain ⟨s1, s2, s3⟩ := Move.LookAheadRingAdd_spec ep f minS maxS acc ce hid m
  cases hres : (Move.LookAheadRingAdd ep f minS maxS acc ce hid m).2
  · rw [s2 hres]
    exact ⟨hi, by simp⟩
  · have e1 : (Move.LookAheadRingAdd ep f minS maxS acc ce hid m).1.lookAheadRingAddPointer
        = Next m.lookAheadRingAddPointer := by rw [s3 hres]
    have e2 : (Move.LookAheadRingAdd ep f minS maxS acc ce hid m).1.lookAheadRingGetPointer
        = m.lookAheadRingGetPointer := by rw [s3 hres]; rfl
    have e3 : (Move.LookAheadRingAdd ep f minS maxS acc ce hid m).1.lookAheadRingCount
        = m.lookAheadRingCount + 1 := by rw [s3 hres]
    have e4 : (Move.LookAheadRingAdd ep f minS maxS acc ce hid m).1.lookAheadRing
        = setAt m.lookAheadRing m.lookAheadRingAddPointer
            (LookAhead.Init ep f minS maxS acc ce hid
              (m.lookAheadRing m.lookAheadRingAddPointer)) := by rw [s3 hres]; rfl
    obtain ⟨hg, ha, hc, hd⟩ := hi
    obtain ⟨-, hnf⟩ := s1.mp hres
    have hne : ringDistance m.lookAheadRingGetPointer m.lookAheadRingAddPointer
        ≠ LOOK_AHEAD_RING_LENGTH - 2 := fun h => hnf ((ringDistance_full _ _ hg).mpr h)
    have hnext := ringDistance_Next_right m.lookAheadRingGetPointer m.lookAheadRingAddPointer
      ha hd
    constructor
    · unfold Move.QueueInv
      rw [e1, e2, e3, hnext, hc]
      refine ⟨hg, Next_lt _, by push_cast; rfl, ?_⟩
      unfold LOOK_AHEAD_RING_LENGTH at *
      omega
    · simp only [if_true]
      unfold Move.queue
      rw [e1, e2, e4, hnext, List.range_succ, List.map_append]
      congr 1
      · apply List.map_congr_left
        intro k hk
        have hk2 := List.mem_range.mp hk
        have hka := (ringDistance_exact _ hg _ ha).2 k hk2
        unfold setAt
        rw [if_neg hka]
      · have hka := (ringDistance_exact _ hg _ ha).1
        unfold setAt
        simp only [List.map_cons, List.map_nil]
        rw [if_pos hka]
        rfl

/-- `Move::LookAheadRingGet` keeps the queue invariant; a returned entry is the head
of the queue. -/
theorem Move.LookAheadRingGet_queue (m : Move K) (hi : Move.QueueInv m) :
    Move.QueueInv (Move.LookAheadRingGet m).1 ∧
    (∀ i, (Move.LookAheadRingGet m).2 = some i →
      Move.queue m
        = ((Move.LookAheadRingGet m).1.lookAheadRing i).endPoint
            :: Move.queue (Move.LookAheadRingGet m).1) ∧
    ((Move.LookAheadRingGet m).2 = none → (Move.LookAheadRingGet m).1 = m) := by
  rcases Move.LookAheadRingGet_spec m with ⟨h1, h2⟩ | ⟨hne, h1, h2⟩
  · rw [h1, h2]
    exact ⟨hi, fun i hc => (by cases hc), fun _ => rfl⟩
  · have e1 : (Move.LookAheadRingGet m).1.lookAheadRingAddPointer
        = m.lookAheadRingAddPointer := by rw [h2]
    have e2 : (Move.LookAheadRingGet m).1.lookAheadRingGetPointer
        = Next m.lookAheadRingGetPointer := by rw [h2]
    have e3 : (Move.LookAheadRingGet m).1.lookAheadRingCount
        = m.lookAheadRingCount - 1 := by rw [h2]
    have e4 : (Move.LookAheadRingGet m).1.lookAheadRing = m.lookAheadRing := by rw [h2]
    obtain ⟨hg, ha, hc, hd⟩ := hi
    have hd0 : ringDistance m.lookAheadRingGetPointer m.lookAheadRingAddPointer ≠ 0 := by
      intro h0
      rw [h0] at hc
      exact hne hc
    have hleft := ringDistance_Next_left m.lookAheadRingGetPointer m.lookAheadRingAddPointer
      hg hd0
    refine ⟨?_, ?_, fun hc => ?_⟩
    · unfold Move.QueueInv
      rw [e1, e2, e3, hc, hleft]
      refine ⟨Next_lt _, ha, by push_cast; ring, by omega⟩
    · intro i hsome
      rw [h1] at hsome
      have hi2 : m.lookAheadRingGetPointer = i := Option.some.inj hsome
      subst hi2
      unfold Move.queue
      rw [e1, e2, e4, hleft, List.range_succ_eq_map, List.map_cons, List.map_map]
      rfl
    · rw [h1] at hc
      cases hc

theorem Move.releaseLoop_spec (k : Nat) (m : Move K) :
    (k ≠ 0 → (Move.releaseLoop k m).lookAheadRingAddPointer < LOOK_AHEAD_RING_LENGTH) ∧
    (Move.releaseLoop k m).ddaRingAddPointer = m.ddaRingAddPointer ∧
    (Move.releaseLoop k m).ddaRingGetPointer = m.ddaRingGetPointer ∧
    (Move.releaseLoop k m).dda = m.dda := by
  induction k generalizing m with
  | zero => exact ⟨fun h => absurd rfl h, rfl, rfl, rfl⟩
  | succ k ih =>
    rw [Move.releaseLoop]
    obtain ⟨a, b, c, d⟩ := ih
      { Move.setEntry m m.lookAheadRingAddPointer
          (LookAhead.Release (m.lookAheadRing m.lookAheadRingAddPointer)) with
        lookAheadRingAddPointer := Next m.lookAheadRingAddPointer }
    refine ⟨fun _ => ?_, b, c, d⟩
    by_cases hk : k = 0
    · subst hk
      exact Next_lt _
    · exact a hk

/-- `Move::Init` leaves the look-ahead ring empty: both cursors on the same slot and
the count 0. -/
theorem Move.Init_queue (p : Platform K) (hid : Bool) (time : K) (m : Move K) :
    Move.QueueInv (Move.Init p hid time m).1 ∧ Move.queue (Move.Init p hid time m).1 = [] ∧
    (Move.Init p hid time m).1.lookAheadRingCount = 0 := by
  have hadd : (Move.Init p hid time m).1.lookAheadRingAddPointer
      = (Move.releaseLoop (LOOK_AHEAD_RING_LENGTH + 1)
          { m with ddaRingGetPointer := m.ddaRingAddPointer,
                   ddaRingLocked := false }).lookAheadRingAddPointer := rfl
  have hget : (Move.Init p hid time m).1.lookAheadRingGetPointer
      = (Move.Init p hid time m).1.lookAheadRingAddPointer := rfl
  have hcount : (Move.Init p hid time m).1.lookAheadRingCount = 0 := rfl
  have hlt := (Move.releaseLoop_spec (LOOK_AHEAD_RING_LENGTH + 1)
    { m with ddaRingGetPointer := m.ddaRingAddPointer, ddaRingLocked := false }).1
    (by unfold LOOK_AHEAD_RING_LENGTH; omega)
  rw [← hadd] at hlt
  unfold Move.QueueInv Move.queue
  rw [hget, hcount, ringDistance_self]
  exact ⟨⟨hlt, hlt, rfl, Nat.zero_le _⟩, rfl, rfl⟩

end QueueRunFacts

section FifoFacts
variable {K : Type} [LinearOrderedField K] [FloorRing K]

/-- One recorded call keeps the queue invariant and the account of the traffic: the
accepted moves are the returned ones followed by the queued ones. -/
theorem Move.runOp_inv (p : Platform K) (t : RingTrace K) (op : RingOp K)
    (hi : Move.QueueInv t.move) (ht : t.added = t.got ++ Move.queue t.move) :
    Move.QueueInv (Move.runOp p t op).move ∧
    (Move.runOp p t op).added = (Move.runOp p t op).got ++ Move.queue (Move.runOp p t op).move := by
  cases op with
  | add ep f minS maxS acc ce hid =>
    obtain ⟨h1, h2⟩ := Move.LookAheadRingAdd_queue ep f minS maxS acc ce hid t.move hi
    refine ⟨h1, ?_⟩
    show (if (Move.LookAheadRingAdd ep f minS maxS acc ce hid t.move).2 = true
        then t.added ++ [ep] else t.added)
      = t.got ++ Move.queue (Move.LookAheadRingAdd ep f minS maxS acc ce hid t.move).1
    rw [h2]
    cases (Move.LookAheadRingAdd ep f minS maxS acc ce hid t.move).2
    · simpa using ht
    · simp [ht]
  | doLookAhead hid =>
    obtain ⟨h1, h2⟩ := Move.DoLookAhead_same p hid t.move
    refine ⟨Move.QueueInv_of_same _ _ h1 hi, ?_⟩
    show t.added = t.got ++ Move.queue (Move.DoLookAhead p hid t.move)
    rw [Move.queue_of_same _ _ h1 h2]
    exact ht
  | get =>
    obtain ⟨h1, h2, h3⟩ := Move.LookAheadRingGet_queue t.move hi
    unfold Move.runOp
    dsimp only
    cases hres : (Move.LookAheadRingGet t.move).2 with
    | none =>
      dsimp only
      rw [h3 hres]
      exact ⟨hi, ht⟩
    | some i =>
      dsimp only
      refine ⟨h1, ?_⟩
      rw [ht, h2 i hres]
      simp

theorem Move.runOps_inv (p : Platform K) (ops : List (RingOp K)) (t : RingTrace K)
    (hi : Move.QueueInv t.move) (ht : t.added = t.got ++ Move.queue t.move) :
    Move.QueueInv (Move.runOps p ops t).move ∧
    (Move.runOps p ops t).added
      = (Move.runOps p ops t).got ++ Move.queue (Move.runOps p ops t).move := by
  induction ops generalizing t with
  | nil => exact ⟨hi, ht⟩
  | cons op ops ih =>
    obtain ⟨h1, h2⟩ := Move.runOp_inv p t op hi ht
    exact ih (Move.runOp p t op) h1 h2

/-- C17 (as amended). For any sequence of `Move::LookAheadRingAdd`,
`Move::DoLookAhead` and `Move::LookAheadRingGet` calls starting from the state left by
`Move::Init`, the sequence of entries returned by successful `LookAheadRingGet` calls
is an initial part, in the same order, of the sequence of moves accepted by successful
`LookAheadRingAdd` calls, each returned entry having exactly the endpoint coordinates
it was added with; `DoLookAhead` moves no cursor and changes in the entries at most
the velocity `v`, `processed` and the cached `cosine`. -/
theorem C17_gets_follow_adds_in_order (p : Platform K) (hid : Bool) (time : K) (m0 : Move K)
    (ops : List (RingOp K)) (hid1 : Bool) (m : Move K) :
    (Move.runOps p ops { move := (Move.Init p hid time m0).1, added := [], got := [] }).got
      <+: (Move.runOps p ops
            { move := (Move.Init p hid time m0).1, added := [], got := [] }).added ∧
    Move.SameQueue m (Move.DoLookAhead p hid1 m) ∧
    Move.SameMoves m (Move.DoLookAhead p hid1 m) := by
  obtain ⟨hq, hqe, -⟩ := Move.Init_queue p hid time m0
  obtain ⟨-, h2⟩ := Move.runOps_inv p ops
    { move := (Move.Init p hid time m0).1, added := [], got := [] } hq (by rw [hqe]; rfl)
  exact ⟨⟨_, h2.symm⟩, Move.DoLookAhead_same p hid1 m⟩

end FifoFacts

/-- In the example run both moves are accepted and both are returned, in the order
and with the X coordinates they were added with; the third request returns nothing. -/
theorem C17_witness :
    exampleTrace.got <+: exampleTrace.added ∧
    exampleTrace.added.map (fun e => e 0) = [100, 200] ∧
    exampleTrace.got.map (fun e => e 0) = [100, 200] := by
  have h1 : exampleTrace.added.map (fun e => e 0) = [100, 200] := by decide!
  have h2 : exampleTrace.got.map (fun e => e 0) = [100, 200] := by decide!
  exact ⟨(C17_gets_follow_adds_in_order examplePlatform false 0
    (exampleMove exampleRingA 1 2 1) exampleOps false (exampleMove exampleRingA 1 2 1)).1,
    h1, h2⟩

/-- C17 as stated fails in its last part: `DoLookAhead` changes a field of an entry
that is neither the velocity nor `processed`.  On the queue `exampleRingB` the cached
cosine of the entry in slot 1 goes from 2 (not yet computed) to 1. -/
theorem C17_counterexample :
    ((exampleMove exampleRingB 1 4 3).lookAheadRing 1).cosine = 2 ∧
    ((Move.DoLookAhead examplePlatform true
      (exampleMove exampleRingB 1 4 3)).lookAheadRing 1).cosine = 1 := by
  decide!

section TickFacts
variable {K : Type} [LinearOrderedField K] [FloorRing K]

theorem Move.DDARingAdd_same (p : Platform K) (la : Nat) (m : Move K) :
    Move.SameQueue m (Move.DDARingAdd p la m).1 ∧
    Move.SameMoves m (Move.DDARingAdd p la m).1 := by
  unfold Move.DDARingAdd
  by_cases hl : m.ddaRingLocked = true
  · rw [if_pos hl]
    exact ⟨Move.SameQueue_refl m, Move.SameMoves_refl m⟩
  · rw [if_neg hl]
    by_cases hf : Move.DDARingFull m = true
    · rw [if_pos hf]
      exact ⟨Move.SameQueue_refl m, Move.SameMoves_refl m⟩
    · rw [if_neg hf]
      by_cases ha : (m.ddaRing m.ddaRingAddPointer).active = true
      · rw [if_pos ha]
        exact ⟨Move.SameQueue_refl m, Move.SameMoves_refl m⟩
      · rw [if_neg ha]
        exact DDA.Init_same p m la true (m.ddaRing m.ddaRingAddPointer)

theorem Move.DDARingGet_same (m : Move K) :
    Move.SameQueue m (Move.DDARingGet m).1 ∧
    (Move.DDARingGet m).1.lookAheadRing = m.lookAheadRing := by
  unfold Move.DDARingGet
  by_cases hl : m.ddaRingLocked = true
  · rw [if_pos hl]
    exact ⟨Move.SameQueue_refl m, rfl⟩
  · rw [if_neg hl]
    by_cases he : Move.DDARingEmpty m = true
    · rw [if_pos he]
      exact ⟨Move.SameQueue_refl m, rfl⟩
    · rw [if_neg he]
      exact ⟨Move.SameQueue_refl m, rfl⟩

theorem Move.HitLowStop_same (p : Platform K) (h : Nat → Bool) (drive la : Nat)
    (hitDDA : DDA K) (m : Move K) :
    Move.SameQueue m (Move.HitLowStop p h drive la hitDDA m) := by
  obtain ⟨a, z, he, -⟩ := Move.HitLowStop_eq p h drive la hitDDA m
  rw [he]
  exact Move.SameQueue_refl m

theorem DDA.StepDrive_same (p : Platform K) (o : Nat → EndStopHit) (h : Nat → Bool)
    (drive : Nat) (s : StepState K) :
    Move.SameQueue s.move (DDA.StepDrive p o h drive s).move := by
  rcases DDA.StepDrive_move p o h drive s with ⟨e, -⟩ | ⟨-, -, -, -, e⟩ | ⟨-, -, -, -, e⟩
  · rw [e]
    exact Move.SameQueue_refl _
  · rw [e]
    exact Move.HitLowStop_same p h drive _ _ s.move
  · rw [e]
    exact Move.SameQueue_refl s.move

theorem DDA.stepLoop_same (p : Platform K) (o : Nat → EndStopHit) (h : Nat → Bool)
    (n : Nat) (s : StepState K) :
    Move.SameQueue s.move
      ((List.range n).foldl (fun s drive => DDA.StepDrive p o h drive s) s).move := by
  induction n with
  | zero => exact Move.SameQueue_refl _
  | succ n ih =>
    rw [List.range_succ, List.foldl_append]
    simp only [List.foldl_cons, List.foldl_nil]
    exact Move.SameQueue_trans _ _ _ ih (DDA.StepDrive_same p o h n _)

/-- `DDA::Step` moves no cursor of the look-ahead ring. -/
theorem DDA.Step_same (p : Platform K) (o : Nat → EndStopHit) (h : Nat → Bool)
    (m : Move K) (d : DDA K) :
    Move.SameQueue m (DDA.Step p o h m d).move := by
  unfold DDA.Step
  dsimp only
  by_cases hd : d.active = true
  · by_cases hm : m.active = true
    · simp only [hd, hm, not_true_eq_false, if_false]
      have h1 := DDA.stepLoop_same p o h p.DRIVES
        { move := m, dda := d, drivesMoving := 0, calls := [] }
      generalize (List.range p.DRIVES).foldl (fun s drive => DDA.StepDrive p o h drive s)
        { move := m, dda := d, drivesMoving := 0, calls := [] } = s1 at h1 ⊢
      have h2 : Move.SameQueue m (if s1.dda.active = true then DDA.StepVelocity s1 else s1).move := by
        by_cases ha : s1.dda.active = true
        · rw [if_pos ha]
          exact h1
        · rw [if_neg ha]
          exact h1
      generalize (if s1.dda.active = true then DDA.StepVelocity s1 else s1) = s2 at h2 ⊢
      by_cases hf : s2.dda.active = true
      · simp only [hf, not_true_eq_false, if_false]
        exact h2
      · simp only [hf, not_false_eq_true, if_true]
        exact h2
    · simp only [hd, hm, not_true_eq_false, if_false, not_false_eq_true, if_true]
      exact Move.SameQueue_refl m
  · simp only [hd, not_false_eq_true, if_true]
    exact Move.SameQueue_refl m

/-- `Move::Interrupt` moves no cursor of the look-ahead ring. -/
theorem Move.Interrupt_same (p : Platform K) (o : Nat → EndStopHit) (h : Nat → Bool)
    (m : Move K) :
    Move.SameQueue m (Move.Interrupt p o h m).1 := by
  unfold Move.Interrupt
  cases hdda : m.dda with
  | none =>
    dsimp only
    have h1 := (Move.DDARingGet_same m).1
    generalize Move.DDARingGet m = r at h1 ⊢
    cases hr : r.2 with
    | none => exact h1
    | some i => exact h1
  | some i =>
    dsimp only
    by_cases ha : (m.ddaRing i).active = true
    · rw [if_pos ha]
      exact DDA.Step_same p o h m (m.ddaRing i)
    · rw [if_neg ha]
      exact Move.SameQueue_refl m

end TickFacts

section SpinFacts
variable {K : Type} [LinearOrderedField K] [FloorRing K]

/-- The planning and transfer part of `Move::Spin` adds nothing to the look-ahead
ring: the add cursor, `lastMove` and the flags stay, the count does not grow. -/
theorem Move.spinPlan_spec (p : Platform K) (hid : Bool) (m : Move K) :
    (Move.spinPlan p hid m).lookAheadRingAddPointer = m.lookAheadRingAddPointer ∧
    (Move.spinPlan p hid m).lastMove = m.lastMove ∧
    (Move.spinPlan p hid m).addNoMoreMoves = m.addNoMoreMoves ∧
    (Move.spinPlan p hid m).active = m.active ∧
    (Move.spinPlan p hid m).lookAheadRingCount ≤ m.lookAheadRingCount ∧
    (Move.QueueInv m → Move.QueueInv (Move.spinPlan p hid m)) ∧
    (m.lookAheadRingCount = 0 → Move.spinPlan p hid m = m) := by
  have hD := (Move.DoLookAhead_same p hid m).1
  have hD0 : m.lookAheadRingCount = 0 → Move.DoLookAhead p hid m = m := by
    intro h0
    unfold Move.DoLookAhead Move.LookAheadRingEmpty
    simp [h0]
  unfold Move.spinPlan
  dsimp only
  generalize Move.DoLookAhead p hid m = m1 at hD hD0 ⊢
  obtain ⟨a, b, c, d, e, f⟩ := hD
  by_cases hfull : Move.DDARingFull m1 = true
  · simp only [hfull, not_true_eq_false, if_false]
    exact ⟨a, d, e, f, le_of_eq c, fun hi => Move.QueueInv_of_same m m1 ⟨a, b, c, d, e, f⟩ hi,
      hD0⟩
  · rw [if_pos hfull]
    rcases Move.LookAheadRingGet_spec m1 with ⟨g1, g2⟩ | ⟨gne, g1, g2⟩
    · rw [g1, g2]
      exact ⟨a, d, e, f, le_of_eq c,
        fun hi => Move.QueueInv_of_same m m1 ⟨a, b, c, d, e, f⟩ hi, hD0⟩
    · have hq := fun hi => (Move.LookAheadRingGet_queue m1 hi).1
      rw [g1]
      dsimp only
      obtain ⟨a2, b2, c2, d2, e2, f2⟩ :=
        (Move.DDARingAdd_same p m1.lookAheadRingGetPointer (Move.LookAheadRingGet m1).1).1
      have k1 : (Move.LookAheadRingGet m1).1.lookAheadRingAddPointer
          = m1.lookAheadRingAddPointer := by rw [g2]
      have k2 : (Move.LookAheadRingGet m1).1.lastMove = m1.lastMove := by rw [g2]
      have k3 : (Move.LookAheadRingGet m1).1.addNoMoreMoves = m1.addNoMoreMoves := by rw [g2]
      have k4 : (Move.LookAheadRingGet m1).1.active = m1.active := by rw [g2]
      have k5 : (Move.LookAheadRingGet m1).1.lookAheadRingCount
          = m1.lookAheadRingCount - 1 := by rw [g2]
      refine ⟨a2.trans (k1.trans a), d2.trans (k2.trans d), e2.trans (k3.trans e),
        f2.trans (k4.trans f), ?_, fun hi => ?_, fun h0 => ?_⟩
      · rw [c2, k5, c]
        omega
      · exact Move.QueueInv_of_same _ _ ⟨a2, b2, c2, d2, e2, f2⟩
          (hq (Move.QueueInv_of_same m m1 ⟨a, b, c, d, e, f⟩ hi))
      · exact absurd (c.trans h0) gne

/-- With `addNoMoreMoves` set, `Move::Spin` does not call `gCodes->ReadMove` and adds
nothing to the look-ahead ring. -/
theorem Move.Spin_addNoMoreMoves (p : Platform K) (hid : Bool)
    (readMove : Option ((Nat → K) × Bool)) (m : Move K) (hf : m.addNoMoreMoves = true) :
    (Move.Spin p hid readMove m).2 = false ∧
    (Move.Spin p hid readMove m).1.addNoMoreMoves = true ∧
    (Move.Spin p hid readMove m).1.lookAheadRingCount ≤ m.lookAheadRingCount ∧
    (Move.Spin p hid readMove m).1.lastMove = m.lastMove ∧
    (Move.Spin p hid readMove m).1.lookAheadRingAddPointer = m.lookAheadRingAddPointer := by
  unfold Move.Spin
  by_cases ha : m.active = true
  · simp only [ha, not_true_eq_false, if_false]
    obtain ⟨a, b, c, d, e, -⟩ := Move.spinPlan_spec p hid m
    have hc : (Move.spinPlan p hid m).addNoMoreMoves = true ∨
        Move.LookAheadRingFull (Move.spinPlan p hid m) = true := Or.inl (c.trans hf)
    rw [if_pos hc]
    exact ⟨rfl, c.trans hf, e, b, a⟩
  · simp only [ha, not_false_eq_true, if_true]
    exact ⟨rfl, hf, le_refl _, rfl, rfl⟩

/-- While `addNoMoreMoves` is set, no run of `Move::Spin` and `Move::Interrupt` calls
reads a move or adds an entry. -/
theorem Move.runTicks_addNoMoreMoves (p : Platform K) (ticks : List (Tick K)) (m : Move K)
    (hf : m.addNoMoreMoves = true) :
    (Move.runTicks p ticks m).2 = false ∧
    (Move.runTicks p ticks m).1.addNoMoreMoves = true ∧
    (Move.runTicks p ticks m).1.lookAheadRingCount ≤ m.lookAheadRingCount ∧
    (Move.runTicks p ticks m).1.lastMove = m.lastMove ∧
    (Move.runTicks p ticks m).1.lookAheadRingAddPointer = m.lookAheadRingAddPointer := by
  induction ticks generalizing m with
  | nil => exact ⟨rfl, hf, le_refl _, rfl, rfl⟩
  | cons t ts ih =>
    have h1 : (Move.runTick p m t).2 = false ∧
        (Move.runTick p m t).1.addNoMoreMoves = true ∧
        (Move.runTick p m t).1.lookAheadRingCount ≤ m.lookAheadRingCount ∧
        (Move.runTick p m t).1.lastMove = m.lastMove ∧
        (Move.runTick p m t).1.lookAheadRingAddPointer = m.lookAheadRingAddPointer := by
      cases t with
      | spin hid readMove => exact Move.Spin_addNoMoreMoves p hid readMove m hf
      | interrupt o h =>
        obtain ⟨a, b, c, d, e, f⟩ := Move.Interrupt_same p o h m
        exact ⟨rfl, e.trans hf, le_of_eq c, d, a⟩
    obtain ⟨a1, b1, c1, d1, e1⟩ := h1
    obtain ⟨a2, b2, c2, d2, e2⟩ := ih (Move.runTick p m t).1 b1
    simp only [Move.runTicks]
    exact ⟨by rw [a1, a2]; rfl, b2, le_trans c2 c1, d2.trans d1, e2.trans e1⟩

/-- C18. After `Move::AllMovesAreFinished()` has been called, and as long as
`Move::ResumeMoving()` is not called, no call of `Move::Spin` (with `Move::Interrupt`
calls in between, in any order) calls `gCodes->ReadMove` or adds an entry to the
look-ahead ring: the flag stays set, `lookAheadRingCount` never increases, and
`lastMove` and the add cursor are unchanged.  `AllMovesAreFinished` changes nothing
but the flag, and returns true exactly when the look-ahead ring is empty (count 0),
the DDA ring is empty and no DDA is current. -/
theorem C18_no_moves_read_until_resume (p : Platform K) (m : Move K)
    (ticks : List (Tick K)) :
    (Move.runTicks p ticks (Move.AllMovesAreFinished m).1).2 = false ∧
    (Move.runTicks p ticks (Move.AllMovesAreFinished m).1).1.addNoMoreMoves = true ∧
    (Move.runTicks p ticks (Move.AllMovesAreFinished m).1).1.lookAheadRingCount
      ≤ m.lookAheadRingCount ∧
    (Move.runTicks p ticks (Move.AllMovesAreFinished m).1).1.lastMove = m.lastMove ∧
    (Move.runTicks p ticks (Move.AllMovesAreFinished m).1).1.lookAheadRingAddPointer
      = m.lookAheadRingAddPointer ∧
    (Move.AllMovesAreFinished m).1 = { m with addNoMoreMoves := true } ∧
    ((Move.AllMovesAreFinished m).2 = true ↔
      (m.lookAheadRingCount = 0 ∧ m.ddaRingGetPointer = m.ddaRingAddPointer ∧ m.dda = none)) ∧
    (Move.ResumeMoving (Move.AllMovesAreFinished m).1).addNoMoreMoves = false := by
  obtain ⟨a, b, c, d, e⟩ := Move.runTicks_addNoMoreMoves p ticks (Move.AllMovesAreFinished m).1 rfl
  refine ⟨a, b, c, d, e, rfl, ?_, rfl⟩
  unfold Move.AllMovesAreFinished Move.LookAheadRingEmpty Move.NoLiveMovement Move.DDARingEmpty
  cases hdda : m.dda with
  | none => simp
  | some i => simp

end SpinFacts

section IngestFacts
variable {K : Type} [LinearOrderedField K] [FloorRing K]

/-- `Move::Transform` changes the X, Y and Z coordinates only. -/
theorem Move.Transform_other (m : Move K) (q : Nat → K) (j : Nat) (hj : 2 < j) :
    Move.Transform m q j = q j := by
  have hx : j ≠ X_AXIS := by unfold X_AXIS; omega
  have hy : j ≠ Y_AXIS := by unfold Y_AXIS; omega
  have hz : j ≠ Z_AXIS := by unfold Z_AXIS; omega
  have hA : Move.AxisTransform m q j = q j := by
    unfold Move.AxisTransform
    simp [setAt, hx, hy]
  unfold Move.Transform Move.BedTransform
  by_cases hi : m.identityBedTransform = true
  · rw [if_pos hi]
    exact hA
  · rw [if_neg hi]
    generalize Move.NumberOfProbePoints m = n
    rcases n with _ | _ | _ | _ | _ | _ | n
    · exact hA
    · exact hA
    · exact hA
    · simp only [setAt, if_neg hz]
      exact hA
    · simp only [setAt, if_neg hz]
      exact hA
    · simp only [setAt, if_neg hz]
      exact hA
    · exact hA

/-- One pass of the drive loop of `Move::Spin` writes `nextMachineEndPoints` and
`normalisedDirectionVector` only, and keeps `noMove` exactly when the drive does not
move. -/
theorem Move.spinDrive_spec (p : Platform K) (drive : Nat) (s : Move K × Bool) :
    (∃ a b, (Move.spinDrive p drive s).1
      = { s.1 with nextMachineEndPoints := a, normalisedDirectionVector := b }) ∧
    ((Move.spinDrive p drive s).2 = true ↔
      (s.2 = true ∧
        (if drive < p.AXES then
          LookAhead.EndPointToMachine p drive (s.1.nextMove drive)
            = (s.1.lookAheadRing s.1.lastMove).endPoint drive
        else LookAhead.EndPointToMachine p drive (s.1.nextMove drive) = 0))) := by
  unfold Move.spinDrive
  dsimp only
  by_cases ha : drive < p.AXES
  · rw [if_pos ha, if_pos ha]
    refine ⟨⟨_, _, rfl⟩, ?_⟩
    dsimp only
    by_cases he : LookAhead.EndPointToMachine p drive (s.1.nextMove drive)
        = (s.1.lookAheadRing s.1.lastMove).endPoint drive
    · have h0 : ¬ (LookAhead.EndPointToMachine p drive (s.1.nextMove drive)
          - (s.1.lookAheadRing s.1.lastMove).endPoint drive ≠ 0) := by
        rw [he]; simp
      rw [if_neg h0]
      simp [he]
    · have h0 : LookAhead.EndPointToMachine p drive (s.1.nextMove drive)
          - (s.1.lookAheadRing s.1.lastMove).endPoint drive ≠ 0 := by
        intro h
        exact he (sub_eq_zero.mp h)
      rw [if_pos h0]
      simp [he]
  · rw [if_neg ha, if_neg ha]
    refine ⟨⟨_, _, rfl⟩, ?_⟩
    dsimp only
    by_cases he : LookAhead.EndPointToMachine p drive (s.1.nextMove drive) = 0
    · rw [if_neg (not_not.mpr he)]
      simp [he]
    · rw [if_pos he]
      simp [he]

theorem Move.spinLoop_spec (p : Platform K) (n : Nat) (m : Move K) :
    (∃ a b, ((List.range n).foldl (fun s drive => Move.spinDrive p drive s) (m, true)).1
      = { m with nextMachineEndPoints := a, normalisedDirectionVector := b }) ∧
    (((List.range n).foldl (fun s drive => Move.spinDrive p drive s) (m, true)).2 = true ↔
      ∀ drive, drive < n →
        (if drive < p.AXES then
          LookAhead.EndPointToMachine p drive (m.nextMove drive)
            = (m.lookAheadRing m.lastMove).endPoint drive
        else LookAhead.EndPointToMachine p drive (m.nextMove drive) = 0)) := by
  induction n with
  | zero =>
    rw [List.range_zero, List.foldl_nil]
    exact ⟨⟨_, _, rfl⟩, by simp⟩
  | succ n ih =>
    obtain ⟨⟨a, b, hab⟩, h2⟩ := ih
    rw [List.range_succ, List.foldl_append]
    simp only [List.foldl_cons, List.foldl_nil]
    generalize (List.range n).foldl (fun s drive => Move.spinDrive p drive s) (m, true) = t
      at hab h2 ⊢
    obtain ⟨⟨a1, b1, hab1⟩, h3⟩ := Move.spinDrive_spec p n t
    refine ⟨⟨a1, b1, by rw [hab1, hab]⟩, ?_⟩
    rw [h3, h2, hab]
    constructor
    · rintro ⟨hall, hn⟩ drive hd
      by_cases hdn : drive = n
      · subst hdn
        exact hn
      · exact hall drive (by omega)
    · intro hall
      exact ⟨fun drive hd => hall drive (by omega), hall n (by omega)⟩

/-- The first part of the ingest of `Move::Spin`. -/
theorem Move.spinRead_spec (p : Platform K) (mv : Nat → K) (m : Move K) :
    (∃ a b, (Move.spinRead p mv m).1
      = { m with
          nextMove := Move.Transform m mv
          currentFeedrate := Move.Transform m mv p.DRIVES
          nextMachineEndPoints := a
          normalisedDirectionVector := b }) ∧
    ((Move.spinRead p mv m).2 = true ↔
      ∀ drive, drive < p.DRIVES →
        (if drive < p.AXES then
          LookAhead.EndPointToMachine p drive (Move.Transform m mv drive)
            = (m.lookAheadRing m.lastMove).endPoint drive
        else LookAhead.EndPointToMachine p drive (Move.Transform m mv drive) = 0)) := by
  unfold Move.spinRead
  dsimp only
  obtain ⟨⟨a, b, hab⟩, h2⟩ := Move.spinLoop_spec p p.DRIVES
    { m with nextMove := Move.Transform m mv, currentFeedrate := Move.Transform m mv p.DRIVES }
  exact ⟨⟨a, b, hab⟩, h2⟩

end IngestFacts

section DropFacts
variable {K : Type} [LinearOrderedField K] [FloorRing K]

/-- C19 (as amended). `Move::Spin` first plans and may hand a completed entry to the
DDA ring (`spinPlan`), which can move the get cursor, lower the count and change
entries; when the look-ahead ring is empty this part changes nothing.  If then a move
is read that converts, after `Transform`, to the same machine step coordinate as the
last queued move on every axis and to zero steps on every extruder, the rest of `Spin`
adds nothing to the look-ahead ring: ring cursors, `lookAheadRingCount`, `lastMove` and
every ring entry are as the first part left them.  The members it writes are
`nextMove`, `nextMachineEndPoints`, `normalisedDirectionVector` and `currentFeedrate`,
the last being set to the feed rate of the move. -/
theorem C19_zero_length_move_is_dropped (p : Platform K) (hid : Bool) (mv : Nat → K)
    (ce : Bool) (m : Move K)
    (hact : m.active = true)
    (hgo : (Move.spinPlan p hid m).addNoMoreMoves = false ∧
      Move.LookAheadRingFull (Move.spinPlan p hid m) = false)
    (hno : ∀ drive, drive < p.DRIVES →
      (if drive < p.AXES then
        LookAhead.EndPointToMachine p drive (Move.Transform (Move.spinPlan p hid m) mv drive)
          = ((Move.spinPlan p hid m).lookAheadRing (Move.spinPlan p hid m).lastMove).endPoint
              drive
      else
        LookAhead.EndPointToMachine p drive (Move.Transform (Move.spinPlan p hid m) mv drive)
          = 0)) :
    (Move.Spin p hid (some (mv, ce)) m).2 = true ∧
    (∃ a b, (Move.Spin p hid (some (mv, ce)) m).1
      = { Move.spinPlan p hid m with
          nextMove := Move.Transform (Move.spinPlan p hid m) mv
          currentFeedrate := Move.Transform (Move.spinPlan p hid m) mv p.DRIVES
          nextMachineEndPoints := a
          normalisedDirectionVector := b }) ∧
    (Move.Spin p hid (some (mv, ce)) m).1.lookAheadRing
      = (Move.spinPlan p hid m).lookAheadRing ∧
    Move.SameQueue (Move.spinPlan p hid m) (Move.Spin p hid (some (mv, ce)) m).1 ∧
    (2 < p.DRIVES → (Move.Spin p hid (some (mv, ce)) m).1.currentFeedrate = mv p.DRIVES) ∧
    (m.lookAheadRingCount = 0 → Move.spinPlan p hid m = m) := by
  obtain ⟨⟨a, b, hab⟩, hflag⟩ := Move.spinRead_spec p mv (Move.spinPlan p hid m)
  have hnm : (Move.spinRead p mv (Move.spinPlan p hid m)).2 = true := hflag.mpr hno
  have hspin : Move.Spin p hid (some (mv, ce)) m
      = ((Move.spinRead p mv (Move.spinPlan p hid m)).1, true) := by
    unfold Move.Spin
    simp only [hact, not_true_eq_false, if_false]
    have hc : ¬ ((Move.spinPlan p hid m).addNoMoreMoves = true ∨
        Move.LookAheadRingFull (Move.spinPlan p hid m) = true) := by
      rw [hgo.1, hgo.2]
      simp
    rw [if_neg hc]
    simp only [hnm, if_true]
  rw [hspin]
  dsimp only
  rw [hab]
  refine ⟨rfl, ⟨a, b, rfl⟩, rfl, Move.SameQueue_refl _, fun h3 => ?_,
    (Move.spinPlan_spec p hid m).2.2.2.2.2.2⟩
  exact Move.Transform_other _ mv p.DRIVES h3

end DropFacts

/-- With the look-ahead ring empty and the last queued move ending at step 3 of X, a
move to X = 0.03 at feed rate 50 is dropped: the call reads it, leaves the rings as
they were, and records the feed rate 50. -/
theorem C19_witness :
    (exampleMove exampleRingG 2 2 0).lookAheadRingCount = 0 ∧
    (Move.Spin examplePlatform true (some (exampleNextMove, false))
      (exampleMove exampleRingG 2 2 0)).2 = true ∧
    (Move.Spin examplePlatform true (some (exampleNextMove, false))
      (exampleMove exampleRingG 2 2 0)).1.lookAheadRing
      = (Move.spinPlan examplePlatform true (exampleMove exampleRingG 2 2 0)).lookAheadRing ∧
    Move.spinPlan examplePlatform true (exampleMove exampleRingG 2 2 0)
      = exampleMove exampleRingG 2 2 0 ∧
    (Move.Spin examplePlatform true (some (exampleNextMove, false))
      (exampleMove exampleRingG 2 2 0)).1.currentFeedrate = 50 := by
  have hc : (exampleMove exampleRingG 2 2 0).lookAheadRingCount = 0 := by decide
  have hact : (exampleMove exampleRingG 2 2 0).active = true := by decide
  have hp : Move.spinPlan examplePlatform true (exampleMove exampleRingG 2 2 0)
      = exampleMove exampleRingG 2 2 0 :=
    (Move.spinPlan_spec examplePlatform true (exampleMove exampleRingG 2 2 0)).2.2.2.2.2.2 hc
  have hgo : (Move.spinPlan examplePlatform true
        (exampleMove exampleRingG 2 2 0)).addNoMoreMoves = false ∧
      Move.LookAheadRingFull (Move.spinPlan examplePlatform true
        (exampleMove exampleRingG 2 2 0)) = false := by
    rw [hp]
    decide
  have hno : ∀ drive, drive < examplePlatform.DRIVES →
      (if drive < examplePlatform.AXES then
        LookAhead.EndPointToMachine examplePlatform drive
          (Move.Transform (Move.spinPlan examplePlatform true
            (exampleMove exampleRingG 2 2 0)) exampleNextMove drive)
          = ((Move.spinPlan examplePlatform true
              (exampleMove exampleRingG 2 2 0)).lookAheadRing
              (Move.spinPlan examplePlatform true
                (exampleMove exampleRingG 2 2 0)).lastMove).endPoint drive
      else
        LookAhead.EndPointToMachine examplePlatform drive
          (Move.Transform (Move.spinPlan examplePlatform true
            (exampleMove exampleRingG 2 2 0)) exampleNextMove drive) = 0) := by
    rw [hp]
    decide!
  have h := C19_zero_length_move_is_dropped examplePlatform true exampleNextMove false
    (exampleMove exampleRingG 2 2 0) hact hgo hno
  have hf : exampleNextMove examplePlatform.DRIVES = 50 := by decide!
  exact ⟨hc, h.1, h.2.2.1, hp, (h.2.2.2.2.1 (by decide)).trans hf⟩

/-- C19 as stated fails: with the completed move to step 3 of X queued in slot 1, a
call of `Move::Spin` that reads a move to the same position (X = 0.03, no extruder
steps) hands the queued entry to the DDA ring before it reads: the get cursor goes
from slot 1 to slot 2 and `lookAheadRingCount` from 1 to 0. -/
theorem C19_counterexample :
    (∀ drive, drive < examplePlatform.DRIVES →
      (if drive < examplePlatform.AXES then
        LookAhead.EndPointToMachine examplePlatform drive
          (Move.Transform (exampleMove exampleRingG 1 2 1) exampleNextMove drive)
          = ((exampleMove exampleRingG 1 2 1).lookAheadRing
              (exampleMove exampleRingG 1 2 1).lastMove).endPoint drive
      else
        LookAhead.EndPointToMachine examplePlatform drive
          (Move.Transform (exampleMove exampleRingG 1 2 1) exampleNextMove drive) = 0)) ∧
    (Move.Spin examplePlatform true (some (exampleNextMove, false))
      (exampleMove exampleRingG 1 2 1)).2 = true ∧
    (Move.Spin examplePlatform true (some (exampleNextMove, false))
      (exampleMove exampleRingG 1 2 1)).1.lookAheadRingAddPointer
      = (exampleMove exampleRingG 1 2 1).lookAheadRingAddPointer ∧
    (exampleMove exampleRingG 1 2 1).lookAheadRingGetPointer = 1 ∧
    (Move.Spin examplePlatform true (some (exampleNextMove, false))
      (exampleMove exampleRingG 1 2 1)).1.lookAheadRingGetPointer = 2 ∧
    (exampleMove exampleRingG 1 2 1).lookAheadRingCount = 1 ∧
    (Move.Spin examplePlatform true (some (exampleNextMove, false))
      (exampleMove exampleRingG 1 2 1)).1.lookAheadRingCount = 0 := by
  decide!

section ReachFacts
variable {K : Type} [LinearOrderedField K] [FloorRing K]

theorem Move.spinAdd_inv (p : Platform K) (ce hid : Bool) (m : Move K)
    (hi : Move.QueueInv m) : Move.QueueInv (Move.spinAdd p ce hid m) := by
  unfold Move.spinAdd
  dsimp only
  generalize Move.Normalise p (Move.Absolute m.normalisedDirectionVector p.DRIVES) p.DRIVES = r
  by_cases hr : r.2 ≤ 0
  · rw [if_pos hr]
    exact hi
  · rw [if_neg hr]
    refine (Move.LookAheadRingAdd_queue _ _ _ _ _ ce hid _ ?_).1
    exact hi

/-- `Move::Spin` keeps the queue invariant. -/
theorem Move.Spin_inv (p : Platform K) (hid : Bool) (readMove : Option ((Nat → K) × Bool))
    (m : Move K) (hi : Move.QueueInv m) : Move.QueueInv (Move.Spin p hid readMove m).1 := by
  unfold Move.Spin
  by_cases ha : m.active = true
  · simp only [ha, not_true_eq_false, if_false]
    have h1 := (Move.spinPlan_spec p hid m).2.2.2.2.2.1 hi
    generalize Move.spinPlan p hid m = m1 at h1 ⊢
    by_cases hc : m1.addNoMoreMoves = true ∨ Move.LookAheadRingFull m1 = true
    · rw [if_pos hc]
      exact h1
    · rw [if_neg hc]
      cases readMove with
      | none => exact h1
      | some mv =>
        dsimp only
        obtain ⟨⟨a, b, hab⟩, -⟩ := Move.spinRead_spec p mv.1 m1
        have h2 : Move.QueueInv (Move.spinRead p mv.1 m1).1 := by
          rw [hab]
          exact h1
        by_cases hn : (Move.spinRead p mv.1 m1).2 = true
        · rw [if_pos hn]
          exact h2
        · rw [if_neg hn]
          exact Move.spinAdd_inv p mv.2 hid _ h2
  · simp only [ha, not_false_eq_true, if_true]
    exact hi

/-- Every state reachable from `Move::Init` satisfies the queue invariant. -/
theorem Move.Reachable_inv (p : Platform K) (m : Move K) (h : Move.Reachable p m) :
    Move.QueueInv m := by
  induction h with
  | init hid time m => exact (Move.Init_queue p hid time m).1
  | add ep f minS maxS acc ce hid m _ ih =>
    exact (Move.LookAheadRingAdd_queue ep f minS maxS acc ce hid m ih).1
  | get m _ ih => exact (Move.LookAheadRingGet_queue m ih).1
  | doLookAhead hid m _ ih =>
    exact Move.QueueInv_of_same _ _ (Move.DoLookAhead_same p hid m).1 ih
  | spin hid readMove m _ ih => exact Move.Spin_inv p hid readMove m ih
  | interrupt o hom m _ ih =>
    exact Move.QueueInv_of_same _ _ (Move.Interrupt_same p o hom m) ih
  | allMovesAreFinished m _ ih => exact ih
  | resumeMoving m _ ih => exact ih

/-- The states of a recorded run from a reachable state are reachable. -/
theorem Move.runOps_reachable (p : Platform K) (ops : List (RingOp K)) (t : RingTrace K)
    (h : Move.Reachable p t.move) : Move.Reachable p (Move.runOps p ops t).move := by
  induction ops generalizing t with
  | nil => exact h
  | cons op ops ih =>
    apply ih
    cases op with
    | add ep f minS maxS acc ce hid => exact Move.Reachable.add ep f minS maxS acc ce hid _ h
    | doLookAhead hid => exact Move.Reachable.doLookAhead hid _ h
    | get =>
      have hg := Move.Reachable.get _ h
      unfold Move.runOp
      dsimp only
      cases hres : (Move.LookAheadRingGet t.move).2 with
      | none => exact hg
      | some i => exact hg

/-- C20. `Move::LookAheadRingAdd` succeeds if and only if the slot at the add cursor
is released and the slot two places after the add cursor is not the get cursor; on
failure it returns false and changes nothing; on success it initialises that slot
(and no other), makes it `lastMove`, advances the add cursor and increments
`lookAheadRingCount` by one, leaving the get cursor.  Consequently, in every state
reachable from `Move::Init`, `lookAheadRingCount` is the number of slots from the get
cursor to the add cursor and never exceeds `LOOK_AHEAD_RING_LENGTH - 2 = 28`. -/
theorem C20_add_succeeds_iff_room (p : Platform K) (ep : Nat → Int) (f minS maxS acc : K)
    (ce hid : Bool) (m : Move K) :
    ((Move.LookAheadRingAdd ep f minS maxS acc ce hid m).2 = true ↔
      ((m.lookAheadRing m.lookAheadRingAddPointer).processed &&& released ≠ 0 ∧
        Next (Next m.lookAheadRingAddPointer) ≠ m.lookAheadRingGetPointer)) ∧
    ((Move.LookAheadRingAdd ep f minS maxS acc ce hid m).2 = false →
      (Move.LookAheadRingAdd ep f minS maxS acc ce hid m).1 = m) ∧
    ((Move.LookAheadRingAdd ep f minS maxS acc ce hid m).2 = true →
      (Move.LookAheadRingAdd ep f minS maxS acc ce hid m).1.lookAheadRing
          m.lookAheadRingAddPointer
        = LookAhead.Init ep f minS maxS acc ce hid (m.lookAheadRing m.lookAheadRingAddPointer) ∧
      (∀ i, i ≠ m.lookAheadRingAddPointer →
        (Move.LookAheadRingAdd ep f minS maxS acc ce hid m).1.lookAheadRing i
          = m.lookAheadRing i) ∧
      (Move.LookAheadRingAdd ep f minS maxS acc ce hid m).1.lastMove
        = m.lookAheadRingAddPointer ∧
      (Move.LookAheadRingAdd ep f minS maxS acc ce hid m).1.lookAheadRingAddPointer
        = Next m.lookAheadRingAddPointer ∧
      (Move.LookAheadRingAdd ep f minS maxS acc ce hid m).1.lookAheadRingCount
        = m.lookAheadRingCount + 1 ∧
      (Move.LookAheadRingAdd ep f minS maxS acc ce hid m).1.lookAheadRingGetPointer
        = m.lookAheadRingGetPointer) ∧
    (Move.Reachable p m →
      m.lookAheadRingCount
        = (ringDistance m.lookAheadRingGetPointer m.lookAheadRingAddPointer : Int) ∧
      0 ≤ m.lookAheadRingCount ∧
      m.lookAheadRingCount ≤ (LOOK_AHEAD_RING_LENGTH : Int) - 2 ∧
      (LOOK_AHEAD_RING_LENGTH : Int) - 2 = 28) := by
  obtain ⟨s1, s2, s3⟩ := Move.LookAheadRingAdd_spec ep f minS maxS acc ce hid m
  refine ⟨s1, s2, fun hres => ?_, fun hr => ?_⟩
  · rw [s3 hres]
    refine ⟨?_, fun i hi => ?_, rfl, rfl, rfl, rfl⟩
    · show (Move.setEntry m m.lookAheadRingAddPointer _).lookAheadRing _ = _
      rw [Move.setEntry_ring, if_pos rfl]
    · show (Move.setEntry m m.lookAheadRingAddPointer _).lookAheadRing _ = _
      rw [Move.setEntry_ring, if_neg hi]
  · obtain ⟨-, -, hc, hd⟩ := Move.Reachable_inv p m hr
    refine ⟨hc, by rw [hc]; exact Int.natCast_nonneg _, ?_, by decide⟩
    rw [hc]
    unfold LOOK_AHEAD_RING_LENGTH at *
    omega

end ReachFacts

/-- After 29 requests to add a move from the state left by `Move::Init`, 28 moves are
queued; the state is reachable, its count is 28, and one more request is refused
because the slot two places after the add cursor is the get cursor. -/
theorem C20_witness :
    Move.Reachable examplePlatform exampleFullTrace.move ∧
    exampleFullTrace.added.length = 28 ∧
    exampleFullTrace.move.lookAheadRingCount = 28 ∧
    exampleFullTrace.move.lookAheadRingCount ≤ (LOOK_AHEAD_RING_LENGTH : Int) - 2 ∧
    Next (Next exampleFullTrace.move.lookAheadRingAddPointer)
      = exampleFullTrace.move.lookAheadRingGetPointer ∧
    (Move.LookAheadRingAdd (fun _ => 0) 30 15 200 800 false true exampleFullTrace.move).2
      = false := by
  have hr : Move.Reachable examplePlatform exampleFullTrace.move :=
    Move.runOps_reachable examplePlatform _ _
      (Move.Reachable.init false 0 (exampleMove exampleRingA 1 2 1))
  have h := C20_add_succeeds_iff_room examplePlatform (fun _ => 0) 30 15 200 800 false true
    exampleFullTrace.move
  have hfull : Next (Next exampleFullTrace.move.lookAheadRingAddPointer)
      = exampleFullTrace.move.lookAheadRingGetPointer := by decide!
  have hfalse : (Move.LookAheadRingAdd (fun _ => 0) 30 15 200 800 false true
      exampleFullTrace.move).2 = false := by
    cases hres : (Move.LookAheadRingAdd (fun _ => 0) 30 15 200 800 false true
      exampleFullTrace.move).2
    · rfl
    · exact absurd hfull (h.1.mp hres).2
  exact ⟨hr, by decide!, by decide!, (h.2.2.2 hr).2.2.1, hfull, hfalse⟩

/-! ## Tools -/

section ToolFacts
variable {K : Type} [LinearOrderedField K]

/-- The loop of `Tool::SetTemperatureFault` finds the heater exactly when it is one of
the first `heaterCount` entries of `heaters`. -/
theorem Tool.uses_iff (h : Int) (t : Tool K) :
    (List.range t.heaterCount.toNat).any (fun heater => decide (h = t.heaters heater)) = true ↔
      ∃ heater : Nat, (heater : Int) < t.heaterCount ∧ t.heaters heater = h := by
  rw [List.any_eq_true]
  constructor
  · rintro ⟨heater, hm, hd⟩
    refine ⟨heater, Int.lt_toNat.mp (List.mem_range.mp hm), ?_⟩
    exact (of_decide_eq_true hd).symm
  · rintro ⟨heater, hlt, he⟩
    exact ⟨heater, List.mem_range.mpr (Int.lt_toNat.mpr hlt), decide_eq_true he.symm⟩

theorem Tool.AllHeatersAtHighTemperature_iff (temperature : Int → K) (t : Tool K) :
    Tool.AllHeatersAtHighTemperature temperature t = true ↔
      ∀ heater : Nat, (heater : Int) < t.heaterCount →
        temperature (t.heaters heater) ≥ HOT_ENOUGH_TO_EXTRUDE := by
  unfold Tool.AllHeatersAtHighTemperature
  rw [List.all_eq_true]
  constructor
  · intro hall heater hlt
    have := hall heater (List.mem_range.mpr (Int.lt_toNat.mpr hlt))
    exact not_lt.mp (of_decide_eq_true this)
  · intro hall heater hm
    exact decide_eq_true (not_lt.mpr (hall heater (Int.lt_toNat.mp (List.mem_range.mp hm))))

/-- C21. `Tool::ToolCanDrive()` returns true if and only if `heaterFault` is false and
either cold extrusion is allowed (`reprap.ColdExtrude()`) or every heater of the tool
currently reads at least HOT_ENOUGH_TO_EXTRUDE, which is 170; a tool with no heaters
and no fault can always drive. -/
theorem C21_tool_can_drive (coldExtrude : Bool) (temperature : Int → K) (t : Tool K) :
    (Tool.ToolCanDrive coldExtrude temperature t = true ↔
      (t.heaterFault = false ∧
        (coldExtrude = true ∨
          ∀ heater : Nat, (heater : Int) < t.heaterCount →
            temperature (t.heaters heater) ≥ HOT_ENOUGH_TO_EXTRUDE))) ∧
    (HOT_ENOUGH_TO_EXTRUDE : K) = 170 ∧
    (t.heaterCount ≤ 0 → t.heaterFault = false →
      Tool.ToolCanDrive coldExtrude temperature t = true) := by
  have hiff : Tool.ToolCanDrive coldExtrude temperature t = true ↔
      (t.heaterFault = false ∧
        (coldExtrude = true ∨
          ∀ heater : Nat, (heater : Int) < t.heaterCount →
            temperature (t.heaters heater) ≥ HOT_ENOUGH_TO_EXTRUDE)) := by
    rw [← Tool.AllHeatersAtHighTemperature_iff]
    unfold Tool.ToolCanDrive
    cases t.heaterFault <;> cases coldExtrude <;>
      cases Tool.AllHeatersAtHighTemperature temperature t <;> simp
  refine ⟨hiff, rfl, fun h0 hf => hiff.mpr ⟨hf, Or.inr ?_⟩⟩
  intro heater hlt
  have : (0 : Int) ≤ (heater : Int) := Int.natCast_nonneg heater
  omega

/-- The example tool (one heater, number 0, no fault) can drive at 180 degrees and
cannot at 160 degrees unless cold extrusion is allowed. -/
theorem C21_witness :
    Tool.ToolCanDrive false (fun _ => (180 : ℚ)) exampleTool = true ∧
    Tool.ToolCanDrive false (fun _ => (160 : ℚ)) exampleTool = false ∧
    Tool.ToolCanDrive true (fun _ => (160 : ℚ)) exampleTool = true := by
  have h1 : exampleTool.heaterFault = false := rfl
  have h2 : ∀ heater : Nat, (heater : Int) < exampleTool.heaterCount →
      (fun _ => (180 : ℚ)) (exampleTool.heaters heater) ≥ HOT_ENOUGH_TO_EXTRUDE := by
    intro heater _
    show (180 : ℚ) ≥ HOT_ENOUGH_TO_EXTRUDE
    unfold HOT_ENOUGH_TO_EXTRUDE
    norm_num
  exact ⟨(C21_tool_can_drive false (fun _ => (180 : ℚ)) exampleTool).1.mpr ⟨h1, Or.inr h2⟩,
    by decide!, by decide!⟩

/-- C22. After `Tool::FlagTemperatureFault(h)` is called on the head of the tool
list, the list has the same tools in the same order; every tool whose heater list
contains `h` has `heaterFault` true (so `ToolCanDrive()` is false), every tool whose
heater list does not contain `h` has `heaterFault` unchanged, and no other tool field
changes. -/
theorem C22_fault_flagged_on_every_user (h : Int) (toolList : List (Tool K)) :
    (Tool.FlagTemperatureFault h toolList).length = toolList.length ∧
    ∀ (i : Nat) (t : Tool K), toolList[i]? = some t →
      ((∃ heater : Nat, (heater : Int) < t.heaterCount ∧ t.heaters heater = h) →
        (Tool.FlagTemperatureFault h toolList)[i]? = some { t with heaterFault := true } ∧
        ∀ (coldExtrude : Bool) (temperature : Int → K),
          Tool.ToolCanDrive coldExtrude temperature { t with heaterFault := true } = false) ∧
      ((¬ ∃ heater : Nat, (heater : Int) < t.heaterCount ∧ t.heaters heater = h) →
        (Tool.FlagTemperatureFault h toolList)[i]? = some t) := by
  unfold Tool.FlagTemperatureFault
  refine ⟨List.length_map _ _, fun i t hi => ?_⟩
  rw [List.getElem?_map, hi]
  constructor
  · intro hu
    refine ⟨?_, fun _ _ => rfl⟩
    show some (Tool.SetTemperatureFault h t) = _
    unfold Tool.SetTemperatureFault
    rw [if_pos ((Tool.uses_iff h t).mpr hu)]
  · intro hu
    show some (Tool.SetTemperatureFault h t) = _
    unfold Tool.SetTemperatureFault
    rw [if_neg (fun c => hu ((Tool.uses_iff h t).mp c))]

/-- In the example list a fault of heater 2 flags tool 1, which uses heaters 1 and 2,
and leaves tool 0, which uses heater 1 only. -/
theorem C22_witness :
    (Tool.FlagTemperatureFault 2 exampleToolList)[1]?
      = some { exampleTools 1 with heaterFault := true } ∧
    (Tool.FlagTemperatureFault 2 exampleToolList)[0]? = some (exampleTools 0) := by
  have h1 : exampleToolList[1]? = some (exampleTools 1) := rfl
  have h0 : exampleToolList[0]? = some (exampleTools 0) := rfl
  have hu : ∃ heater : Nat, (heater : Int) < (exampleTools 1).heaterCount ∧
      (exampleTools 1).heaters heater = 2 := ⟨1, by decide, by decide⟩
  have hn : ¬ ∃ heater : Nat, (heater : Int) < (exampleTools 0).heaterCount ∧
      (exampleTools 0).heaters heater = 2 := by
    rintro ⟨heater, -, he⟩
    have : (exampleTools 0).heaters heater = 1 := rfl
    rw [this] at he
    exact absurd he (by decide)
  exact ⟨(((C22_fault_flagged_on_every_user 2 exampleToolList).2 1 _ h1).1 hu).1,
    ((C22_fault_flagged_on_every_user 2 exampleToolList).2 0 _ h0).2 hn⟩

/-- C24. For a tool list whose numbers are pairwise distinct, `Tool::AddTool(t)`
called on the list head appends `t` as the last element (all earlier tools kept in the
same order) when no tool in the list has `t`'s number, and leaves the list unchanged
when one does; so the numbers in the list stay pairwise distinct. -/
theorem C24_add_tool_keeps_numbers_distinct (tool : Tool K) (toolList : List (Tool K))
    (hnd : (toolList.map (fun t => t.myNumber)).Nodup) :
    ((∀ t ∈ toolList, t.myNumber ≠ tool.myNumber) →
      Tool.AddTool tool toolList = toolList ++ [tool]) ∧
    ((∃ t ∈ toolList, t.myNumber = tool.myNumber) →
      Tool.AddTool tool toolList = toolList) ∧
    ((Tool.AddTool tool toolList).map (fun t => t.myNumber)).Nodup := by
  have hany : toolList.any (fun t => decide (t.myNumber = tool.myNumber)) = true ↔
      ∃ t ∈ toolList, t.myNumber = tool.myNumber := by
    rw [List.any_eq_true]
    constructor
    · rintro ⟨t, ht, hd⟩
      exact ⟨t, ht, of_decide_eq_true hd⟩
    · rintro ⟨t, ht, hd⟩
      exact ⟨t, ht, decide_eq_true hd⟩
  have hfree : (∀ t ∈ toolList, t.myNumber ≠ tool.myNumber) →
      Tool.AddTool tool toolList = toolList ++ [tool] := by
    intro hall
    unfold Tool.AddTool
    rw [if_neg]
    rintro c
    obtain ⟨t, ht, he⟩ := hany.mp c
    exact hall t ht he
  have hused : (∃ t ∈ toolList, t.myNumber = tool.myNumber) →
      Tool.AddTool tool toolList = toolList := by
    intro hex
    unfold Tool.AddTool
    rw [if_pos (hany.mpr hex)]
  refine ⟨hfree, hused, ?_⟩
  by_cases hex : ∃ t ∈ toolList, t.myNumber = tool.myNumber
  · rw [hused hex]
    exact hnd
  · have hall : ∀ t ∈ toolList, t.myNumber ≠ tool.myNumber :=
      fun t ht he => hex ⟨t, ht, he⟩
    rw [hfree hall, List.map_append, List.nodup_append]
    refine ⟨hnd, List.nodup_singleton _, ?_⟩
    intro n hn1 hn2
    rw [List.mem_map] at hn1
    obtain ⟨t, ht, he⟩ := hn1
    rw [List.map_singleton, List.mem_singleton] at hn2
    exact hall t ht (he.trans hn2)

/-- In the example list (numbers 0 and 1) a tool with number 1 is refused and a tool
with number 2 is appended. -/
theorem C24_witness :
    Tool.AddTool (exampleTools 1) exampleToolList = exampleToolList ∧
    Tool.AddTool (exampleTools 2) exampleToolList = exampleToolList ++ [exampleTools 2] ∧
    ((Tool.AddTool (exampleTools 2) exampleToolList).map (fun t => t.myNumber)).Nodup := by
  have hnd : (exampleToolList.map (fun t => t.myNumber)).Nodup := by decide
  have h1 : ∃ t ∈ exampleToolList, t.myNumber = (exampleTools 1).myNumber :=
    ⟨exampleTools 1, by simp [exampleToolList], rfl⟩
  have h2 : ∀ t ∈ exampleToolList, t.myNumber ≠ (exampleTools 2).myNumber := by
    intro t ht
    simp only [exampleToolList, List.mem_cons, List.mem_singleton, List.not_mem_nil,
      or_false] at ht
    rcases ht with ht | ht <;> subst ht <;> decide
  exact ⟨(C24_add_tool_keeps_numbers_distinct (exampleTools 1) exampleToolList hnd).2.1 h1,
    (C24_add_tool_keeps_numbers_distinct (exampleTools 2) exampleToolList hnd).1 h2,
    (C24_add_tool_keeps_numbers_distinct (exampleTools 2) exampleToolList hnd).2.2⟩

/-- C23 (as amended). If at most one tool is active and `currentlyActive` is that
tool (or NULL when none is active), then `t.Activate(currentlyActive)` on a tool `t`
that is already active does nothing and makes no call into `Heat`; on a tool that is
not active it leaves `t` active, `currentlyActive` (then a different tool) inactive
after putting its heaters in standby, every other tool unchanged, exactly `t` active,
and for each of `t`'s heaters, in order, it has passed `t`'s active and standby
setpoints to `Heat` and switched the heater to its active setpoint. -/
theorem C23_activate_switches_tools (this : Nat) (currentlyActive : Option Nat)
    (tools : Nat → Tool K)
    (hone : ∀ i, (tools i).active = true ↔ currentlyActive = some i) :
    ((tools this).active = true → Tool.Activate this currentlyActive tools = (tools, [])) ∧
    ((tools this).active = false →
      (Tool.Activate this currentlyActive tools).1 this = { tools this with active := true } ∧
      (∀ c, currentlyActive = some c →
        c ≠ this ∧
        (Tool.Activate this currentlyActive tools).1 c = { tools c with active := false } ∧
        (Tool.Activate this currentlyActive tools).2
          = Tool.standbyCalls (tools c) ++ Tool.activateCalls (tools this)) ∧
      (currentlyActive = none →
        (Tool.Activate this currentlyActive tools).2 = Tool.activateCalls (tools this)) ∧
      (∀ i, i ≠ this → currentlyActive ≠ some i →
        (Tool.Activate this currentlyActive tools).1 i = tools i) ∧
      (∀ i, ((Tool.Activate this currentlyActive tools).1 i).active = true ↔ i = this) ∧
      (∀ heater : Nat, (heater : Int) < (tools this).heaterCount →
        HeatCall.setActiveTemperature ((tools this).heaters heater)
            ((tools this).activeTemperatures heater)
          ∈ (Tool.Activate this currentlyActive tools).2 ∧
        HeatCall.setStandbyTemperature ((tools this).heaters heater)
            ((tools this).standbyTemperatures heater)
          ∈ (Tool.Activate this currentlyActive tools).2 ∧
        HeatCall.activate ((tools this).heaters heater)
          ∈ (Tool.Activate this currentlyActive tools).2)) := by
  constructor
  · intro ha
    unfold Tool.Activate
    rw [if_pos ha]
  · intro ha
    have hna : ¬ (tools this).active = true := by rw [ha]; simp
    have hmem : ∀ heater : Nat, (heater : Int) < (tools this).heaterCount →
        HeatCall.setActiveTemperature ((tools this).heaters heater)
            ((tools this).activeTemperatures heater) ∈ Tool.activateCalls (tools this) ∧
        HeatCall.setStandbyTemperature ((tools this).heaters heater)
            ((tools this).standbyTemperatures heater) ∈ Tool.activateCalls (tools this) ∧
        HeatCall.activate ((tools this).heaters heater)
          ∈ Tool.activateCalls (tools this) := by
      intro heater hlt
      have hr : heater ∈ List.range (tools this).heaterCount.toNat :=
        List.mem_range.mpr (Int.lt_toNat.mpr hlt)
      unfold Tool.activateCalls
      refine ⟨?_, ?_, ?_⟩ <;>
      · rw [List.mem_flatMap]
        exact ⟨heater, hr, by simp⟩
    cases hc : currentlyActive with
    | none =>
      have hall : ∀ i, (tools i).active = false := by
        intro i
        cases hi : (tools i).active
        · rfl
        · have := (hone i).mp hi
          rw [hc] at this
          cases this
      have hres : Tool.Activate this none tools
          = (setAt tools this { tools this with active := true },
              Tool.activateCalls (tools this)) := by
        unfold Tool.Activate
        rw [if_neg hna]
        rfl
      rw [hres]
      refine ⟨(by simp [setAt]), fun c hcc => (by cases hcc), fun _ => rfl,
        fun i hi _ => (by simp [setAt, hi]), fun i => ?_, hmem⟩
      by_cases hi : i = this
      · subst hi
        simp [setAt]
      · simp [setAt, hi, hall i]
    | some c =>
      have hca : (tools c).active = true := (hone c).mpr hc
      have hct : c ≠ this := by
        intro h
        rw [h] at hca
        exact hna hca
      have hothers : ∀ i, i ≠ c → (tools i).active = false := by
        intro i hi
        cases hia : (tools i).active
        · rfl
        · have := (hone i).mp hia
          rw [hc] at this
          exact absurd (Option.some.inj this).symm hi
      have hsb : Tool.Standby (tools c)
          = ({ tools c with active := false }, Tool.standbyCalls (tools c)) := by
        unfold Tool.Standby
        rw [if_neg (by rw [hca]; simp)]
      have hres : Tool.Activate this (some c) tools
          = (setAt (setAt tools c { tools c with active := false }) this
                { tools this with active := true },
              Tool.standbyCalls (tools c) ++ Tool.activateCalls (tools this)) := by
        unfold Tool.Activate
        rw [if_neg hna]
        simp only [if_pos hct, hsb]
        simp [setAt, Ne.symm hct]
      rw [hres]
      refine ⟨(by simp [setAt]), fun c1 hc1 => ?_, fun h => (by cases h),
        fun i hi hic => ?_, fun i => ?_, fun heater hlt => ?_⟩
      · have : c = c1 := Option.some.inj hc1
        subst this
        exact ⟨hct, (by simp [setAt, hct]), rfl⟩
      · have hic2 : i ≠ c := fun h => hic (by rw [h])
        simp [setAt, hi, hic2]
      · by_cases hi : i = this
        · subst hi
          simp [setAt]
        · by_cases hic : i = c
          · subst hic
            simp [setAt, hi]
          · simp [setAt, hi, hic, hothers i hic]
      · obtain ⟨a, b, c3⟩ := hmem heater hlt
        exact ⟨List.mem_append_right _ a, List.mem_append_right _ b,
          List.mem_append_right _ c3⟩

/-- Tool 1 of the example tools is activated while tool 0 is active: tool 0 goes to
standby, tool 1 becomes active, and the calls into `Heat` are those of the standby of
tool 0 followed by those of the activation of tool 1. -/
theorem C23_witness :
    ((Tool.Activate 1 (some 0) exampleTools).1 1).active = true ∧
    ((Tool.Activate 1 (some 0) exampleTools).1 0).active = false ∧
    (Tool.Activate 1 (some 0) exampleTools).2
      = Tool.standbyCalls (exampleTools 0) ++ Tool.activateCalls (exampleTools 1) := by
  have hone : ∀ i, (exampleTools i).active = true ↔ some 0 = some i := by
    intro i
    by_cases hi : i = 0
    · subst hi
      exact ⟨fun _ => rfl, fun _ => rfl⟩
    · constructor
      · intro h
        simp [exampleTools, hi] at h
      · intro h
        exact absurd (Option.some.inj h).symm hi
  have h := (C23_activate_switches_tools 1 (some 0) exampleTools hone).2 rfl
  have h0 := h.2.1 0 rfl
  exact ⟨(by rw [h.1]), (by rw [h0.2.1]), h0.2.2⟩

/-- C23 as stated fails when `t` is the tool that is already active: tool 0 of the
example tools is the only active tool and has one heater, and `Activate` on it with
`currentlyActive` pointing to it makes no call into `Heat`, so its heater receives no
setpoint and is not switched. -/
theorem C23_counterexample :
    (exampleTools 0).active = true ∧
    (0 : Int) < (exampleTools 0).heaterCount ∧
    (Tool.Activate 0 (some 0) exampleTools).2 = [] ∧
    HeatCall.activate ((exampleTools 0).heaters 0) ∉ (Tool.Activate 0 (some 0) exampleTools).2 := by
  have h : (Tool.Activate 0 (some 0) exampleTools).2 = [] := rfl
  refine ⟨rfl, (by decide), h, ?_⟩
  rw [h]
  exact List.not_mem_nil _

end ToolFacts

/-! ## The collapsed velocity profile -/

section ProfileFacts
variable {K : Type} [LinearOrderedField K] [FloorRing K]

/-- A non-negative exact square root of a number below `x * x` is below `x`. -/
theorem sqrt_lt_of_exact (s y x : K) (hs0 : 0 ≤ s) (hss : s * s = y) (hx : 0 ≤ x)
    (hy : y < x * x) : s < x := by
  by_contra hcon
  push_neg at hcon
  have : x * x ≤ s * s := mul_le_mul hcon hcon hx hs0
  linarith

/-- C25. In the collapsed-trapezoid branch of `DDA::AccelerationCalculation`
(`stopAStep >= startDStep`), for `u, v >= 0`, acceleration > 0 and distance > 0, with
a square root that is exact where it is applied: the result is `change` if and only if
`|v^2 - u^2| > 2*acceleration*distance`; in that case, if `v > u` then `v` is replaced
by `sqrt(u^2 + 2*acceleration*distance)`, strictly smaller than the old `v`, with `u`
unchanged, and otherwise `u` is replaced by `sqrt(v^2 + 2*acceleration*distance)`,
strictly smaller than the old `u`, with `v` unchanged; when the result is not
`change` it is `noFlat` and `u` and `v` are unchanged; in both cases
`startDStep = stopAStep + 1`. -/
theorem C25_collapsed_profile (p : Platform K) (e : LookAhead K) (u v : K) (result : Nat)
    (d : DDA K)
    (ha : 0 < d.acceleration) (hd : 0 < d.distance) (hu0 : 0 ≤ u) (hv0 : 0 ≤ v)
    (hsq : (v > u →
        0 ≤ p.sqrt (u * u + 2 * d.acceleration * d.distance) ∧
        p.sqrt (u * u + 2 * d.acceleration * d.distance)
            * p.sqrt (u * u + 2 * d.acceleration * d.distance)
          = u * u + 2 * d.acceleration * d.distance) ∧
      (¬ v > u →
        0 ≤ p.sqrt (v * v + 2 * d.acceleration * d.distance) ∧
        p.sqrt (v * v + 2 * d.acceleration * d.distance)
            * p.sqrt (v * v + 2 * d.acceleration * d.distance)
          = v * v + 2 * d.acceleration * d.distance))
    (hcol : roundf (1 / 2 * (e.requestedFeedrate * e.requestedFeedrate - u * u)
          / d.acceleration * (d.totalSteps : K) / d.distance)
        ≥ d.totalSteps + roundf (1 / 2 * (v * v - e.requestedFeedrate * e.requestedFeedrate)
          / d.acceleration * (d.totalSteps : K) / d.distance)) :
    ((DDA.AccelerationCalculation p e u v result d).2.2.2 = change ↔
      |v * v - u * u| > 2 * d.acceleration * d.distance) ∧
    ((DDA.AccelerationCalculation p e u v result d).2.2.2 = change → v > u →
      (DDA.AccelerationCalculation p e u v result d).2.1 = u ∧
      (DDA.AccelerationCalculation p e u v result d).2.2.1
        = p.sqrt (u * u + 2 * d.acceleration * d.distance) ∧
      (DDA.AccelerationCalculation p e u v result d).2.2.1 < v) ∧
    ((DDA.AccelerationCalculation p e u v result d).2.2.2 = change → ¬ v > u →
      (DDA.AccelerationCalculation p e u v result d).2.2.1 = v ∧
      (DDA.AccelerationCalculation p e u v result d).2.1
        = p.sqrt (v * v + 2 * d.acceleration * d.distance) ∧
      (DDA.AccelerationCalculation p e u v result d).2.1 < u) ∧
    ((DDA.AccelerationCalculation p e u v result d).2.2.2 ≠ change →
      (DDA.AccelerationCalculation p e u v result d).2.2.2 = noFlat ∧
      (DDA.AccelerationCalculation p e u v result d).2.1 = u ∧
      (DDA.AccelerationCalculation p e u v result d).2.2.1 = v) ∧
    (DDA.AccelerationCalculation p e u v result d).1.startDStep
      = (DDA.AccelerationCalculation p e u v result d).1.stopAStep + 1 := by
  have hne : noFlat ≠ change := by decide
  -- the test of the source, in terms of the squares
  have hinf : (1 / 2 * (1 / 2 * (v * v - u * u) / d.acceleration + d.distance) < 0
        ∨ 1 / 2 * (1 / 2 * (v * v - u * u) / d.acceleration + d.distance) > d.distance)
      ↔ |v * v - u * u| > 2 * d.acceleration * d.distance := by
    have h2ad : 0 < 2 * d.acceleration * d.distance := by positivity
    have e1 : 1 / 2 * (1 / 2 * (v * v - u * u) / d.acceleration + d.distance) < 0
        ↔ v * v - u * u < -(2 * d.acceleration * d.distance) := by
      have : 1 / 2 * (1 / 2 * (v * v - u * u) / d.acceleration + d.distance)
          = (v * v - u * u + 2 * d.acceleration * d.distance) / (4 * d.acceleration) := by
        field_simp
        ring
      rw [this, div_lt_iff₀ (by positivity)]
      constructor <;> intro h <;> linarith
    have e2 : 1 / 2 * (1 / 2 * (v * v - u * u) / d.acceleration + d.distance) > d.distance
        ↔ v * v - u * u > 2 * d.acceleration * d.distance := by
      have : 1 / 2 * (1 / 2 * (v * v - u * u) / d.acceleration + d.distance)
          = (v * v - u * u + 2 * d.acceleration * d.distance) / (4 * d.acceleration) := by
        field_simp
        ring
      rw [this, gt_iff_lt, lt_div_iff₀ (by positivity)]
      constructor <;> intro h <;> linarith
    rw [e1, e2]
    show _ ↔ 2 * d.acceleration * d.distance < |v * v - u * u|
    rw [lt_abs]
    constructor
    · rintro (h | h)
      · exact Or.inr (by linarith)
      · exact Or.inl h
    · rintro (h | h)
      · exact Or.inr h
      · exact Or.inl (by linarith)
  unfold DDA.AccelerationCalculation
  dsimp only
  rw [if_pos hcol]
  by_cases hc : 1 / 2 * (1 / 2 * (v * v - u * u) / d.acceleration + d.distance) < 0
        ∨ 1 / 2 * (1 / 2 * (v * v - u * u) / d.acceleration + d.distance) > d.distance
  · rw [if_pos hc]
    have habs := hinf.mp hc
    by_cases hvu : v > u
    · rw [if_pos hvu]
      obtain ⟨s0, ss⟩ := hsq.1 hvu
      have hlt : u * u + 2 * d.acceleration * d.distance < v * v := by
        have hpos : 0 ≤ v * v - u * u := by nlinarith
        rw [gt_iff_lt, abs_of_nonneg hpos] at habs
        linarith
      refine ⟨⟨fun _ => habs, fun _ => rfl⟩,
        fun _ _ => ⟨rfl, rfl, sqrt_lt_of_exact _ _ v s0 ss hv0 hlt⟩,
        fun _ h => absurd hvu h, fun h => absurd rfl h, rfl⟩
    · rw [if_neg hvu]
      obtain ⟨s0, ss⟩ := hsq.2 hvu
      have hlt : v * v + 2 * d.acceleration * d.distance < u * u := by
        push_neg at hvu
        have hneg : v * v - u * u ≤ 0 := by nlinarith
        rw [gt_iff_lt, abs_of_nonpos hneg] at habs
        linarith
      refine ⟨⟨fun _ => habs, fun _ => rfl⟩, fun _ h => absurd h hvu,
        fun _ _ => ⟨rfl, rfl, sqrt_lt_of_exact _ _ u s0 ss hu0 hlt⟩,
        fun h => absurd rfl h, rfl⟩
  · rw [if_neg hc]
    refine ⟨⟨fun h => absurd h hne, fun h => absurd (hinf.mpr h) hc⟩,
      fun h => absurd h hne, fun h => absurd h hne, fun _ => ⟨rfl, rfl, rfl⟩, rfl⟩

end ProfileFacts

/-- A move of 1 unit at feed rate 100 entered at speed 30 with end speed 100 and
acceleration 800: the profile collapses, the result is `change`, and `v` is replaced
by `sqrt(900 + 1600) = 50`. -/
theorem C25_witness :
    (DDA.AccelerationCalculation examplePlatform (exampleEntry 200 100 100 vCosineSet)
      30 100 moving exampleProfileDDA).2.2.2 = change ∧
    (DDA.AccelerationCalculation examplePlatform (exampleEntry 200 100 100 vCosineSet)
      30 100 moving exampleProfileDDA).2.1 = 30 ∧
    (DDA.AccelerationCalculation examplePlatform (exampleEntry 200 100 100 vCosineSet)
      30 100 moving exampleProfileDDA).2.2.1 = 50 := by
  have ha : 0 < exampleProfileDDA.acceleration := by decide!
  have hd : 0 < exampleProfileDDA.distance := by decide!
  have hsq : ((100 : ℚ) > 30 →
        0 ≤ examplePlatform.sqrt (30 * 30 + 2 * exampleProfileDDA.acceleration
          * exampleProfileDDA.distance) ∧
        examplePlatform.sqrt (30 * 30 + 2 * exampleProfileDDA.acceleration
            * exampleProfileDDA.distance)
          * examplePlatform.sqrt (30 * 30 + 2 * exampleProfileDDA.acceleration
            * exampleProfileDDA.distance)
          = 30 * 30 + 2 * exampleProfileDDA.acceleration * exampleProfileDDA.distance) ∧
      (¬ (100 : ℚ) > 30 →
        0 ≤ examplePlatform.sqrt (100 * 100 + 2 * exampleProfileDDA.acceleration
          * exampleProfileDDA.distance) ∧
        examplePlatform.sqrt (100 * 100 + 2 * exampleProfileDDA.acceleration
            * exampleProfileDDA.distance)
          * examplePlatform.sqrt (100 * 100 + 2 * exampleProfileDDA.acceleration
            * exampleProfileDDA.distance)
          = 100 * 100 + 2 * exampleProfileDDA.acceleration * exampleProfileDDA.distance) := by
    refine ⟨fun _ => (by decide!), fun h => absurd (by norm_num) h⟩
  have hcol : roundf (1 / 2 * ((exampleEntry 200 100 100 vCosineSet).requestedFeedrate
          * (exampleEntry 200 100 100 vCosineSet).requestedFeedrate - 30 * 30)
          / exampleProfileDDA.acceleration * (exampleProfileDDA.totalSteps : ℚ)
          / exampleProfileDDA.distance)
        ≥ exampleProfileDDA.totalSteps + roundf (1 / 2 * (100 * 100
          - (exampleEntry 200 100 100 vCosineSet).requestedFeedrate
            * (exampleEntry 200 100 100 vCosineSet).requestedFeedrate)
          / exampleProfileDDA.acceleration * (exampleProfileDDA.totalSteps : ℚ)
          / exampleProfileDDA.distance) := by decide!
  have h := C25_collapsed_profile examplePlatform (exampleEntry 200 100 100 vCosineSet)
    30 100 moving exampleProfileDDA ha hd (by norm_num) (by norm_num) hsq hcol
  have habs : |(100 : ℚ) * 100 - 30 * 30| > 2 * exampleProfileDDA.acceleration
      * exampleProfileDDA.distance := by decide!
  have hch := h.1.mpr habs
  obtain ⟨h1, h2, -⟩ := h.2.1 hch (by norm_num)
  exact ⟨hch, h1, h2.trans (by decide!)⟩

/-! ## The step counts and the length computed by `DDA::Init` -/

section InitFacts
variable {K : Type} [LinearOrderedField K] [FloorRing K]

/-- The square of a step count over the steps per unit does not depend on the sign of
the count. -/
theorem sq_cast_abs_div (x : Int) (s : K) :
    (((|x| : Int) : K) / s) ^ 2 = ((x : K) / s) * ((x : K) / s) := by
  rw [Int.cast_abs, div_pow, sq_abs, ← div_pow, sq]

/-- The drive loop of `DDA::Init`, exactly: after `n` drives, `delta` holds the
absolute step differences, `directions` their signs, and `distance` the sum of the
squared lengths. -/
theorem DDA.initLoop_exact (p : Platform K) (t q : Nat → Int) (d0 : DDA K) (n : Nat) :
    let s := (List.range n).foldl (fun s drive => DDA.InitDrive p t q drive s) (d0, 0)
    (∀ j, j < n →
      s.1.delta j = |if j < p.AXES then t j - q j else t j| ∧
      s.1.directions j = decide ((if j < p.AXES then t j - q j else t j) ≥ 0)) ∧
    s.1.distance = d0.distance + ((List.range n).map (fun j =>
      (((|if j < p.AXES then t j - q j else t j| : Int) : K) / p.driveStepsPerUnit j) ^ 2)).sum := by
  induction n with
  | zero =>
    simp only [List.range_zero, List.foldl_nil, List.map_nil, List.sum_nil, add_zero]
    exact ⟨fun j hj => absurd hj (Nat.not_lt_zero j), trivial⟩
  | succ n ih =>
    simp only [List.range_succ, List.foldl_append, List.foldl_cons, List.foldl_nil,
      List.map_append, List.map_cons, List.map_nil, List.sum_append, List.sum_cons,
      List.sum_nil, add_zero]
    simp only at ih
    generalize (List.range n).foldl (fun s drive => DDA.InitDrive p t q drive s) (d0, 0) = s at ih
    obtain ⟨hdel, hdist⟩ := ih
    generalize hδ : (if n < p.AXES then t n - q n else t n) = δ0
    have habs : (if δ0 ≥ 0 then δ0 else -δ0) = |δ0| := by
      split_ifs with hx
      · exact (abs_of_nonneg hx).symm
      · exact (abs_of_neg (not_le.mp hx)).symm
    have hfields : (DDA.InitDrive p t q n s).1.delta = setAt s.1.delta n |δ0| ∧
        (DDA.InitDrive p t q n s).1.directions = setAt s.1.directions n (decide (δ0 ≥ 0)) ∧
        (DDA.InitDrive p t q n s).1.distance
          = s.1.distance + ((δ0 : K) / p.driveStepsPerUnit n) * ((δ0 : K) / p.driveStepsPerUnit n) := by
      unfold DDA.InitDrive LookAhead.MachineToEndPointOf
      dsimp only
      rw [hδ, habs]
      split_ifs <;> exact ⟨rfl, rfl, rfl⟩
    obtain ⟨e1, e2, e3⟩ := hfields
    refine ⟨?_, ?_⟩
    · intro j hj
      rw [e1, e2]
      by_cases hjn : j = n
      · subst hjn
        simp only [setAt, if_true]
        rw [hδ]
        exact ⟨rfl, rfl⟩
      · have hj' : j < n := by omega
        simp only [setAt, hjn, if_false]
        exact hdel j hj'
    · rw [e3, hdist, sq_cast_abs_div, add_assoc]

/-- What `DDA::Init` computes from the two end points, whether or not the movement is
null: the step counts, the directions, the largest step count, and the length. -/
theorem DDA.Init_exact (p : Platform K) (m : Move K) (la : Nat) (dbg : Bool) (d : DDA K) :
    (∀ j, j < p.DRIVES →
      (DDA.Init p m la dbg d).2.1.delta j
        = |if j < p.AXES then
            (m.lookAheadRing la).endPoint j - (m.lookAheadRing (Previous la)).endPoint j
           else (m.lookAheadRing la).endPoint j| ∧
      (DDA.Init p m la dbg d).2.1.directions j
        = decide ((if j < p.AXES then
            (m.lookAheadRing la).endPoint j - (m.lookAheadRing (Previous la)).endPoint j
           else (m.lookAheadRing la).endPoint j) ≥ 0) ∧
      (DDA.Init p m la dbg d).2.1.delta j ≤ (DDA.Init p m la dbg d).2.1.totalSteps) ∧
    (0 < p.DRIVES → ∃ master, master < p.DRIVES ∧
      (DDA.Init p m la dbg d).2.1.delta master = (DDA.Init p m la dbg d).2.1.totalSteps) ∧
    (0 < (DDA.Init p m la dbg d).2.1.totalSteps →
      (DDA.Init p m la dbg d).2.1.distance
        = p.sqrt ((List.range p.DRIVES).map (fun j =>
            (((DDA.Init p m la dbg d).2.1.delta j : K) / p.driveStepsPerUnit j) ^ 2)).sum) ∧
    ((DDA.Init p m la dbg d).2.1.totalSteps ≤ 0 →
      (DDA.Init p m la dbg d).2.1.distance
        = ((List.range p.DRIVES).map (fun j =>
            (((DDA.Init p m la dbg d).2.1.delta j : K) / p.driveStepsPerUnit j) ^ 2)).sum) := by
  have hloop := DDA.InitSteps_spec p m la d
  have hex := DDA.initLoop_exact p (m.lookAheadRing la).endPoint
    (m.lookAheadRing (Previous la)).endPoint
    { d with
        active := false
        myLookAheadEntry := la
        totalSteps := -1
        distance := 0
        checkEndStops := (m.lookAheadRing la).checkEndStops } p.DRIVES
  have hfields : (DDA.Init p m la dbg d).2.1.delta = (DDA.InitSteps p m la d).1.delta ∧
      (DDA.Init p m la dbg d).2.1.directions = (DDA.InitSteps p m la d).1.directions ∧
      (DDA.Init p m la dbg d).2.1.totalSteps = (DDA.InitSteps p m la d).1.totalSteps ∧
      (DDA.Init p m la dbg d).2.1.distance
        = (if (DDA.InitSteps p m la d).1.totalSteps ≤ 0 then (DDA.InitSteps p m la d).1.distance
           else p.sqrt (DDA.InitSteps p m la d).1.distance) := by
    unfold DDA.Init
    dsimp only
    generalize DDA.InitSteps p m la d = s
    by_cases hnull : s.1.totalSteps ≤ 0
    · simp only [hnull, if_true]
      exact ⟨trivial, trivial, trivial, trivial⟩
    · simp only [hnull, if_false]
      obtain ⟨a, b, hab⟩ := DDA.AccelerationCalculation_dda p (m.lookAheadRing la)
        (m.lookAheadRing (Previous la)).v (m.lookAheadRing la).v moving
        (DDA.InitSetUp p (m.lookAheadRing la) s)
      generalize DDA.AccelerationCalculation p (m.lookAheadRing la)
        (m.lookAheadRing (Previous la)).v (m.lookAheadRing la).v moving
        (DDA.InitSetUp p (m.lookAheadRing la) s) = r at hab ⊢
      simp only [hab, DDA.InitSetUp]
      exact ⟨trivial, trivial, trivial, trivial⟩
  obtain ⟨f1, f2, f3, f4⟩ := hfields
  have hsum : ((List.range p.DRIVES).map (fun j =>
        (((DDA.InitSteps p m la d).1.delta j : K) / p.driveStepsPerUnit j) ^ 2)).sum
      = (DDA.InitSteps p m la d).1.distance := by
    unfold DDA.InitSteps
    dsimp only at hex ⊢
    rw [hex.2, zero_add]
    congr 1
    apply List.map_congr_left
    intro j hj
    rw [(hex.1 j (List.mem_range.mp hj)).1]
  dsimp only at hloop
  obtain ⟨_, hdel, _, hbig⟩ := hloop
  rw [f1, f2, f3, f4, hsum]
  refine ⟨?_, ?_, ?_, ?_⟩
  · intro j hj
    have h := hex.1 j hj
    unfold DDA.InitSteps
    refine ⟨h.1, h.2, ?_⟩
    have h2 := (hdel j hj).2
    unfold DDA.InitSteps at h2
    exact h2
  · intro hn
    exact ⟨_, (hbig hn).1, (hbig hn).2⟩
  · intro hT
    rw [if_neg (not_le.mpr hT)]
  · intro hT
    rw [if_pos hT]

/-- C29. After `DDA::Init` on the look-ahead entry `la` (at least one drive): for
every drive below `DRIVES`, `delta` is the absolute value of the end point minus the
previous entry end point for an axis and of the end point itself for an extruder, and
`directions` is `FORWARDS` (true) exactly when that signed difference is >= 0;
`totalSteps` is the maximum of the `delta` (an upper bound that one drive attains);
`distance` is the square root of the sum of the squares of `delta / stepsPerUnit`
when `totalSteps > 0` (for a null movement it is that sum itself, which is 0); and
when `totalSteps > 0` every counter is `-(totalSteps / 2)` and `stepCount` is 0. -/
theorem C29_init_step_counts_and_length (p : Platform K) (m : Move K) (la : Nat) (dbg : Bool)
    (d : DDA K) (hn : 0 < p.DRIVES) :
    (∀ j, j < p.AXES → j < p.DRIVES →
      (DDA.Init p m la dbg d).2.1.delta j
        = |(m.lookAheadRing la).endPoint j - (m.lookAheadRing (Previous la)).endPoint j| ∧
      ((DDA.Init p m la dbg d).2.1.directions j = true ↔
        (m.lookAheadRing la).endPoint j - (m.lookAheadRing (Previous la)).endPoint j ≥ 0)) ∧
    (∀ j, p.AXES ≤ j → j < p.DRIVES →
      (DDA.Init p m la dbg d).2.1.delta j = |(m.lookAheadRing la).endPoint j| ∧
      ((DDA.Init p m la dbg d).2.1.directions j = true ↔
        (m.lookAheadRing la).endPoint j ≥ 0)) ∧
    (∀ j, j < p.DRIVES →
      (DDA.Init p m la dbg d).2.1.delta j ≤ (DDA.Init p m la dbg d).2.1.totalSteps) ∧
    (∃ master, master < p.DRIVES ∧
      (DDA.Init p m la dbg d).2.1.delta master = (DDA.Init p m la dbg d).2.1.totalSteps) ∧
    (0 < (DDA.Init p m la dbg d).2.1.totalSteps →
      (DDA.Init p m la dbg d).2.1.distance
        = p.sqrt ((List.range p.DRIVES).map (fun j =>
            (((DDA.Init p m la dbg d).2.1.delta j : K) / p.driveStepsPerUnit j) ^ 2)).sum ∧
      (∀ j, j < p.DRIVES →
        (DDA.Init p m la dbg d).2.1.counter j
          = -((DDA.Init p m la dbg d).2.1.totalSteps / 2)) ∧
      (DDA.Init p m la dbg d).2.1.stepCount = 0) ∧
    ((DDA.Init p m la dbg d).2.1.totalSteps ≤ 0 →
      (DDA.Init p m la dbg d).2.1.distance = 0 ∧
      ((List.range p.DRIVES).map (fun j =>
        (((DDA.Init p m la dbg d).2.1.delta j : K) / p.driveStepsPerUnit j) ^ 2)).sum = 0) := by
  obtain ⟨h1, h2, h3, h4⟩ := DDA.Init_exact p m la dbg d
  refine ⟨?_, ?_, fun j hj => (h1 j hj).2.2, h2 hn, ?_, ?_⟩
  · intro j hja hj
    obtain ⟨a, b, _⟩ := h1 j hj
    rw [if_pos hja] at a b
    rw [a, b]
    exact ⟨rfl, decide_eq_true_iff⟩
  · intro j hja hj
    obtain ⟨a, b, _⟩ := h1 j hj
    rw [if_neg (not_lt.mpr hja)] at a b
    rw [a, b]
    exact ⟨rfl, decide_eq_true_iff⟩
  · intro hT
    obtain ⟨_, s2, s3, _⟩ := DDA.Init_spec p m la dbg d hT
    refine ⟨h3 hT, ?_, s3⟩
    intro j hj
    rw [(s2 j hj).2.2, Int.neg_tdiv, Int.tdiv_eq_ediv (le_of_lt hT) (by norm_num)]
  · intro hT
    have hz : ∀ j, j < p.DRIVES → (DDA.Init p m la dbg d).2.1.delta j = 0 := by
      intro j hj
      obtain ⟨a, _, c⟩ := h1 j hj
      have : 0 ≤ (DDA.Init p m la dbg d).2.1.delta j := by rw [a]; exact abs_nonneg _
      omega
    have hsum : ((List.range p.DRIVES).map (fun j =>
        (((DDA.Init p m la dbg d).2.1.delta j : K) / p.driveStepsPerUnit j) ^ 2)).sum = 0 := by
      apply List.sum_eq_zero
      intro x hx
      obtain ⟨j, hj, rfl⟩ := List.mem_map.mp hx
      rw [hz j (List.mem_range.mp hj)]
      simp
    exact ⟨by rw [h4 hT, hsum], hsum⟩

end InitFacts

/-- The witness of C29: the move of 3 steps along X in slot 1 of `exampleRingA`. -/
theorem C29_witness :
    0 < examplePlatform.DRIVES ∧
    (∀ j, j < examplePlatform.DRIVES →
      (DDA.Init examplePlatform (exampleMove exampleRingA 1 2 1) 1 false exampleDDA).2.1.delta j
        ≤ (DDA.Init examplePlatform (exampleMove exampleRingA 1 2 1) 1 false
            exampleDDA).2.1.totalSteps) ∧
    (∃ master, master < examplePlatform.DRIVES ∧
      (DDA.Init examplePlatform (exampleMove exampleRingA 1 2 1) 1 false
          exampleDDA).2.1.delta master
        = (DDA.Init examplePlatform (exampleMove exampleRingA 1 2 1) 1 false
            exampleDDA).2.1.totalSteps) :=
  ⟨by decide,
   (C29_init_step_counts_and_length examplePlatform (exampleMove exampleRingA 1 2 1) 1 false
      exampleDDA (by decide)).2.2.1,
   (C29_init_step_counts_and_length examplePlatform (exampleMove exampleRingA 1 2 1) 1 false
      exampleDDA (by decide)).2.2.2.1⟩

/-! ## The junction pass and the forced stop of the last move -/

section JunctionFacts
variable {K : Type} [LinearOrderedField K] [FloorRing K]

/-- The lazy evaluation of the cosine changes at most the `cosine` field of the entry. -/
theorem Move.Cosine_entry (p : Platform K) (m : Move K) (n : Nat) :
    ∃ c, (Move.Cosine p m n).1.lookAheadRing n = { m.lookAheadRing n with cosine := c } := by
  unfold Move.Cosine
  by_cases hc : (m.lookAheadRing n).cosine < 3 / 2
  · rw [if_pos hc]
    exact ⟨(m.lookAheadRing n).cosine, rfl⟩
  · rw [if_neg hc]
    dsimp only
    rw [Move.setEntry_ring, if_pos rfl]
    exact ⟨_, rfl⟩

/-- What the body of the junction loop does to an unprocessed entry. -/
theorem Move.junctionEntry_spec (p : Platform K) (n1 n2 : Nat) (m : Move K)
    (hu : (m.lookAheadRing n1).processed = unprocessed) :
    ((Move.junctionEntry p n1 n2 m).lookAheadRing n1).v
      = (if (m.lookAheadRing n1).v * (Move.Cosine p m n1).2
            < min (m.lookAheadRing n1).minSpeed (m.lookAheadRing n2).minSpeed
         then min (m.lookAheadRing n1).minSpeed (m.lookAheadRing n2).minSpeed
         else (m.lookAheadRing n1).v * (Move.Cosine p m n1).2) ∧
    ((Move.junctionEntry p n1 n2 m).lookAheadRing n1).processed = vCosineSet := by
  unfold Move.junctionEntry
  rw [if_pos hu]
  dsimp only
  obtain ⟨c, hc⟩ := Move.Cosine_entry p m n1
  generalize Move.Cosine p m n1 = r at hc ⊢
  simp only [Move.setEntry_ring, if_true, LookAhead.SetV, LookAhead.SetProcessed, hc]
  have hne : ¬ vCosineSet = unprocessed := by decide
  rw [if_neg hne]
  dsimp only
  rw [hu]
  exact ⟨rfl, by decide⟩

/-- `Move::DoLookAhead` on a ring that is not empty, with `addNoMoreMoves` set or no
incoming data, ends by forcing the entry before the add cursor. -/
theorem Move.DoLookAhead_last (p : Platform K) (hid : Bool) (m : Move K)
    (hne : m.lookAheadRingCount ≠ 0)
    (hg : m.lookAheadRingGetPointer < LOOK_AHEAD_RING_LENGTH)
    (ha : m.lookAheadRingAddPointer < LOOK_AHEAD_RING_LENGTH)
    (hstop : m.addNoMoreMoves = true ∨ hid = false) :
    ((Move.DoLookAhead p hid m).lookAheadRing (Previous m.lookAheadRingAddPointer)).v
      = p.instantDvs p.slowestDrive ∧
    ((Move.DoLookAhead p hid m).lookAheadRing
      (Previous m.lookAheadRingAddPointer)).processed &&& complete ≠ 0 := by
  have hstop' : m.addNoMoreMoves = true ∨ ¬ hid = true := by
    rcases hstop with h | h
    · exact Or.inl h
    · exact Or.inr (by rw [h]; decide)
  unfold Move.DoLookAhead
  have he : ¬ Move.LookAheadRingEmpty m = true := by
    unfold Move.LookAheadRingEmpty
    simpa using hne
  rw [if_neg he]
  dsimp only
  have hcond : m.addNoMoreMoves = true ∨ ¬ hid = true ∨ m.lookAheadRingCount > LOOK_AHEAD := by
    rcases hstop' with h | h
    · exact Or.inl h
    · exact Or.inr (Or.inl h)
  rw [if_pos hcond]
  obtain ⟨⟨fa, fg, _, _, fn, _⟩, _⟩ := Move.reachabilityPasses_same p m
  generalize Move.reachabilityPasses p m = m1 at fa fg fn ⊢
  have hcond2 : m1.addNoMoreMoves = true ∨ ¬ hid = true ∨ m1.lookAheadRingCount > 1 := by
    rcases hstop' with h | h
    · exact Or.inl (by rw [fn]; exact h)
    · exact Or.inr (Or.inl h)
  rw [if_pos hcond2]
  have := Move.junctionPass_last p hid m1 (by rw [fg]; exact hg) (by rw [fa]; exact ha)
    (by rw [fn]; exact hstop')
  rw [fa] at this
  exact this

/-- C27. When `Move::DoLookAhead` runs on a ring that is not empty (cursors inside the
ring) with `addNoMoreMoves` set or `HaveIncomingData()` false, then on return the
entry just before the add cursor has `V()` equal to the platform
`InstantDv(SlowestDrive())` and has the `complete` flag set. -/
theorem C27_last_entry_forced_to_stop (p : Platform K) (hid : Bool) (m : Move K)
    (hne : m.lookAheadRingCount ≠ 0)
    (hg : m.lookAheadRingGetPointer < LOOK_AHEAD_RING_LENGTH)
    (ha : m.lookAheadRingAddPointer < LOOK_AHEAD_RING_LENGTH)
    (hstop : m.addNoMoreMoves = true ∨ hid = false) :
    ((Move.DoLookAhead p hid m).lookAheadRing (Previous m.lookAheadRingAddPointer)).v
      = p.instantDvs p.slowestDrive ∧
    ((Move.DoLookAhead p hid m).lookAheadRing
      (Previous m.lookAheadRingAddPointer)).processed &&& complete ≠ 0 :=
  Move.DoLookAhead_last p hid m hne hg ha hstop

end JunctionFacts

/-- The witness of C27: the only queued move of `exampleRingC` (slot 1), planned
without incoming data. -/
theorem C27_witness :
    ((Move.DoLookAhead examplePlatform false (exampleMove exampleRingC 1 2 1)).lookAheadRing
      (Previous (exampleMove exampleRingC 1 2 1).lookAheadRingAddPointer)).v
      = examplePlatform.instantDvs examplePlatform.slowestDrive ∧
    ((Move.DoLookAhead examplePlatform false (exampleMove exampleRingC 1 2 1)).lookAheadRing
      (Previous (exampleMove exampleRingC 1 2 1).lookAheadRingAddPointer)).processed
        &&& complete ≠ 0 :=
  C27_last_entry_forced_to_stop examplePlatform false (exampleMove exampleRingC 1 2 1)
    (by decide!) (by decide!) (by decide!) (Or.inr rfl)

/-- C28 (the code at the failing input).  `exampleRingTail` queues a move of 10 units
along X and then a final move of 3 more steps (0.03 units) in the same direction, both
at feed rate 30.  A first `Move::DoLookAhead` while data is incoming sets the junction
speed of the first move (30); a second one after the data has run out marks the first
move complete at 30 and then forces the final move to `V() = 1`, complete.  The final
move is entered at 30 and has 0.03 units at acceleration 800 to slow down in:
`previous.V()^2 = 900 > 49 = V()^2 + 2 * Acceleration() * distance`, so it cannot
decelerate from its entry speed to the forced exit speed within its own length. -/
theorem C28_forced_stop_is_out_of_reach :
    ((Move.DoLookAhead examplePlatform false (Move.DoLookAhead examplePlatform true
        (exampleMove exampleRingTail 1 3 2))).lookAheadRing 2).processed &&& complete ≠ 0 ∧
    ((Move.DoLookAhead examplePlatform false (Move.DoLookAhead examplePlatform true
        (exampleMove exampleRingTail 1 3 2))).lookAheadRing 2).v = 1 ∧
    ((Move.DoLookAhead examplePlatform false (Move.DoLookAhead examplePlatform true
        (exampleMove exampleRingTail 1 3 2))).lookAheadRing 2).acceleration = 800 ∧
    ((Move.DoLookAhead examplePlatform false (Move.DoLookAhead examplePlatform true
        (exampleMove exampleRingTail 1 3 2))).lookAheadRing 1).v = 30 ∧
    (DDA.Init examplePlatform (Move.DoLookAhead examplePlatform false
        (Move.DoLookAhead examplePlatform true (exampleMove exampleRingTail 1 3 2)))
        2 false exampleDDA).2.1.distance = 3 / 100 ∧
    ¬ (((Move.DoLookAhead examplePlatform false (Move.DoLookAhead examplePlatform true
          (exampleMove exampleRingTail 1 3 2))).lookAheadRing 1).v
        * ((Move.DoLookAhead examplePlatform false (Move.DoLookAhead examplePlatform true
          (exampleMove exampleRingTail 1 3 2))).lookAheadRing 1).v
      ≤ ((Move.DoLookAhead examplePlatform false (Move.DoLookAhead examplePlatform true
          (exampleMove exampleRingTail 1 3 2))).lookAheadRing 2).v
        * ((Move.DoLookAhead examplePlatform false (Move.DoLookAhead examplePlatform true
          (exampleMove exampleRingTail 1 3 2))).lookAheadRing 2).v
        + 2 * ((Move.DoLookAhead examplePlatform false (Move.DoLookAhead examplePlatform true
            (exampleMove exampleRingTail 1 3 2))).lookAheadRing 2).acceleration
          * (DDA.Init examplePlatform (Move.DoLookAhead examplePlatform false
              (Move.DoLookAhead examplePlatform true (exampleMove exampleRingTail 1 3 2)))
              2 false exampleDDA).2.1.distance) := by
  decide!

/-! ## The intersection of a direction with the box of the drive limits -/

section BoxFacts
variable {K : Type} [LinearOrderedField K] [FloorRing K]

/-- The loop of `Move::VectorBoxIntersection` started from a bound `B >= 0`, over a box
with positive sides: the result is at most `box d / v d` for every dimension whose
test `B * v d > box d` succeeds, and it is either `B` itself (no test succeeded) or
below `B` and equal to `box d / v d` for one such dimension. -/
theorem boxLoop_spec (v box : Nat → K) (B : K) (hB : 0 ≤ B) (n : Nat)
    (hbox : ∀ d, d < n → 0 < box d) :
    let r := (List.range n).foldl
      (fun magnitude d =>
        if B * v d > box d then
          if box d / v d < magnitude then box d / v d else magnitude
        else magnitude) B
    (∀ d, d < n → B * v d > box d → r ≤ box d / v d) ∧
    ((r = B ∧ ∀ d, d < n → ¬ B * v d > box d) ∨
     (r < B ∧ ∃ d, d < n ∧ B * v d > box d ∧ r = box d / v d)) := by
  induction n with
  | zero =>
    simp only [List.range_zero, List.foldl_nil]
    exact ⟨fun d hd => absurd hd (Nat.not_lt_zero d),
      Or.inl ⟨trivial, fun d hd => absurd hd (Nat.not_lt_zero d)⟩⟩
  | succ n ih =>
    simp only [List.range_succ, List.foldl_append, List.foldl_cons, List.foldl_nil]
    have ih' := ih (fun d hd => hbox d (Nat.lt_succ_of_lt hd))
    simp only at ih'
    generalize (List.range n).foldl
      (fun magnitude d =>
        if B * v d > box d then
          if box d / v d < magnitude then box d / v d else magnitude
        else magnitude) B = r at ih'
    obtain ⟨h2, h3⟩ := ih'
    by_cases ht : B * v n > box n
    · rw [if_pos ht]
      have hvn : 0 < v n := by
        by_contra hcon
        have h1 : B * v n ≤ 0 := mul_nonpos_of_nonneg_of_nonpos hB (not_lt.mp hcon)
        have h4 := hbox n (Nat.lt_succ_self n)
        linarith
      have hlt : box n / v n < B := by
        rw [div_lt_iff₀ hvn]
        exact ht
      by_cases hc : box n / v n < r
      · rw [if_pos hc]
        refine ⟨?_, Or.inr ⟨hlt, n, Nat.lt_succ_self n, ht, rfl⟩⟩
        intro d hd hdt
        rcases Nat.lt_succ_iff_lt_or_eq.mp hd with hd' | hd'
        · exact le_trans (le_of_lt hc) (h2 d hd' hdt)
        · rw [hd']
      · rw [if_neg hc]
        refine ⟨?_, Or.inr ?_⟩
        · intro d hd hdt
          rcases Nat.lt_succ_iff_lt_or_eq.mp hd with hd' | hd'
          · exact h2 d hd' hdt
          · rw [hd']
            exact not_lt.mp hc
        · rcases h3 with ⟨hr, _⟩ | ⟨hr, d, hd, hdt, hrd⟩
          · rw [hr] at hc
            exact absurd hlt hc
          · exact ⟨hr, d, Nat.lt_succ_of_lt hd, hdt, hrd⟩
    · rw [if_neg ht]
      refine ⟨?_, ?_⟩
      · intro d hd hdt
        rcases Nat.lt_succ_iff_lt_or_eq.mp hd with hd' | hd'
        · exact h2 d hd' hdt
        · rw [hd'] at hdt
          exact absurd hdt ht
      · rcases h3 with ⟨hr, hall⟩ | ⟨hr, d, hd, hdt, hrd⟩
        · refine Or.inl ⟨hr, ?_⟩
          intro d hd
          rcases Nat.lt_succ_iff_lt_or_eq.mp hd with hd' | hd'
          · exact hall d hd'
          · rw [hd']
            exact ht
        · exact Or.inr ⟨hr, d, Nat.lt_succ_of_lt hd, hdt, hrd⟩

/-- If `B * v d <= box d` in every dimension, for `B >= 0` and `v >= 0`, then `B * B`
times the sum of the squares of `v` is at most the sum of the squares of `box`. -/
theorem sumSquares_le (v box : Nat → K) (B : K) (hB : 0 ≤ B) (n : Nat)
    (hv : ∀ d, d < n → 0 ≤ v d) (hle : ∀ d, d < n → B * v d ≤ box d) :
    B * B * (List.range n).foldl (fun magnitude d => magnitude + v d * v d) 0
      ≤ (List.range n).foldl (fun magnitude d => magnitude + box d * box d) 0 := by
  induction n with
  | zero =>
    simp only [List.range_zero, List.foldl_nil, mul_zero]
    exact le_refl 0
  | succ n ih =>
    simp only [List.range_succ, List.foldl_append, List.foldl_cons, List.foldl_nil]
    have ih' := ih (fun d hd => hv d (Nat.lt_succ_of_lt hd))
      (fun d hd => hle d (Nat.lt_succ_of_lt hd))
    have h0 : 0 ≤ B * v n := mul_nonneg hB (hv n (Nat.lt_succ_self n))
    have h1 := hle n (Nat.lt_succ_self n)
    have h2 : (B * v n) * (B * v n) ≤ box n * box n :=
      mul_le_mul h1 h1 h0 (le_trans h0 h1)
    have h3 : B * B * (v n * v n) = (B * v n) * (B * v n) := by ring
    rw [mul_add, h3]
    linarith

/-- C30. For a vector `v` of `n` non-negative components whose squares sum to 1 and
a box of `n` strictly positive sides (the magnitude of the box computed by a square
root that is non-negative and more than half the true diagonal, as an exact one is),
`Move::VectorBoxIntersection(v, box, n)` is the minimum over the dimensions with
`v[d] > 0` of `box[d] / v[d]`: a lower bound of them that one of them attains.  It is
below the "bigger than the box diagonal" start value, so that value is never the
result; `result * v[d] <= box[d]` for every `d`, with equality for at least one. -/
theorem C30_vector_box_intersection_is_min (p : Platform K) (v box : Nat → K) (n : Nat)
    (hv : ∀ d, d < n → 0 ≤ v d)
    (hunit : (List.range n).foldl (fun magnitude d => magnitude + v d * v d) 0 = 1)
    (hbox : ∀ d, d < n → 0 < box d)
    (hM0 : 0 ≤ Move.Magnitude p box n)
    (hM : (List.range n).foldl (fun magnitude d => magnitude + box d * box d) 0
      < (2 * Move.Magnitude p box n) * (2 * Move.Magnitude p box n)) :
    (∀ d, d < n → 0 < v d → Move.VectorBoxIntersection p v box n ≤ box d / v d) ∧
    (∃ d, d < n ∧ 0 < v d ∧ Move.VectorBoxIntersection p v box n = box d / v d) ∧
    Move.VectorBoxIntersection p v box n < 2 * Move.Magnitude p box n ∧
    (∀ d, d < n → Move.VectorBoxIntersection p v box n * v d ≤ box d) ∧
    (∃ d, d < n ∧ Move.VectorBoxIntersection p v box n * v d = box d) := by
  have hB : 0 ≤ 2 * Move.Magnitude p box n := mul_nonneg (by norm_num) hM0
  have key := boxLoop_spec v box (2 * Move.Magnitude p box n) hB n hbox
  have hr : Move.VectorBoxIntersection p v box n = (List.range n).foldl
      (fun magnitude d =>
        if 2 * Move.Magnitude p box n * v d > box d then
          if box d / v d < magnitude then box d / v d else magnitude
        else magnitude) (2 * Move.Magnitude p box n) := rfl
  simp only at key
  rw [← hr] at key
  generalize Move.VectorBoxIntersection p v box n = r at key ⊢
  obtain ⟨h2, h3⟩ := key
  have hpos : ∀ d, d < n → 2 * Move.Magnitude p box n * v d > box d → 0 < v d := by
    intro d hd hdt
    by_contra hcon
    have h1 : 2 * Move.Magnitude p box n * v d ≤ 0 :=
      mul_nonpos_of_nonneg_of_nonpos hB (not_lt.mp hcon)
    have h4 := hbox d hd
    linarith
  have hright : r < 2 * Move.Magnitude p box n ∧
      ∃ d, d < n ∧ 2 * Move.Magnitude p box n * v d > box d ∧ r = box d / v d := by
    rcases h3 with ⟨_, hall⟩ | h
    · exfalso
      have hs := sumSquares_le v box (2 * Move.Magnitude p box n) hB n hv
        (fun d hd => not_lt.mp (hall d hd))
      rw [hunit, mul_one] at hs
      exact absurd hM (not_lt.mpr hs)
    · exact h
  obtain ⟨hlt, d0, hd0, hdt0, hrd0⟩ := hright
  have hmin : ∀ d, d < n → 0 < v d → r ≤ box d / v d := by
    intro d hd hvd
    by_cases hdt : 2 * Move.Magnitude p box n * v d > box d
    · exact h2 d hd hdt
    · have : 2 * Move.Magnitude p box n ≤ box d / v d := by
        rw [le_div_iff₀ hvd]
        exact not_lt.mp hdt
      exact le_trans (le_of_lt hlt) this
  refine ⟨hmin, ⟨d0, hd0, hpos d0 hd0 hdt0, hrd0⟩, hlt, ?_, ⟨d0, hd0, ?_⟩⟩
  · intro d hd
    rcases lt_or_eq_of_le (hv d hd) with hvd | hvd
    · exact (le_div_iff₀ hvd).mp (hmin d hd hvd)
    · rw [← hvd, mul_zero]
      exact le_of_lt (hbox d hd)
  · rw [hrd0]
    exact div_mul_cancel₀ _ (ne_of_gt (hpos d0 hd0 hdt0))

end BoxFacts

/-- The witness of C30: the unit vector (3/5, 4/5) in the box 3 by 4 meets the box at
its corner, at distance 5. -/
theorem C30_witness :
    (∃ d, d < 2 ∧ 0 < exampleDirection d ∧
      Move.VectorBoxIntersection examplePlatform exampleDirection exampleBox 2
        = exampleBox d / exampleDirection d) ∧
    Move.VectorBoxIntersection examplePlatform exampleDirection exampleBox 2
      < 2 * Move.Magnitude examplePlatform exampleBox 2 :=
  have hv : ∀ d, d < 2 → 0 ≤ exampleDirection d := by
    intro d _
    unfold exampleDirection
    split_ifs <;> norm_num
  have hbox : ∀ d, d < 2 → 0 < exampleBox d := by
    intro d _
    unfold exampleBox
    split_ifs <;> norm_num
  have hunit : (List.range 2).foldl
      (fun magnitude d => magnitude + exampleDirection d * exampleDirection d) 0 = 1 := by
    decide!
  have hM0 : 0 ≤ Move.Magnitude examplePlatform exampleBox 2 := by decide!
  have hM : (List.range 2).foldl (fun magnitude d => magnitude + exampleBox d * exampleBox d) 0
      < (2 * Move.Magnitude examplePlatform exampleBox 2)
        * (2 * Move.Magnitude examplePlatform exampleBox 2) := by decide!
  ⟨(C30_vector_box_intersection_is_min examplePlatform exampleDirection exampleBox 2
      hv hunit hbox hM0 hM).2.1,
   (C30_vector_box_intersection_is_min examplePlatform exampleDirection exampleBox 2
      hv hunit hbox hM0 hM).2.2.1⟩

/-! ## The regulation step of the heater PID -/

section RegulateFacts
variable {K : Type} [LinearOrderedField K]

/-- With no latched fault and a reading inside the valid range, `PID::Spin` is its
regulation part on the state with the reading stored and the bad count reset. -/
theorem PID.Spin_in_range (p : Platform K) (T : K) (s : PID K)
    (hf : s.temperatureFault = false)
    (hlo : BAD_LOW_TEMPERATURE ≤ T) (hhi : T ≤ BAD_HIGH_TEMPERATURE) :
    PID.Spin p T s
      = PID.regulate p { s with temperature := T, badTemperatureCount := 0 } := by
  unfold PID.Spin
  have hnf : ¬ s.temperatureFault = true := by rw [hf]; decide
  rw [if_neg hnf]
  have hr : ¬ (T < BAD_LOW_TEMPERATURE ∨ T > BAD_HIGH_TEMPERATURE) := by
    intro h
    rcases h with h | h
    · exact absurd hlo (not_le.mpr h)
    · exact absurd hhi (not_le.mpr h)
  have hc : PID.checkTemperature { s with temperature := T }
      = ({ s with temperature := T, badTemperatureCount := 0 }, []) := by
    unfold PID.checkTemperature
    rw [if_neg hr]
  dsimp only
  rw [hc]
  dsimp only
  rw [List.nil_append]

/-- The clamp written as two tests is the usual clamp when the bounds are in order. -/
theorem clamp_tests (x lo hi : K) (h : lo ≤ hi) :
    (if x < lo then lo else if x > hi then hi else x) = max lo (min hi x) := by
  split_ifs with h1 h2
  · rw [max_eq_left]
    exact le_trans (min_le_right _ _) (le_of_lt h1)
  · rw [min_eq_left (le_of_lt h2), max_eq_right h]
  · rw [min_eq_right (not_lt.mp h2), max_eq_right (not_lt.mp h1)]

/-- The scaled output of the PID branch lies between 0 and 1. -/
theorem clamp255_bounds (x : K) :
    0 ≤ (if x < 0 then 0 else if x > 255 then 255 else x) / 255 ∧
    (if x < 0 then 0 else if x > 255 then 255 else x) / 255 ≤ 1 := by
  have h255 : (0 : K) < 255 := by norm_num
  split_ifs with h1 h2
  · rw [zero_div]
    exact ⟨le_refl 0, zero_le_one⟩
  · rw [div_self (ne_of_gt h255)]
    exact ⟨zero_le_one, le_refl 1⟩
  · exact ⟨div_nonneg (not_lt.mp h1) (le_of_lt h255),
      (div_le_one h255).mpr (not_lt.mp h2)⟩

/-- C31. For a PID-mode heater with no latched fault and an in-range reading `T`,
with `error = setpoint - T`: if `error < -fullBand`, `PID::Spin` publishes PWM 0 and
zeroes `iState`; else if `error > fullBand` it publishes PWM 1 and zeroes `iState`;
otherwise it sets `iState` to `iState + Ki*error` clamped to `[iMin, iMax]`, `dState` to
`Kd*(T - lastTemperature)*(1 - dMix) + dMix*dState`, and publishes
`clamp(Kp*error + iState - dState, 0, 255)/255` with the updated `iState` and `dState`;
in every case exactly one PWM value is published, it lies in `[0, 1]`, and
`lastTemperature` becomes `T`. -/
theorem C31_pid_regulation_step (p : Platform K) (T : K) (s : PID K)
    (hf : s.temperatureFault = false) (hpid : p.usePID s.heater = true)
    (hlo : BAD_LOW_TEMPERATURE ≤ T) (hhi : T ≤ BAD_HIGH_TEMPERATURE) :
    ((if s.active then s.activeTemperature else s.standbyTemperature) - T
        < -p.fullPidBand s.heater →
      (PID.Spin p T s).2 = [PlatformCall.setHeater s.heater 0] ∧
      (PID.Spin p T s).1.temp_iState = 0) ∧
    (¬ (if s.active then s.activeTemperature else s.standbyTemperature) - T
        < -p.fullPidBand s.heater →
      (if s.active then s.activeTemperature else s.standbyTemperature) - T
        > p.fullPidBand s.heater →
      (PID.Spin p T s).2 = [PlatformCall.setHeater s.heater 1] ∧
      (PID.Spin p T s).1.temp_iState = 0) ∧
    (¬ (if s.active then s.activeTemperature else s.standbyTemperature) - T
        < -p.fullPidBand s.heater →
      ¬ (if s.active then s.activeTemperature else s.standbyTemperature) - T
        > p.fullPidBand s.heater →
      (PID.Spin p T s).1.temp_iState
        = (if s.temp_iState
              + ((if s.active then s.activeTemperature else s.standbyTemperature) - T)
                * p.pidKi s.heater < p.pidMin s.heater
           then p.pidMin s.heater
           else if s.temp_iState
              + ((if s.active then s.activeTemperature else s.standbyTemperature) - T)
                * p.pidKi s.heater > p.pidMax s.heater
           then p.pidMax s.heater
           else s.temp_iState
              + ((if s.active then s.activeTemperature else s.standbyTemperature) - T)
                * p.pidKi s.heater) ∧
      (p.pidMin s.heater ≤ p.pidMax s.heater →
        (PID.Spin p T s).1.temp_iState
          = max (p.pidMin s.heater) (min (p.pidMax s.heater)
              (s.temp_iState + p.pidKi s.heater
                * ((if s.active then s.activeTemperature else s.standbyTemperature) - T)))) ∧
      (PID.Spin p T s).1.temp_dState
        = p.pidKd s.heater * (T - s.lastTemperature) * (1 - p.dMix s.heater)
          + p.dMix s.heater * s.temp_dState ∧
      (PID.Spin p T s).2
        = [PlatformCall.setHeater s.heater
            (max 0 (min 255
              (p.pidKp s.heater
                  * ((if s.active then s.activeTemperature else s.standbyTemperature) - T)
                + (PID.Spin p T s).1.temp_iState - (PID.Spin p T s).1.temp_dState)) / 255)]) ∧
    (∃ w, (PID.Spin p T s).2 = [PlatformCall.setHeater s.heater w] ∧ 0 ≤ w ∧ w ≤ 1) ∧
    (PID.Spin p T s).1.lastTemperature = T := by
  rw [PID.Spin_in_range p T s hf hlo hhi]
  unfold PID.regulate
  have hp : ¬ ¬ p.usePID s.heater = true := not_not.mpr hpid
  have hnf : ¬ s.temperatureFault = true := by rw [hf]; decide
  have herr : PID.error { s with temperature := T, badTemperatureCount := 0 }
      = (if s.active then s.activeTemperature else s.standbyTemperature) - T := rfl
  dsimp only
  rw [if_neg hp, herr]
  generalize (if s.active then s.activeTemperature else s.standbyTemperature) - T = e at herr ⊢
  by_cases h1 : e < -p.fullPidBand s.heater
  · rw [if_pos h1]
    refine ⟨fun _ => ⟨rfl, rfl⟩, fun h => absurd h1 h, fun h => absurd h1 h, ?_, rfl⟩
    exact ⟨0, rfl, le_refl 0, zero_le_one⟩
  · rw [if_neg h1]
    by_cases h2 : e > p.fullPidBand s.heater
    · rw [if_pos h2]
      refine ⟨fun h => absurd h h1, fun _ _ => ⟨rfl, rfl⟩, fun _ h => absurd h2 h, ?_, rfl⟩
      exact ⟨1, rfl, zero_le_one, le_refl 1⟩
    · rw [if_neg h2]
      have hi : PID.nextIState p { s with temperature := T, badTemperatureCount := 0 }
          = (if s.temp_iState + e * p.pidKi s.heater < p.pidMin s.heater
             then p.pidMin s.heater
             else if s.temp_iState + e * p.pidKi s.heater > p.pidMax s.heater
             then p.pidMax s.heater
             else s.temp_iState + e * p.pidKi s.heater) := by
        unfold PID.nextIState
        dsimp only
        rw [herr]
      have hd : PID.nextDState p { s with temperature := T, badTemperatureCount := 0 }
          = p.pidKd s.heater * (T - s.lastTemperature) * (1 - p.dMix s.heater)
            + p.dMix s.heater * s.temp_dState := rfl
      have hres : PID.pidResult p { s with temperature := T, badTemperatureCount := 0 }
          = (if p.pidKp s.heater * e
                + PID.nextIState p { s with temperature := T, badTemperatureCount := 0 }
                - PID.nextDState p { s with temperature := T, badTemperatureCount := 0 } < 0
             then 0
             else if p.pidKp s.heater * e
                + PID.nextIState p { s with temperature := T, badTemperatureCount := 0 }
                - PID.nextDState p { s with temperature := T, badTemperatureCount := 0 } > 255
             then 255
             else p.pidKp s.heater * e
                + PID.nextIState p { s with temperature := T, badTemperatureCount := 0 }
                - PID.nextDState p { s with temperature := T, badTemperatureCount := 0 })
            / 255 := by
        unfold PID.pidResult
        dsimp only
        rw [herr]
      dsimp only
      rw [if_pos hnf]
      refine ⟨fun h => absurd h h1, fun _ h => absurd h h2, fun _ _ => ⟨hi, ?_, hd, ?_⟩, ?_, rfl⟩
      · intro hmm
        rw [hi, clamp_tests _ _ _ hmm, mul_comm e]
      · rw [hres, clamp_tests _ _ _ (by norm_num : (0 : K) ≤ 255)]
      · rw [hres]
        exact ⟨_, rfl, (clamp255_bounds _).1, (clamp255_bounds _).2⟩

end RegulateFacts

/-- The witness of C31: the hot-end heater at set point 200 reads 198, inside the
PID band; the published PWM is the clamped PID output. -/
theorem C31_witness :
    (∃ w, (PID.Spin examplePlatform 198 exampleHotEndPID).2
        = [PlatformCall.setHeater exampleHotEndPID.heater w] ∧ 0 ≤ w ∧ w ≤ 1) ∧
    (PID.Spin examplePlatform 198 exampleHotEndPID).1.lastTemperature = 198 :=
  (C31_pid_regulation_step examplePlatform 198 exampleHotEndPID rfl (by decide)
    (by decide!) (by decide!)).2.2.2

/-! ## Taking a move from the look-ahead ring -/

section RingGetFacts
variable {K : Type} [LinearOrderedField K] [FloorRing K]

/-- C32. `Move::LookAheadRingGet` returns the entry at the get cursor, advances the
get cursor by one slot and decrements `lookAheadRingCount` if and only if the ring is
not empty and that entry has the `complete` bit set; otherwise it returns NULL and
changes no state.  Hence the get cursor moves only past an entry that has
`complete`. -/
theorem C32_get_passes_only_complete_entries (m : Move K) :
    (m.lookAheadRingCount ≠ 0 →
      (m.lookAheadRing m.lookAheadRingGetPointer).processed &&& complete ≠ 0 →
      Move.LookAheadRingGet m
        = ({ m with
              lookAheadRingGetPointer := Next m.lookAheadRingGetPointer
              lookAheadRingCount := m.lookAheadRingCount - 1 },
            some m.lookAheadRingGetPointer)) ∧
    (¬ (m.lookAheadRingCount ≠ 0 ∧
        (m.lookAheadRing m.lookAheadRingGetPointer).processed &&& complete ≠ 0) →
      Move.LookAheadRingGet m = (m, none)) ∧
    ((Move.LookAheadRingGet m).2 ≠ none ↔
      (m.lookAheadRingCount ≠ 0 ∧
        (m.lookAheadRing m.lookAheadRingGetPointer).processed &&& complete ≠ 0)) ∧
    ((Move.LookAheadRingGet m).1.lookAheadRingGetPointer ≠ m.lookAheadRingGetPointer →
      (m.lookAheadRing m.lookAheadRingGetPointer).processed &&& complete ≠ 0) := by
  have hyes : m.lookAheadRingCount ≠ 0 →
      (m.lookAheadRing m.lookAheadRingGetPointer).processed &&& complete ≠ 0 →
      Move.LookAheadRingGet m
        = ({ m with
              lookAheadRingGetPointer := Next m.lookAheadRingGetPointer
              lookAheadRingCount := m.lookAheadRingCount - 1 },
            some m.lookAheadRingGetPointer) := by
    intro he hc
    unfold Move.LookAheadRingGet Move.LookAheadRingEmpty
    have he' : ¬ decide (m.lookAheadRingCount = 0) = true := by simpa using he
    rw [if_neg he', if_neg hc]
  have hno : ¬ (m.lookAheadRingCount ≠ 0 ∧
        (m.lookAheadRing m.lookAheadRingGetPointer).processed &&& complete ≠ 0) →
      Move.LookAheadRingGet m = (m, none) := by
    intro h
    unfold Move.LookAheadRingGet Move.LookAheadRingEmpty
    by_cases he : m.lookAheadRingCount = 0
    · have he' : decide (m.lookAheadRingCount = 0) = true := by simpa using he
      rw [if_pos he']
    · have he' : ¬ decide (m.lookAheadRingCount = 0) = true := by simpa using he
      have hc : (m.lookAheadRing m.lookAheadRingGetPointer).processed &&& complete = 0 := by
        by_contra hcon
        exact h ⟨he, hcon⟩
      rw [if_neg he', if_pos hc]
  refine ⟨hyes, hno, ?_, ?_⟩
  · constructor
    · intro hres
      by_contra hcon
      rw [hno hcon] at hres
      exact hres rfl
    · intro h
      rw [hyes h.1 h.2]
      exact Option.some_ne_none _
  · intro hmove
    by_contra hcon
    rw [hno (fun h => h.2 hcon)] at hmove
    exact hmove rfl

end RingGetFacts

/-! ## The cosine of the angle at a junction -/

section CosineFacts
variable {K : Type} [LinearOrderedField K] [FloorRing K]

theorem vectorDot_succ (n : Nat) (a b : Nat → K) :
    vectorDot (n + 1) a b = vectorDot n a b + a n * b n := by
  unfold vectorDot
  rw [List.range_succ, List.map_append, List.sum_append]
  simp

theorem vectorDot_eq_sum (n : Nat) (a b : Nat → K) :
    vectorDot n a b = ∑ d ∈ Finset.range n, a d * b d := by
  induction n with
  | zero => simp [vectorDot]
  | succ n ih => rw [vectorDot_succ, Finset.sum_range_succ, ih]

theorem vectorDot_congr (n : Nat) (a b a1 b1 : Nat → K)
    (ha : ∀ d, d < n → a d = a1 d) (hb : ∀ d, d < n → b d = b1 d) :
    vectorDot n a b = vectorDot n a1 b1 := by
  unfold vectorDot
  congr 1
  apply List.map_congr_left
  intro d hd
  rw [ha d (List.mem_range.mp hd), hb d (List.mem_range.mp hd)]

theorem vectorDot_self_nonneg (n : Nat) (a : Nat → K) : 0 ≤ vectorDot n a a := by
  rw [vectorDot_eq_sum]
  exact Finset.sum_nonneg (fun d _ => mul_self_nonneg (a d))

/-- The Cauchy-Schwarz inequality for the dot product. -/
theorem vectorDot_sq_le (n : Nat) (a b : Nat → K) :
    vectorDot n a b * vectorDot n a b ≤ vectorDot n a a * vectorDot n b b := by
  have h := Finset.sum_mul_sq_le_sq_mul_sq (Finset.range n) a b
  rw [vectorDot_eq_sum, vectorDot_eq_sum, vectorDot_eq_sum]
  simpa [sq] using h

theorem vectorDot_smul_right (n : Nat) (a : Nat → K) (k : K) :
    vectorDot n a (fun d => k * a d) = k * vectorDot n a a := by
  induction n with
  | zero => simp [vectorDot]
  | succ n ih => rw [vectorDot_succ, vectorDot_succ, ih]; ring

theorem vectorDot_smul_smul (n : Nat) (a : Nat → K) (k : K) :
    vectorDot n (fun d => k * a d) (fun d => k * a d) = k * k * vectorDot n a a := by
  induction n with
  | zero => simp [vectorDot]
  | succ n ih => rw [vectorDot_succ, vectorDot_succ, ih]; ring

/-- The three sums accumulated by the loop of `LookAhead::Cosine`. -/
theorem Move.cosineLoop_spec (p : Platform K) (m : Move K) (i n : Nat) :
    (List.range n).foldl
      (fun (acc : K × K × K) drive =>
        (acc.1 + (LookAhead.MachineToEndPoint p (m.lookAheadRing i) drive
              - LookAhead.MachineToEndPoint p (m.lookAheadRing (Previous i)) drive)
            * (LookAhead.MachineToEndPoint p (m.lookAheadRing i) drive
              - LookAhead.MachineToEndPoint p (m.lookAheadRing (Previous i)) drive),
          acc.2.1 + (LookAhead.MachineToEndPoint p (m.lookAheadRing (Next i)) drive
              - LookAhead.MachineToEndPoint p (m.lookAheadRing i) drive)
            * (LookAhead.MachineToEndPoint p (m.lookAheadRing (Next i)) drive
              - LookAhead.MachineToEndPoint p (m.lookAheadRing i) drive),
          acc.2.2 + (LookAhead.MachineToEndPoint p (m.lookAheadRing i) drive
              - LookAhead.MachineToEndPoint p (m.lookAheadRing (Previous i)) drive)
            * (LookAhead.MachineToEndPoint p (m.lookAheadRing (Next i)) drive
              - LookAhead.MachineToEndPoint p (m.lookAheadRing i) drive)))
      (0, 0, 0)
    = (vectorDot n (Move.incoming p m i) (Move.incoming p m i),
       vectorDot n (Move.outgoing p m i) (Move.outgoing p m i),
       vectorDot n (Move.incoming p m i) (Move.outgoing p m i)) := by
  induction n with
  | zero => simp [vectorDot]
  | succ n ih =>
    rw [List.range_succ, List.foldl_append, ih]
    simp only [List.foldl_cons, List.foldl_nil, vectorDot_succ, Move.incoming, Move.outgoing]

/-- `LookAhead::Cosine` on its first evaluation, in terms of the two displacements. -/
theorem Move.Cosine_first (p : Platform K) (m : Move K) (i : Nat)
    (hfirst : ¬ (m.lookAheadRing i).cosine < 3 / 2) :
    (Move.Cosine p m i).2
      = (if vectorDot p.DRIVES (Move.incoming p m i) (Move.incoming p m i) ≤ 0
            ∨ vectorDot p.DRIVES (Move.outgoing p m i) (Move.outgoing p m i) ≤ 0 then 0
         else vectorDot p.DRIVES (Move.incoming p m i) (Move.outgoing p m i)
            / (p.sqrt (vectorDot p.DRIVES (Move.incoming p m i) (Move.incoming p m i))
              * p.sqrt (vectorDot p.DRIVES (Move.outgoing p m i) (Move.outgoing p m i)))) ∧
    ((Move.Cosine p m i).1.lookAheadRing i).cosine = (Move.Cosine p m i).2 := by
  unfold Move.Cosine
  dsimp only
  rw [if_neg hfirst]
  dsimp only
  rw [Move.cosineLoop_spec p m i p.DRIVES]
  dsimp only
  rw [Move.setEntry_ring, if_pos rfl]
  exact ⟨rfl, rfl⟩

/-- C33 (amended). In exact arithmetic, that is with a square root that is exact on
the two squared lengths (not negative, and squaring to its argument), `LookAhead::Cosine()`
returns on its first evaluation `(a.b)/(|a||b|)`, where `a = E - E.previous` and
`b = E.next - E` are the displacements over all drives in units, and returns 0 when
either has zero length; the result lies in `[-1, 1]`, is 1 when `b` is a positive
multiple of `a` (and `a` is not zero), in which case the junction pass does not lower
the exit velocity of an unprocessed entry, and is 0 when `a` and `b` are
perpendicular.  The value is stored in the entry. -/
theorem C33_cosine_of_junction (p : Platform K) (m : Move K) (i : Nat)
    (hfirst : ¬ (m.lookAheadRing i).cosine < 3 / 2)
    (hsa : 0 ≤ p.sqrt (vectorDot p.DRIVES (Move.incoming p m i) (Move.incoming p m i)) ∧
      p.sqrt (vectorDot p.DRIVES (Move.incoming p m i) (Move.incoming p m i))
          * p.sqrt (vectorDot p.DRIVES (Move.incoming p m i) (Move.incoming p m i))
        = vectorDot p.DRIVES (Move.incoming p m i) (Move.incoming p m i))
    (hsb : 0 ≤ p.sqrt (vectorDot p.DRIVES (Move.outgoing p m i) (Move.outgoing p m i)) ∧
      p.sqrt (vectorDot p.DRIVES (Move.outgoing p m i) (Move.outgoing p m i))
          * p.sqrt (vectorDot p.DRIVES (Move.outgoing p m i) (Move.outgoing p m i))
        = vectorDot p.DRIVES (Move.outgoing p m i) (Move.outgoing p m i)) :
    (vectorDot p.DRIVES (Move.incoming p m i) (Move.incoming p m i) ≠ 0 →
      vectorDot p.DRIVES (Move.outgoing p m i) (Move.outgoing p m i) ≠ 0 →
      (Move.Cosine p m i).2
        = vectorDot p.DRIVES (Move.incoming p m i) (Move.outgoing p m i)
          / (p.sqrt (vectorDot p.DRIVES (Move.incoming p m i) (Move.incoming p m i))
            * p.sqrt (vectorDot p.DRIVES (Move.outgoing p m i) (Move.outgoing p m i)))) ∧
    (vectorDot p.DRIVES (Move.incoming p m i) (Move.incoming p m i) = 0
        ∨ vectorDot p.DRIVES (Move.outgoing p m i) (Move.outgoing p m i) = 0 →
      (Move.Cosine p m i).2 = 0) ∧
    (-1 ≤ (Move.Cosine p m i).2 ∧ (Move.Cosine p m i).2 ≤ 1) ∧
    (∀ k : K, 0 < k →
      (∀ d, d < p.DRIVES → Move.outgoing p m i d = k * Move.incoming p m i d) →
      vectorDot p.DRIVES (Move.incoming p m i) (Move.incoming p m i) ≠ 0 →
      (Move.Cosine p m i).2 = 1 ∧
      ((m.lookAheadRing i).processed = unprocessed →
        (m.lookAheadRing i).v
          ≤ ((Move.junctionEntry p i (Next i) m).lookAheadRing i).v)) ∧
    (vectorDot p.DRIVES (Move.incoming p m i) (Move.outgoing p m i) = 0 →
      (Move.Cosine p m i).2 = 0) ∧
    ((Move.Cosine p m i).1.lookAheadRing i).cosine = (Move.Cosine p m i).2 := by
  obtain ⟨hval, hstore⟩ := Move.Cosine_first p m i hfirst
  have ha0 := vectorDot_self_nonneg p.DRIVES (Move.incoming p m i)
  have hb0 := vectorDot_self_nonneg p.DRIVES (Move.outgoing p m i)
  have hcs := vectorDot_sq_le p.DRIVES (Move.incoming p m i) (Move.outgoing p m i)
  have hline : ∀ k : K,
      (∀ d, d < p.DRIVES → Move.outgoing p m i d = k * Move.incoming p m i d) →
      vectorDot p.DRIVES (Move.incoming p m i) (Move.outgoing p m i)
        = k * vectorDot p.DRIVES (Move.incoming p m i) (Move.incoming p m i) ∧
      vectorDot p.DRIVES (Move.outgoing p m i) (Move.outgoing p m i)
        = k * k * vectorDot p.DRIVES (Move.incoming p m i) (Move.incoming p m i) := by
    intro k hcol
    constructor
    · rw [vectorDot_congr p.DRIVES (Move.incoming p m i) (Move.outgoing p m i)
        (Move.incoming p m i) (fun d => k * Move.incoming p m i d) (fun _ _ => rfl) hcol,
        vectorDot_smul_right]
    · rw [vectorDot_congr p.DRIVES (Move.outgoing p m i) (Move.outgoing p m i)
        (fun d => k * Move.incoming p m i d) (fun d => k * Move.incoming p m i d) hcol hcol,
        vectorDot_smul_smul]
  generalize vectorDot p.DRIVES (Move.incoming p m i) (Move.incoming p m i) = a2
    at hsa ha0 hcs hval hline ⊢
  generalize vectorDot p.DRIVES (Move.outgoing p m i) (Move.outgoing p m i) = b2
    at hsb hb0 hcs hval hline ⊢
  generalize vectorDot p.DRIVES (Move.incoming p m i) (Move.outgoing p m i) = ab
    at hcs hval hline ⊢
  obtain ⟨hsa0, hsa2⟩ := hsa
  obtain ⟨hsb0, hsb2⟩ := hsb
  generalize p.sqrt a2 = sa at hsa0 hsa2 hval ⊢
  generalize p.sqrt b2 = sb at hsb0 hsb2 hval ⊢
  -- the value when both lengths are positive
  have hpos : a2 ≠ 0 → b2 ≠ 0 → (Move.Cosine p m i).2 = ab / (sa * sb) := by
    intro ha hb
    rw [hval, if_neg]
    intro h
    rcases h with h | h
    · exact ha (le_antisymm h ha0)
    · exact hb (le_antisymm h hb0)
  have hzero : a2 = 0 ∨ b2 = 0 → (Move.Cosine p m i).2 = 0 := by
    intro h
    rw [hval, if_pos]
    rcases h with h | h
    · exact Or.inl (le_of_eq h)
    · exact Or.inr (le_of_eq h)
  have hspos : a2 ≠ 0 → b2 ≠ 0 → 0 < sa * sb := by
    intro ha hb
    have h1 : sa ≠ 0 := by
      intro h
      rw [h, mul_zero] at hsa2
      exact ha hsa2.symm
    have h2 : sb ≠ 0 := by
      intro h
      rw [h, mul_zero] at hsb2
      exact hb hsb2.symm
    exact mul_pos (lt_of_le_of_ne hsa0 (Ne.symm h1)) (lt_of_le_of_ne hsb0 (Ne.symm h2))
  have hbound : -1 ≤ (Move.Cosine p m i).2 ∧ (Move.Cosine p m i).2 ≤ 1 := by
    by_cases ha : a2 = 0
    · rw [hzero (Or.inl ha)]
      exact ⟨by norm_num, zero_le_one⟩
    · by_cases hb : b2 = 0
      · rw [hzero (Or.inr hb)]
        exact ⟨by norm_num, zero_le_one⟩
      · rw [hpos ha hb]
        have hs := hspos ha hb
        have hsq : ab ^ 2 ≤ (sa * sb) ^ 2 := by
          have : (sa * sb) ^ 2 = a2 * b2 := by
            rw [← hsa2, ← hsb2]; ring
          rw [this, sq]
          exact hcs
        obtain ⟨h1, h2⟩ := abs_le_of_sq_le_sq' hsq (le_of_lt hs)
        constructor
        · rw [le_div_iff₀ hs]
          linarith
        · rw [div_le_iff₀ hs]
          linarith
  refine ⟨hpos, hzero, hbound, ?_, ?_, hstore⟩
  · intro k hk hcol ha
    obtain ⟨hab, hbb⟩ := hline k hcol
    have hb : b2 ≠ 0 := by
      rw [hbb]
      exact mul_ne_zero (mul_ne_zero (ne_of_gt hk) (ne_of_gt hk)) ha
    have hsbk : sb = k * sa := by
      apply (mul_self_inj hsb0 (mul_nonneg (le_of_lt hk) hsa0)).mp
      rw [hsb2, hbb, ← hsa2]
      ring
    have hone : (Move.Cosine p m i).2 = 1 := by
      rw [hpos ha hb, hab, hsbk]
      have : sa * (k * sa) = k * a2 := by rw [← hsa2]; ring
      rw [this]
      exact div_self (mul_ne_zero (ne_of_gt hk) ha)
    refine ⟨hone, ?_⟩
    intro hu
    rw [(Move.junctionEntry_spec p i (Next i) m hu).1, hone, mul_one]
    split_ifs with hlt
    · exact le_of_lt hlt
    · exact le_refl _
  · intro h0
    by_cases ha : a2 = 0
    · exact hzero (Or.inl ha)
    · by_cases hb : b2 = 0
      · exact hzero (Or.inr hb)
      · rw [hpos ha hb, h0, zero_div]

end CosineFacts

/-- The witness of C33 (amended): in `exampleRingSlope` the move out of slot 1, (6, 8)
units, is twice the move into it, (3, 4) units; their lengths 5 and 10 are exact
square roots, and the cosine is 1. -/
theorem C33_witness :
    ¬ ((exampleMove exampleRingSlope 1 3 2).lookAheadRing 1).cosine < 3 / 2 ∧
    (-1 ≤ (Move.Cosine examplePlatform (exampleMove exampleRingSlope 1 3 2) 1).2 ∧
      (Move.Cosine examplePlatform (exampleMove exampleRingSlope 1 3 2) 1).2 ≤ 1) ∧
    (Move.Cosine examplePlatform (exampleMove exampleRingSlope 1 3 2) 1).2 = 1 :=
  have hfirst : ¬ ((exampleMove exampleRingSlope 1 3 2).lookAheadRing 1).cosine < 3 / 2 := by
    decide!
  have hsa : 0 ≤ examplePlatform.sqrt (vectorDot examplePlatform.DRIVES
        (Move.incoming examplePlatform (exampleMove exampleRingSlope 1 3 2) 1)
        (Move.incoming examplePlatform (exampleMove exampleRingSlope 1 3 2) 1)) ∧
      examplePlatform.sqrt (vectorDot examplePlatform.DRIVES
          (Move.incoming examplePlatform (exampleMove exampleRingSlope 1 3 2) 1)
          (Move.incoming examplePlatform (exampleMove exampleRingSlope 1 3 2) 1))
        * examplePlatform.sqrt (vectorDot examplePlatform.DRIVES
          (Move.incoming examplePlatform (exampleMove exampleRingSlope 1 3 2) 1)
          (Move.incoming examplePlatform (exampleMove exampleRingSlope 1 3 2) 1))
        = vectorDot examplePlatform.DRIVES
          (Move.incoming examplePlatform (exampleMove exampleRingSlope 1 3 2) 1)
          (Move.incoming examplePlatform (exampleMove exampleRingSlope 1 3 2) 1) := by
    decide!
  have hsb : 0 ≤ examplePlatform.sqrt (vectorDot examplePlatform.DRIVES
        (Move.outgoing examplePlatform (exampleMove exampleRingSlope 1 3 2) 1)
        (Move.outgoing examplePlatform (exampleMove exampleRingSlope 1 3 2) 1)) ∧
      examplePlatform.sqrt (vectorDot examplePlatform.DRIVES
          (Move.outgoing examplePlatform (exampleMove exampleRingSlope 1 3 2) 1)
          (Move.outgoing examplePlatform (exampleMove exampleRingSlope 1 3 2) 1))
        * examplePlatform.sqrt (vectorDot examplePlatform.DRIVES
          (Move.outgoing examplePlatform (exampleMove exampleRingSlope 1 3 2) 1)
          (Move.outgoing examplePlatform (exampleMove exampleRingSlope 1 3 2) 1))
        = vectorDot examplePlatform.DRIVES
          (Move.outgoing examplePlatform (exampleMove exampleRingSlope 1 3 2) 1)
          (Move.outgoing examplePlatform (exampleMove exampleRingSlope 1 3 2) 1) := by
    decide!
  have hline : ∀ d, d < examplePlatform.DRIVES →
      Move.outgoing examplePlatform (exampleMove exampleRingSlope 1 3 2) 1 d
        = 2 * Move.incoming examplePlatform (exampleMove exampleRingSlope 1 3 2) 1 d := by
    decide!
  have hne : vectorDot examplePlatform.DRIVES
      (Move.incoming examplePlatform (exampleMove exampleRingSlope 1 3 2) 1)
      (Move.incoming examplePlatform (exampleMove exampleRingSlope 1 3 2) 1) ≠ 0 := by
    decide!
  ⟨hfirst,
   (C33_cosine_of_junction examplePlatform (exampleMove exampleRingSlope 1 3 2) 1
      hfirst hsa hsb).2.2.1,
   ((C33_cosine_of_junction examplePlatform (exampleMove exampleRingSlope 1 3 2) 1
      hfirst hsa hsb).2.2.2.1 (2) (by norm_num) hline hne).1⟩

/-- C33, counterexample.  In `exampleRingDiagonal` the move out of slot 1 continues
the move into it: both displacements are (1, 1) units, so `b = 1 * a`, `a.b = 2` and
`|a|^2 = |b|^2 = 2`.  With the square root rounded as in single precision,
`sqrt(2) = 11863283 / 2^23`, a little less than the root of 2, and the first
`LookAhead::Cosine()` returns `2 / (sqrt(2) * sqrt(2))`, which is above 1: the result
is neither 1 nor in `[-1, 1]`, and the junction pass changes the exit velocity of the
entry from 30 to 30 times that cosine. -/
theorem C33_counterexample :
    ¬ ((exampleMove exampleRingDiagonal 1 3 2).lookAheadRing 1).cosine < 3 / 2 ∧
    (∀ d, d < examplePlatformNearest.DRIVES →
      Move.outgoing examplePlatformNearest (exampleMove exampleRingDiagonal 1 3 2) 1 d
        = 1 * Move.incoming examplePlatformNearest (exampleMove exampleRingDiagonal 1 3 2) 1 d) ∧
    vectorDot examplePlatformNearest.DRIVES
        (Move.incoming examplePlatformNearest (exampleMove exampleRingDiagonal 1 3 2) 1)
        (Move.incoming examplePlatformNearest (exampleMove exampleRingDiagonal 1 3 2) 1) = 2 ∧
    examplePlatformNearest.sqrt 2 = 11863283 / 8388608 ∧
    (Move.Cosine examplePlatformNearest (exampleMove exampleRingDiagonal 1 3 2) 1).2
      = 2 / (11863283 / 8388608 * (11863283 / 8388608)) ∧
    ¬ ((Move.Cosine examplePlatformNearest (exampleMove exampleRingDiagonal 1 3 2) 1).2 ≤ 1) ∧
    ((exampleMove exampleRingDiagonal 1 3 2).lookAheadRing 1).processed = unprocessed ∧
    ((exampleMove exampleRingDiagonal 1 3 2).lookAheadRing 1).v = 30 ∧
    ((Move.junctionEntry examplePlatformNearest 1 2
        (exampleMove exampleRingDiagonal 1 3 2)).lookAheadRing 1).v
      = 30 * (2 / (11863283 / 8388608 * (11863283 / 8388608))) ∧
    ((Move.junctionEntry examplePlatformNearest 1 2
        (exampleMove exampleRingDiagonal 1 3 2)).lookAheadRing 1).v ≠ 30 := by
  decide!

/-! ## Bed compensation with four and with five probe points -/

section BedFacts
variable {K : Type} [LinearOrderedField K] [FloorRing K]

/-- The three results of `Move::BarycentricCoordinates`, for a triangle that is not
degenerate: they sum to 1 and reproduce the point. -/
theorem Move.BarycentricCoordinates_spec (m : Move K) (p1 p2 p3 : Nat) (x y : K)
    (hdet : (m.yBedProbePoints p2 - m.yBedProbePoints p3)
          * (m.xBedProbePoints p1 - m.xBedProbePoints p3)
        + (m.xBedProbePoints p3 - m.xBedProbePoints p2)
          * (m.yBedProbePoints p1 - m.yBedProbePoints p3) ≠ 0) :
    (Move.BarycentricCoordinates m p1 p2 p3 x y).1
        + (Move.BarycentricCoordinates m p1 p2 p3 x y).2.1
        + (Move.BarycentricCoordinates m p1 p2 p3 x y).2.2 = 1 ∧
    (Move.BarycentricCoordinates m p1 p2 p3 x y).1 * m.xBedProbePoints p1
        + (Move.BarycentricCoordinates m p1 p2 p3 x y).2.1 * m.xBedProbePoints p2
        + (Move.BarycentricCoordinates m p1 p2 p3 x y).2.2 * m.xBedProbePoints p3 = x ∧
    (Move.BarycentricCoordinates m p1 p2 p3 x y).1 * m.yBedProbePoints p1
        + (Move.BarycentricCoordinates m p1 p2 p3 x y).2.1 * m.yBedProbePoints p2
        + (Move.BarycentricCoordinates m p1 p2 p3 x y).2.2 * m.yBedProbePoints p3 = y := by
  unfold Move.BarycentricCoordinates
  dsimp only
  generalize m.xBedProbePoints p1 = x1 at hdet ⊢
  generalize m.xBedProbePoints p2 = x2 at hdet ⊢
  generalize m.xBedProbePoints p3 = x3 at hdet ⊢
  generalize m.yBedProbePoints p1 = y1 at hdet ⊢
  generalize m.yBedProbePoints p2 = y2 at hdet ⊢
  generalize m.yBedProbePoints p3 = y3 at hdet ⊢
  refine ⟨by ring, ?_, ?_⟩
  · field_simp
    ring
  · field_simp
    ring

/-- The test of `Move::TriangleZ` for triangle `i`, spelled out. -/
theorem Move.insideTriangle_iff (m : Move K) (x y : K) (i : Nat) :
    Move.insideTriangle m x y i = true ↔
      ((Move.BarycentricCoordinates m i ((i + 1) % 4) 4 x y).1 > TRIANGLE_0 ∧
        (Move.BarycentricCoordinates m i ((i + 1) % 4) 4 x y).2.1 > TRIANGLE_0 ∧
        (Move.BarycentricCoordinates m i ((i + 1) % 4) 4 x y).2.2 > TRIANGLE_0) := by
  unfold Move.insideTriangle
  dsimp only
  rw [decide_eq_true_iff]

/-- `Move::TriangleZ` interpolates over the first triangle that passes the test. -/
theorem Move.TriangleZ_first (m : Move K) (x y : K) (i : Nat) (hi : i < 4)
    (hin : Move.insideTriangle m x y i = true)
    (hfirst : ∀ k, k < i → Move.insideTriangle m x y k = false) :
    Move.TriangleZ m x y
      = (Move.BarycentricCoordinates m i ((i + 1) % 4) 4 x y).1 * m.zBedProbePoints i
        + (Move.BarycentricCoordinates m i ((i + 1) % 4) 4 x y).2.1
          * m.zBedProbePoints ((i + 1) % 4)
        + (Move.BarycentricCoordinates m i ((i + 1) % 4) 4 x y).2.2 * m.zBedProbePoints 4 := by
  have hr : List.range 4 = [0, 1, 2, 3] := by decide
  have hfind : (List.range 4).find? (Move.insideTriangle m x y) = some i := by
    rw [hr]
    have h0 : i = 0 ∨ i = 1 ∨ i = 2 ∨ i = 3 := by omega
    rcases h0 with h | h | h | h <;> subst h
    · simp [List.find?, hin]
    · simp [List.find?, hin, hfirst 0 (by omega)]
    · simp [List.find?, hin, hfirst 0 (by omega), hfirst 1 (by omega)]
    · simp [List.find?, hin, hfirst 0 (by omega), hfirst 1 (by omega), hfirst 2 (by omega)]
  unfold Move.TriangleZ
  rw [hfind]

/-- `Move::TriangleZ` returns 0 when no triangle passes the test. -/
theorem Move.TriangleZ_none (m : Move K) (x y : K)
    (hout : ∀ k, k < 4 → Move.insideTriangle m x y k = false) :
    Move.TriangleZ m x y = 0 := by
  have hr : List.range 4 = [0, 1, 2, 3] := by decide
  have hfind : (List.range 4).find? (Move.insideTriangle m x y) = none := by
    rw [hr]
    simp [List.find?, hout 0 (by omega), hout 1 (by omega), hout 2 (by omega),
      hout 3 (by omega)]
  unfold Move.TriangleZ
  rw [hfind]

/-- C35. For a triangle of probe points `p1, p2, p3` that is not degenerate and any
`(x, y)`, `Move::BarycentricCoordinates` returns `l1, l2, l3` with `l1 + l2 + l3 = 1`,
`l1*x1 + l2*x2 + l3*x3 = x` and `l1*y1 + l2*y2 + l3*y3 = y`; `Move::TriangleZ` returns
`l1*z_i + l2*z_j + l3*z_4` for the first `i` in `0..3` (`j = (i+1) mod 4`) whose three
coordinates all exceed `TRIANGLE_0 = -0.001`, and returns 0 when no triangle
qualifies. -/
theorem C35_barycentric_interpolation (m : Move K) (p1 p2 p3 : Nat) (x y : K)
    (hdet : (m.yBedProbePoints p2 - m.yBedProbePoints p3)
          * (m.xBedProbePoints p1 - m.xBedProbePoints p3)
        + (m.xBedProbePoints p3 - m.xBedProbePoints p2)
          * (m.yBedProbePoints p1 - m.yBedProbePoints p3) ≠ 0) :
    ((Move.BarycentricCoordinates m p1 p2 p3 x y).1
        + (Move.BarycentricCoordinates m p1 p2 p3 x y).2.1
        + (Move.BarycentricCoordinates m p1 p2 p3 x y).2.2 = 1 ∧
      (Move.BarycentricCoordinates m p1 p2 p3 x y).1 * m.xBedProbePoints p1
        + (Move.BarycentricCoordinates m p1 p2 p3 x y).2.1 * m.xBedProbePoints p2
        + (Move.BarycentricCoordinates m p1 p2 p3 x y).2.2 * m.xBedProbePoints p3 = x ∧
      (Move.BarycentricCoordinates m p1 p2 p3 x y).1 * m.yBedProbePoints p1
        + (Move.BarycentricCoordinates m p1 p2 p3 x y).2.1 * m.yBedProbePoints p2
        + (Move.BarycentricCoordinates m p1 p2 p3 x y).2.2 * m.yBedProbePoints p3 = y) ∧
    (TRIANGLE_0 : K) = -(1 / 1000) ∧
    (∀ i, i < 4 →
      ((Move.BarycentricCoordinates m i ((i + 1) % 4) 4 x y).1 > TRIANGLE_0 ∧
        (Move.BarycentricCoordinates m i ((i + 1) % 4) 4 x y).2.1 > TRIANGLE_0 ∧
        (Move.BarycentricCoordinates m i ((i + 1) % 4) 4 x y).2.2 > TRIANGLE_0) →
      (∀ k, k < i →
        ¬ ((Move.BarycentricCoordinates m k ((k + 1) % 4) 4 x y).1 > TRIANGLE_0 ∧
          (Move.BarycentricCoordinates m k ((k + 1) % 4) 4 x y).2.1 > TRIANGLE_0 ∧
          (Move.BarycentricCoordinates m k ((k + 1) % 4) 4 x y).2.2 > TRIANGLE_0)) →
      Move.TriangleZ m x y
        = (Move.BarycentricCoordinates m i ((i + 1) % 4) 4 x y).1 * m.zBedProbePoints i
          + (Move.BarycentricCoordinates m i ((i + 1) % 4) 4 x y).2.1
            * m.zBedProbePoints ((i + 1) % 4)
          + (Move.BarycentricCoordinates m i ((i + 1) % 4) 4 x y).2.2
            * m.zBedProbePoints 4) ∧
    ((∀ k, k < 4 →
        ¬ ((Move.BarycentricCoordinates m k ((k + 1) % 4) 4 x y).1 > TRIANGLE_0 ∧
          (Move.BarycentricCoordinates m k ((k + 1) % 4) 4 x y).2.1 > TRIANGLE_0 ∧
          (Move.BarycentricCoordinates m k ((k + 1) % 4) 4 x y).2.2 > TRIANGLE_0)) →
      Move.TriangleZ m x y = 0) := by
  refine ⟨Move.BarycentricCoordinates_spec m p1 p2 p3 x y hdet, rfl, ?_, ?_⟩
  · intro i hi hin hfirst
    apply Move.TriangleZ_first m x y i hi ((Move.insideTriangle_iff m x y i).mpr hin)
    intro k hk
    have := hfirst k hk
    rw [← Move.insideTriangle_iff] at this
    exact Bool.eq_false_iff.mpr this
  · intro hout
    apply Move.TriangleZ_none
    intro k hk
    have := hout k hk
    rw [← Move.insideTriangle_iff] at this
    exact Bool.eq_false_iff.mpr this

/-- `Move::NumberOfProbePoints` reads only `probePointSet`. -/
theorem Move.NumberOfProbePoints_congr (m m1 : Move K)
    (h : m1.probePointSet = m.probePointSet) :
    Move.NumberOfProbePoints m1 = Move.NumberOfProbePoints m := by
  unfold Move.NumberOfProbePoints Move.AllProbeCoordinatesSet
  rw [h]

/-- The loop of case 5 of `Move::SetProbedBedEquation`: each corner is moved to twice
its distance from the centre, the centre and everything else stay. -/
theorem Move.stretchLoop_spec (m : Move K) :
    (∀ i, ((List.range 4).foldl (fun m1 i => Move.stretchCorner i m1) m).xBedProbePoints i
      = if i < 4 then m.xBedProbePoints 4 + 2 * (m.xBedProbePoints i - m.xBedProbePoints 4)
        else m.xBedProbePoints i) ∧
    (∀ i, ((List.range 4).foldl (fun m1 i => Move.stretchCorner i m1) m).yBedProbePoints i
      = if i < 4 then m.yBedProbePoints 4 + 2 * (m.yBedProbePoints i - m.yBedProbePoints 4)
        else m.yBedProbePoints i) ∧
    (∀ i, ((List.range 4).foldl (fun m1 i => Move.stretchCorner i m1) m).zBedProbePoints i
      = if i < 4 then m.zBedProbePoints 4 + 2 * (m.zBedProbePoints i - m.zBedProbePoints 4)
        else m.zBedProbePoints i) ∧
    ((List.range 4).foldl (fun m1 i => Move.stretchCorner i m1) m).probePointSet
      = m.probePointSet := by
  have hr : List.range 4 = [0, 1, 2, 3] := by decide
  rw [hr]
  simp only [List.foldl_cons, List.foldl_nil, Move.stretchCorner]
  refine ⟨?_, ?_, ?_, trivial⟩ <;>
  · intro i
    by_cases h0 : i = 0
    · subst h0; simp [setAt]
    · by_cases h1 : i = 1
      · subst h1; simp [setAt]
      · by_cases h2 : i = 2
        · subst h2; simp [setAt]
        · by_cases h3 : i = 3
          · subst h3; simp [setAt]
          · have h4 : ¬ i < 4 := by omega
            simp [setAt, h0, h1, h2, h3, h4]

/-- `Move::SetProbedBedEquation` with five probe points set. -/
theorem Move.SetProbedBedEquation_five (m : Move K) (h5 : Move.NumberOfProbePoints m = 5) :
    (∀ i, (Move.SetProbedBedEquation m).xBedProbePoints i
      = if i < 4 then m.xBedProbePoints 4 + 2 * (m.xBedProbePoints i - m.xBedProbePoints 4)
        else m.xBedProbePoints i) ∧
    (∀ i, (Move.SetProbedBedEquation m).yBedProbePoints i
      = if i < 4 then m.yBedProbePoints 4 + 2 * (m.yBedProbePoints i - m.yBedProbePoints 4)
        else m.yBedProbePoints i) ∧
    (∀ i, (Move.SetProbedBedEquation m).zBedProbePoints i
      = if i < 4 then m.zBedProbePoints 4 + 2 * (m.zBedProbePoints i - m.zBedProbePoints 4)
        else m.zBedProbePoints i) ∧
    (Move.SetProbedBedEquation m).probePointSet = m.probePointSet ∧
    (Move.SetProbedBedEquation m).identityBedTransform = false ∧
    Move.NumberOfProbePoints (Move.SetProbedBedEquation m) = 5 := by
  obtain ⟨hx, hy, hz, hp⟩ := Move.stretchLoop_spec m
  have hs : Move.SetProbedBedEquation m
      = { (List.range 4).foldl (fun m1 i => Move.stretchCorner i m1) m with
          identityBedTransform := false } := by
    unfold Move.SetProbedBedEquation
    rw [h5]
  have hpp : (Move.SetProbedBedEquation m).probePointSet = m.probePointSet := by
    rw [hs]; exact hp
  refine ⟨?_, ?_, ?_, hpp, ?_, ?_⟩
  · intro i; rw [hs]; exact hx i
  · intro i; rw [hs]; exact hy i
  · intro i; rw [hs]; exact hz i
  · rw [hs]
  · rw [Move.NumberOfProbePoints_congr m _ hpp, h5]

end BedFacts

/-- The witness of C35: the triangle of corners 0 and 1 and the centre of
`exampleFivePointMove`, at the point (30, 50). -/
theorem C35_witness :
    (Move.BarycentricCoordinates exampleFivePointMove 0 1 4 30 50).1
        * exampleFivePointMove.xBedProbePoints 0
      + (Move.BarycentricCoordinates exampleFivePointMove 0 1 4 30 50).2.1
        * exampleFivePointMove.xBedProbePoints 1
      + (Move.BarycentricCoordinates exampleFivePointMove 0 1 4 30 50).2.2
        * exampleFivePointMove.xBedProbePoints 4 = 30 :=
  (C35_barycentric_interpolation exampleFivePointMove 0 1 4 30 50 (by decide!)).1.2.1

section BedFrameFacts
variable {K : Type} [LinearOrderedField K] [FloorRing K]

omit [LinearOrderedField K] [FloorRing K] in
theorem Move.SameBed_refl (m : Move K) : Move.SameBed m m := ⟨rfl, rfl⟩

omit [LinearOrderedField K] [FloorRing K] in
theorem Move.SameBed_trans (m m1 m2 : Move K) (h1 : Move.SameBed m m1)
    (h2 : Move.SameBed m1 m2) : Move.SameBed m m2 :=
  ⟨h2.1.trans h1.1, h2.2.trans h1.2⟩

theorem DDA.Init_bed (p : Platform K) (m : Move K) (la : Nat) (dbg : Bool) (d : DDA K) :
    Move.SameBed m (DDA.Init p m la dbg d).1 := by
  rcases DDA.Init_move p m la dbg d with h | h <;> rw [h] <;> exact ⟨rfl, rfl⟩

theorem Move.planEntry_bed (p : Platform K) (down : Bool) (n0 n1 : Nat) (m : Move K) :
    Move.SameBed m (Move.planEntry p down n0 n1 m) := by
  have h0 := DDA.Init_bed p m n1 false m.lookAheadDDA
  unfold Move.planEntry
  dsimp only
  generalize DDA.Init p m n1 false m.lookAheadDDA = r at h0 ⊢
  split_ifs <;> first | exact h0 | exact ⟨rfl, rfl⟩

theorem Move.Cosine_bed (p : Platform K) (m : Move K) (i : Nat) :
    Move.SameBed m (Move.Cosine p m i).1 := by
  unfold Move.Cosine
  dsimp only
  split_ifs <;> exact ⟨rfl, rfl⟩

theorem Move.junctionEntry_bed (p : Platform K) (n1 n2 : Nat) (m : Move K) :
    Move.SameBed m (Move.junctionEntry p n1 n2 m) := by
  have h0 := Move.Cosine_bed p m n1
  unfold Move.junctionEntry
  dsimp only
  generalize Move.Cosine p m n1 = r at h0 ⊢
  split_ifs <;> first | exact h0 | exact ⟨rfl, rfl⟩

theorem Move.upLoop_bed (p : Platform K) (k : Nat) (s : PlanState K) :
    Move.SameBed s.move (Move.upLoop p k s).move := by
  induction k generalizing s with
  | zero => exact ⟨rfl, rfl⟩
  | succ k ih =>
    unfold Move.upLoop
    exact Move.SameBed_trans _ _ _ (Move.planEntry_bed p false s.n0 s.n1 s.move) (ih _)

theorem Move.downLoop_bed (p : Platform K) (k : Nat) (s : PlanState K) :
    Move.SameBed s.move (Move.downLoop p k s).move := by
  induction k generalizing s with
  | zero =>
    unfold Move.downLoop
    exact Move.planEntry_bed p true s.n0 s.n1 s.move
  | succ k ih =>
    unfold Move.downLoop
    exact Move.SameBed_trans _ _ _ (Move.planEntry_bed p true s.n0 s.n1 s.move) (ih _)

theorem Move.junctionLoop_bed (p : Platform K) (k : Nat) (s : PlanState K) :
    Move.SameBed s.move (Move.junctionLoop p k s).move := by
  induction k generalizing s with
  | zero => exact ⟨rfl, rfl⟩
  | succ k ih =>
    unfold Move.junctionLoop
    exact Move.SameBed_trans _ _ _ (Move.junctionEntry_bed p s.n1 s.n2 s.move) (ih _)

theorem Move.reachabilityPasses_bed (p : Platform K) (m : Move K) :
    Move.SameBed m (Move.reachabilityPasses p m) := by
  unfold Move.reachabilityPasses
  dsimp only
  have h1 := Move.upLoop_bed p
    (ringDistance (Next m.lookAheadRingGetPointer) m.lookAheadRingAddPointer)
    { move := m, n0 := Previous m.lookAheadRingGetPointer, n1 := m.lookAheadRingGetPointer,
      n2 := Next m.lookAheadRingGetPointer }
  generalize Move.upLoop p
    (ringDistance (Next m.lookAheadRingGetPointer) m.lookAheadRingAddPointer)
    { move := m, n0 := Previous m.lookAheadRingGetPointer, n1 := m.lookAheadRingGetPointer,
      n2 := Next m.lookAheadRingGetPointer } = s1 at h1 ⊢
  have h2 := Move.downLoop_bed p
    (ringDistance m.lookAheadRingGetPointer (Previous s1.n0)) s1
  generalize Move.downLoop p (ringDistance m.lookAheadRingGetPointer (Previous s1.n0)) s1
    = s2 at h2 ⊢
  exact Move.SameBed_trans _ _ _ h1 h2

theorem Move.junctionPass_bed (p : Platform K) (hid : Bool) (m : Move K) :
    Move.SameBed m (Move.junctionPass p hid m) := by
  unfold Move.junctionPass
  dsimp only
  have h1 := Move.junctionLoop_bed p
    (ringDistance (Next m.lookAheadRingGetPointer) m.lookAheadRingAddPointer)
    { move := m, n0 := Previous m.lookAheadRingGetPointer, n1 := m.lookAheadRingGetPointer,
      n2 := Next m.lookAheadRingGetPointer }
  generalize Move.junctionLoop p
    (ringDistance (Next m.lookAheadRingGetPointer) m.lookAheadRingAddPointer)
    { move := m, n0 := Previous m.lookAheadRingGetPointer, n1 := m.lookAheadRingGetPointer,
      n2 := Next m.lookAheadRingGetPointer } = s1 at h1 ⊢
  split_ifs <;> exact h1

theorem Move.DoLookAhead_bed (p : Platform K) (hid : Bool) (m : Move K) :
    Move.SameBed m (Move.DoLookAhead p hid m) := by
  unfold Move.DoLookAhead
  dsimp only
  split_ifs
  · exact Move.SameBed_refl m
  · exact Move.SameBed_trans _ _ _ (Move.reachabilityPasses_bed p m)
      (Move.junctionPass_bed p hid _)
  · exact Move.reachabilityPasses_bed p m
  · exact Move.junctionPass_bed p hid m
  · exact Move.SameBed_refl m

theorem Move.DDARingAdd_bed (p : Platform K) (la : Nat) (m : Move K) :
    Move.SameBed m (Move.DDARingAdd p la m).1 := by
  have h0 := DDA.Init_bed p m la true (m.ddaRing m.ddaRingAddPointer)
  unfold Move.DDARingAdd
  dsimp only
  generalize DDA.Init p m la true (m.ddaRing m.ddaRingAddPointer) = r at h0 ⊢
  split_ifs <;> first | exact h0 | exact ⟨rfl, rfl⟩

theorem Move.DDARingGet_bed (m : Move K) : Move.SameBed m (Move.DDARingGet m).1 := by
  unfold Move.DDARingGet
  split_ifs <;> exact ⟨rfl, rfl⟩

theorem Move.LookAheadRingAdd_bed (ep : Nat → Int) (f minS maxS acc : K) (ce hid : Bool)
    (m : Move K) : Move.SameBed m (Move.LookAheadRingAdd ep f minS maxS acc ce hid m).1 := by
  unfold Move.LookAheadRingAdd
  dsimp only
  split_ifs <;> exact ⟨rfl, rfl⟩

theorem Move.LookAheadRingGet_bed (m : Move K) :
    Move.SameBed m (Move.LookAheadRingGet m).1 := by
  unfold Move.LookAheadRingGet
  split_ifs <;> exact ⟨rfl, rfl⟩

theorem Move.spinPlan_bed (p : Platform K) (hid : Bool) (m : Move K) :
    Move.SameBed m (Move.spinPlan p hid m) := by
  have h1 := Move.DoLookAhead_bed p hid m
  unfold Move.spinPlan
  dsimp only
  generalize Move.DoLookAhead p hid m = m1 at h1 ⊢
  have h2 := Move.LookAheadRingGet_bed m1
  generalize Move.LookAheadRingGet m1 = r at h2 ⊢
  obtain ⟨rm, ro⟩ := r
  by_cases hfull : Move.DDARingFull m1 = true
  · rw [if_neg (not_not.mpr hfull)]
    exact h1
  · rw [if_pos hfull]
    cases ro with
    | none => exact Move.SameBed_trans _ _ _ h1 h2
    | some n =>
      exact Move.SameBed_trans _ _ _ h1 (Move.SameBed_trans _ _ _ h2 (Move.DDARingAdd_bed p n rm))

theorem Move.spinDrive_bed (p : Platform K) (drive : Nat) (s : Move K × Bool) :
    Move.SameBed s.1 (Move.spinDrive p drive s).1 := by
  unfold Move.spinDrive
  dsimp only
  split_ifs <;> exact ⟨rfl, rfl⟩

theorem Move.spinLoop_bed (p : Platform K) (n : Nat) (s : Move K × Bool) :
    Move.SameBed s.1 ((List.range n).foldl (fun s drive => Move.spinDrive p drive s) s).1 := by
  induction n with
  | zero => exact ⟨rfl, rfl⟩
  | succ n ih =>
    rw [List.range_succ, List.foldl_append]
    exact Move.SameBed_trans _ _ _ ih (Move.spinDrive_bed p n _)

theorem Move.spinRead_bed (p : Platform K) (mv : Nat → K) (m : Move K) :
    Move.SameBed m (Move.spinRead p mv m).1 := by
  unfold Move.spinRead
  dsimp only
  exact Move.spinLoop_bed p p.DRIVES _

theorem Move.spinAdd_bed (p : Platform K) (ce hid : Bool) (m : Move K) :
    Move.SameBed m (Move.spinAdd p ce hid m) := by
  unfold Move.spinAdd
  dsimp only
  split_ifs
  · exact ⟨rfl, rfl⟩
  · exact Move.LookAheadRingAdd_bed _ _ _ _ _ _ _ _

theorem Move.Spin_bed (p : Platform K) (hid : Bool) (readMove : Option ((Nat → K) × Bool))
    (m : Move K) : Move.SameBed m (Move.Spin p hid readMove m).1 := by
  have h1 := Move.spinPlan_bed p hid m
  unfold Move.Spin
  dsimp only
  generalize Move.spinPlan p hid m = m1 at h1 ⊢
  by_cases hact : m.active = true
  · rw [if_neg (not_not.mpr hact)]
    by_cases hstop : m1.addNoMoreMoves = true ∨ Move.LookAheadRingFull m1 = true
    · rw [if_pos hstop]
      exact h1
    · rw [if_neg hstop]
      cases readMove with
      | none => exact h1
      | some mv =>
        dsimp only
        have h2 := Move.spinRead_bed p mv.1 m1
        generalize Move.spinRead p mv.1 m1 = s at h2 ⊢
        by_cases hs : s.2 = true
        · rw [if_pos hs]
          exact Move.SameBed_trans _ _ _ h1 h2
        · rw [if_neg hs]
          exact Move.SameBed_trans _ _ _ h1
            (Move.SameBed_trans _ _ _ h2 (Move.spinAdd_bed p mv.2 hid s.1))
  · rw [if_pos hact]
    exact Move.SameBed_refl m

theorem Move.HitLowStop_bed (p : Platform K) (h : Nat → Bool) (drive la : Nat)
    (hitDDA : DDA K) (m : Move K) :
    Move.SameBed m (Move.HitLowStop p h drive la hitDDA m) := by
  unfold Move.HitLowStop
  dsimp only
  split_ifs <;> exact ⟨rfl, rfl⟩

theorem DDA.StepDrive_bed (p : Platform K) (o : Nat → EndStopHit) (h : Nat → Bool)
    (drive : Nat) (s : StepState K) :
    Move.SameBed s.move (DDA.StepDrive p o h drive s).move := by
  unfold DDA.StepDrive
  dsimp only
  split_ifs <;>
    first
    | exact ⟨rfl, rfl⟩
    | exact Move.HitLowStop_bed p h _ _ _ _

theorem DDA.stepLoop_bed (p : Platform K) (o : Nat → EndStopHit) (h : Nat → Bool)
    (n : Nat) (s : StepState K) :
    Move.SameBed s.move
      ((List.range n).foldl (fun s drive => DDA.StepDrive p o h drive s) s).move := by
  induction n with
  | zero => exact ⟨rfl, rfl⟩
  | succ n ih =>
    rw [List.range_succ, List.foldl_append]
    exact Move.SameBed_trans _ _ _ ih (DDA.StepDrive_bed p o h n _)

theorem DDA.Step_bed (p : Platform K) (o : Nat → EndStopHit) (h : Nat → Bool)
    (m : Move K) (d : DDA K) : Move.SameBed m (DDA.Step p o h m d).move := by
  unfold DDA.Step
  dsimp only
  have h1 := DDA.stepLoop_bed p o h p.DRIVES
    { move := m, dda := d, drivesMoving := 0, calls := [] }
  generalize (List.range p.DRIVES).foldl (fun s drive => DDA.StepDrive p o h drive s)
    { move := m, dda := d, drivesMoving := 0, calls := [] } = s1 at h1 ⊢
  split_ifs <;> first | exact ⟨rfl, rfl⟩ | exact h1

theorem Move.Interrupt_bed (p : Platform K) (o : Nat → EndStopHit) (h : Nat → Bool)
    (m : Move K) : Move.SameBed m (Move.Interrupt p o h m).1 := by
  unfold Move.Interrupt
  cases hd : m.dda with
  | none =>
    dsimp only
    have h1 := Move.DDARingGet_bed m
    generalize Move.DDARingGet m = r at h1 ⊢
    cases hr : r.2 with
    | none => exact h1
    | some i => exact h1
  | some i =>
    dsimp only
    have h1 := DDA.Step_bed p o h m (m.ddaRing i)
    generalize DDA.Step p o h m (m.ddaRing i) = s at h1 ⊢
    split_ifs
    · exact h1
    · exact ⟨rfl, rfl⟩

/-- `Move::NumberOfProbePoints` is below 3 exactly when one of the first three probe
points is not fully set. -/
theorem Move.NumberOfProbePoints_lt_three (m : Move K) :
    Move.NumberOfProbePoints m < 3 ↔
      ¬ (Move.AllProbeCoordinatesSet m 0 = true ∧ Move.AllProbeCoordinatesSet m 1 = true ∧
        Move.AllProbeCoordinatesSet m 2 = true) := by
  have hr : List.range NUMBER_OF_PROBE_POINTS = [0, 1, 2, 3, 4] := by decide
  unfold Move.NumberOfProbePoints
  rw [hr]
  cases h0 : Move.AllProbeCoordinatesSet m 0 <;> cases h1 : Move.AllProbeCoordinatesSet m 1 <;>
    cases h2 : Move.AllProbeCoordinatesSet m 2 <;> cases h3 : Move.AllProbeCoordinatesSet m 3 <;>
    cases h4 : Move.AllProbeCoordinatesSet m 4 <;>
    simp [List.find?, h0, h1, h2, h3, h4, NUMBER_OF_PROBE_POINTS]

/-- With fewer than three probe points `Move::SetProbedBedEquation` changes nothing. -/
theorem Move.SetProbedBedEquation_few (m : Move K) (hlt : Move.NumberOfProbePoints m < 3) :
    Move.SetProbedBedEquation m = m := by
  unfold Move.SetProbedBedEquation
  have h : Move.NumberOfProbePoints m = 0 ∨ Move.NumberOfProbePoints m = 1
      ∨ Move.NumberOfProbePoints m = 2 := by omega
  rcases h with h | h | h <;> rw [h]

/-- With fewer than three probe points the bed transform and its inverse return the
point, whatever the flag. -/
theorem Move.BedTransform_few (m : Move K) (hlt : Move.NumberOfProbePoints m < 3)
    (q : Nat → K) : Move.BedTransform m q = q ∧ Move.InverseBedTransform m q = q := by
  unfold Move.BedTransform Move.InverseBedTransform
  have h : Move.NumberOfProbePoints m = 0 ∨ Move.NumberOfProbePoints m = 1
      ∨ Move.NumberOfProbePoints m = 2 := by omega
  rcases h with h | h | h <;> rw [h] <;> constructor <;> split_ifs <;> rfl

/-- `Move::SetProbedBedEquation` keeps the probe point flags, and switches the
transform on only with at least three probe points. -/
theorem Move.SetProbedBedEquation_bed (m : Move K) :
    (Move.SetProbedBedEquation m).probePointSet = m.probePointSet ∧
    ((Move.SetProbedBedEquation m).identityBedTransform = m.identityBedTransform ∨
      ¬ Move.NumberOfProbePoints m < 3) := by
  by_cases hlt : Move.NumberOfProbePoints m < 3
  · rw [Move.SetProbedBedEquation_few m hlt]
    exact ⟨rfl, Or.inl rfl⟩
  · refine ⟨?_, Or.inr hlt⟩
    have h5 : Move.NumberOfProbePoints m ≤ 5 := by
      have hr : List.range NUMBER_OF_PROBE_POINTS = [0, 1, 2, 3, 4] := by decide
      unfold Move.NumberOfProbePoints
      rw [hr]
      cases h0 : Move.AllProbeCoordinatesSet m 0 <;>
        cases h1 : Move.AllProbeCoordinatesSet m 1 <;>
        cases h2 : Move.AllProbeCoordinatesSet m 2 <;>
        cases h3 : Move.AllProbeCoordinatesSet m 3 <;>
        cases h4 : Move.AllProbeCoordinatesSet m 4 <;>
        simp [List.find?, h0, h1, h2, h3, h4, NUMBER_OF_PROBE_POINTS]
    have h : Move.NumberOfProbePoints m = 3 ∨ Move.NumberOfProbePoints m = 4
        ∨ Move.NumberOfProbePoints m = 5 := by omega
    rcases h with h | h | h
    · unfold Move.SetProbedBedEquation
      rw [h]
      rfl
    · unfold Move.SetProbedBedEquation
      rw [h]
    · exact (Move.SetProbedBedEquation_five m h).2.2.2.1

/-- A probe point that is fully set stays fully set when a flag is or-ed in. -/
theorem Move.AllProbeCoordinatesSet_or (m m1 : Move K) (i bit : Nat)
    (hbit : bit = xSet ∨ bit = ySet ∨ bit = zSet)
    (h : m1.probePointSet i = m.probePointSet i
      ∨ m1.probePointSet i = m.probePointSet i ||| bit)
    (ha : Move.AllProbeCoordinatesSet m i = true) :
    Move.AllProbeCoordinatesSet m1 i = true := by
  unfold Move.AllProbeCoordinatesSet at ha ⊢
  rw [decide_eq_true_iff] at ha ⊢
  rcases h with h | h
  · rw [h, ha]
  · rw [h, ha]
    rcases hbit with hb | hb | hb <;> rw [hb] <;> decide

/-- The transform is off, or the first three probe points are set. -/
theorem Move.bedInv_of_flags (m m1 : Move K) (bit : Nat)
    (hbit : bit = xSet ∨ bit = ySet ∨ bit = zSet)
    (hp : ∀ i, m1.probePointSet i = m.probePointSet i
      ∨ m1.probePointSet i = m.probePointSet i ||| bit)
    (hi : m1.identityBedTransform = m.identityBedTransform)
    (hinv : m.identityBedTransform = false → ¬ Move.NumberOfProbePoints m < 3) :
    m1.identityBedTransform = false → ¬ Move.NumberOfProbePoints m1 < 3 := by
  intro hf
  have h3 := hinv (hi ▸ hf)
  rw [Move.NumberOfProbePoints_lt_three, not_not] at h3 ⊢
  obtain ⟨a0, a1, a2⟩ := h3
  exact ⟨Move.AllProbeCoordinatesSet_or m m1 0 bit hbit (hp 0) a0,
    Move.AllProbeCoordinatesSet_or m m1 1 bit hbit (hp 1) a1,
    Move.AllProbeCoordinatesSet_or m m1 2 bit hbit (hp 2) a2⟩

theorem Move.bedInv_of_same (m m1 : Move K) (h : Move.SameBed m m1)
    (hinv : m.identityBedTransform = false → ¬ Move.NumberOfProbePoints m < 3) :
    m1.identityBedTransform = false → ¬ Move.NumberOfProbePoints m1 < 3 :=
  Move.bedInv_of_flags m m1 xSet (Or.inl rfl) (fun i => Or.inl (by rw [h.1])) h.2 hinv

/-- In every state reached from `Move::Init`, the bed transform is switched on only
if the first three probe points are fully set. -/
theorem Move.BedReachable_inv (p : Platform K) (m : Move K) (h : Move.BedReachable p m) :
    m.identityBedTransform = false → ¬ Move.NumberOfProbePoints m < 3 := by
  induction h with
  | init hid time m0 =>
    intro hf
    have : (Move.Init p hid time m0).1.identityBedTransform = true := rfl
    rw [this] at hf
    exact absurd hf (by decide)
  | spin hid readMove m0 _ ih => exact Move.bedInv_of_same _ _ (Move.Spin_bed p hid readMove m0) ih
  | interrupt o hm m0 _ ih => exact Move.bedInv_of_same _ _ (Move.Interrupt_bed p o hm m0) ih
  | allMovesAreFinished m0 _ ih => exact Move.bedInv_of_same _ _ ⟨rfl, rfl⟩ ih
  | resumeMoving m0 _ ih => exact Move.bedInv_of_same _ _ ⟨rfl, rfl⟩ ih
  | setX index x m0 _ ih =>
    unfold Move.SetXBedProbePoint
    split_ifs
    · exact ih
    · refine Move.bedInv_of_flags m0 _ xSet (Or.inl rfl) (fun i => ?_) rfl ih
      by_cases hi : i = index.toNat
      · subst hi
        exact Or.inr (by simp [setAt])
      · exact Or.inl (by simp [setAt, hi])
  | setY index y m0 _ ih =>
    unfold Move.SetYBedProbePoint
    split_ifs
    · exact ih
    · refine Move.bedInv_of_flags m0 _ ySet (Or.inr (Or.inl rfl)) (fun i => ?_) rfl ih
      by_cases hi : i = index.toNat
      · subst hi
        exact Or.inr (by simp [setAt])
      · exact Or.inl (by simp [setAt, hi])
  | setZ index z m0 _ ih =>
    unfold Move.SetZBedProbePoint
    split_ifs
    · exact ih
    · refine Move.bedInv_of_flags m0 _ zSet (Or.inr (Or.inr rfl)) (fun i => ?_) rfl ih
      by_cases hi : i = index.toNat
      · subst hi
        exact Or.inr (by simp [setAt])
      · exact Or.inl (by simp [setAt, hi])
  | setProbed m0 _ ih =>
    obtain ⟨hp, hid⟩ := Move.SetProbedBedEquation_bed m0
    intro _
    rw [Move.NumberOfProbePoints_congr m0 _ hp]
    by_cases hlt : Move.NumberOfProbePoints m0 < 3
    · rcases hid with hid | hid
      · rw [Move.SetProbedBedEquation_few m0 hlt] at *
        exact ih (by assumption)
      · exact hid
    · exact hlt
  | setIdentity m0 _ _ =>
    intro hf
    have : (Move.SetIdentityTransform m0).identityBedTransform = true := rfl
    rw [this] at hf
    exact absurd hf (by decide)
  | setAxis axis tangent m0 _ ih =>
    refine Move.bedInv_of_same m0 _ ?_ ih
    unfold Move.SetAxisCompensation
    split_ifs <;> exact ⟨rfl, rfl⟩

/-- C36. When the number of leading fully-set probe points
(`Move::NumberOfProbePoints`) is 0, 1 or 2, `Move::SetProbedBedEquation` does not
enable bed compensation: it leaves the Move, and so `identityBedTransform`, unchanged;
`identityBedTransform` is true in every state reached from `Move::Init` with fewer than
three points set; and `Move::BedTransform` and `Move::InverseBedTransform` return the
point unchanged, before and after the call. -/
theorem C36_no_compensation_below_three_points (p : Platform K) (m : Move K)
    (hlt : Move.NumberOfProbePoints m < 3) :
    Move.SetProbedBedEquation m = m ∧
    (Move.SetProbedBedEquation m).identityBedTransform = m.identityBedTransform ∧
    (Move.BedReachable p m → m.identityBedTransform = true) ∧
    (Move.BedReachable p m → (Move.SetProbedBedEquation m).identityBedTransform = true) ∧
    (∀ q : Nat → K, Move.BedTransform m q = q ∧ Move.InverseBedTransform m q = q) ∧
    (∀ q : Nat → K, Move.BedTransform (Move.SetProbedBedEquation m) q = q ∧
      Move.InverseBedTransform (Move.SetProbedBedEquation m) q = q) := by
  have hsame := Move.SetProbedBedEquation_few m hlt
  have hreach : Move.BedReachable p m → m.identityBedTransform = true := by
    intro hr
    have hinv := Move.BedReachable_inv p m hr
    cases hid : m.identityBedTransform with
    | true => rfl
    | false => exact absurd hlt (hinv hid)
  rw [hsame]
  exact ⟨rfl, rfl, hreach, hreach, Move.BedTransform_few m hlt, Move.BedTransform_few m hlt⟩

end BedFrameFacts

/-- The witness of C36: after `Move::Init` and the recording of X and Z of probe
point 0 no probe point is fully set; the transform is off and
`SetProbedBedEquation` changes nothing. -/
theorem C36_witness :
    Move.NumberOfProbePoints exampleProbingMove < 3 ∧
    exampleProbingMove.identityBedTransform = true ∧
    Move.SetProbedBedEquation exampleProbingMove = exampleProbingMove :=
  have hlt : Move.NumberOfProbePoints exampleProbingMove < 3 := by decide
  have hr : Move.BedReachable examplePlatform exampleProbingMove :=
    Move.BedReachable.setZ 0 (1 / 10) _
      (Move.BedReachable.setX 0 20 _
        (Move.BedReachable.init false 0 (exampleMove exampleRingA 1 2 1)))
  ⟨hlt, (C36_no_compensation_below_three_points examplePlatform exampleProbingMove hlt).2.2.1 hr,
    (C36_no_compensation_below_three_points examplePlatform exampleProbingMove hlt).1⟩

/-! ## The acceleration and deceleration phases of a movement -/

section PhaseFacts
variable {K : Type} [LinearOrderedField K] [FloorRing K]

/-- `DDA::AccelerationCalculation` always leaves `stopAStep < startDStep`. -/
theorem DDA.AccelerationCalculation_phases (p : Platform K) (e : LookAhead K) (u v : K)
    (result : Nat) (d : DDA K) :
    (DDA.AccelerationCalculation p e u v result d).1.stopAStep
      < (DDA.AccelerationCalculation p e u v result d).1.startDStep := by
  unfold DDA.AccelerationCalculation
  dsimp only
  split_ifs with h1 h2 h3 h4
  · exact Int.lt_succ_self _
  · exact Int.lt_succ_self _
  · exact Int.lt_succ_self _
  · show (0 : Int) < d.totalSteps
    omega
  · exact not_le.mp h1

/-- `DDA::Init` on a movement that is not null, in terms of its parts. -/
theorem DDA.Init_calc (p : Platform K) (m : Move K) (la : Nat) (dbg : Bool) (d : DDA K)
    (hT : 0 < (DDA.InitSteps p m la d).1.totalSteps) :
    (DDA.Init p m la dbg d).1 = m ∧
    (DDA.Init p m la dbg d).2.2.1
      = (DDA.AccelerationCalculation p (m.lookAheadRing la)
          (m.lookAheadRing (Previous la)).v (m.lookAheadRing la).v moving
          (DDA.InitSetUp p (m.lookAheadRing la) (DDA.InitSteps p m la d))).2.1 ∧
    (DDA.Init p m la dbg d).2.2.2.1
      = (DDA.AccelerationCalculation p (m.lookAheadRing la)
          (m.lookAheadRing (Previous la)).v (m.lookAheadRing la).v moving
          (DDA.InitSetUp p (m.lookAheadRing la) (DDA.InitSteps p m la d))).2.2.1 ∧
    (DDA.Init p m la dbg d).2.2.2.2
      = (DDA.AccelerationCalculation p (m.lookAheadRing la)
          (m.lookAheadRing (Previous la)).v (m.lookAheadRing la).v moving
          (DDA.InitSetUp p (m.lookAheadRing la) (DDA.InitSteps p m la d))).2.2.2 ∧
    (DDA.Init p m la dbg d).2.1.stopAStep
      = (DDA.AccelerationCalculation p (m.lookAheadRing la)
          (m.lookAheadRing (Previous la)).v (m.lookAheadRing la).v moving
          (DDA.InitSetUp p (m.lookAheadRing la) (DDA.InitSteps p m la d))).1.stopAStep ∧
    (DDA.Init p m la dbg d).2.1.startDStep
      = (DDA.AccelerationCalculation p (m.lookAheadRing la)
          (m.lookAheadRing (Previous la)).v (m.lookAheadRing la).v moving
          (DDA.InitSetUp p (m.lookAheadRing la) (DDA.InitSteps p m la d))).1.startDStep ∧
    (DDA.Init p m la dbg d).2.1.totalSteps = (DDA.InitSteps p m la d).1.totalSteps ∧
    (DDA.Init p m la dbg d).2.1.distance = p.sqrt (DDA.InitSteps p m la d).1.distance ∧
    (DDA.Init p m la dbg d).2.1.acceleration = (m.lookAheadRing la).acceleration := by
  have hnull : ¬ (DDA.InitSteps p m la d).1.totalSteps ≤ 0 := not_le.mpr hT
  unfold DDA.Init
  dsimp only
  rw [if_neg hnull]
  obtain ⟨a, b, hab⟩ := DDA.AccelerationCalculation_dda p (m.lookAheadRing la)
    (m.lookAheadRing (Previous la)).v (m.lookAheadRing la).v moving
    (DDA.InitSetUp p (m.lookAheadRing la) (DDA.InitSteps p m la d))
  refine ⟨rfl, rfl, rfl, rfl, rfl, rfl, ?_, ?_, ?_⟩
  · dsimp only
    rw [hab]
    rfl
  · dsimp only
    rw [hab]
    rfl
  · dsimp only
    rw [hab]
    rfl

/-- `DDA::Init` returns the `totalSteps` computed by its drive loop, null movement or
not. -/
theorem DDA.Init_totalSteps (p : Platform K) (m : Move K) (la : Nat) (dbg : Bool) (d : DDA K) :
    (DDA.Init p m la dbg d).2.1.totalSteps = (DDA.InitSteps p m la d).1.totalSteps := by
  by_cases hT : 0 < (DDA.InitSteps p m la d).1.totalSteps
  · exact (DDA.Init_calc p m la dbg d hT).2.2.2.2.2.2.1
  · unfold DDA.Init
    dsimp only
    rw [if_pos (not_lt.mp hT)]

/-- C37. After every call of `DDA::AccelerationCalculation`, whichever branch is
taken, `stopAStep < startDStep`, and so it is after `DDA::Init` on a movement that is
not null; consequently for every `stepCount` at most one of `stepCount < stopAStep` and
`stepCount >= startDStep` holds, and the velocity update of `DDA::Step` on a DDA with
`stopAStep < startDStep` adds `acceleration*timeStep`, subtracts it, or does neither,
never both. -/
theorem C37_acceleration_stops_before_deceleration_starts (p : Platform K) (e : LookAhead K)
    (u v : K) (result : Nat) (d : DDA K) :
    (DDA.AccelerationCalculation p e u v result d).1.stopAStep
      < (DDA.AccelerationCalculation p e u v result d).1.startDStep ∧
    (∀ stepCount : Int,
      ¬ (stepCount < (DDA.AccelerationCalculation p e u v result d).1.stopAStep ∧
        stepCount ≥ (DDA.AccelerationCalculation p e u v result d).1.startDStep)) ∧
    (∀ (m : Move K) (la : Nat) (dbg : Bool),
      0 < (DDA.Init p m la dbg d).2.1.totalSteps →
      (DDA.Init p m la dbg d).2.1.stopAStep < (DDA.Init p m la dbg d).2.1.startDStep) ∧
    (∀ s : StepState K, s.dda.stopAStep < s.dda.startDStep →
      (DDA.StepVelocity s).dda.velocity
        = (if (if s.dda.stepCount < s.dda.stopAStep then
                s.dda.velocity
                  + s.dda.acceleration * (s.move.stepDistances s.drivesMoving / s.dda.velocity)
              else if s.dda.stepCount ≥ s.dda.startDStep then
                s.dda.velocity
                  - s.dda.acceleration * (s.move.stepDistances s.drivesMoving / s.dda.velocity)
              else s.dda.velocity) < s.dda.instantDv
           then s.dda.instantDv
           else (if s.dda.stepCount < s.dda.stopAStep then
                s.dda.velocity
                  + s.dda.acceleration * (s.move.stepDistances s.drivesMoving / s.dda.velocity)
              else if s.dda.stepCount ≥ s.dda.startDStep then
                s.dda.velocity
                  - s.dda.acceleration * (s.move.stepDistances s.drivesMoving / s.dda.velocity)
              else s.dda.velocity))) := by
  have h := DDA.AccelerationCalculation_phases p e u v result d
  refine ⟨h, ?_, ?_, ?_⟩
  · intro stepCount hboth
    omega
  · intro m la dbg hT
    rw [DDA.Init_totalSteps] at hT
    obtain ⟨_, _, _, _, e1, e2, _⟩ := DDA.Init_calc p m la dbg d hT
    rw [e1, e2]
    exact DDA.AccelerationCalculation_phases _ _ _ _ _ _
  · intro s hs
    unfold DDA.StepVelocity
    dsimp only
    by_cases h1 : s.dda.stepCount < s.dda.stopAStep
    · have h2 : ¬ s.dda.stepCount ≥ s.dda.startDStep := by omega
      simp only [if_pos h1, if_neg h2]
    · simp only [if_neg h1]

/-- A number that is at least the integer `T` rounds to at least `T`. -/
theorem roundf_ge_of_ge (x : K) (T : Int) (h : (T : K) ≤ x) : T ≤ roundf x := by
  have h1 := roundf_lower x
  have h2 : ((T - 1 : Int) : K) < (roundf x : K) := by
    push_cast
    linarith
  have h3 : T - 1 < roundf x := Int.cast_lt.mp h2
  omega

/-- A number that is at most the integer `T` rounds to at most `T`. -/
theorem roundf_le_of_le (x : K) (T : Int) (h : x ≤ (T : K)) : roundf x ≤ T := by
  have h1 := roundf_upper x
  have h2 : (roundf x : K) < ((T + 1 : Int) : K) := by
    push_cast
    linarith
  have h3 : roundf x < T + 1 := Int.cast_lt.mp h2
  omega

theorem half_cross_full (a D : K) (ha : a ≠ 0) :
    1 / 2 * (1 / 2 * (2 * a * D) / a + D) = D := by
  field_simp

theorem half_cross_zero (a D : K) (ha : a ≠ 0) :
    1 / 2 * (1 / 2 * (-(2 * a * D)) / a + D) = 0 := by
  field_simp
  ring

/-- The test `dCross < 0 || dCross > distance` of `DDA::AccelerationCalculation`, in
terms of the squares of the speeds. -/
theorem dCross_test_iff (u v a D : K) (ha : 0 < a) :
    (1 / 2 * (1 / 2 * (v * v - u * u) / a + D) < 0
        ∨ 1 / 2 * (1 / 2 * (v * v - u * u) / a + D) > D)
      ↔ |v * v - u * u| > 2 * a * D := by
  have e0 : 1 / 2 * (1 / 2 * (v * v - u * u) / a + D)
      = (v * v - u * u + 2 * a * D) / (4 * a) := by
    field_simp
    ring
  have h4a : 0 < 4 * a := by positivity
  have e1 : 1 / 2 * (1 / 2 * (v * v - u * u) / a + D) < 0
      ↔ v * v - u * u < -(2 * a * D) := by
    rw [e0, div_lt_iff₀ h4a]
    constructor <;> intro h <;> linarith
  have e2 : 1 / 2 * (1 / 2 * (v * v - u * u) / a + D) > D
      ↔ v * v - u * u > 2 * a * D := by
    rw [e0, gt_iff_lt, lt_div_iff₀ h4a]
    constructor <;> intro h <;> linarith
  rw [e1, e2]
  show _ ↔ 2 * a * D < |v * v - u * u|
  rw [lt_abs]
  constructor
  · intro h
    rcases h with h | h
    · exact Or.inr (by linarith)
    · exact Or.inl h
  · intro h
    rcases h with h | h
    · exact Or.inr h
    · exact Or.inl (by linarith)

/-- The collapsed branch of `DDA::AccelerationCalculation` when the speeds cannot be
met: the larger one is replaced and the result is `change`. -/
theorem DDA.AccelerationCalculation_infeasible (p : Platform K) (e : LookAhead K) (u v : K)
    (result : Nat) (d : DDA K)
    (hcol : roundf (1 / 2 * (e.requestedFeedrate * e.requestedFeedrate - u * u)
          / d.acceleration * (d.totalSteps : K) / d.distance)
        ≥ d.totalSteps + roundf (1 / 2 * (v * v - e.requestedFeedrate * e.requestedFeedrate)
          / d.acceleration * (d.totalSteps : K) / d.distance))
    (hinf : 1 / 2 * (1 / 2 * (v * v - u * u) / d.acceleration + d.distance) < 0
        ∨ 1 / 2 * (1 / 2 * (v * v - u * u) / d.acceleration + d.distance) > d.distance) :
    (DDA.AccelerationCalculation p e u v result d).2
      = (if v > u then (u, p.sqrt (u * u + 2 * d.acceleration * d.distance), change)
         else (p.sqrt (v * v + 2 * d.acceleration * d.distance), v, change)) := by
  unfold DDA.AccelerationCalculation
  dsimp only
  rw [if_pos hcol, if_pos hinf]
  split_ifs <;> rfl

/-- The collapsed branch of `DDA::AccelerationCalculation` when the speeds can be met:
they are kept and the result is `noFlat`. -/
theorem DDA.AccelerationCalculation_fits (p : Platform K) (e : LookAhead K) (u v : K)
    (result : Nat) (d : DDA K)
    (hcol : roundf (1 / 2 * (e.requestedFeedrate * e.requestedFeedrate - u * u)
          / d.acceleration * (d.totalSteps : K) / d.distance)
        ≥ d.totalSteps + roundf (1 / 2 * (v * v - e.requestedFeedrate * e.requestedFeedrate)
          / d.acceleration * (d.totalSteps : K) / d.distance))
    (hfit : ¬ (1 / 2 * (1 / 2 * (v * v - u * u) / d.acceleration + d.distance) < 0
        ∨ 1 / 2 * (1 / 2 * (v * v - u * u) / d.acceleration + d.distance) > d.distance)) :
    (DDA.AccelerationCalculation p e u v result d).2 = (u, v, noFlat) := by
  unfold DDA.AccelerationCalculation
  dsimp only
  rw [if_pos hcol, if_neg hfit]

/-- After the reduction of the infeasible branch, a second
`DDA::AccelerationCalculation` with the reduced speeds, the same feed rate and the same
steps, length and acceleration takes the collapsed branch again and finds that the
speeds fit. -/
theorem DDA.AccelerationCalculation_refit (p : Platform K) (e e2 : LookAhead K) (u v : K)
    (result result2 : Nat) (d d2 : DDA K)
    (hfeed : e2.requestedFeedrate = e.requestedFeedrate)
    (hT2 : d2.totalSteps = d.totalSteps) (hD2 : d2.distance = d.distance)
    (ha2 : d2.acceleration = d.acceleration)
    (hT : 0 < d.totalSteps) (ha : 0 < d.acceleration) (hD : 0 < d.distance)
    (hcol : roundf (1 / 2 * (e.requestedFeedrate * e.requestedFeedrate - u * u)
          / d.acceleration * (d.totalSteps : K) / d.distance)
        ≥ d.totalSteps + roundf (1 / 2 * (v * v - e.requestedFeedrate * e.requestedFeedrate)
          / d.acceleration * (d.totalSteps : K) / d.distance))
    (hinf : |v * v - u * u| > 2 * d.acceleration * d.distance)
    (hsq : (v > u →
        0 ≤ p.sqrt (u * u + 2 * d.acceleration * d.distance) ∧
        p.sqrt (u * u + 2 * d.acceleration * d.distance)
            * p.sqrt (u * u + 2 * d.acceleration * d.distance)
          = u * u + 2 * d.acceleration * d.distance) ∧
      (¬ v > u →
        0 ≤ p.sqrt (v * v + 2 * d.acceleration * d.distance) ∧
        p.sqrt (v * v + 2 * d.acceleration * d.distance)
            * p.sqrt (v * v + 2 * d.acceleration * d.distance)
          = v * v + 2 * d.acceleration * d.distance))
    (hfu : (DDA.AccelerationCalculation p e u v result d).2.1 ≤ e.requestedFeedrate)
    (hfv : (DDA.AccelerationCalculation p e u v result d).2.2.1 ≤ e.requestedFeedrate) :
    (DDA.AccelerationCalculation p e u v result d).2.2.2 = change ∧
    (DDA.AccelerationCalculation p e2
        (DDA.AccelerationCalculation p e u v result d).2.1
        (DDA.AccelerationCalculation p e u v result d).2.2.1 result2 d2).2
      = ((DDA.AccelerationCalculation p e u v result d).2.1,
          (DDA.AccelerationCalculation p e u v result d).2.2.1, noFlat) := by
  have h1 := DDA.AccelerationCalculation_infeasible p e u v result d hcol
    ((dCross_test_iff u v d.acceleration d.distance ha).mpr hinf)
  have hTK : (0 : K) < (d.totalSteps : K) := Int.cast_pos.mpr hT
  have hfr : ∀ s : K, 0 ≤ s → s ≤ e.requestedFeedrate →
      s * s ≤ e.requestedFeedrate * e.requestedFeedrate :=
    fun s h0 hle => mul_le_mul hle hle h0 (le_trans h0 hle)
  by_cases hvu : v > u
  · rw [if_pos hvu] at h1
    obtain ⟨hs0, hss⟩ := hsq.1 hvu
    rw [h1] at hfv ⊢
    dsimp only at hfv ⊢
    generalize p.sqrt (u * u + 2 * d.acceleration * d.distance) = s at hs0 hss hfv ⊢
    refine ⟨rfl, ?_⟩
    have hsf := hfr s hs0 hfv
    apply DDA.AccelerationCalculation_fits
    · rw [hfeed, hT2, hD2, ha2]
      have hy : 1 / 2 * (s * s - e.requestedFeedrate * e.requestedFeedrate)
          / d.acceleration * (d.totalSteps : K) / d.distance ≤ ((0 : Int) : K) := by
        rw [Int.cast_zero]
        have : 1 / 2 * (s * s - e.requestedFeedrate * e.requestedFeedrate) ≤ 0 := by linarith
        exact div_nonpos_of_nonpos_of_nonneg
          (mul_nonpos_of_nonpos_of_nonneg
            (div_nonpos_of_nonpos_of_nonneg this (le_of_lt ha)) (le_of_lt hTK)) (le_of_lt hD)
      have hx : (d.totalSteps : K)
          ≤ 1 / 2 * (e.requestedFeedrate * e.requestedFeedrate - u * u)
            / d.acceleration * (d.totalSteps : K) / d.distance := by
        rw [le_div_iff₀ hD, div_mul_eq_mul_div, le_div_iff₀ ha]
        have : 2 * d.acceleration * d.distance
            ≤ e.requestedFeedrate * e.requestedFeedrate - u * u := by linarith
        nlinarith
      have r1 := roundf_le_of_le _ 0 hy
      have r2 := roundf_ge_of_ge _ d.totalSteps hx
      omega
    · rw [hD2, ha2, hss]
      have : 1 / 2 * (1 / 2 * (u * u + 2 * d.acceleration * d.distance - u * u)
          / d.acceleration + d.distance) = d.distance := by
        have e1 : u * u + 2 * d.acceleration * d.distance - u * u
            = 2 * d.acceleration * d.distance := by ring
        rw [e1]
        exact half_cross_full _ _ (ne_of_gt ha)
      rw [this]
      intro h
      rcases h with h | h
      · exact absurd h (not_lt.mpr (le_of_lt hD))
      · exact absurd h (lt_irrefl _)
  · rw [if_neg hvu] at h1
    obtain ⟨hs0, hss⟩ := hsq.2 hvu
    rw [h1] at hfu ⊢
    dsimp only at hfu ⊢
    generalize p.sqrt (v * v + 2 * d.acceleration * d.distance) = s at hs0 hss hfu ⊢
    refine ⟨rfl, ?_⟩
    have hsf := hfr s hs0 hfu
    apply DDA.AccelerationCalculation_fits
    · rw [hfeed, hT2, hD2, ha2]
      have hx : ((0 : Int) : K)
          ≤ 1 / 2 * (e.requestedFeedrate * e.requestedFeedrate - s * s)
            / d.acceleration * (d.totalSteps : K) / d.distance := by
        rw [Int.cast_zero]
        have : 0 ≤ 1 / 2 * (e.requestedFeedrate * e.requestedFeedrate - s * s) := by linarith
        exact div_nonneg (mul_nonneg (div_nonneg this (le_of_lt ha)) (le_of_lt hTK))
          (le_of_lt hD)
      have hy : 1 / 2 * (v * v - e.requestedFeedrate * e.requestedFeedrate)
          / d.acceleration * (d.totalSteps : K) / d.distance ≤ ((-d.totalSteps : Int) : K) := by
        rw [Int.cast_neg, div_le_iff₀ hD, div_mul_eq_mul_div, div_le_iff₀ ha]
        have : v * v - e.requestedFeedrate * e.requestedFeedrate
            ≤ -(2 * d.acceleration * d.distance) := by linarith
        nlinarith
      have r1 := roundf_ge_of_ge _ 0 hx
      have r2 := roundf_le_of_le _ (-d.totalSteps) hy
      omega
    · rw [hD2, ha2]
      have : 1 / 2 * (1 / 2 * (v * v - s * s) / d.acceleration + d.distance) = 0 := by
        have e1 : v * v - s * s = -(2 * d.acceleration * d.distance) := by
          rw [hss]; ring
        rw [e1]
        exact half_cross_zero _ _ (ne_of_gt ha)
      rw [this]
      intro h
      rcases h with h | h
      · exact absurd h (lt_irrefl _)
      · exact absurd h (not_lt.mpr (le_of_lt hD))

/-- The drive loop of `DDA::Init` computes `totalSteps` and the sum of squares from
the two end points alone. -/
theorem DDA.initLoop_congr (p : Platform K) (t q : Nat → Int) (d0 d1 : DDA K)
    (hT : d1.totalSteps = d0.totalSteps) (hD : d1.distance = d0.distance) (n : Nat) :
    ((List.range n).foldl (fun s drive => DDA.InitDrive p t q drive s) (d1, 0)).1.totalSteps
      = ((List.range n).foldl (fun s drive => DDA.InitDrive p t q drive s)
          (d0, 0)).1.totalSteps ∧
    ((List.range n).foldl (fun s drive => DDA.InitDrive p t q drive s) (d1, 0)).1.distance
      = ((List.range n).foldl (fun s drive => DDA.InitDrive p t q drive s)
          (d0, 0)).1.distance := by
  induction n with
  | zero =>
    simp only [List.range_zero, List.foldl_nil]
    exact ⟨hT, hD⟩
  | succ n ih =>
    simp only [List.range_succ, List.foldl_append, List.foldl_cons, List.foldl_nil]
    generalize (List.range n).foldl (fun s drive => DDA.InitDrive p t q drive s) (d1, 0) = s1
      at ih
    generalize (List.range n).foldl (fun s drive => DDA.InitDrive p t q drive s) (d0, 0) = s0
      at ih
    obtain ⟨i1, i2⟩ := ih
    unfold DDA.InitDrive
    dsimp only
    rw [i1, i2]
    split_ifs <;> exact ⟨rfl, rfl⟩

/-- The same for `DDA.InitSteps`: two Moves whose entries `la` and `Previous la` have
the same end points give the same `totalSteps` and sum of squares, whatever the DDA. -/
theorem DDA.InitSteps_congr (p : Platform K) (m m1 : Move K) (la : Nat) (d d1 : DDA K)
    (h1 : (m1.lookAheadRing la).endPoint = (m.lookAheadRing la).endPoint)
    (h0 : (m1.lookAheadRing (Previous la)).endPoint
      = (m.lookAheadRing (Previous la)).endPoint) :
    (DDA.InitSteps p m1 la d1).1.totalSteps = (DDA.InitSteps p m la d).1.totalSteps ∧
    (DDA.InitSteps p m1 la d1).1.distance = (DDA.InitSteps p m la d).1.distance := by
  unfold DDA.InitSteps
  rw [h1, h0]
  refine DDA.initLoop_congr p _ _ _ _ ?_ ?_ p.DRIVES <;> rfl

/-- The write-back of `Move::DoLookAhead` after `DDA::Init` has returned `change` on a
movement that is not null: the two speeds are stored, the moves stay the same. -/
theorem Move.planEntry_written (p : Platform K) (down : Bool) (la : Nat) (m : Move K)
    (hc : (m.lookAheadRing la).processed &&& complete = 0)
    (hvc : (m.lookAheadRing la).processed &&& vCosineSet ≠ 0)
    (hm : (DDA.Init p m la false m.lookAheadDDA).1 = m)
    (hch : (DDA.Init p m la false m.lookAheadDDA).2.2.2.2 = change) :
    ((Move.planEntry p down (Previous la) la m).lookAheadRing (Previous la)).v
      = (DDA.Init p m la false m.lookAheadDDA).2.2.1 ∧
    ((Move.planEntry p down (Previous la) la m).lookAheadRing la).v
      = (DDA.Init p m la false m.lookAheadDDA).2.2.2.1 ∧
    ((Move.planEntry p down (Previous la) la m).lookAheadRing (Previous la)).endPoint
      = (m.lookAheadRing (Previous la)).endPoint ∧
    ((Move.planEntry p down (Previous la) la m).lookAheadRing la).endPoint
      = (m.lookAheadRing la).endPoint ∧
    ((Move.planEntry p down (Previous la) la m).lookAheadRing la).requestedFeedrate
      = (m.lookAheadRing la).requestedFeedrate ∧
    ((Move.planEntry p down (Previous la) la m).lookAheadRing la).acceleration
      = (m.lookAheadRing la).acceleration := by
  have hne := Previous_ne la
  have hne2 : la ≠ Previous la := Ne.symm hne
  unfold Move.planEntry
  rw [if_pos hc, if_pos hvc]
  dsimp only
  generalize DDA.Init p m la false m.lookAheadDDA = r at hm hch ⊢
  rw [hm, hch, if_pos change_and_change]
  cases down
  · simp only [Bool.false_eq_true, if_false, Move.setEntry_ring, if_true, hne, hne2,
      LookAhead.SetV, and_self]
  · simp only [if_true, Move.setEntry_ring, hne, hne2, if_false, LookAhead.SetV,
      LookAhead.SetProcessed]
    rw [if_neg (by decide)]
    refine ⟨?_, ?_, ?_, ?_, ?_, ?_⟩ <;> first | rfl | trivial

/-- C38. With a square root that is exact where it is applied: if `DDA::Init` on an
entry (in a pass of `Move::DoLookAhead`, movement not null, acceleration and length
positive) goes through the infeasible branch of the collapsed profile
(`stopAStep >= startDStep` and `|v^2 - u^2| > 2*a*d`), it returns `change`, and the
reduced values are written back (`previous.SetV(u)`, `entry.SetV(v)`); then, provided
both written-back speeds do not exceed the requested feed rate of the entry, a second
`DDA::Init` on the same entry returns `noFlat` and hands the two speeds back
unchanged. -/
theorem C38_reduced_speeds_fit_on_second_init (p : Platform K) (m : Move K) (la : Nat)
    (down dbg : Bool) (d2 : DDA K)
    (hc : (m.lookAheadRing la).processed &&& complete = 0)
    (hvc : (m.lookAheadRing la).processed &&& vCosineSet ≠ 0)
    (hT : 0 < (DDA.Init p m la false m.lookAheadDDA).2.1.totalSteps)
    (ha : 0 < (m.lookAheadRing la).acceleration)
    (hD : 0 < (DDA.Init p m la false m.lookAheadDDA).2.1.distance)
    (hcol : roundf (1 / 2 * ((m.lookAheadRing la).requestedFeedrate
              * (m.lookAheadRing la).requestedFeedrate
            - (m.lookAheadRing (Previous la)).v * (m.lookAheadRing (Previous la)).v)
          / (m.lookAheadRing la).acceleration
          * ((DDA.Init p m la false m.lookAheadDDA).2.1.totalSteps : K)
          / (DDA.Init p m la false m.lookAheadDDA).2.1.distance)
        ≥ (DDA.Init p m la false m.lookAheadDDA).2.1.totalSteps
          + roundf (1 / 2 * ((m.lookAheadRing la).v * (m.lookAheadRing la).v
              - (m.lookAheadRing la).requestedFeedrate
                * (m.lookAheadRing la).requestedFeedrate)
            / (m.lookAheadRing la).acceleration
            * ((DDA.Init p m la false m.lookAheadDDA).2.1.totalSteps : K)
            / (DDA.Init p m la false m.lookAheadDDA).2.1.distance))
    (hinf : |(m.lookAheadRing la).v * (m.lookAheadRing la).v
          - (m.lookAheadRing (Previous la)).v * (m.lookAheadRing (Previous la)).v|
        > 2 * (m.lookAheadRing la).acceleration
          * (DDA.Init p m la false m.lookAheadDDA).2.1.distance)
    (hsq : ((m.lookAheadRing la).v > (m.lookAheadRing (Previous la)).v →
        0 ≤ p.sqrt ((m.lookAheadRing (Previous la)).v * (m.lookAheadRing (Previous la)).v
            + 2 * (m.lookAheadRing la).acceleration
              * (DDA.Init p m la false m.lookAheadDDA).2.1.distance) ∧
        p.sqrt ((m.lookAheadRing (Previous la)).v * (m.lookAheadRing (Previous la)).v
              + 2 * (m.lookAheadRing la).acceleration
                * (DDA.Init p m la false m.lookAheadDDA).2.1.distance)
            * p.sqrt ((m.lookAheadRing (Previous la)).v * (m.lookAheadRing (Previous la)).v
              + 2 * (m.lookAheadRing la).acceleration
                * (DDA.Init p m la false m.lookAheadDDA).2.1.distance)
          = (m.lookAheadRing (Previous la)).v * (m.lookAheadRing (Previous la)).v
            + 2 * (m.lookAheadRing la).acceleration
              * (DDA.Init p m la false m.lookAheadDDA).2.1.distance) ∧
      (¬ (m.lookAheadRing la).v > (m.lookAheadRing (Previous la)).v →
        0 ≤ p.sqrt ((m.lookAheadRing la).v * (m.lookAheadRing la).v
            + 2 * (m.lookAheadRing la).acceleration
              * (DDA.Init p m la false m.lookAheadDDA).2.1.distance) ∧
        p.sqrt ((m.lookAheadRing la).v * (m.lookAheadRing la).v
              + 2 * (m.lookAheadRing la).acceleration
                * (DDA.Init p m la false m.lookAheadDDA).2.1.distance)
            * p.sqrt ((m.lookAheadRing la).v * (m.lookAheadRing la).v
              + 2 * (m.lookAheadRing la).acceleration
                * (DDA.Init p m la false m.lookAheadDDA).2.1.distance)
          = (m.lookAheadRing la).v * (m.lookAheadRing la).v
            + 2 * (m.lookAheadRing la).acceleration
              * (DDA.Init p m la false m.lookAheadDDA).2.1.distance))
    (hfu : ((Move.planEntry p down (Previous la) la m).lookAheadRing (Previous la)).v
      ≤ (m.lookAheadRing la).requestedFeedrate)
    (hfv : ((Move.planEntry p down (Previous la) la m).lookAheadRing la).v
      ≤ (m.lookAheadRing la).requestedFeedrate) :
    (DDA.Init p m la false m.lookAheadDDA).2.2.2.2 = change ∧
    ((Move.planEntry p down (Previous la) la m).lookAheadRing (Previous la)).v
      = (DDA.Init p m la false m.lookAheadDDA).2.2.1 ∧
    ((Move.planEntry p down (Previous la) la m).lookAheadRing la).v
      = (DDA.Init p m la false m.lookAheadDDA).2.2.2.1 ∧
    (DDA.Init p (Move.planEntry p down (Previous la) la m) la dbg d2).2.2.2.2 = noFlat ∧
    (DDA.Init p (Move.planEntry p down (Previous la) la m) la dbg d2).2.2.1
      = ((Move.planEntry p down (Previous la) la m).lookAheadRing (Previous la)).v ∧
    (DDA.Init p (Move.planEntry p down (Previous la) la m) la dbg d2).2.2.2.1
      = ((Move.planEntry p down (Previous la) la m).lookAheadRing la).v := by
  have hT0 : 0 < (DDA.InitSteps p m la m.lookAheadDDA).1.totalSteps := by
    rw [← DDA.Init_totalSteps p m la false m.lookAheadDDA]; exact hT
  obtain ⟨em, eu, ev, er, _, _, eT, eD, _⟩ := DDA.Init_calc p m la false m.lookAheadDDA hT0
  rw [eT, eD] at hcol
  rw [eD] at hD hinf hsq
  -- the first call
  have hcol0 : roundf (1 / 2 * ((m.lookAheadRing la).requestedFeedrate
            * (m.lookAheadRing la).requestedFeedrate
          - (m.lookAheadRing (Previous la)).v * (m.lookAheadRing (Previous la)).v)
        / (DDA.InitSetUp p (m.lookAheadRing la)
            (DDA.InitSteps p m la m.lookAheadDDA)).acceleration
        * ((DDA.InitSetUp p (m.lookAheadRing la)
            (DDA.InitSteps p m la m.lookAheadDDA)).totalSteps : K)
        / (DDA.InitSetUp p (m.lookAheadRing la)
            (DDA.InitSteps p m la m.lookAheadDDA)).distance)
      ≥ (DDA.InitSetUp p (m.lookAheadRing la)
            (DDA.InitSteps p m la m.lookAheadDDA)).totalSteps
        + roundf (1 / 2 * ((m.lookAheadRing la).v * (m.lookAheadRing la).v
            - (m.lookAheadRing la).requestedFeedrate
              * (m.lookAheadRing la).requestedFeedrate)
          / (DDA.InitSetUp p (m.lookAheadRing la)
              (DDA.InitSteps p m la m.lookAheadDDA)).acceleration
          * ((DDA.InitSetUp p (m.lookAheadRing la)
              (DDA.InitSteps p m la m.lookAheadDDA)).totalSteps : K)
          / (DDA.InitSetUp p (m.lookAheadRing la)
              (DDA.InitSteps p m la m.lookAheadDDA)).distance) := hcol
  have hch0 : (DDA.AccelerationCalculation p (m.lookAheadRing la)
      (m.lookAheadRing (Previous la)).v (m.lookAheadRing la).v moving
      (DDA.InitSetUp p (m.lookAheadRing la)
        (DDA.InitSteps p m la m.lookAheadDDA))).2.2.2 = change := by
    rw [DDA.AccelerationCalculation_infeasible p _ _ _ _ _ hcol0
      ((dCross_test_iff _ _ _ _ ha).mpr hinf)]
    split_ifs <;> rfl
  have hch : (DDA.Init p m la false m.lookAheadDDA).2.2.2.2 = change := er.trans hch0
  obtain ⟨w0, w1, wp0, wp1, wf, wa⟩ := Move.planEntry_written p down la m hc hvc em hch
  rw [w0, eu] at hfu
  rw [w1, ev] at hfv
  -- the second call
  obtain ⟨sT, sD⟩ := DDA.InitSteps_congr p m (Move.planEntry p down (Previous la) la m) la
    m.lookAheadDDA d2 wp1 wp0
  have hT1 : 0 < (DDA.InitSteps p (Move.planEntry p down (Previous la) la m) la
      d2).1.totalSteps := by rw [sT]; exact hT0
  obtain ⟨_, eu2, ev2, er2, _⟩ :=
    DDA.Init_calc p (Move.planEntry p down (Previous la) la m) la dbg d2 hT1
  have hre := DDA.AccelerationCalculation_refit p (m.lookAheadRing la)
    ((Move.planEntry p down (Previous la) la m).lookAheadRing la)
    (m.lookAheadRing (Previous la)).v (m.lookAheadRing la).v moving moving
    (DDA.InitSetUp p (m.lookAheadRing la) (DDA.InitSteps p m la m.lookAheadDDA))
    (DDA.InitSetUp p ((Move.planEntry p down (Previous la) la m).lookAheadRing la)
      (DDA.InitSteps p (Move.planEntry p down (Previous la) la m) la d2))
    wf sT (by show p.sqrt _ = p.sqrt _; rw [sD]) wa hT0 ha hD hcol0 hinf hsq hfu hfv
  rw [← eu, ← ev] at hre
  rw [← w0, ← w1] at hre
  refine ⟨hch, w0, w1, ?_, ?_, ?_⟩
  · rw [er2, hre.2]
  · rw [eu2, hre.2]
  · rw [ev2, hre.2]

end PhaseFacts

/-- The witness of C38: the move of 3 steps in slot 1 of `exampleRingA`, planned at
speed 30 after a move that ends at speed 1.  The first `DDA::Init` reduces its speed to
7; the second one finds that 1 and 7 fit. -/
theorem C38_witness :
    (DDA.Init examplePlatform (exampleMove exampleRingA 1 2 1) 1 false
      (exampleMove exampleRingA 1 2 1).lookAheadDDA).2.2.2.2 = change ∧
    ((Move.planEntry examplePlatform false (Previous 1) 1
      (exampleMove exampleRingA 1 2 1)).lookAheadRing 1).v
      = (DDA.Init examplePlatform (exampleMove exampleRingA 1 2 1) 1 false
          (exampleMove exampleRingA 1 2 1).lookAheadDDA).2.2.2.1 ∧
    (DDA.Init examplePlatform
      (Move.planEntry examplePlatform false (Previous 1) 1 (exampleMove exampleRingA 1 2 1))
      1 false exampleDDA).2.2.2.2 = noFlat :=
  have h := C38_reduced_speeds_fit_on_second_init examplePlatform
    (exampleMove exampleRingA 1 2 1) 1 false false exampleDDA
    (by decide!) (by decide!) (by decide!) (by decide!) (by decide!) (by decide!)
    (by decide!) (by decide!) (by decide!) (by decide!)
  ⟨h.1, h.2.2.1, h.2.2.2.1⟩

/-! ## Clearing a temperature fault -/

section ToolFaultFacts
variable {K : Type} [LinearOrderedField K]

theorem Tool.SetTemperatureFault_uses (h : Int) (t : Tool K)
    (hu : ∃ heater : Nat, (heater : Int) < t.heaterCount ∧ t.heaters heater = h) :
    Tool.SetTemperatureFault h t = { t with heaterFault := true } := by
  unfold Tool.SetTemperatureFault
  rw [if_pos ((Tool.uses_iff h t).mpr hu)]

theorem Tool.ResetTemperatureFault_uses (h : Int) (t : Tool K)
    (hu : ∃ heater : Nat, (heater : Int) < t.heaterCount ∧ t.heaters heater = h) :
    Tool.ResetTemperatureFault h t = { t with heaterFault := false } := by
  unfold Tool.ResetTemperatureFault
  rw [if_pos ((Tool.uses_iff h t).mpr hu)]

theorem Tool.ResetTemperatureFault_other (h : Int) (t : Tool K)
    (hu : ¬ ∃ heater : Nat, (heater : Int) < t.heaterCount ∧ t.heaters heater = h) :
    Tool.ResetTemperatureFault h t = t := by
  unfold Tool.ResetTemperatureFault
  rw [if_neg (fun c => hu ((Tool.uses_iff h t).mp c))]

/-- C39. `heaterFault` is a single flag per tool, not per heater.
`ClearTemperatureFault(h)` keeps the tools and their order, sets `heaterFault` to false
on every tool that lists `h` and leaves the tools that do not list `h` unchanged; so
for a tool that uses two heaters `h1` and `h2`, after `FlagTemperatureFault(h1)`,
`FlagTemperatureFault(h2)` and then `ClearTemperatureFault(h1)` the flag is false
(and nothing else in the tool has changed) although the fault of `h2` was never
cleared. -/
theorem C39_clearing_one_heater_clears_the_tool (h : Int) (toolList : List (Tool K)) :
    (Tool.ClearTemperatureFault h toolList).length = toolList.length ∧
    (∀ (i : Nat) (t : Tool K), toolList[i]? = some t →
      ((∃ heater : Nat, (heater : Int) < t.heaterCount ∧ t.heaters heater = h) →
        (Tool.ClearTemperatureFault h toolList)[i]? = some { t with heaterFault := false }) ∧
      ((¬ ∃ heater : Nat, (heater : Int) < t.heaterCount ∧ t.heaters heater = h) →
        (Tool.ClearTemperatureFault h toolList)[i]? = some t)) ∧
    (∀ (h2 : Int) (i : Nat) (t : Tool K), toolList[i]? = some t →
      (∃ heater : Nat, (heater : Int) < t.heaterCount ∧ t.heaters heater = h) →
      (∃ heater : Nat, (heater : Int) < t.heaterCount ∧ t.heaters heater = h2) →
      (Tool.FlagTemperatureFault h2 (Tool.FlagTemperatureFault h toolList))[i]?
        = some { t with heaterFault := true } ∧
      (Tool.ClearTemperatureFault h
        (Tool.FlagTemperatureFault h2 (Tool.FlagTemperatureFault h toolList)))[i]?
        = some { t with heaterFault := false }) := by
  unfold Tool.ClearTemperatureFault Tool.FlagTemperatureFault
  refine ⟨List.length_map _ _, fun i t hi => ⟨?_, ?_⟩, ?_⟩
  · intro hu
    rw [List.getElem?_map, hi]
    show some (Tool.ResetTemperatureFault h t) = _
    rw [Tool.ResetTemperatureFault_uses h t hu]
  · intro hu
    rw [List.getElem?_map, hi]
    show some (Tool.ResetTemperatureFault h t) = _
    rw [Tool.ResetTemperatureFault_other h t hu]
  · intro h2 i t hi hu1 hu2
    have e1 : Tool.SetTemperatureFault h t = { t with heaterFault := true } :=
      Tool.SetTemperatureFault_uses h t hu1
    have e2 : Tool.SetTemperatureFault h2 { t with heaterFault := true }
        = { t with heaterFault := true } :=
      Tool.SetTemperatureFault_uses h2 { t with heaterFault := true } hu2
    have e3 : Tool.ResetTemperatureFault h { t with heaterFault := true }
        = { t with heaterFault := false } :=
      Tool.ResetTemperatureFault_uses h { t with heaterFault := true } hu1
    constructor
    · rw [List.getElem?_map, List.getElem?_map, hi]
      show some (Tool.SetTemperatureFault h2 (Tool.SetTemperatureFault h t)) = _
      rw [e1, e2]
    · rw [List.getElem?_map, List.getElem?_map, List.getElem?_map, hi]
      show some (Tool.ResetTemperatureFault h
        (Tool.SetTemperatureFault h2 (Tool.SetTemperatureFault h t))) = _
      rw [e1, e2, e3]

end ToolFaultFacts

/-- Tool 1 of the example list uses heaters 1 and 2: after both are flagged and the
fault of heater 1 is cleared, the tool is not flagged any more. -/
theorem C39_witness :
    (Tool.ClearTemperatureFault 1
      (Tool.FlagTemperatureFault 2 (Tool.FlagTemperatureFault 1 exampleToolList)))[1]?
      = some { exampleTools 1 with heaterFault := false } :=
  ((C39_clearing_one_heater_clears_the_tool 1 exampleToolList).2.2 2 1 (exampleTools 1) rfl
    ⟨0, (by decide), rfl⟩ ⟨1, (by decide), rfl⟩).2

/-! ## The planner on a move that snaps to a flat profile -/

/-- C3 (the code at the failing input).  `exampleSnapMove` is the state after
`Move::Init` and three accepted `Move::LookAheadRingAdd` calls: moves of 1 unit along
X at feed rates 40 (A, slot 3), 40.2 (slot 4) and 30 (slot 5), behind the released
origin (slot 2, end speed 1).  A `Move::DoLookAhead` while data is incoming sets the
junction speeds; on entry to the next call, made when the data has run out, A is not
complete and has `vCosineSet`, so the passes do not skip it.  The up pass runs
`DDA::Init` on A, which finds 1 -> 40 feasible over 1 unit (1600 <= 1 + 1600) and
changes nothing; it then runs `DDA::Init` on the move in slot 4 with `u = 40`,
`v = 40.2`, which takes the snap branch of `AccelerationCalculation` (`stopAStep = 0`,
`startDStep = totalSteps`) and returns `change` with `u = v = 40.2`, and the
write-back `n0->SetV(u)` raises `A.V()` to 40.2.  The down pass ends before it reaches
A, and `n0->SetProcessed(complete)` marks A complete.  On return A is complete with
`V() = 40.2`, its predecessor has `V() = 1`, A has acceleration 800 and `DDA::Init`
computes the length 1 for it: `A.V()^2 = 1616.04 > 1601 = 1^2 + 2 * 800 * 1`, so
`A.V()` is above `sqrt(predecessor.V()^2 + 2 * A.Acceleration() * d_A)`, and above
every number whose square is at most that sum. -/
theorem C3_snap_write_back_leaves_pair_out_of_reach :
    Move.Reachable examplePlatform (Move.DoLookAhead examplePlatform true exampleSnapMove) ∧
    ((Move.DoLookAhead examplePlatform true exampleSnapMove).lookAheadRing 3).processed
      = vCosineSet ∧
    (DDA.Init examplePlatform (Move.DoLookAhead examplePlatform true exampleSnapMove) 3 false
        exampleDDA).2.2 = (1, 40, noFlat) ∧
    (DDA.Init examplePlatform (Move.DoLookAhead examplePlatform true exampleSnapMove) 4 false
        exampleDDA).2.2 = (201 / 5, 201 / 5, change) ∧
    ((Move.DoLookAhead examplePlatform false
        (Move.DoLookAhead examplePlatform true exampleSnapMove)).lookAheadRing 3).processed
      &&& complete ≠ 0 ∧
    ((Move.DoLookAhead examplePlatform false
        (Move.DoLookAhead examplePlatform true exampleSnapMove)).lookAheadRing 3).v = 201 / 5 ∧
    ((Move.DoLookAhead examplePlatform false
        (Move.DoLookAhead examplePlatform true exampleSnapMove)).lookAheadRing 2).v = 1 ∧
    ((Move.DoLookAhead examplePlatform false
        (Move.DoLookAhead examplePlatform true exampleSnapMove)).lookAheadRing 3).acceleration
      = 800 ∧
    (DDA.Init examplePlatform (Move.DoLookAhead examplePlatform false
        (Move.DoLookAhead examplePlatform true exampleSnapMove)) 3 false exampleDDA).2.1.distance
      = 1 ∧
    ¬ (((Move.DoLookAhead examplePlatform false
          (Move.DoLookAhead examplePlatform true exampleSnapMove)).lookAheadRing 3).v
        * ((Move.DoLookAhead examplePlatform false
          (Move.DoLookAhead examplePlatform true exampleSnapMove)).lookAheadRing 3).v
      ≤ ((Move.DoLookAhead examplePlatform false
          (Move.DoLookAhead examplePlatform true exampleSnapMove)).lookAheadRing 2).v
        * ((Move.DoLookAhead examplePlatform false
          (Move.DoLookAhead examplePlatform true exampleSnapMove)).lookAheadRing 2).v
        + 2 * ((Move.DoLookAhead examplePlatform false
            (Move.DoLookAhead examplePlatform true exampleSnapMove)).lookAheadRing 3).acceleration
          * (DDA.Init examplePlatform (Move.DoLookAhead examplePlatform false
              (Move.DoLookAhead examplePlatform true exampleSnapMove)) 3 false
              exampleDDA).2.1.distance) ∧
    (∀ s : ℚ, 0 ≤ s →
      s * s ≤ ((Move.DoLookAhead examplePlatform false
          (Move.DoLookAhead examplePlatform true exampleSnapMove)).lookAheadRing 2).v
        * ((Move.DoLookAhead examplePlatform false
          (Move.DoLookAhead examplePlatform true exampleSnapMove)).lookAheadRing 2).v
        + 2 * ((Move.DoLookAhead examplePlatform false
            (Move.DoLookAhead examplePlatform true exampleSnapMove)).lookAheadRing 3).acceleration
          * (DDA.Init examplePlatform (Move.DoLookAhead examplePlatform false
              (Move.DoLookAhead examplePlatform true exampleSnapMove)) 3 false
              exampleDDA).2.1.distance →
      s < ((Move.DoLookAhead examplePlatform false
          (Move.DoLookAhead examplePlatform true exampleSnapMove)).lookAheadRing 3).v) := by
  have hreach : Move.Reachable examplePlatform
      (Move.DoLookAhead examplePlatform true exampleSnapMove) :=
    Move.Reachable.doLookAhead _ _
      (Move.Reachable.add _ _ _ _ _ _ _ _
        (Move.Reachable.add _ _ _ _ _ _ _ _
          (Move.Reachable.add _ _ _ _ _ _ _ _ (Move.Reachable.init _ _ _))))
  have hv : ((Move.DoLookAhead examplePlatform false
      (Move.DoLookAhead examplePlatform true exampleSnapMove)).lookAheadRing 3).v = 201 / 5 := by
    decide!
  have hu : ((Move.DoLookAhead examplePlatform false
      (Move.DoLookAhead examplePlatform true exampleSnapMove)).lookAheadRing 2).v = 1 := by
    decide!
  have ha : ((Move.DoLookAhead examplePlatform false
      (Move.DoLookAhead examplePlatform true exampleSnapMove)).lookAheadRing 3).acceleration
      = 800 := by
    decide!
  have hd : (DDA.Init examplePlatform (Move.DoLookAhead examplePlatform false
      (Move.DoLookAhead examplePlatform true exampleSnapMove)) 3 false exampleDDA).2.1.distance
      = 1 := by
    decide!
  refine ⟨hreach, by decide!, by decide!, by decide!, by decide!, hv, hu, ha, hd, ?_, ?_⟩
  · rw [hv, hu, ha, hd]
    norm_num
  · intro s hs h
    rw [hu, ha, hd] at h
    rw [hv]
    by_contra hcon
    have h1 : (201 / 5 : ℚ) ≤ s := not_lt.mp hcon
    nlinarith

/-! ## Released entries and the planner -/

section ReleasedFacts
variable {K : Type} [LinearOrderedField K] [FloorRing K]

theorem Next_Previous (i : Nat) (h : i < LOOK_AHEAD_RING_LENGTH) : Next (Previous i) = i := by
  unfold Previous Next LOOK_AHEAD_RING_LENGTH at *; omega

/-- Both passes skip an entry that is complete or has no `vCosineSet`. -/
theorem Move.planEntry_skip (p : Platform K) (down : Bool) (n0 n1 : Nat) (m : Move K)
    (h : (m.lookAheadRing n1).processed &&& complete ≠ 0 ∨
      (m.lookAheadRing n1).processed &&& vCosineSet = 0) :
    Move.planEntry p down n0 n1 m = m := by
  unfold Move.planEntry
  rcases h with h | h
  · rw [if_neg h]
  · by_cases hc : (m.lookAheadRing n1).processed &&& complete = 0
    · rw [if_pos hc, if_neg (not_not.mpr h)]
    · rw [if_neg hc]

/-- A planning step writes, besides the entry `n1` it plans, at most the `v` of the
entry `n0`, and that only when it does plan `n1`. -/
theorem Move.planEntry_ring (p : Platform K) (down : Bool) (n0 n1 : Nat) (m : Move K)
    (j : Nat) (hj : j ≠ n1) :
    (Move.planEntry p down n0 n1 m).lookAheadRing j = m.lookAheadRing j ∨
    (j = n0 ∧ ∃ x, (Move.planEntry p down n0 n1 m).lookAheadRing j
      = LookAhead.SetV x (m.lookAheadRing j)) := by
  unfold Move.planEntry
  by_cases hc : (m.lookAheadRing n1).processed &&& complete = 0
  · rw [if_pos hc]
    by_cases hvc : (m.lookAheadRing n1).processed &&& vCosineSet ≠ 0
    · rw [if_pos hvc]
      have hring := DDA.Init_ring p m n1 false m.lookAheadDDA j hj
      dsimp only
      generalize DDA.Init p m n1 false m.lookAheadDDA = r at hring ⊢
      have key : (if r.2.2.2.2 &&& change ≠ 0 then
              Move.setEntry
                (Move.setEntry { r.1 with lookAheadDDA := r.2.1 } n0
                  (LookAhead.SetV r.2.2.1 (r.1.lookAheadRing n0)))
                n1 (LookAhead.SetV r.2.2.2.1
                  ((Move.setEntry { r.1 with lookAheadDDA := r.2.1 } n0
                    (LookAhead.SetV r.2.2.1 (r.1.lookAheadRing n0))).lookAheadRing n1))
            else { r.1 with lookAheadDDA := r.2.1 }).lookAheadRing j = m.lookAheadRing j ∨
          (j = n0 ∧ ∃ x, (if r.2.2.2.2 &&& change ≠ 0 then
              Move.setEntry
                (Move.setEntry { r.1 with lookAheadDDA := r.2.1 } n0
                  (LookAhead.SetV r.2.2.1 (r.1.lookAheadRing n0)))
                n1 (LookAhead.SetV r.2.2.2.1
                  ((Move.setEntry { r.1 with lookAheadDDA := r.2.1 } n0
                    (LookAhead.SetV r.2.2.1 (r.1.lookAheadRing n0))).lookAheadRing n1))
            else { r.1 with lookAheadDDA := r.2.1 }).lookAheadRing j
              = LookAhead.SetV x (m.lookAheadRing j)) := by
        split_ifs with hch
        · simp only [Move.setEntry_ring, hj, if_false]
          by_cases hj0 : j = n0
          · subst hj0
            simp only [if_true]
            rw [hring]
            exact Or.inr ⟨trivial, _, rfl⟩
          · simp only [hj0, if_false]
            exact Or.inl hring
        · exact Or.inl hring
      cases down
      · simp only [Bool.false_eq_true, if_false]
        exact key
      · simp only [if_true, Move.setEntry_ring, hj, if_false]
        exact key
    · rw [if_neg hvc]; exact Or.inl rfl
  · rw [if_neg hc]; exact Or.inl rfl

/-- A planning step leaves alone a released entry whose successor is complete or has
no `vCosineSet`, and the successor stays as it is in that respect. -/
theorem Move.planEntry_keep (p : Platform K) (down : Bool) (n0 n1 : Nat) (m : Move K)
    (i : Nat) (hn1 : n1 < LOOK_AHEAD_RING_LENGTH) (hn0 : n0 = Previous n1)
    (hr : (m.lookAheadRing i).processed = released)
    (hnext : (m.lookAheadRing (Next i)).processed &&& complete ≠ 0 ∨
      (m.lookAheadRing (Next i)).processed &&& vCosineSet = 0) :
    (Move.planEntry p down n0 n1 m).lookAheadRing i = m.lookAheadRing i ∧
    ((Move.planEntry p down n0 n1 m).lookAheadRing (Next i)).processed
      = (m.lookAheadRing (Next i)).processed := by
  by_cases hplan : (m.lookAheadRing n1).processed &&& complete ≠ 0 ∨
      (m.lookAheadRing n1).processed &&& vCosineSet = 0
  · rw [Move.planEntry_skip p down n0 n1 m hplan]
    exact ⟨rfl, rfl⟩
  · have hi1 : i ≠ n1 := by
      intro h
      subst h
      apply hplan
      right
      rw [hr]
      decide
    have hs1 : Next i ≠ n1 := by
      intro h
      rw [h] at hnext
      exact hplan hnext
    constructor
    · rcases Move.planEntry_ring p down n0 n1 m i hi1 with h | ⟨h0, -⟩
      · exact h
      · exfalso
        apply hs1
        rw [h0, hn0]
        exact Next_Previous n1 hn1
    · rcases Move.planEntry_ring p down n0 n1 m (Next i) hs1 with h | ⟨-, x, h⟩
      · rw [h]
      · rw [h]
        rfl

theorem Move.upLoop_n1_lt (p : Platform K) (k : Nat) (s : PlanState K)
    (h1 : s.n1 < LOOK_AHEAD_RING_LENGTH) (h2 : s.n2 = Next s.n1) :
    (Move.upLoop p k s).n1 < LOOK_AHEAD_RING_LENGTH := by
  induction k generalizing s with
  | zero => exact h1
  | succ k ih =>
    rw [Move.upLoop]
    apply ih
    · show s.n2 < _
      rw [h2]; exact Next_lt _
    · rfl

theorem Move.upLoop_keep (p : Platform K) (k : Nat) (s : PlanState K) (i : Nat)
    (h1 : s.n1 < LOOK_AHEAD_RING_LENGTH) (h0 : s.n0 = Previous s.n1) (h2 : s.n2 = Next s.n1)
    (hr : (s.move.lookAheadRing i).processed = released)
    (hnext : (s.move.lookAheadRing (Next i)).processed &&& complete ≠ 0 ∨
      (s.move.lookAheadRing (Next i)).processed &&& vCosineSet = 0) :
    (Move.upLoop p k s).move.lookAheadRing i = s.move.lookAheadRing i ∧
    ((Move.upLoop p k s).move.lookAheadRing (Next i)).processed
      = (s.move.lookAheadRing (Next i)).processed := by
  induction k generalizing s with
  | zero => exact ⟨rfl, rfl⟩
  | succ k ih =>
    rw [Move.upLoop]
    obtain ⟨a, b⟩ := Move.planEntry_keep p false s.n0 s.n1 s.move i h1 h0 hr hnext
    obtain ⟨c, d⟩ := ih
      { move := Move.planEntry p false s.n0 s.n1 s.move, n0 := s.n1, n1 := s.n2, n2 := Next s.n2 }
      (by show s.n2 < _; rw [h2]; exact Next_lt _)
      (by show s.n1 = Previous s.n2; rw [h2, Previous_Next _ h1])
      rfl
      (by show ((Move.planEntry p false s.n0 s.n1 s.move).lookAheadRing i).processed = _
          rw [a]; exact hr)
      (by show ((Move.planEntry p false s.n0 s.n1 s.move).lookAheadRing (Next i)).processed
            &&& complete ≠ 0 ∨ _
          rw [b]; exact hnext)
    exact ⟨c.trans a, d.trans b⟩

theorem Move.downLoop_keep (p : Platform K) (k : Nat) (s : PlanState K) (i : Nat)
    (h1 : s.n1 < LOOK_AHEAD_RING_LENGTH) (h0 : s.n0 = Previous s.n1)
    (hr : (s.move.lookAheadRing i).processed = released)
    (hnext : (s.move.lookAheadRing (Next i)).processed &&& complete ≠ 0 ∨
      (s.move.lookAheadRing (Next i)).processed &&& vCosineSet = 0) :
    (Move.downLoop p k s).move.lookAheadRing i = s.move.lookAheadRing i ∧
    ((Move.downLoop p k s).move.lookAheadRing (Next i)).processed
      = (s.move.lookAheadRing (Next i)).processed := by
  induction k generalizing s with
  | zero => exact Move.planEntry_keep p true s.n0 s.n1 s.move i h1 h0 hr hnext
  | succ k ih =>
    rw [Move.downLoop]
    obtain ⟨a, b⟩ := Move.planEntry_keep p true s.n0 s.n1 s.move i h1 h0 hr hnext
    obtain ⟨c, d⟩ := ih
      { move := Move.planEntry p true s.n0 s.n1 s.move, n0 := Previous s.n0, n1 := s.n0,
        n2 := s.n1 }
      (by show s.n0 < _; rw [h0]; exact Previous_lt _)
      rfl
      (by show ((Move.planEntry p true s.n0 s.n1 s.move).lookAheadRing i).processed = _
          rw [a]; exact hr)
      (by show ((Move.planEntry p true s.n0 s.n1 s.move).lookAheadRing (Next i)).processed
            &&& complete ≠ 0 ∨ _
          rw [b]; exact hnext)
    exact ⟨c.trans a, d.trans b⟩

/-- The up and down passes leave alone a released entry that is not at the get cursor
and whose successor is complete or has no `vCosineSet`. -/
theorem Move.reachabilityPasses_keep (p : Platform K) (m : Move K) (i : Nat)
    (hg : m.lookAheadRingGetPointer < LOOK_AHEAD_RING_LENGTH)
    (hr : (m.lookAheadRing i).processed = released)
    (hig : i ≠ m.lookAheadRingGetPointer)
    (hnext : (m.lookAheadRing (Next i)).processed &&& complete ≠ 0 ∨
      (m.lookAheadRing (Next i)).processed &&& vCosineSet = 0) :
    (Move.reachabilityPasses p m).lookAheadRing i = m.lookAheadRing i := by
  unfold Move.reachabilityPasses
  dsimp only
  generalize hk : ringDistance (Next m.lookAheadRingGetPointer) m.lookAheadRingAddPointer = k
  obtain ⟨u1, u2⟩ := Move.upLoop_keep p k
    { move := m, n0 := Previous m.lookAheadRingGetPointer, n1 := m.lookAheadRingGetPointer,
      n2 := Next m.lookAheadRingGetPointer } i hg rfl rfl hr hnext
  have hc0 := Move.upLoop_cursor p k
    { move := m, n0 := Previous m.lookAheadRingGetPointer, n1 := m.lookAheadRingGetPointer,
      n2 := Next m.lookAheadRingGetPointer } rfl rfl hg
  have hc1 := Move.upLoop_n1_lt p k
    { move := m, n0 := Previous m.lookAheadRingGetPointer, n1 := m.lookAheadRingGetPointer,
      n2 := Next m.lookAheadRingGetPointer } hg rfl
  generalize Move.upLoop p k
    { move := m, n0 := Previous m.lookAheadRingGetPointer, n1 := m.lookAheadRingGetPointer,
      n2 := Next m.lookAheadRingGetPointer } = s1 at u1 u2 hc0 hc1 ⊢
  dsimp only at u1 u2
  have hcur := Move.downLoop_cursor p (ringDistance m.lookAheadRingGetPointer (Previous s1.n0)) s1
  rw [Function.iterate_succ_apply,
    iterate_Previous_ringDistance _ hg _ (Previous_lt _)] at hcur
  obtain ⟨d1, -⟩ := Move.downLoop_keep p
    (ringDistance m.lookAheadRingGetPointer (Previous s1.n0)) s1 i hc1 hc0
    (by rw [u1]; exact hr) (by rw [u2]; exact hnext)
  generalize Move.downLoop p (ringDistance m.lookAheadRingGetPointer (Previous s1.n0)) s1
    = s2 at hcur d1 ⊢
  rw [Move.setEntry_ring, hcur, if_neg hig, d1, u1]

/-- A junction step leaves a released entry alone. -/
theorem Move.junctionEntry_released (p : Platform K) (n1 n2 : Nat) (m : Move K) (i : Nat)
    (hr : (m.lookAheadRing i).processed = released) :
    (Move.junctionEntry p n1 n2 m).lookAheadRing i = m.lookAheadRing i := by
  unfold Move.junctionEntry
  by_cases hu : (m.lookAheadRing n1).processed = unprocessed
  · rw [if_pos hu]
    have hi : i ≠ n1 := by
      intro hin
      subst hin
      rw [hr] at hu
      exact released_ne_unprocessed hu
    simp only [Move.setEntry_ring, hi, if_false]
    exact Move.Cosine_ring p m n1 i hi
  · rw [if_neg hu]

theorem Move.junctionLoop_released (p : Platform K) (k : Nat) (s : PlanState K) (i : Nat)
    (hr : (s.move.lookAheadRing i).processed = released) :
    (Move.junctionLoop p k s).move.lookAheadRing i = s.move.lookAheadRing i := by
  induction k generalizing s with
  | zero => rfl
  | succ k ih =>
    rw [Move.junctionLoop]
    have a := Move.junctionEntry_released p s.n1 s.n2 s.move i hr
    have c := ih
      { move := Move.junctionEntry p s.n1 s.n2 s.move, n0 := s.n1, n1 := s.n2, n2 := Next s.n2 }
      (by show ((Move.junctionEntry p s.n1 s.n2 s.move).lookAheadRing i).processed = _
          rw [a]; exact hr)
    exact c.trans a

/-- The junction pass leaves alone a released entry that is not just before the add
cursor. -/
theorem Move.junctionPass_released (p : Platform K) (hid : Bool) (m : Move K) (i : Nat)
    (hg : m.lookAheadRingGetPointer < LOOK_AHEAD_RING_LENGTH)
    (ha : m.lookAheadRingAddPointer < LOOK_AHEAD_RING_LENGTH)
    (hr : (m.lookAheadRing i).processed = released)
    (hia : i ≠ Previous m.lookAheadRingAddPointer) :
    (Move.junctionPass p hid m).lookAheadRing i = m.lookAheadRing i := by
  unfold Move.junctionPass
  dsimp only
  have hcur := Move.junctionLoop_cursor p
    (ringDistance (Next m.lookAheadRingGetPointer) m.lookAheadRingAddPointer)
    { move := m, n0 := Previous m.lookAheadRingGetPointer, n1 := m.lookAheadRingGetPointer,
      n2 := Next m.lookAheadRingGetPointer } rfl
  rw [iterate_Next_ringDistance _ hg _ ha] at hcur
  have hfr := Move.junctionLoop_released p
    (ringDistance (Next m.lookAheadRingGetPointer) m.lookAheadRingAddPointer)
    { move := m, n0 := Previous m.lookAheadRingGetPointer, n1 := m.lookAheadRingGetPointer,
      n2 := Next m.lookAheadRingGetPointer } i hr
  generalize Move.junctionLoop p
    (ringDistance (Next m.lookAheadRingGetPointer) m.lookAheadRingAddPointer)
    { move := m, n0 := Previous m.lookAheadRingGetPointer, n1 := m.lookAheadRingGetPointer,
      n2 := Next m.lookAheadRingGetPointer } = s1 at hcur hfr ⊢
  by_cases hstop : m.addNoMoreMoves = true ∨ ¬ hid = true
  · rw [if_pos hstop]
    rw [Move.setEntry_ring, hcur, if_neg hia, Move.setEntry_ring, if_neg hia]
    exact hfr
  · rw [if_neg hstop]
    exact hfr

/-- `Move::DoLookAhead` changes no field of an entry that is released on entry to the
call, is neither at the get cursor nor just before the add cursor, and whose successor
is complete or has no `vCosineSet` (so that neither pass plans the successor). -/
theorem Move.DoLookAhead_released (p : Platform K) (hid : Bool) (m : Move K) (i : Nat)
    (hg : m.lookAheadRingGetPointer < LOOK_AHEAD_RING_LENGTH)
    (ha : m.lookAheadRingAddPointer < LOOK_AHEAD_RING_LENGTH)
    (hr : (m.lookAheadRing i).processed = released)
    (hig : i ≠ m.lookAheadRingGetPointer)
    (hia : i ≠ Previous m.lookAheadRingAddPointer)
    (hnext : (m.lookAheadRing (Next i)).processed &&& complete ≠ 0 ∨
      (m.lookAheadRing (Next i)).processed &&& vCosineSet = 0) :
    (Move.DoLookAhead p hid m).lookAheadRing i = m.lookAheadRing i := by
  unfold Move.DoLookAhead
  by_cases he : Move.LookAheadRingEmpty m = true
  · rw [if_pos he]
  · rw [if_neg he]
    dsimp only
    have h1 : (if m.addNoMoreMoves = true ∨ ¬ hid = true ∨ m.lookAheadRingCount > LOOK_AHEAD
          then Move.reachabilityPasses p m else m).lookAheadRing i = m.lookAheadRing i ∧
        Move.SameQueue m
          (if m.addNoMoreMoves = true ∨ ¬ hid = true ∨ m.lookAheadRingCount > LOOK_AHEAD
            then Move.reachabilityPasses p m else m) := by
      split_ifs
      · exact ⟨Move.reachabilityPasses_keep p m i hg hr hig hnext,
          (Move.reachabilityPasses_same p m).1⟩
      · exact ⟨rfl, Move.SameQueue_refl m⟩
    generalize (if m.addNoMoreMoves = true ∨ ¬ hid = true ∨ m.lookAheadRingCount > LOOK_AHEAD
          then Move.reachabilityPasses p m else m) = m1 at h1 ⊢
    obtain ⟨h1a, h1b, h1c, -⟩ := h1
    split_ifs
    · rw [Move.junctionPass_released p hid m1 i (by rw [h1c]; exact hg) (by rw [h1b]; exact ha)
        (by rw [h1a]; exact hr) (by rw [h1b]; exact hia)]
      exact h1a
    · exact h1a

end ReleasedFacts

/-! ### Entries outside the queue are complete or released -/

section DoneFacts
variable {K : Type} [LinearOrderedField K] [FloorRing K]

omit [LinearOrderedField K] [FloorRing K] in
/-- Neither pass plans an entry that is complete or released. -/
theorem LookAhead.Done_not_planned (e : LookAhead K) (h : LookAhead.Done e) :
    e.processed &&& complete ≠ 0 ∨ e.processed &&& vCosineSet = 0 := by
  rcases h with h | h
  · exact Or.inl h
  · right
    rw [h]
    decide

omit [LinearOrderedField K] [FloorRing K] in
theorem LookAhead.Done_complete (e : LookAhead K) :
    LookAhead.Done (LookAhead.SetProcessed complete e) := by
  unfold LookAhead.SetProcessed
  rw [if_neg (by decide)]
  exact Or.inl (or_complete_and_complete _)

omit [LinearOrderedField K] [FloorRing K] in
theorem LookAhead.not_Done_unprocessed (e : LookAhead K) (h : e.processed = unprocessed) :
    ¬ LookAhead.Done e := by
  unfold LookAhead.Done
  rw [h]
  decide

omit [LinearOrderedField K] [FloorRing K] in
theorem Move.KeepsDone_refl (m : Move K) : Move.KeepsDone m m := fun _ h => h

omit [LinearOrderedField K] [FloorRing K] in
theorem Move.KeepsDone_trans (m m1 m2 : Move K) (h1 : Move.KeepsDone m m1)
    (h2 : Move.KeepsDone m1 m2) : Move.KeepsDone m m2 :=
  fun j h => h2 j (h1 j h)

omit [FloorRing K] in
/-- Writing an entry that is complete or released whenever the one it replaces was. -/
theorem Move.setEntry_done (m0 m : Move K) (i : Nat) (e : LookAhead K)
    (h : Move.KeepsDone m0 m)
    (he : LookAhead.Done (m.lookAheadRing i) → LookAhead.Done e) :
    Move.KeepsDone m0 (Move.setEntry m i e) := by
  intro j hj
  rw [Move.setEntry_ring]
  by_cases hji : j = i
  · rw [if_pos hji]
    exact he (hji ▸ h j hj)
  · rw [if_neg hji]
    exact h j hj

theorem DDA.Init_done (p : Platform K) (m : Move K) (la : Nat) (dbg : Bool) (d : DDA K) :
    Move.KeepsDone m (DDA.Init p m la dbg d).1 := by
  rcases DDA.Init_move p m la dbg d with h | h
  · rw [h]
    exact Move.KeepsDone_refl m
  · rw [h]
    exact Move.setEntry_done m m la _ (Move.KeepsDone_refl m) (fun _ => Or.inr rfl)

theorem Move.planEntry_done (p : Platform K) (down : Bool) (n0 n1 : Nat) (m : Move K) :
    Move.KeepsDone m (Move.planEntry p down n0 n1 m) := by
  unfold Move.planEntry
  by_cases hc : (m.lookAheadRing n1).processed &&& complete = 0
  · rw [if_pos hc]
    by_cases hvc : (m.lookAheadRing n1).processed &&& vCosineSet ≠ 0
    · rw [if_pos hvc]
      dsimp only
      have h0 := DDA.Init_done p m n1 false m.lookAheadDDA
      generalize DDA.Init p m n1 false m.lookAheadDDA = r at h0 ⊢
      have h1 : Move.KeepsDone m { r.1 with lookAheadDDA := r.2.1 } := h0
      by_cases hch : r.2.2.2.2 &&& change ≠ 0
      · simp only [if_pos hch]
        cases down
        · simp only [Bool.false_eq_true, if_false]
          exact Move.setEntry_done m _ n1 _ (Move.setEntry_done m _ n0 _ h1 (fun h => h))
            (fun h => h)
        · simp only [if_true]
          exact Move.setEntry_done m _ n1 _
            (Move.setEntry_done m _ n1 _ (Move.setEntry_done m _ n0 _ h1 (fun h => h))
              (fun h => h))
            (fun _ => LookAhead.Done_complete _)
      · simp only [if_neg hch]
        cases down
        · simp only [Bool.false_eq_true, if_false]
          exact h1
        · simp only [if_true]
          exact Move.setEntry_done m _ n1 _ h1 (fun _ => LookAhead.Done_complete _)
    · rw [if_neg hvc]
      exact Move.KeepsDone_refl m
  · rw [if_neg hc]
    exact Move.KeepsDone_refl m

theorem Move.Cosine_done (p : Platform K) (m : Move K) (i : Nat) :
    Move.KeepsDone m (Move.Cosine p m i).1 := by
  unfold Move.Cosine
  by_cases hc : (m.lookAheadRing i).cosine < 3 / 2
  · rw [if_pos hc]
    exact Move.KeepsDone_refl m
  · rw [if_neg hc]
    exact Move.setEntry_done m m i _ (Move.KeepsDone_refl m) (fun h => h)

/-- A junction step only touches an unprocessed entry, which is neither complete nor
released. -/
theorem Move.junctionEntry_done (p : Platform K) (n1 n2 : Nat) (m : Move K) :
    Move.KeepsDone m (Move.junctionEntry p n1 n2 m) := by
  unfold Move.junctionEntry
  by_cases hu : (m.lookAheadRing n1).processed = unprocessed
  · rw [if_pos hu]
    intro j hj
    have hjn : j ≠ n1 := by
      intro h
      subst h
      exact LookAhead.not_Done_unprocessed _ hu hj
    simp only [Move.setEntry_ring, hjn, if_false]
    rw [Move.Cosine_ring p m n1 j hjn]
    exact hj
  · rw [if_neg hu]
    exact Move.KeepsDone_refl m

theorem Move.upLoop_done (p : Platform K) (k : Nat) (s : PlanState K) :
    Move.KeepsDone s.move (Move.upLoop p k s).move := by
  induction k generalizing s with
  | zero => exact Move.KeepsDone_refl _
  | succ k ih =>
    rw [Move.upLoop]
    exact Move.KeepsDone_trans _ _ _ (Move.planEntry_done p false s.n0 s.n1 s.move)
      (ih { move := Move.planEntry p false s.n0 s.n1 s.move, n0 := s.n1, n1 := s.n2,
            n2 := Next s.n2 })

theorem Move.downLoop_done (p : Platform K) (k : Nat) (s : PlanState K) :
    Move.KeepsDone s.move (Move.downLoop p k s).move := by
  induction k generalizing s with
  | zero => exact Move.planEntry_done p true s.n0 s.n1 s.move
  | succ k ih =>
    rw [Move.downLoop]
    exact Move.KeepsDone_trans _ _ _ (Move.planEntry_done p true s.n0 s.n1 s.move)
      (ih { move := Move.planEntry p true s.n0 s.n1 s.move, n0 := Previous s.n0, n1 := s.n0,
            n2 := s.n1 })

theorem Move.junctionLoop_done (p : Platform K) (k : Nat) (s : PlanState K) :
    Move.KeepsDone s.move (Move.junctionLoop p k s).move := by
  induction k generalizing s with
  | zero => exact Move.KeepsDone_refl _
  | succ k ih =>
    rw [Move.junctionLoop]
    exact Move.KeepsDone_trans _ _ _ (Move.junctionEntry_done p s.n1 s.n2 s.move)
      (ih { move := Move.junctionEntry p s.n1 s.n2 s.move, n0 := s.n1, n1 := s.n2,
            n2 := Next s.n2 })

theorem Move.reachabilityPasses_done (p : Platform K) (m : Move K) :
    Move.KeepsDone m (Move.reachabilityPasses p m) := by
  unfold Move.reachabilityPasses
  dsimp only
  generalize ringDistance (Next m.lookAheadRingGetPointer) m.lookAheadRingAddPointer = k
  have h1 := Move.upLoop_done p k
    { move := m, n0 := Previous m.lookAheadRingGetPointer, n1 := m.lookAheadRingGetPointer,
      n2 := Next m.lookAheadRingGetPointer }
  generalize Move.upLoop p k
    { move := m, n0 := Previous m.lookAheadRingGetPointer, n1 := m.lookAheadRingGetPointer,
      n2 := Next m.lookAheadRingGetPointer } = s1 at h1 ⊢
  generalize ringDistance m.lookAheadRingGetPointer (Previous s1.n0) = k2
  have h2 := Move.downLoop_done p k2 s1
  generalize Move.downLoop p k2 s1 = s2 at h2 ⊢
  exact Move.setEntry_done m s2.move s2.n0 _ (Move.KeepsDone_trans _ _ _ h1 h2)
    (fun _ => LookAhead.Done_complete _)

theorem Move.junctionPass_done (p : Platform K) (hid : Bool) (m : Move K) :
    Move.KeepsDone m (Move.junctionPass p hid m) := by
  unfold Move.junctionPass
  dsimp only
  generalize ringDistance (Next m.lookAheadRingGetPointer) m.lookAheadRingAddPointer = k
  have h1 := Move.junctionLoop_done p k
    { move := m, n0 := Previous m.lookAheadRingGetPointer, n1 := m.lookAheadRingGetPointer,
      n2 := Next m.lookAheadRingGetPointer }
  generalize Move.junctionLoop p k
    { move := m, n0 := Previous m.lookAheadRingGetPointer, n1 := m.lookAheadRingGetPointer,
      n2 := Next m.lookAheadRingGetPointer } = s1 at h1 ⊢
  by_cases hstop : m.addNoMoreMoves = true ∨ ¬ hid = true
  · rw [if_pos hstop]
    exact Move.setEntry_done m _ s1.n1 _ (Move.setEntry_done m s1.move s1.n1 _ h1 (fun h => h))
      (fun _ => LookAhead.Done_complete _)
  · rw [if_neg hstop]
    exact h1

/-- `Move::DoLookAhead` leaves every complete entry complete and every released entry
complete or released. -/
theorem Move.DoLookAhead_done (p : Platform K) (hid : Bool) (m : Move K) :
    Move.KeepsDone m (Move.DoLookAhead p hid m) := by
  unfold Move.DoLookAhead
  by_cases he : Move.LookAheadRingEmpty m = true
  · rw [if_pos he]
    exact Move.KeepsDone_refl m
  · rw [if_neg he]
    dsimp only
    have h1 : Move.KeepsDone m
          (if m.addNoMoreMoves = true ∨ ¬ hid = true ∨ m.lookAheadRingCount > LOOK_AHEAD then
            Move.reachabilityPasses p m else m) := by
      by_cases hc : m.addNoMoreMoves = true ∨ ¬ hid = true ∨ m.lookAheadRingCount > LOOK_AHEAD
      · rw [if_pos hc]
        exact Move.reachabilityPasses_done p m
      · rw [if_neg hc]
        exact Move.KeepsDone_refl m
    generalize (if m.addNoMoreMoves = true ∨ ¬ hid = true ∨ m.lookAheadRingCount > LOOK_AHEAD
      then Move.reachabilityPasses p m else m) = m1 at h1 ⊢
    by_cases hc : m1.addNoMoreMoves = true ∨ ¬ hid = true ∨ m1.lookAheadRingCount > 1
    · rw [if_pos hc]
      exact Move.KeepsDone_trans _ _ _ h1 (Move.junctionPass_done p hid m1)
    · rw [if_neg hc]
      exact h1

theorem Move.DDARingAdd_done (p : Platform K) (la : Nat) (m : Move K) :
    Move.KeepsDone m (Move.DDARingAdd p la m).1 := by
  unfold Move.DDARingAdd
  by_cases hl : m.ddaRingLocked = true
  · rw [if_pos hl]
    exact Move.KeepsDone_refl m
  · rw [if_neg hl]
    by_cases hf : Move.DDARingFull m = true
    · rw [if_pos hf]
      exact Move.KeepsDone_refl m
    · rw [if_neg hf]
      by_cases ha : (m.ddaRing m.ddaRingAddPointer).active = true
      · rw [if_pos ha]
        exact Move.KeepsDone_refl m
      · rw [if_neg ha]
        exact DDA.Init_done p m la true (m.ddaRing m.ddaRingAddPointer)

theorem Move.HitLowStop_done (p : Platform K) (h : Nat → Bool) (drive la : Nat)
    (hitDDA : DDA K) (m : Move K) :
    Move.KeepsDone m (Move.HitLowStop p h drive la hitDDA m) := by
  obtain ⟨a, z, he, -⟩ := Move.HitLowStop_eq p h drive la hitDDA m
  rw [he]
  exact Move.setEntry_done m m la _ (Move.KeepsDone_refl m) (fun h => h)

theorem DDA.StepDrive_done (p : Platform K) (o : Nat → EndStopHit) (h : Nat → Bool)
    (drive : Nat) (s : StepState K) :
    Move.KeepsDone s.move (DDA.StepDrive p o h drive s).move := by
  rcases DDA.StepDrive_move p o h drive s with ⟨e, -⟩ | ⟨-, -, -, -, e⟩ | ⟨-, -, -, -, e⟩
  · rw [e]
    exact Move.KeepsDone_refl _
  · rw [e]
    exact Move.HitLowStop_done p h drive _ _ s.move
  · rw [e]
    exact Move.setEntry_done s.move s.move _ _ (Move.KeepsDone_refl _) (fun h => h)

theorem DDA.stepLoop_done (p : Platform K) (o : Nat → EndStopHit) (h : Nat → Bool)
    (n : Nat) (s : StepState K) :
    Move.KeepsDone s.move
      ((List.range n).foldl (fun s drive => DDA.StepDrive p o h drive s) s).move := by
  induction n with
  | zero => exact Move.KeepsDone_refl _
  | succ n ih =>
    rw [List.range_succ, List.foldl_append]
    simp only [List.foldl_cons, List.foldl_nil]
    exact Move.KeepsDone_trans _ _ _ ih (DDA.StepDrive_done p o h n _)

/-- `DDA::Step` leaves every complete entry complete or released: at the end of the
movement it releases the entry of the DDA. -/
theorem DDA.Step_done (p : Platform K) (o : Nat → EndStopHit) (h : Nat → Bool)
    (m : Move K) (d : DDA K) :
    Move.KeepsDone m (DDA.Step p o h m d).move := by
  unfold DDA.Step
  dsimp only
  by_cases hd : d.active = true
  · by_cases hm : m.active = true
    · simp only [hd, hm, not_true_eq_false, if_false]
      have h1 := DDA.stepLoop_done p o h p.DRIVES
        { move := m, dda := d, drivesMoving := 0, calls := [] }
      generalize (List.range p.DRIVES).foldl (fun s drive => DDA.StepDrive p o h drive s)
        { move := m, dda := d, drivesMoving := 0, calls := [] } = s1 at h1 ⊢
      have h2 : Move.KeepsDone m (if s1.dda.active = true then DDA.StepVelocity s1 else s1).move := by
        by_cases ha : s1.dda.active = true
        · rw [if_pos ha]
          exact h1
        · rw [if_neg ha]
          exact h1
      generalize (if s1.dda.active = true then DDA.StepVelocity s1 else s1) = s2 at h2 ⊢
      by_cases hf : s2.dda.active = true
      · simp only [hf, not_true_eq_false, if_false]
        exact h2
      · simp only [hf, not_false_eq_true, if_true]
        exact Move.setEntry_done m _ s2.dda.myLookAheadEntry _ h2 (fun _ => Or.inr rfl)
    · simp only [hd, hm, not_true_eq_false, if_false, not_false_eq_true, if_true]
      exact Move.KeepsDone_refl m
  · simp only [hd, not_false_eq_true, if_true]
    exact Move.KeepsDone_refl m

theorem Move.Interrupt_done (p : Platform K) (o : Nat → EndStopHit) (h : Nat → Bool)
    (m : Move K) :
    Move.KeepsDone m (Move.Interrupt p o h m).1 := by
  unfold Move.Interrupt
  cases hdda : m.dda with
  | none =>
    dsimp only
    have h1 := (Move.DDARingGet_same m).2
    generalize Move.DDARingGet m = r at h1 ⊢
    have h2 : Move.KeepsDone m r.1 := fun j hj => by rw [h1]; exact hj
    cases hr : r.2 with
    | none => exact h2
    | some i => exact h2
  | some i =>
    dsimp only
    by_cases ha : (m.ddaRing i).active = true
    · rw [if_pos ha]
      exact DDA.Step_done p o h m (m.ddaRing i)
    · rw [if_neg ha]
      exact Move.KeepsDone_refl m

end DoneFacts

/-! ### The entries outside the queue, from `Move::Init` on -/

theorem ringDistance_ne_zero (g j : Nat) (hg : g < LOOK_AHEAD_RING_LENGTH)
    (hj : j < LOOK_AHEAD_RING_LENGTH) (h : j ≠ g) : ringDistance g j ≠ 0 := by
  unfold ringDistance LOOK_AHEAD_RING_LENGTH at *
  omega

theorem ringDistance_Previous_right (g a : Nat) (ha : a < LOOK_AHEAD_RING_LENGTH)
    (h : ringDistance g a ≠ 0) : ringDistance g (Previous a) + 1 = ringDistance g a := by
  unfold ringDistance Previous LOOK_AHEAD_RING_LENGTH at *
  omega

theorem ringDistance_Next_of_ne (g i : Nat) (hg : g < LOOK_AHEAD_RING_LENGTH)
    (hi : i < LOOK_AHEAD_RING_LENGTH) (h : i ≠ Previous g) :
    ringDistance g (Next i) = ringDistance g i + 1 := by
  unfold ringDistance Next Previous LOOK_AHEAD_RING_LENGTH at *
  omega

/-- Every slot of the ring is reached from any start by at most 30 `Next` steps after
the first one. -/
theorem iterate_Next_reaches (a j : Nat) (hj : j < LOOK_AHEAD_RING_LENGTH) :
    ∃ t, t < LOOK_AHEAD_RING_LENGTH + 1 ∧ Next^[t] a = j := by
  refine ⟨ringDistance (Next a) j + 1, ?_, ?_⟩
  · unfold ringDistance LOOK_AHEAD_RING_LENGTH
    omega
  · rw [Function.iterate_succ_apply]
    exact (ringDistance_exact _ (Next_lt a) _ hj).1

section OutsideFacts
variable {K : Type} [LinearOrderedField K] [FloorRing K]

omit [LinearOrderedField K] [FloorRing K] in
theorem Move.queued_eq_false (m : Move K) (j : Nat) :
    Move.queued m j = false ↔
      ¬ ringDistance m.lookAheadRingGetPointer j
        < ringDistance m.lookAheadRingGetPointer m.lookAheadRingAddPointer := by
  unfold Move.queued
  simp

omit [LinearOrderedField K] [FloorRing K] in
/-- A step that moves no cursor and keeps complete and released entries so keeps the
entries outside the queue complete or released. -/
theorem Move.DoneOutside_of_same (m m1 : Move K) (hs : Move.SameQueue m m1)
    (hk : Move.KeepsDone m m1) (hd : Move.DoneOutside m) : Move.DoneOutside m1 := by
  obtain ⟨a, b, -⟩ := hs
  intro j hj hq
  apply hk
  apply hd j hj
  rw [Move.queued_eq_false] at hq ⊢
  rw [a, b] at hq
  exact hq

/-- `Move::LookAheadRingGet` hands out a complete entry, so the entries outside the
queue stay complete or released. -/
theorem Move.LookAheadRingGet_doneOutside (m : Move K) (hi : Move.QueueInv m)
    (hd : Move.DoneOutside m) : Move.DoneOutside (Move.LookAheadRingGet m).1 := by
  have hcomp : (Move.LookAheadRingGet m).2 ≠ none →
      (m.lookAheadRing m.lookAheadRingGetPointer).processed &&& complete ≠ 0 := by
    unfold Move.LookAheadRingGet
    by_cases he : Move.LookAheadRingEmpty m = true
    · rw [if_pos he]
      intro h
      exact absurd rfl h
    · rw [if_neg he]
      by_cases hc : (m.lookAheadRing m.lookAheadRingGetPointer).processed &&& complete = 0
      · rw [if_pos hc]
        intro h
        exact absurd rfl h
      · intro _
        exact hc
  rcases Move.LookAheadRingGet_spec m with ⟨-, h2⟩ | ⟨hne, h1, h2⟩
  · rw [h2]
    exact hd
  · have hc := hcomp (by rw [h1]; exact Option.some_ne_none _)
    obtain ⟨hg, ha, hcount, -⟩ := hi
    have hd0 : ringDistance m.lookAheadRingGetPointer m.lookAheadRingAddPointer ≠ 0 := by
      intro h0
      rw [h0] at hcount
      exact hne hcount
    have hleft := ringDistance_Next_left m.lookAheadRingGetPointer m.lookAheadRingAddPointer
      hg hd0
    rw [h2]
    intro j hj hq
    rw [Move.queued_eq_false] at hq
    show LookAhead.Done (m.lookAheadRing j)
    by_cases hjg : j = m.lookAheadRingGetPointer
    · rw [hjg]
      exact Or.inl hc
    · apply hd j hj
      rw [Move.queued_eq_false]
      have hj0 := ringDistance_ne_zero _ _ hg hj hjg
      have hjl := ringDistance_Next_left m.lookAheadRingGetPointer j hg hj0
      have hq' : ¬ ringDistance (Next m.lookAheadRingGetPointer) j
          < ringDistance (Next m.lookAheadRingGetPointer) m.lookAheadRingAddPointer := hq
      omega

/-- `Move::LookAheadRingAdd` writes the entry at the add cursor only, which it then
queues. -/
theorem Move.LookAheadRingAdd_doneOutside (ep : Nat → Int) (f minS maxS acc : K)
    (ce hid : Bool) (m : Move K) (hi : Move.QueueInv m) (hd : Move.DoneOutside m) :
    Move.DoneOutside (Move.LookAheadRingAdd ep f minS maxS acc ce hid m).1 := by
  obtain ⟨-, hfalse, htrue⟩ := Move.LookAheadRingAdd_spec ep f minS maxS acc ce hid m
  cases hres : (Move.LookAheadRingAdd ep f minS maxS acc ce hid m).2 with
  | false =>
    rw [hfalse hres]
    exact hd
  | true =>
    rw [htrue hres]
    obtain ⟨-, ha, -, hle⟩ := hi
    have hright := ringDistance_Next_right m.lookAheadRingGetPointer m.lookAheadRingAddPointer
      ha hle
    intro j hj hq
    rw [Move.queued_eq_false] at hq
    have hq' : ¬ ringDistance m.lookAheadRingGetPointer j
        < ringDistance m.lookAheadRingGetPointer (Next m.lookAheadRingAddPointer) := hq
    have hja : j ≠ m.lookAheadRingAddPointer := by
      intro h
      rw [h] at hq'
      omega
    show LookAhead.Done (setAt m.lookAheadRing m.lookAheadRingAddPointer _ j)
    unfold setAt
    rw [if_neg hja]
    apply hd j hj
    rw [Move.queued_eq_false]
    omega

/-- The loop of `Move::Init` that empties the ring leaves released every entry it
passes, and every entry that was released before. -/
theorem Move.releaseLoop_released (k : Nat) (m : Move K) (j : Nat)
    (h : (m.lookAheadRing j).processed = released ∨
      ∃ t, t < k ∧ Next^[t] m.lookAheadRingAddPointer = j) :
    ((Move.releaseLoop k m).lookAheadRing j).processed = released := by
  induction k generalizing m with
  | zero =>
    rcases h with h | ⟨t, ht, -⟩
    · exact h
    · exact absurd ht (Nat.not_lt_zero t)
  | succ k ih =>
    rw [Move.releaseLoop]
    apply ih
    show ((setAt m.lookAheadRing m.lookAheadRingAddPointer
        (LookAhead.Release (m.lookAheadRing m.lookAheadRingAddPointer))) j).processed = released ∨
      ∃ t, t < k ∧ Next^[t] (Next m.lookAheadRingAddPointer) = j
    unfold setAt
    by_cases hja : j = m.lookAheadRingAddPointer
    · left
      rw [if_pos hja]
      rfl
    · rcases h with h | ⟨t, ht, he⟩
      · left
        rw [if_neg hja]
        exact h
      · cases t with
        | zero => exact absurd he.symm hja
        | succ t =>
          right
          refine ⟨t, by omega, ?_⟩
          rw [← Function.iterate_succ_apply]
          exact he

/-- `Move::Init` leaves every entry of the look-ahead ring released. -/
theorem Move.Init_released (p : Platform K) (hid : Bool) (time : K) (m : Move K) (j : Nat)
    (hj : j < LOOK_AHEAD_RING_LENGTH) :
    ((Move.Init p hid time m).1.lookAheadRing j).processed = released := by
  have hloop := Move.releaseLoop_released (LOOK_AHEAD_RING_LENGTH + 1)
    { m with ddaRingGetPointer := m.ddaRingAddPointer, ddaRingLocked := false } j
    (Or.inr (iterate_Next_reaches _ j hj))
  show ((setAt (Move.releaseLoop (LOOK_AHEAD_RING_LENGTH + 1)
      { m with ddaRingGetPointer := m.ddaRingAddPointer, ddaRingLocked := false }).lookAheadRing
      _ _) j).processed = released
  unfold setAt
  by_cases hl : j = Previous (Move.releaseLoop (LOOK_AHEAD_RING_LENGTH + 1)
      { m with ddaRingGetPointer := m.ddaRingAddPointer,
               ddaRingLocked := false }).lookAheadRingAddPointer
  · rw [if_pos hl]
    rfl
  · rw [if_neg hl]
    exact hloop

theorem Move.spinPlan_doneOutside (p : Platform K) (hid : Bool) (m : Move K)
    (hi : Move.QueueInv m) (hd : Move.DoneOutside m) :
    Move.DoneOutside (Move.spinPlan p hid m) := by
  have hs := (Move.DoLookAhead_same p hid m).1
  have h1 := Move.DoneOutside_of_same m _ hs (Move.DoLookAhead_done p hid m) hd
  have hi1 := Move.QueueInv_of_same m _ hs hi
  unfold Move.spinPlan
  dsimp only
  generalize Move.DoLookAhead p hid m = m1 at h1 hi1 ⊢
  by_cases hfull : Move.DDARingFull m1 = true
  · simp only [hfull, not_true_eq_false, if_false]
    exact h1
  · rw [if_pos hfull]
    have h2 := Move.LookAheadRingGet_doneOutside m1 hi1 h1
    generalize Move.LookAheadRingGet m1 = r at h2 ⊢
    cases hr : r.2 with
    | none => exact h2
    | some n =>
      dsimp only
      exact Move.DoneOutside_of_same r.1 _ (Move.DDARingAdd_same p n r.1).1
        (Move.DDARingAdd_done p n r.1) h2

theorem Move.spinAdd_doneOutside (p : Platform K) (ce hid : Bool) (m : Move K)
    (hi : Move.QueueInv m) (hd : Move.DoneOutside m) :
    Move.DoneOutside (Move.spinAdd p ce hid m) := by
  unfold Move.spinAdd
  dsimp only
  generalize Move.Normalise p (Move.Absolute m.normalisedDirectionVector p.DRIVES) p.DRIVES = r
  by_cases hr : r.2 ≤ 0
  · rw [if_pos hr]
    exact hd
  · rw [if_neg hr]
    refine Move.LookAheadRingAdd_doneOutside _ _ _ _ _ ce hid _ ?_ ?_
    · exact hi
    · exact hd

theorem Move.Spin_doneOutside (p : Platform K) (hid : Bool)
    (readMove : Option ((Nat → K) × Bool)) (m : Move K)
    (hi : Move.QueueInv m) (hd : Move.DoneOutside m) :
    Move.DoneOutside (Move.Spin p hid readMove m).1 := by
  unfold Move.Spin
  by_cases ha : m.active = true
  · simp only [ha, not_true_eq_false, if_false]
    have h1 := (Move.spinPlan_spec p hid m).2.2.2.2.2.1 hi
    have d1 := Move.spinPlan_doneOutside p hid m hi hd
    generalize Move.spinPlan p hid m = m1 at h1 d1 ⊢
    by_cases hc : m1.addNoMoreMoves = true ∨ Move.LookAheadRingFull m1 = true
    · rw [if_pos hc]
      exact d1
    · rw [if_neg hc]
      cases readMove with
      | none => exact d1
      | some mv =>
        dsimp only
        obtain ⟨⟨a, b, hab⟩, -⟩ := Move.spinRead_spec p mv.1 m1
        have h2 : Move.QueueInv (Move.spinRead p mv.1 m1).1 := by
          rw [hab]
          exact h1
        have d2 : Move.DoneOutside (Move.spinRead p mv.1 m1).1 := by
          rw [hab]
          exact d1
        by_cases hn : (Move.spinRead p mv.1 m1).2 = true
        · rw [if_pos hn]
          exact d2
        · rw [if_neg hn]
          exact Move.spinAdd_doneOutside p mv.2 hid _ h2 d2
  · simp only [ha, not_false_eq_true, if_true]
    exact hd

/-- In every state reachable from `Move::Init` the entries outside the queue are
complete or released. -/
theorem Move.Reachable_doneOutside (p : Platform K) (m : Move K) (h : Move.Reachable p m) :
    Move.DoneOutside m := by
  induction h with
  | init hid time m =>
    intro j hj _
    exact Or.inr (Move.Init_released p hid time m j hj)
  | add ep f minS maxS acc ce hid m hm ih =>
    exact Move.LookAheadRingAdd_doneOutside ep f minS maxS acc ce hid m
      (Move.Reachable_inv p m hm) ih
  | get m hm ih => exact Move.LookAheadRingGet_doneOutside m (Move.Reachable_inv p m hm) ih
  | doLookAhead hid m _ ih =>
    exact Move.DoneOutside_of_same _ _ (Move.DoLookAhead_same p hid m).1
      (Move.DoLookAhead_done p hid m) ih
  | spin hid readMove m hm ih =>
    exact Move.Spin_doneOutside p hid readMove m (Move.Reachable_inv p m hm) ih
  | interrupt o hom m _ ih =>
    exact Move.DoneOutside_of_same _ _ (Move.Interrupt_same p o hom m)
      (Move.Interrupt_done p o hom m) ih
  | allMovesAreFinished m _ ih => exact ih
  | resumeMoving m _ ih => exact ih

/-- C6 (amended). `Move::DoLookAhead` changes no field of a look-ahead entry that is
released on entry to the call, with one exception: the `v` of the released entry just
before the get cursor, which a pass overwrites (`n0->SetV(u)`) when `DDA::Init` on the
entry at the get cursor returns `change`.  For a released entry `i` of the ring:
in every state reached from `Move::Init`, if `i` lies outside the queue, then the
entry is left exactly as it was unless it is the one just before the get cursor,
every field other than `v` is left as it was in any case, and `v` as well when the
entry at the get cursor is complete or has no `vCosineSet`; and in any ring state with
the cursors inside the ring, if `i` is neither at the get cursor nor just before the
add cursor, every field other than `v` is left as it was, and `v` as well when the
entry after `i` is complete or has no `vCosineSet`. -/
theorem C6_released_entry_kept_except_v_before_get (p : Platform K) (hid : Bool) (m : Move K)
    (i : Nat) (hi : i < LOOK_AHEAD_RING_LENGTH)
    (hr : (m.lookAheadRing i).processed = released) :
    (Move.Reachable p m → Move.queued m i = false →
      (i ≠ Previous m.lookAheadRingGetPointer →
        (Move.DoLookAhead p hid m).lookAheadRing i = m.lookAheadRing i) ∧
      (Move.DoLookAhead p hid m).lookAheadRing i
        = { m.lookAheadRing i with v := ((Move.DoLookAhead p hid m).lookAheadRing i).v } ∧
      ((m.lookAheadRing m.lookAheadRingGetPointer).processed &&& complete ≠ 0 ∨
          (m.lookAheadRing m.lookAheadRingGetPointer).processed &&& vCosineSet = 0 →
        (Move.DoLookAhead p hid m).lookAheadRing i = m.lookAheadRing i)) ∧
    (m.lookAheadRingGetPointer < LOOK_AHEAD_RING_LENGTH →
      m.lookAheadRingAddPointer < LOOK_AHEAD_RING_LENGTH →
      i ≠ m.lookAheadRingGetPointer → i ≠ Previous m.lookAheadRingAddPointer →
      (Move.DoLookAhead p hid m).lookAheadRing i
        = { m.lookAheadRing i with v := ((Move.DoLookAhead p hid m).lookAheadRing i).v } ∧
      ((m.lookAheadRing (Next i)).processed &&& complete ≠ 0 ∨
          (m.lookAheadRing (Next i)).processed &&& vCosineSet = 0 →
        (Move.DoLookAhead p hid m).lookAheadRing i = m.lookAheadRing i)) := by
  constructor
  · intro hreach hq
    obtain ⟨hg, ha, hcount, -⟩ := Move.Reachable_inv p m hreach
    have hdo := Move.Reachable_doneOutside p m hreach
    by_cases he : Move.LookAheadRingEmpty m = true
    · have hsame : Move.DoLookAhead p hid m = m := by
        unfold Move.DoLookAhead
        rw [if_pos he]
      rw [hsame]
      exact ⟨fun _ => rfl, rfl, fun _ => rfl⟩
    · have hd0 : ringDistance m.lookAheadRingGetPointer m.lookAheadRingAddPointer ≠ 0 := by
        intro h0
        apply he
        unfold Move.LookAheadRingEmpty
        rw [hcount, h0]
        rfl
      rw [Move.queued_eq_false] at hq
      have hig : i ≠ m.lookAheadRingGetPointer := by
        intro h
        rw [h, ringDistance_self] at hq
        omega
      have hia : i ≠ Previous m.lookAheadRingAddPointer := by
        intro h
        have := ringDistance_Previous_right m.lookAheadRingGetPointer m.lookAheadRingAddPointer
          ha hd0
        rw [h] at hq
        omega
      have hfar : i ≠ Previous m.lookAheadRingGetPointer →
          (Move.DoLookAhead p hid m).lookAheadRing i = m.lookAheadRing i := by
        intro hip
        have hn := ringDistance_Next_of_ne m.lookAheadRingGetPointer i hg hi hip
        have hqn : Move.queued m (Next i) = false := by
          rw [Move.queued_eq_false]
          omega
        exact Move.DoLookAhead_released p hid m i hg ha hr hig hia
          (LookAhead.Done_not_planned _ (hdo (Next i) (Next_lt i) hqn))
      refine ⟨hfar, Move.DoLookAhead_frame p hid m i hg ha hr hig hia, fun hplan => ?_⟩
      by_cases hip : i = Previous m.lookAheadRingGetPointer
      · apply Move.DoLookAhead_released p hid m i hg ha hr hig hia
        rw [hip, Next_Previous _ hg]
        exact hplan
      · exact hfar hip
  · intro hg ha hig hia
    exact ⟨Move.DoLookAhead_frame p hid m i hg ha hr hig hia,
      fun hnext => Move.DoLookAhead_released p hid m i hg ha hr hig hia hnext⟩

end OutsideFacts

/-- The witness of C6 (amended): in the state reached by `Move::Init`, three
`Move::LookAheadRingAdd` calls and a `Move::DoLookAhead`, slot 10 is released and
outside the queue, and the next `Move::DoLookAhead` leaves it exactly as it was; slot 2,
the released origin just before the get cursor, keeps every field other than `v`. -/
theorem C6_witness :
    (Move.DoLookAhead examplePlatform false
        (Move.DoLookAhead examplePlatform true exampleSnapMove)).lookAheadRing 10
      = (Move.DoLookAhead examplePlatform true exampleSnapMove).lookAheadRing 10 ∧
    (Move.DoLookAhead examplePlatform false
        (Move.DoLookAhead examplePlatform true exampleSnapMove)).lookAheadRing 2
      = { (Move.DoLookAhead examplePlatform true exampleSnapMove).lookAheadRing 2 with
          v := ((Move.DoLookAhead examplePlatform false
            (Move.DoLookAhead examplePlatform true exampleSnapMove)).lookAheadRing 2).v } :=
  have hreach : Move.Reachable examplePlatform
      (Move.DoLookAhead examplePlatform true exampleSnapMove) :=
    Move.Reachable.doLookAhead _ _
      (Move.Reachable.add _ _ _ _ _ _ _ _
        (Move.Reachable.add _ _ _ _ _ _ _ _
          (Move.Reachable.add _ _ _ _ _ _ _ _ (Move.Reachable.init _ _ _))))
  ⟨((C6_released_entry_kept_except_v_before_get examplePlatform false
      (Move.DoLookAhead examplePlatform true exampleSnapMove) 10 (by decide) (by decide!)).1
      hreach (by decide!)).1 (by decide!),
   ((C6_released_entry_kept_except_v_before_get examplePlatform false
      (Move.DoLookAhead examplePlatform true exampleSnapMove) 2 (by decide) (by decide!)).1
      hreach (by decide!)).2.1⟩

end RepRapFirmware
